import Mathlib

/-!
# yawol LoadBalancer reconciler

A shallow embedding of `controllers/yawol-controller/loadbalancer/loadbalancer_controller.go`.

The reconciler is effectful: it talks to the OpenStack provider and to the cluster store.
Every external call is a field of `Env`, a function from the external state to an answer
and a new external state.  A pass threads a `World` (external state, the in-memory
`LoadBalancer` object behind the `lb` pointer, and the log of calls made with their answers)
through the body of the Go function.  Logging (`r.Log`) and metrics are left out.
-/

set_option linter.dupNamespace false

namespace Yawol

/-! ## Errors -/

/-- Error values the controller distinguishes.  `ErrDefault404` and `ErrResourceNotFound`
are the two gophercloud shapes matched by the `switch err.(type)` statements; the
`helper.Err...` values are the sentinel errors of the helper package. -/
inductive Err where
  | ErrDefault404
  | ErrResourceNotFound
  | ErrFIPNotFound
  | ErrFIPIDEmpty
  | ErrPortIDEmpty
  | ErrSecGroupIDEmpty
  | ErrSecGroupNil
  | ErrLBPortNotSet
  | other (msg : String)
  deriving DecidableEq

/-- The `case gophercloud.ErrDefault404, gophercloud.ErrResourceNotFound:` arm of the
type switches. -/
def Err.isGophercloudNotFound : Err → Bool
  | .ErrDefault404 => true
  | .ErrResourceNotFound => true
  | _ => false

/-- A Go `(value, error)` answer: `fail e` is a non-nil error. -/
inductive Reply (α : Type) where
  | ok (a : α)
  | fail (e : Err)
  deriving DecidableEq

/-! ## Data model -/

/-- The `groups.SecGroup` fields the controller and the fake client use. -/
structure SecGroup where
  ID : String
  Name : String
  deriving DecidableEq

/-- The `floatingips.FloatingIP` fields the controller and the fake client use. -/
structure FloatingIP where
  ID : String
  Description : String
  FloatingNetworkID : String
  FloatingIP : String
  PortID : String
  Status : String
  deriving DecidableEq

/-- The `ports.Port` fields the controller and the fake client use; `FixedIPs` holds the
`IPAddress` of each entry. -/
structure Port where
  ID : String
  Name : String
  NetworkID : String
  SecurityGroups : List String
  FixedIPs : List String
  deriving DecidableEq

/-- Desired security group rule, consumed as an opaque value. -/
structure SecGroupRule where
  Description : String
  SecGroupID : String
  Direction : String
  EtherType : String
  Protocol : String
  PortRangeMin : Int
  PortRangeMax : Int
  RemoteIPPrefix : String
  deriving DecidableEq

/-- `LoadBalancerOptions` of `api/v1beta1/loadbalancer_types.go`. -/
structure LoadBalancerOptions where
  InternalLB : Bool
  LoadBalancerSourceRanges : List String
  TCPProxyProtocol : Bool
  TCPProxyProtocolPortsFilter : List Int
  deriving DecidableEq

/-- `LoadBalancerInfrastructure` (flavor and image references as plain optional ids). -/
structure LoadBalancerInfrastructure where
  FloatingNetID : Option String
  NetworkID : String
  Flavor : Option String
  Image : Option String
  AvailabilityZone : String
  AuthSecretRef : String
  deriving DecidableEq

/-- `LoadBalancerSpec`; endpoints and ports are kept as opaque strings. -/
structure LoadBalancerSpec where
  Replicas : Int
  ExistingFloatingIP : Option String
  Endpoints : List String
  Ports : List String
  Infrastructure : LoadBalancerInfrastructure
  Options : LoadBalancerOptions
  deriving DecidableEq

/-- `LoadBalancerStatus`: every field is a pointer with `omitempty`. -/
structure LoadBalancerStatus where
  ReadyReplicas : Option Int
  Replicas : Option Int
  ExternalIP : Option String
  FloatingID : Option String
  FloatingName : Option String
  PortID : Option String
  PortName : Option String
  SecurityGroupID : Option String
  SecurityGroupName : Option String
  LastOpenstackReconcile : Option Nat
  OpenstackReconcileHash : Option String
  deriving DecidableEq

/-- The status with no field set, `yawolv1beta1.LoadBalancerStatus{}`. -/
def LoadBalancerStatus.empty : LoadBalancerStatus :=
  ⟨none, none, none, none, none, none, none, none, none, none, none⟩

/-- `LoadBalancer` with the `ObjectMeta` fields the controller reads. -/
structure LoadBalancer where
  Namespace : String
  Name : String
  DeletionTimestamp : Option Nat
  Finalizers : List String
  Annotations : List (String × String)
  Spec : LoadBalancerSpec
  Status : LoadBalancerStatus
  deriving DecidableEq

/-- The zero value `var lb yawolv1beta1.LoadBalancer`. -/
def LoadBalancer.zero : LoadBalancer :=
  ⟨"", "", none, [], [], ⟨0, none, [], [], ⟨none, "", none, none, "", ""⟩, ⟨false, [], false, []⟩⟩,
    LoadBalancerStatus.empty⟩

/-- Modelled from the spec: the `LoadBalancerSet` type is declared outside the available
sources; the fields are those of the LoadBalancerSet contract (spec {replicas}, status
{replicas, readyReplicas}, labels {revision, templateHash}) plus name and deletion
timestamp. -/
structure LoadBalancerSet where
  Name : String
  DeletionTimestamp : Option Nat
  Hash : String
  Revision : Int
  SpecReplicas : Int
  StatusReplicas : Option Int
  StatusReadyReplicas : Option Int
  deriving DecidableEq

/-- `ctrl.Result`; `RequeueAfter` in milliseconds. -/
structure Result where
  Requeue : Bool
  RequeueAfter : Nat
  deriving DecidableEq

/-- `ctrl.Result{}`. -/
def Result.empty : Result := ⟨false, 0⟩

/-- `DefaultRequeueTime = 10 * time.Millisecond`. -/
def DefaultRequeueTime : Nat := 10

/-- `ServiceFinalizer`. -/
def ServiceFinalizer : String := "yawol.stackit.cloud/controller2"

/-- `types.NamespacedName` of the reconcile request. -/
structure NamespacedName where
  Namespace : String
  Name : String
  deriving DecidableEq

/-- `NamespacedName.String()`: namespace and name joined by a slash. -/
def NamespacedName.asString (n : NamespacedName) : String :=
  n.Namespace ++ "/" ++ n.Name

/-- What a JSON merge patch built from `patch` does to a status: every field that is set in
the patch replaces the stored one, every unset field (`omitempty`) is left alone. -/
def LoadBalancerStatus.merge (s patch : LoadBalancerStatus) : LoadBalancerStatus where
  ReadyReplicas := if patch.ReadyReplicas.isSome then patch.ReadyReplicas else s.ReadyReplicas
  Replicas := if patch.Replicas.isSome then patch.Replicas else s.Replicas
  ExternalIP := if patch.ExternalIP.isSome then patch.ExternalIP else s.ExternalIP
  FloatingID := if patch.FloatingID.isSome then patch.FloatingID else s.FloatingID
  FloatingName := if patch.FloatingName.isSome then patch.FloatingName else s.FloatingName
  PortID := if patch.PortID.isSome then patch.PortID else s.PortID
  PortName := if patch.PortName.isSome then patch.PortName else s.PortName
  SecurityGroupID :=
    if patch.SecurityGroupID.isSome then patch.SecurityGroupID else s.SecurityGroupID
  SecurityGroupName :=
    if patch.SecurityGroupName.isSome then patch.SecurityGroupName else s.SecurityGroupName
  LastOpenstackReconcile :=
    if patch.LastOpenstackReconcile.isSome then patch.LastOpenstackReconcile
    else s.LastOpenstackReconcile
  OpenstackReconcileHash :=
    if patch.OpenstackReconcileHash.isSome then patch.OpenstackReconcileHash
    else s.OpenstackReconcileHash

/-- What the merge patch `{"status":{key: null}}` does to a status: the field whose JSON
name is `key` is removed; an unknown key changes nothing. -/
def LoadBalancerStatus.remove (s : LoadBalancerStatus) (key : String) : LoadBalancerStatus :=
  if key = "readyReplicas" then { s with ReadyReplicas := none }
  else if key = "replicas" then { s with Replicas := none }
  else if key = "externalIP" then { s with ExternalIP := none }
  else if key = "floatingID" then { s with FloatingID := none }
  else if key = "floatingName" then { s with FloatingName := none }
  else if key = "portID" then { s with PortID := none }
  else if key = "portName" then { s with PortName := none }
  else if key = "security_group_id" then { s with SecurityGroupID := none }
  else if key = "security_group_name" then { s with SecurityGroupName := none }
  else if key = "lastOpenstackReconcile" then { s with LastOpenstackReconcile := none }
  else if key = "openstackReconcileHash" then { s with OpenstackReconcileHash := none }
  else s

/-! ## The external world -/

/-- The collaborators of the controller, as functions on an external state `σ`: the
`osClient` accessors, the status store, the provider clients, and the helper functions of
`internal/helper`, `internal/helper/kubernetes` and `internal/helper/openstack`, none of
which is among the available sources.  An answer `some e` / `Reply.fail e` is a non-nil Go
error.  Lookups that the controller checks against `nil` answer an `Option`; create calls
and `GetFIPByIP` answer a record, since the controller dereferences their result unchecked.
`Get` is `r.Client.Get` for the LoadBalancer of the request, `Reply.ok none` standing for an
error that `errors2.IsNotFound` accepts; `LoadBalancerOpenstackReconcileIsNeeded` and `Now`
read the clock, which is part of the external state. -/
structure Env (σ : Type) where
  GroupClient : σ → Option Err × σ
  RuleClient : σ → Option Err × σ
  FipClient : σ → Option Err × σ
  PortClient : σ → Option Err × σ
  PatchLBStatus : LoadBalancerStatus → σ → Option Err × σ
  RemoveFromLBStatus : String → σ → Option Err × σ
  GetSecGroupByName : String → σ → Reply (Option SecGroup) × σ
  CreateSecGroup : String → σ → Reply SecGroup × σ
  GetSecGroupByID : String → σ → Reply (Option SecGroup) × σ
  GetDesiredSecGroupRulesForLoadBalancer : LoadBalancer → String → List SecGroupRule
  DeleteUnusedSecGroupRulesFromSecGroup : SecGroup → List SecGroupRule → σ → Option Err × σ
  CreateNonExistingSecGroupRules :
    String → SecGroup → List SecGroupRule → σ → Option Err × σ
  DeleteSecGroup : String → σ → Option Err × σ
  GroupList : String → σ → Reply (List SecGroup) × σ
  GetFIPByIP : String → σ → Reply FloatingIP × σ
  GetFIPByName : String → σ → (Option FloatingIP × Option Err) × σ
  CreateFIP : LoadBalancer → σ → Reply FloatingIP × σ
  GetFIPByID : String → σ → Reply (Option FloatingIP) × σ
  FipUpdateDescription : String → String → σ → Option Err × σ
  BindFIPToPort : String → Option String → σ → Option Err × σ
  DeleteFIP : String → σ → Option Err × σ
  FipList : String → σ → Reply (List FloatingIP) × σ
  GetPortByName : String → σ → Reply (Option Port) × σ
  CreatePort : String → String → σ → Reply Port × σ
  GetPortByID : String → σ → Reply (Option Port) × σ
  PortUpdateSecurityGroups : String → List String → σ → Option Err × σ
  BindSecGroupToPortIfNeeded : Option String → Option Port → σ → Reply Bool × σ
  DeletePort : String → σ → Option Err × σ
  PortList : String → σ → Reply (List Port) × σ
  GetAllPorts : σ → Reply (List Port) × σ
  RemoveSecGroupFromPortIfNeeded : Port → String → σ → Option Err × σ
  ReadCurrentRevisionFromLB : LoadBalancer → Reply Int
  PatchLoadBalancerRevision : Int → σ → Option Err × σ
  GetHashForLoadBalancerMachineSpecFromLoadBalancer : LoadBalancer → Reply String
  GetLoadBalancerSetForHash : String → σ → Reply (Option LoadBalancerSet) × σ
  GetNextRevisionFromLB : σ → Reply Int × σ
  CreateLoadBalancerSet : String → String → Int → σ → Option Err × σ
  ReadRevisionFromLBS : LoadBalancerSet → Reply Int
  PatchLoadBalancerSetReplicas : LoadBalancerSet → Int → σ → Option Err × σ
  LoadBalancerSetIsReady : LoadBalancerSet → σ → Reply Bool × σ
  AreAllLoadBalancerSetsForLBButDownscaled : String → σ → Reply Bool × σ
  ScaleDownAllLoadBalancerSetsForLBBut : String → σ → (Result × Option Err) × σ
  GetLoadBalancerSetsForLoadBalancer : σ → Reply (List LoadBalancerSet) × σ
  DeleteLoadBalancerSet : LoadBalancerSet → σ → Option Err × σ
  RemoveFinalizerIfNeeded : String → σ → Option Err × σ
  Get : NamespacedName → σ → Reply (Option LoadBalancer) × σ
  GetOpenStackClientForAuthRef : String → σ → Option Err × σ
  AddFinalizerIfNeeded : String → σ → Option Err × σ
  LoadBalancerOpenstackReconcileIsNeeded : LoadBalancer → σ → Bool
  GetOpenStackReconcileHash : LoadBalancer → Reply String
  Now : σ → Nat

/-- One external call of a pass, with its arguments and the answer it got. -/
inductive Ev where
  | GroupClient (r : Option Err)
  | RuleClient (r : Option Err)
  | FipClient (r : Option Err)
  | PortClient (r : Option Err)
  | PatchLBStatus (patch : LoadBalancerStatus) (r : Option Err)
  | RemoveFromLBStatus (key : String) (r : Option Err)
  | SendErrorAsEvent (e : Err)
  | GetSecGroupByName (name : String) (r : Reply (Option SecGroup))
  | CreateSecGroup (name : String) (r : Reply SecGroup)
  | GetSecGroupByID (id : String) (r : Reply (Option SecGroup))
  | DeleteUnusedSecGroupRulesFromSecGroup (g : SecGroup) (desired : List SecGroupRule)
      (r : Option Err)
  | CreateNonExistingSecGroupRules (name : String) (g : SecGroup)
      (desired : List SecGroupRule) (r : Option Err)
  | DeleteSecGroup (id : String) (r : Option Err)
  | GroupList (name : String) (r : Reply (List SecGroup))
  | GetFIPByIP (ip : String) (r : Reply FloatingIP)
  | GetFIPByName (name : String) (r : Option FloatingIP × Option Err)
  | CreateFIP (r : Reply FloatingIP)
  | GetFIPByID (id : String) (r : Reply (Option FloatingIP))
  | FipUpdateDescription (id : String) (description : String) (r : Option Err)
  | BindFIPToPort (fipID : String) (portID : Option String) (r : Option Err)
  | DeleteFIP (id : String) (r : Option Err)
  | FipList (description : String) (r : Reply (List FloatingIP))
  | GetPortByName (name : String) (r : Reply (Option Port))
  | CreatePort (name : String) (networkID : String) (r : Reply Port)
  | GetPortByID (id : String) (r : Reply (Option Port))
  | PortUpdateSecurityGroups (id : String) (groups : List String) (r : Option Err)
  | BindSecGroupToPortIfNeeded (secGroupID : Option String) (port : Option Port)
      (r : Reply Bool)
  | DeletePort (id : String) (r : Option Err)
  | PortList (name : String) (r : Reply (List Port))
  | GetAllPorts (r : Reply (List Port))
  | RemoveSecGroupFromPortIfNeeded (port : Port) (secGroupID : String) (r : Option Err)
  | PatchLoadBalancerRevision (revision : Int) (r : Option Err)
  | GetLoadBalancerSetForHash (hash : String) (r : Reply (Option LoadBalancerSet))
  | GetNextRevisionFromLB (r : Reply Int)
  | CreateLoadBalancerSet (portID : String) (hash : String) (revision : Int)
      (r : Option Err)
  | PatchLoadBalancerSetReplicas (lbs : LoadBalancerSet) (replicas : Int) (r : Option Err)
  | LoadBalancerSetIsReady (lbs : LoadBalancerSet) (r : Reply Bool)
  | AreAllLoadBalancerSetsForLBButDownscaled (name : String) (r : Reply Bool)
  | ScaleDownAllLoadBalancerSetsForLBBut (name : String) (r : Result × Option Err)
  | GetLoadBalancerSetsForLoadBalancer (r : Reply (List LoadBalancerSet))
  | DeleteLoadBalancerSet (lbs : LoadBalancerSet) (r : Option Err)
  | RemoveFinalizerIfNeeded (finalizer : String) (r : Option Err)
  | Get (req : NamespacedName) (r : Reply (Option LoadBalancer))
  | GetOpenStackClientForAuthRef (authSecretRef : String) (r : Option Err)
  | AddFinalizerIfNeeded (finalizer : String) (r : Option Err)
  deriving DecidableEq

/-- The state a pass runs in: the external state, the object behind the `lb` pointer, and
the calls made so far, oldest first. -/
structure World (σ : Type) where
  ext : σ
  lb : LoadBalancer
  trace : List Ev

/-- The world at the start of a pass. -/
def World.start {σ : Type} (ext : σ) (lb : LoadBalancer) : World σ := ⟨ext, lb, []⟩

/-- A piece of a function body, in continuation-passing form.  It is given what happens
when the function executes a `return` with a value of type `ρ`, what happens when the
goroutine panics on a nil dereference, and what happens when control falls through to the
next statement with a value of type `α`; `ω` is the type of what the whole run yields. -/
def Pass (σ ω ρ α : Type) : Type :=
  (ρ → World σ → ω) → (World σ → ω) → (α → World σ → ω) → World σ → ω

namespace Pass

variable {σ ω ρ α β : Type}

/-- Sequencing: what follows runs only if control fell through. -/
def andThen (m : Pass σ ω ρ α) (f : α → Pass σ ω ρ β) : Pass σ ω ρ β :=
  fun kret kpanic k w => m kret kpanic (fun a w1 => f a kret kpanic k w1) w

instance : Monad (Pass σ ω ρ) where
  pure a := fun _ _ k w => k a w
  bind := andThen

/-- The Go `return r`. -/
def exit (r : ρ) : Pass σ ω ρ α := fun kret _ _ w => kret r w

/-- A nil pointer dereference. -/
def panic : Pass σ ω ρ α := fun _ kpanic _ w => kpanic w

/-- Dereference of a pointer: panics on nil. -/
def deref (p : Option α) : Pass σ ω ρ α :=
  match p with
  | some a => pure a
  | none => panic

/-- The object behind `lb`, as it is now. -/
def getLB : Pass σ ω ρ LoadBalancer := fun _ _ k w => k w.lb w

/-- An in-place update of the object behind `lb`. -/
def modifyLB (f : LoadBalancer → LoadBalancer) : Pass σ ω ρ Unit :=
  fun _ _ k w => k () ⟨w.ext, f w.lb, w.trace⟩

/-- An external call: the answer comes from the environment, the call is logged. -/
def call (f : σ → α × σ) (ev : α → Ev) : Pass σ ω ρ α := fun _ _ k w =>
  k (f w.ext).1 ⟨(f w.ext).2, w.lb, w.trace ++ [ev (f w.ext).1]⟩

/-- The statement `if err != nil { return f err }`. -/
def orExit (err : Option Err) (f : Err → ρ) : Pass σ ω ρ Unit :=
  match err with
  | none => pure ()
  | some e => exit (f e)

/-- The value of an answer `v, err := ...`, with `onFail err` run when `err != nil`. -/
def okOr (r : Reply α) (onFail : Err → Pass σ ω ρ α) : Pass σ ω ρ α :=
  match r with
  | .ok a => pure a
  | .fail e => onFail e

/-- The statement `if p != nil { onSome } else { onNone }` on a pointer `p`. -/
def ifNotNil (p : Option α) (onSome : α → Pass σ ω ρ β) (onNone : Pass σ ω ρ β) :
    Pass σ ω ρ β :=
  match p with
  | some a => onSome a
  | none => onNone

/-- A look at the external state that is no call of its own (the clock). -/
def read (f : σ → α) : Pass σ ω ρ α := fun _ _ k w => k (f w.ext) w

/-- A call of another function of the controller from inside a body: whatever the callee
returns is the value of the call, a panic in the callee is a panic of the caller. -/
def sub {ρ1 : Type} (m : Pass σ ω ρ1 ρ1) : Pass σ ω ρ ρ1 :=
  fun _ kpanic k w => m k kpanic k w

end Pass

/-- Run a whole function in a world: the value it returns (`none` if it panicked) and the
world it leaves. -/
def Pass.run {σ ρ : Type} (m : Pass σ (Option ρ × World σ) ρ ρ) (w : World σ) :
    Option ρ × World σ :=
  m (fun r w1 => (some r, w1)) (fun w1 => (none, w1)) (fun r w1 => (some r, w1)) w

/-- A call of a whole function of the controller as one step: the callee runs to its end
in the current world; what it returns is the value of the call, a panic in the callee is
a panic of the caller. -/
def Pass.invoke {σ ω ρ ρ1 : Type} (m : Pass σ (Option ρ1 × World σ) ρ1 ρ1) : Pass σ ω ρ ρ1 :=
  fun _ kpanic k w =>
    match m.run w with
    | (some r, w1) => k r w1
    | (none, w1) => kpanic w1

/-- The Go return values `(bool, error)` of the sub-reconcilers: requeue flag and error. -/
abbrev Ret : Type := Bool × Option Err

/-- The Go return values `(ctrl.Result, error)`. -/
abbrev CtrlRet : Type := Result × Option Err

section Controller

variable {σ ω ρ : Type}

/-- Modelled from the spec: `kubernetes.SendErrorAsEvent` is outside the available sources;
errors are "recorded as events, returned as errors", so it logs the event and hands the
error back. -/
def SendErrorAsEvent (e : Err) : Pass σ ω ρ (Option Err) := fun _ _ k w =>
  k (some e) ⟨w.ext, w.lb, w.trace ++ [Ev.SendErrorAsEvent e]⟩

/-- Modelled from the spec: `helper.PatchLBStatus` is outside the available sources; the
status store is a merge-patch store, and on success the object behind `lb` carries the
merged status. -/
def PatchLBStatus (env : Env σ) (patch : LoadBalancerStatus) : Pass σ ω ρ (Option Err) := do
  let err ← Pass.call (env.PatchLBStatus patch) (Ev.PatchLBStatus patch)
  Pass.ifNotNil err (fun e => pure (some e)) (do
    Pass.modifyLB fun lb => { lb with Status := lb.Status.merge patch }
    pure none)

/-- Modelled from the spec: `helper.RemoveFromLBStatus` is outside the available sources;
the status store "supports field removal", and on success the object behind `lb` no longer
carries the field. -/
def RemoveFromLBStatus (env : Env σ) (key : String) : Pass σ ω ρ (Option Err) := do
  let err ← Pass.call (env.RemoveFromLBStatus key) (Ev.RemoveFromLBStatus key)
  Pass.ifNotNil err (fun e => pure (some e)) (do
    Pass.modifyLB fun lb => { lb with Status := lb.Status.remove key }
    pure none)

/-- The statement `return requeue, kubernetes.SendErrorAsEvent(r.RecorderLB, err, lb)`. -/
def exitSendErrorAsEvent {α : Type} (requeue : Bool) (e : Err) : Pass σ ω Ret α := do
  let err ← SendErrorAsEvent e
  Pass.exit (requeue, err)

/-- `Reconciler.assignOrCreateFIP`; it returns an `error`. -/
def assignOrCreateFIP (env : Env σ) : Pass σ ω (Option Err) (Option Err) := do
  let lb ← Pass.getLB
  -- use existing floating ip
  Pass.ifNotNil lb.Spec.ExistingFloatingIP
    (fun ip => do
      let fip : FloatingIP ←
        Pass.okOr (← Pass.call (env.GetFIPByIP ip) (Ev.GetFIPByIP ip))
          fun e => do Pass.exit (← SendErrorAsEvent e)
      (if fip.ID ≠ "" then do
        Pass.orExit
          (← PatchLBStatus env { LoadBalancerStatus.empty with FloatingID := some fip.ID })
          fun e => some e
      else pure ())
      Pass.exit none)
    (pure ())
  -- try to find FIP by name
  let lb ← Pass.getLB
  let name ← Pass.deref lb.Status.FloatingName
  let found ← Pass.call (env.GetFIPByName name) (Ev.GetFIPByName name)
  Pass.ifNotNil found.1
    (fun fip => do
      Pass.orExit
        (← PatchLBStatus env { LoadBalancerStatus.empty with FloatingID := some fip.ID })
        fun e => some e
      Pass.exit none)
    (pure ())
  -- create fip
  let lb ← Pass.getLB
  let fip : FloatingIP ←
    Pass.okOr (← Pass.call (env.CreateFIP lb) Ev.CreateFIP)
      fun e => do Pass.exit (← SendErrorAsEvent e)
  -- double check so status won't be corrupted
  (if fip.ID = "" then Pass.exit (some Err.ErrFIPIDEmpty) else pure ())
  Pass.orExit
    (← PatchLBStatus env { LoadBalancerStatus.empty with FloatingID := some fip.ID })
    fun e => some e
  return none

/-- The orphan sweep loop of `deleteFips`: every listed floating IP with a non-empty id and
the description `fipName` is deleted; an error stops the function. -/
def deleteFipsLoop (env : Env σ) (fipName : String) : List FloatingIP → Pass σ ω Ret Unit
  | [] => pure ()
  | fip :: rest => do
    -- double check
    (if fip.ID = "" ∨ fip.Description ≠ fipName then pure ()
    else do
      Pass.ifNotNil (← Pass.call (env.DeleteFIP fip.ID) (Ev.DeleteFIP fip.ID))
        (fun e => exitSendErrorAsEvent false e) (pure ()))
    deleteFipsLoop env fipName rest

/-- `Reconciler.deleteFips`. -/
def deleteFips (env : Env σ) : Pass σ ω Ret Ret := do
  -- fipClient, err = osClient.FipClient(ctx)
  Pass.orExit (← Pass.call env.FipClient Ev.FipClient) fun e => (false, some e)
  let lb ← Pass.getLB
  -- Remove only from status if lb.Spec.ExistingFloatingIP is set
  (if lb.Spec.ExistingFloatingIP ≠ none then do
    (if lb.Status.FloatingID = none ∧ lb.Status.FloatingName = none then
      Pass.exit (false, none)
    else pure ())
    Pass.orExit (← RemoveFromLBStatus env "floatingID") fun e => (false, some e)
    Pass.orExit (← RemoveFromLBStatus env "floatingName") fun e => (false, some e)
    -- next run will return false because status is set to nil
    Pass.exit (true, none)
  else pure ())
  let lb ← Pass.getLB
  let requeue : Bool ←
    Pass.ifNotNil lb.Status.FloatingID
      (fun id => do
        let fip : Option FloatingIP ←
          Pass.okOr (← Pass.call (env.GetFIPByID id) (Ev.GetFIPByID id))
            fun e =>
              -- if error is our custom not found error
              if e = Err.ErrFIPNotFound then do
                Pass.exit (true, ← RemoveFromLBStatus env "floatingID")
              -- if error is openstack error
              else if e.isGophercloudNotFound then do
                Pass.exit (true, ← RemoveFromLBStatus env "floatingID")
              else exitSendErrorAsEvent false e
        Pass.ifNotNil fip
          (fun fip => do
            Pass.ifNotNil (← Pass.call (env.DeleteFIP fip.ID) (Ev.DeleteFIP fip.ID))
              (fun e => exitSendErrorAsEvent false e) (pure ()))
          (pure ())
        -- requeue so next run will delete the status
        pure true)
      (pure false)
  -- clean orphan fips
  let lb ← Pass.getLB
  let requeue : Bool ←
    Pass.ifNotNil lb.Status.FloatingName
      (fun fipName => do
        let fipList : List FloatingIP ←
          Pass.okOr (← Pass.call (env.FipList fipName) (Ev.FipList fipName))
            fun e => Pass.exit (false, some e)
        (if fipList.length = 0 then do
          -- everything is cleaned, no requeue
          Pass.exit (false, ← RemoveFromLBStatus env "floatingName")
        else pure ())
        deleteFipsLoop env fipName fipList
        -- requeue so next run will delete the status
        pure true)
      (pure requeue)
  return (requeue, none)

/-- `Reconciler.reconcileFIP`, second half (from `// Get FIP` on): the fetch by id, the
external IP and the rename of a user managed floating IP.  `requeue` is the value of the
local variable at that point. -/
def reconcileFIPSync (env : Env σ) (requeue : Bool) : Pass σ ω Ret Ret := do
  -- Get FIP
  let lb ← Pass.getLB
  let id ← Pass.deref lb.Status.FloatingID
  let fip : Option FloatingIP ←
    Pass.okOr (← Pass.call (env.GetFIPByID id) (Ev.GetFIPByID id))
      fun e =>
        if e.isGophercloudNotFound then do
          -- fip not found by ID, remove it from status and trigger reconcile
          Pass.orExit (← RemoveFromLBStatus env "floatingID") fun e1 => (false, some e1)
          Pass.exit (true, some e)
        else exitSendErrorAsEvent false e
  let fip ← Pass.deref fip
  -- patch floatingIP in status
  let lb ← Pass.getLB
  let requeue : Bool ←
    (if lb.Status.ExternalIP = none ∨ lb.Status.ExternalIP ≠ some fip.FloatingIP then do
      Pass.orExit
        (← PatchLBStatus env { LoadBalancerStatus.empty with ExternalIP := some fip.FloatingIP })
        fun e => (false, some e)
      pure true
    else pure requeue)
  -- if FIP is managed by user but has FloatingName as its name
  -- we need to add "USER MANAGED" to its name
  let lb ← Pass.getLB
  (if lb.Spec.ExistingFloatingIP ≠ none ∧ lb.Status.FloatingName = some fip.Description then do
    let name := fip.Description ++ " (user managed)"
    Pass.orExit
      (← Pass.call (env.FipUpdateDescription fip.ID name) (Ev.FipUpdateDescription fip.ID name))
      fun e => (false, some e)
  else pure ())
  return (requeue, none)

/-- `Reconciler.reconcileFIP`: the first half (the internal case, the client, the name and
the id), followed by `reconcileFIPSync`. -/
def reconcileFIP (env : Env σ) (req : NamespacedName) : Pass σ ω Ret Ret := do
  let lb ← Pass.getLB
  -- delete fip if loadbalancer is internal
  (if lb.Spec.Options.InternalLB then do
    Pass.exit (← Pass.sub (deleteFips env))
  else pure ())
  -- fipClient, err = osClient.FipClient(ctx)
  Pass.orExit (← Pass.call env.FipClient Ev.FipClient) fun e => (false, some e)
  -- Patch Floating Name, so we can reference it later
  let lb ← Pass.getLB
  let requeue : Bool ←
    (if lb.Status.FloatingName = none then do
      Pass.orExit
        (← PatchLBStatus env { LoadBalancerStatus.empty with FloatingName := some req.asString })
        fun e => (false, some e)
      pure true
    else pure false)
  let lb ← Pass.getLB
  let requeue : Bool ←
    (if lb.Status.FloatingID = none then do
      Pass.orExit (← Pass.sub (assignOrCreateFIP env)) fun e => (false, some e)
      pure true
    else pure requeue)
  reconcileFIPSync env requeue

/-- `Reconciler.reconcilePort`, second half (from `// Check if port still exists properly`
on): the fetch by id, the security groups of the port and the external IP of an internal
LoadBalancer.  `created` holds the local variables `port` and `requeue` at that point. -/
def reconcilePortSync (env : Env σ) (created : Option Port × Bool) : Pass σ ω Ret Ret := do
  -- Check if port still exists properly
  let lb ← Pass.getLB
  let checked : Option Port × Bool ←
    Pass.ifNotNil lb.Status.PortID
      (fun id => do
        let port : Option Port ←
          Pass.okOr (← Pass.call (env.GetPortByID id) (Ev.GetPortByID id))
            fun e =>
              if e.isGophercloudNotFound then do
                Pass.orExit (← RemoveFromLBStatus env "portID") fun e1 => (false, some e1)
                exitSendErrorAsEvent true e
              else exitSendErrorAsEvent false e
        -- check if security groups are attached to port
        let requeue : Bool ←
          Pass.ifNotNil lb.Status.SecurityGroupID
            (fun sg => do
              let p ← Pass.deref port
              (if p.SecurityGroups.length ≠ 1 ∨ p.SecurityGroups.head? ≠ some sg then do
                Pass.ifNotNil
                  (← Pass.call (env.PortUpdateSecurityGroups p.ID [sg])
                    (Ev.PortUpdateSecurityGroups p.ID [sg]))
                  (fun e => exitSendErrorAsEvent false e) (pure ())
                pure true
              else pure created.2))
            (pure created.2)
        let changed : Bool ←
          Pass.okOr
            (← Pass.call (env.BindSecGroupToPortIfNeeded lb.Status.SecurityGroupID port)
              (Ev.BindSecGroupToPortIfNeeded lb.Status.SecurityGroupID port))
            fun e => exitSendErrorAsEvent false e
        pure (port, requeue || changed))
      (pure created)
  -- if port == nil { return true, nil }
  let port ← Pass.ifNotNil checked.1 pure (Pass.exit (true, none))
  -- If internal LB, use first port ip as external ip
  let lb ← Pass.getLB
  let requeue : Bool ←
    Pass.ifNotNil port.FixedIPs.head?
      (fun ip =>
        if lb.Spec.Options.InternalLB ∧
            (lb.Status.ExternalIP = none ∨ lb.Status.ExternalIP ≠ some ip) then do
          Pass.orExit
            (← PatchLBStatus env { LoadBalancerStatus.empty with ExternalIP := some ip })
            fun e => (false, some e)
          pure true
        else pure checked.2)
      (pure checked.2)
  return (requeue, none)

/-- `Reconciler.reconcilePort`: the first half (the client, the name, the lookup by name and
the create call), followed by `reconcilePortSync`. -/
def reconcilePort (env : Env σ) (req : NamespacedName) : Pass σ ω Ret Ret := do
  -- portClient, err = osClient.PortClient(ctx)
  Pass.orExit (← Pass.call env.PortClient Ev.PortClient) fun e => (false, some e)
  -- Patch Floating Name, so we can reference it later
  let lb ← Pass.getLB
  let requeue : Bool ←
    (if lb.Status.PortName = none then do
      Pass.orExit
        (← PatchLBStatus env { LoadBalancerStatus.empty with PortName := some req.asString })
        fun e => (false, some e)
      pure true
    else pure false)
  -- try to get port my name to use it if possible
  let lb ← Pass.getLB
  let byName : Option Port × Bool ←
    (if lb.Status.PortID = none then do
      let name ← Pass.deref lb.Status.PortName
      let port : Option Port ←
        Pass.okOr (← Pass.call (env.GetPortByName name) (Ev.GetPortByName name))
          fun e => Pass.exit (false, some e)
      Pass.ifNotNil port
        (fun p => do
          Pass.orExit
            (← PatchLBStatus env { LoadBalancerStatus.empty with PortID := some p.ID })
            fun e => (false, some e)
          pure (port, true))
        (pure (port, requeue))
    else pure (none, requeue))
  -- Create Port
  let lb ← Pass.getLB
  let created : Option Port × Bool ←
    (if lb.Status.PortID = none then do
      let name ← Pass.deref lb.Status.PortName
      let p : Port ←
        Pass.okOr
          (← Pass.call (env.CreatePort name lb.Spec.Infrastructure.NetworkID)
            (Ev.CreatePort name lb.Spec.Infrastructure.NetworkID))
          fun e => exitSendErrorAsEvent false e
      -- double check so status won't be corrupted
      (if p.ID = "" then Pass.exit (false, some Err.ErrPortIDEmpty) else pure ())
      Pass.orExit
        (← PatchLBStatus env { LoadBalancerStatus.empty with PortID := some p.ID })
        fun e => (false, some e)
      pure (some p, true)
    else pure byName)
  reconcilePortSync env created

/-- `Reconciler.reconcileSecGroup`, second half (from `// Fetch SecGroup for ID` on): the
fetch by id and the rule reconciliation.  `create` holds the local variables `secGroup` and
`requeue` at that point. -/
def reconcileSecGroupSync (env : Env σ) (req : NamespacedName)
    (create : Option SecGroup × Bool) : Pass σ ω Ret Ret := do
  -- Fetch SecGroup for ID
  let lb ← Pass.getLB
  let secGroup : Option SecGroup ←
    Pass.ifNotNil lb.Status.SecurityGroupID
      (fun id => do
        Pass.okOr (← Pass.call (env.GetSecGroupByID id) (Ev.GetSecGroupByID id))
          fun e =>
            if e.isGophercloudNotFound then do
              Pass.orExit (← RemoveFromLBStatus env "security_group_id")
                fun e1 => (false, some e1)
              Pass.exit (true, none)
            else exitSendErrorAsEvent false e)
      (pure create.1)
  -- if secGroup == nil { return false, helper.ErrSecGroupNil }
  let g ← Pass.ifNotNil secGroup pure (Pass.exit (false, some Err.ErrSecGroupNil))
  let lb ← Pass.getLB
  let desiredSecGroups := env.GetDesiredSecGroupRulesForLoadBalancer lb g.ID
  Pass.ifNotNil
    (← Pass.call (env.DeleteUnusedSecGroupRulesFromSecGroup g desiredSecGroups)
      (Ev.DeleteUnusedSecGroupRulesFromSecGroup g desiredSecGroups))
    (fun e => exitSendErrorAsEvent true e) (pure ())
  Pass.ifNotNil
    (← Pass.call (env.CreateNonExistingSecGroupRules req.asString g desiredSecGroups)
      (Ev.CreateNonExistingSecGroupRules req.asString g desiredSecGroups))
    (fun e => exitSendErrorAsEvent true e) (pure ())
  return (create.2, none)

/-- `Reconciler.reconcileSecGroup`: the first half (the clients, the name, the lookup by
name and the create call), followed by `reconcileSecGroupSync`.  The mutable locals
`requeue` and `secGroup` are rebound after each block that may assign them. -/
def reconcileSecGroup (env : Env σ) (req : NamespacedName) : Pass σ ω Ret Ret := do
  -- groupClient, err = osClient.GroupClient(ctx)
  Pass.orExit (← Pass.call env.GroupClient Ev.GroupClient) fun e => (false, some e)
  -- ruleClient, err = osClient.RuleClient(ctx)
  Pass.orExit (← Pass.call env.RuleClient Ev.RuleClient) fun e => (false, some e)
  -- Patch SecurityGroup Name, so we can reference it later
  let lb ← Pass.getLB
  let requeue : Bool ←
    (if lb.Status.SecurityGroupName = none then do
      Pass.orExit
        (← PatchLBStatus env
          { LoadBalancerStatus.empty with SecurityGroupName := some req.asString })
        fun e => (false, some e)
      pure true
    else pure false)
  -- Reuse SecGroup if SecGroup found by name
  let lb ← Pass.getLB
  let reuse : Option SecGroup × Bool ←
    (if lb.Status.SecurityGroupID = none then do
      let name ← Pass.deref lb.Status.SecurityGroupName
      let secGroup : Option SecGroup ←
        Pass.okOr (← Pass.call (env.GetSecGroupByName name) (Ev.GetSecGroupByName name))
          fun e => exitSendErrorAsEvent false e
      Pass.ifNotNil secGroup
        (fun g => do
          Pass.orExit
            (← PatchLBStatus env
              { LoadBalancerStatus.empty with SecurityGroupID := some g.ID })
            fun e => (false, some e)
          pure (secGroup, true))
        (pure (secGroup, requeue))
    else pure (none, requeue))
  -- Create SecGroup
  let lb ← Pass.getLB
  let create : Option SecGroup × Bool ←
    (if lb.Status.SecurityGroupID = none then do
      let g : SecGroup ←
        Pass.okOr
          (← Pass.call (env.CreateSecGroup req.asString) (Ev.CreateSecGroup req.asString))
          fun e => exitSendErrorAsEvent false e
      -- double check so status won't be corrupted
      (if g.ID = "" then Pass.exit (false, some Err.ErrSecGroupIDEmpty) else pure ())
      Pass.orExit
        (← PatchLBStatus env { LoadBalancerStatus.empty with SecurityGroupID := some g.ID })
        fun e => (false, some e)
      pure (some g, true)
    else pure reuse)
  reconcileSecGroupSync env req create

/-- The orphan sweep loop of `deletePorts`. -/
def deletePortsLoop (env : Env σ) (portName : String) : List Port → Pass σ ω Ret Unit
  | [] => pure ()
  | port :: rest => do
    -- double check
    (if port.ID = "" ∨ port.Name ≠ portName then pure ()
    else do
      Pass.ifNotNil (← Pass.call (env.DeletePort port.ID) (Ev.DeletePort port.ID))
        (fun e => exitSendErrorAsEvent false e) (pure ()))
    deletePortsLoop env portName rest

/-- `Reconciler.deletePorts`. -/
def deletePorts (env : Env σ) : Pass σ ω Ret Ret := do
  -- portClient, err := osClient.PortClient(ctx)
  Pass.orExit (← Pass.call env.PortClient Ev.PortClient) fun e => (false, some e)
  let lb ← Pass.getLB
  let requeue : Bool ←
    Pass.ifNotNil lb.Status.PortID
      (fun id => do
        let port : Option Port ←
          Pass.okOr (← Pass.call (env.GetPortByID id) (Ev.GetPortByID id))
            fun e =>
              if e.isGophercloudNotFound then do
                -- requeue true to clean orphan ports in the next run
                Pass.exit (true, ← RemoveFromLBStatus env "portID")
              else Pass.exit (false, some e)
        Pass.ifNotNil port
          (fun port => do
            Pass.ifNotNil (← Pass.call (env.DeletePort port.ID) (Ev.DeletePort port.ID))
              (fun e => exitSendErrorAsEvent false e) (pure ()))
          (pure ())
        -- requeue so next run will delete the status
        pure true)
      (pure false)
  -- clean up orphan ports
  let lb ← Pass.getLB
  let requeue : Bool ←
    Pass.ifNotNil lb.Status.PortName
      (fun portName => do
        let portList : List Port ←
          Pass.okOr (← Pass.call (env.PortList portName) (Ev.PortList portName))
            fun e => Pass.exit (false, some e)
        (if portList.length = 0 then do
          -- everything is cleaned, no requeue
          Pass.exit (false, ← RemoveFromLBStatus env "portName")
        else pure ())
        deletePortsLoop env portName portList
        -- requeue so next run will delete the status
        pure true)
      (pure requeue)
  return (requeue, none)

/-- The loop of `findAndDeleteSecGroupUsages`; the function returns an `error`. -/
def findAndDeleteSecGroupUsagesLoop (env : Env σ) (secGroupID : String) :
    List Port → Pass σ ω (Option Err) Unit
  | [] => pure ()
  | port :: rest => do
    Pass.ifNotNil
      (← Pass.call (env.RemoveSecGroupFromPortIfNeeded port secGroupID)
        (Ev.RemoveSecGroupFromPortIfNeeded port secGroupID))
      (fun e => do Pass.exit (← SendErrorAsEvent e)) (pure ())
    findAndDeleteSecGroupUsagesLoop env secGroupID rest

/-- `Reconciler.findAndDeleteSecGroupUsages`. -/
def findAndDeleteSecGroupUsages (env : Env σ) : Pass σ ω (Option Err) (Option Err) := do
  let lb ← Pass.getLB
  let id ← Pass.ifNotNil lb.Status.SecurityGroupID pure (Pass.exit none)
  let listedPorts : List Port ←
    Pass.okOr (← Pass.call env.GetAllPorts Ev.GetAllPorts) fun e => Pass.exit (some e)
  findAndDeleteSecGroupUsagesLoop env id listedPorts
  return none

/-- The orphan sweep loop of `deleteSecGroups`. -/
def deleteSecGroupsLoop (env : Env σ) (secGroupName : String) :
    List SecGroup → Pass σ ω Ret Unit
  | [] => pure ()
  | secGroup :: rest => do
    -- double check
    (if secGroup.ID = "" ∨ secGroup.Name ≠ secGroupName then pure ()
    else do
      Pass.ifNotNil
        (← Pass.call (env.DeleteSecGroup secGroup.ID) (Ev.DeleteSecGroup secGroup.ID))
        (fun e => exitSendErrorAsEvent false e) (pure ()))
    deleteSecGroupsLoop env secGroupName rest

/-- `Reconciler.deleteSecGroups`. -/
def deleteSecGroups (env : Env σ) : Pass σ ω Ret Ret := do
  -- portClient, err := osClient.PortClient(ctx)
  Pass.orExit (← Pass.call env.PortClient Ev.PortClient) fun e => (false, some e)
  -- groupClient, err := osClient.GroupClient(ctx)
  Pass.orExit (← Pass.call env.GroupClient Ev.GroupClient) fun e => (false, some e)
  Pass.orExit (← Pass.sub (findAndDeleteSecGroupUsages env)) fun e => (false, some e)
  let lb ← Pass.getLB
  let requeue : Bool ←
    Pass.ifNotNil lb.Status.SecurityGroupID
      (fun id => do
        let secGroup : Option SecGroup ←
          Pass.okOr (← Pass.call (env.GetSecGroupByID id) (Ev.GetSecGroupByID id))
            fun e =>
              if e.isGophercloudNotFound then do
                -- requeue to clean orphan secgroups
                Pass.exit (true, ← RemoveFromLBStatus env "security_group_id")
              else Pass.exit (false, some e)
        Pass.ifNotNil secGroup
          (fun secGroup => do
            Pass.ifNotNil
              (← Pass.call (env.DeleteSecGroup secGroup.ID) (Ev.DeleteSecGroup secGroup.ID))
              (fun e => exitSendErrorAsEvent false e) (pure ()))
          (pure ())
        -- requeue to delete status in next run
        pure true)
      (pure false)
  -- clean up orphan secgroups
  let lb ← Pass.getLB
  let requeue : Bool ←
    Pass.ifNotNil lb.Status.SecurityGroupName
      (fun secGroupName => do
        let secGroupList : List SecGroup ←
          Pass.okOr (← Pass.call (env.GroupList secGroupName) (Ev.GroupList secGroupName))
            fun e => Pass.exit (false, some e)
        (if secGroupList.length = 0 then do
          -- no requeue, everything is cleaned
          Pass.exit (false, ← RemoveFromLBStatus env "security_group_name")
        else pure ())
        deleteSecGroupsLoop env secGroupName secGroupList
        -- requeue so next run will delete the status
        pure true)
      (pure requeue)
  return (requeue, none)

/-- The loop of `deletionRoutine` over the listed sets: a delete is issued for every set
without a deletion timestamp; an error stops the function. -/
def deletionRoutineLoop (env : Env σ) : List LoadBalancerSet → Pass σ ω CtrlRet Unit
  | [] => pure ()
  | lbs :: rest => do
    (if lbs.DeletionTimestamp = none then do
      Pass.orExit
        (← Pass.call (env.DeleteLoadBalancerSet lbs) (Ev.DeleteLoadBalancerSet lbs))
        fun e => (Result.empty, some e)
    else pure ())
    deletionRoutineLoop env rest

/-- `Reconciler.deletionRoutine`. -/
def deletionRoutine (env : Env σ) : Pass σ ω CtrlRet CtrlRet := do
  -- Clean up all LoadBalancerSets
  let list : List LoadBalancerSet ←
    Pass.okOr
      (← Pass.call env.GetLoadBalancerSetsForLoadBalancer
        Ev.GetLoadBalancerSetsForLoadBalancer)
      fun e => Pass.exit (Result.empty, some e)
  deletionRoutineLoop env list
  (if list.length ≠ 0 then Pass.exit (⟨false, 10 * 1000⟩, none) else pure ())
  let r ← Pass.invoke (deleteFips env)
  Pass.orExit r.2 fun e => (Result.empty, some e)
  (if r.1 then Pass.exit (⟨false, DefaultRequeueTime⟩, none) else pure ())
  let r ← Pass.invoke (deletePorts env)
  Pass.orExit r.2 fun e => (Result.empty, some e)
  (if r.1 then Pass.exit (⟨false, DefaultRequeueTime⟩, none) else pure ())
  let r ← Pass.invoke (deleteSecGroups env)
  Pass.orExit r.2 fun e => (Result.empty, some e)
  (if r.1 then Pass.exit (⟨false, DefaultRequeueTime⟩, none) else pure ())
  Pass.orExit
    (← Pass.call (env.RemoveFinalizerIfNeeded ServiceFinalizer)
      (Ev.RemoveFinalizerIfNeeded ServiceFinalizer))
    fun e => (Result.empty, some e)
  return (Result.empty, none)

/-- `Reconciler.reconcileLoadBalancerSet`. -/
def reconcileLoadBalancerSet (env : Env σ) : Pass σ ω CtrlRet CtrlRet := do
  let lb ← Pass.getLB
  -- Make sure LoadBalancer has revision number
  let currentRevision : Int ←
    Pass.okOr (env.ReadCurrentRevisionFromLB lb) fun e => Pass.exit (Result.empty, some e)
  (if currentRevision = 0 then do
    Pass.orExit
      (← Pass.call (env.PatchLoadBalancerRevision 1) (Ev.PatchLoadBalancerRevision 1))
      fun e => (Result.empty, some e)
    Pass.exit (⟨false, DefaultRequeueTime⟩, none)
  else pure ())
  -- Get Hash for current LoadBalancerMachineSpec
  let hash : String ←
    Pass.okOr (env.GetHashForLoadBalancerMachineSpecFromLoadBalancer lb)
      fun e => Pass.exit (Result.empty, some e)
  -- Get LoadBalancerSet for current hash
  let found : Option LoadBalancerSet ←
    Pass.okOr
      (← Pass.call (env.GetLoadBalancerSetForHash hash) (Ev.GetLoadBalancerSetForHash hash))
      fun e => Pass.exit (Result.empty, some e)
  -- create new lbset if hash changed (a nil set is replaced by the empty object)
  let loadBalancerSet : LoadBalancerSet ←
    Pass.ifNotNil (found.filter fun s => s.Name ≠ "") pure (do
      let newRevision : Int ←
        Pass.okOr (← Pass.call env.GetNextRevisionFromLB Ev.GetNextRevisionFromLB)
          fun e => Pass.exit (Result.empty, some e)
      let portID ←
        Pass.ifNotNil lb.Status.PortID pure (Pass.exit (Result.empty, some Err.ErrLBPortNotSet))
      Pass.orExit
        (← Pass.call (env.CreateLoadBalancerSet portID hash newRevision)
          (Ev.CreateLoadBalancerSet portID hash newRevision))
        fun e => (Result.empty, some e)
      Pass.orExit
        (← Pass.call (env.PatchLoadBalancerRevision newRevision)
          (Ev.PatchLoadBalancerRevision newRevision))
        fun e => (Result.empty, some e)
      Pass.exit (⟨false, DefaultRequeueTime⟩, none))
  -- update lb revision to lbset revision
  let lbsRevision : Int ←
    Pass.okOr (env.ReadRevisionFromLBS loadBalancerSet)
      fun e => Pass.exit (Result.empty, some e)
  (if lbsRevision ≠ currentRevision then do
    Pass.orExit
      (← Pass.call (env.PatchLoadBalancerRevision lbsRevision)
        (Ev.PatchLoadBalancerRevision lbsRevision))
      fun e => (Result.empty, some e)
  else pure ())
  -- update replicas
  (if loadBalancerSet.SpecReplicas ≠ lb.Spec.Replicas then do
    Pass.orExit
      (← Pass.call (env.PatchLoadBalancerSetReplicas loadBalancerSet lb.Spec.Replicas)
        (Ev.PatchLoadBalancerSetReplicas loadBalancerSet lb.Spec.Replicas))
      fun e => (Result.empty, some e)
    Pass.exit (⟨false, DefaultRequeueTime⟩, none)
  else pure ())
  -- check if all replicas from current lbset are ready
  let ready : Bool ←
    Pass.okOr
      (← Pass.call (env.LoadBalancerSetIsReady loadBalancerSet)
        (Ev.LoadBalancerSetIsReady loadBalancerSet))
      fun e => Pass.exit (Result.empty, some e)
  (if !ready then Pass.exit (⟨false, 1 * 1000⟩, none) else pure ())
  -- scale down all other existing lbsets for the LoadBalancer after upscale
  let downscaled : Bool ←
    Pass.okOr
      (← Pass.call (env.AreAllLoadBalancerSetsForLBButDownscaled loadBalancerSet.Name)
        (Ev.AreAllLoadBalancerSetsForLBButDownscaled loadBalancerSet.Name))
      fun e => Pass.exit (Result.empty, some e)
  (if !downscaled then do
    Pass.exit
      (← Pass.call (env.ScaleDownAllLoadBalancerSetsForLBBut loadBalancerSet.Name)
        (Ev.ScaleDownAllLoadBalancerSetsForLBBut loadBalancerSet.Name))
  else pure ())
  return (Result.empty, none)

/-- `Reconciler.reconcileFIPAssociate`. -/
def reconcileFIPAssociate (env : Env σ) (_req : NamespacedName) : Pass σ ω Ret Ret := do
  let lb ← Pass.getLB
  (if lb.Spec.Options.InternalLB then Pass.exit (false, none) else pure ())
  -- fipClient, err = osClient.FipClient(ctx)
  Pass.orExit (← Pass.call env.FipClient Ev.FipClient) fun e => (false, some e)
  let lb ← Pass.getLB
  (if lb.Status.PortID = none ∨ lb.Status.FloatingID = none then Pass.exit (true, none)
  else pure ())
  let floatingID ← Pass.deref lb.Status.FloatingID
  let portID ← Pass.deref lb.Status.PortID
  let fip : Option FloatingIP ←
    Pass.okOr (← Pass.call (env.GetFIPByID floatingID) (Ev.GetFIPByID floatingID))
      fun e => exitSendErrorAsEvent false e
  let fip ← Pass.deref fip
  -- fip is already on correct port and fip status is Active - skip binding
  (if fip.PortID = portID ∧ fip.Status = "ACTIVE" then Pass.exit (false, none) else pure ())
  Pass.ifNotNil
    (← Pass.call (env.BindFIPToPort floatingID lb.Status.PortID)
      (Ev.BindFIPToPort floatingID lb.Status.PortID))
    (fun e => exitSendErrorAsEvent false e) (pure ())
  return (false, none)

/-- `Reconciler.updateOpenstackReconcileHash`; it returns an `error`. -/
def updateOpenstackReconcileHash (env : Env σ) : Pass σ ω (Option Err) (Option Err) := do
  let lb ← Pass.getLB
  -- update status lb status accordingly
  let openstackReconcileHash : String ←
    Pass.okOr (env.GetOpenStackReconcileHash lb) fun e => Pass.exit (some e)
  (if lb.Status.OpenstackReconcileHash ≠ none ∧
      lb.Status.OpenstackReconcileHash = some openstackReconcileHash then Pass.exit none
  else pure ())
  Pass.ifNotNil
    (← PatchLBStatus env
      { LoadBalancerStatus.empty with OpenstackReconcileHash := some openstackReconcileHash })
    (fun e => do Pass.exit (← SendErrorAsEvent e)) (pure ())
  return none

/-- `Reconciler.reconcileOpenStackIfNeeded`, last part (from the patch of
`LastOpenstackReconcile` on): the timestamp and the hash. -/
def reconcileOpenStackDone (env : Env σ) : Pass σ ω CtrlRet CtrlRet := do
  let now : Nat ← Pass.read env.Now
  Pass.orExit
    (← PatchLBStatus env { LoadBalancerStatus.empty with LastOpenstackReconcile := some now })
    fun e => (Result.empty, some e)
  Pass.orExit (← Pass.sub (updateOpenstackReconcileHash env)) fun e => (Result.empty, some e)
  return (Result.empty, none)

/-- `Reconciler.reconcileOpenStackIfNeeded`: the gate and the four sub-reconcilers, followed
by `reconcileOpenStackDone`; the local `overallRequeue` starts as `false` and is or-ed with
the requeue flag of each sub-reconciler in turn. -/
def reconcileOpenStackIfNeeded (env : Env σ) (req : NamespacedName) :
    Pass σ ω CtrlRet CtrlRet := do
  let lb ← Pass.getLB
  let needed : Bool ← Pass.read (env.LoadBalancerOpenstackReconcileIsNeeded lb)
  (if !needed then Pass.exit (Result.empty, none) else pure ())
  let r1 ← Pass.invoke (reconcileSecGroup env req)
  Pass.orExit r1.2 fun e => (Result.empty, some e)
  let r2 ← Pass.invoke (reconcileFIP env req)
  Pass.orExit r2.2 fun e => (Result.empty, some e)
  let r3 ← Pass.invoke (reconcilePort env req)
  Pass.orExit r3.2 fun e => (Result.empty, some e)
  let r4 ← Pass.invoke (reconcileFIPAssociate env req)
  Pass.orExit r4.2 fun e => (Result.empty, some e)
  (if (((false || r1.1) || r2.1) || r3.1) || r4.1 then
    Pass.exit (⟨false, DefaultRequeueTime⟩, none)
  else pure ())
  reconcileOpenStackDone env

/-- The fields of `Reconciler` that `Reconcile` reads besides its collaborators. -/
structure Reconciler where
  skipReconciles : Bool
  skipAllButNN : Option NamespacedName

/-- The condition of the first `if` of `Reconcile`:
`r.skipReconciles || (r.skipAllButNN != nil && r.skipAllButNN.Name != req.Name &&
r.skipAllButNN.Namespace != req.Namespace)`. -/
def Reconciler.skips (r : Reconciler) (req : NamespacedName) : Bool :=
  r.skipReconciles ||
    (match r.skipAllButNN with
      | none => false
      | some nn => decide (nn.Name ≠ req.Name) && decide (nn.Namespace ≠ req.Namespace))

/-- The condition `err != nil || res.Requeue || res.RequeueAfter != 0` under which
`Reconcile` hands a result on as it is. -/
def CtrlRet.stops (res : CtrlRet) : Bool :=
  res.2.isSome || res.1.Requeue || decide (res.1.RequeueAfter ≠ 0)

/-- `Reconciler.Reconcile`.  The object behind `lb` is the zero value until `r.Client.Get`
has filled it. -/
def Reconcile (r : Reconciler) (env : Env σ) (req : NamespacedName) :
    Pass σ ω CtrlRet CtrlRet := do
  (if r.skips req then Pass.exit (⟨false, DefaultRequeueTime⟩, none) else pure ())
  -- get LoadBalancer object for this Reconcile request
  let found : Option LoadBalancer ←
    Pass.okOr (← Pass.call (env.Get req) (Ev.Get req)) fun e => Pass.exit (Result.empty, some e)
  let lb : LoadBalancer ← Pass.ifNotNil found pure (Pass.exit (Result.empty, none))
  Pass.modifyLB fun _ => lb
  -- get OpenStack Client for LoadBalancer
  Pass.orExit
    (← Pass.call (env.GetOpenStackClientForAuthRef lb.Spec.Infrastructure.AuthSecretRef)
      (Ev.GetOpenStackClientForAuthRef lb.Spec.Infrastructure.AuthSecretRef))
    fun e => (Result.empty, some e)
  -- handle deletion
  (if lb.DeletionTimestamp ≠ none then do
    let res ← Pass.invoke (deletionRoutine env)
    (if res.stops then Pass.exit res else pure ())
    Pass.exit (Result.empty, none)
  else pure ())
  -- adds finalizer if not set
  Pass.orExit
    (← Pass.call (env.AddFinalizerIfNeeded ServiceFinalizer)
      (Ev.AddFinalizerIfNeeded ServiceFinalizer))
    fun e => (Result.empty, some e)
  -- run openstack reconcile if needed
  let res ← Pass.invoke (reconcileOpenStackIfNeeded env req)
  (if res.stops then Pass.exit res else pure ())
  -- lbs reconcile is not affected by lastOpenstackReconcile
  let res ← Pass.invoke (reconcileLoadBalancerSet env)
  (if res.stops then Pass.exit res else pure ())
  return (⟨false, 5 * 60 * 1000⟩, none)

end Controller

/-! ## Kinds of calls -/

/-- The calls `reconcileSecGroupSync` can make. -/
def Ev.isSecGroupSync : Ev → Bool
  | .GetSecGroupByID _ _ => true
  | .RemoveFromLBStatus _ _ => true
  | .SendErrorAsEvent _ => true
  | .DeleteUnusedSecGroupRulesFromSecGroup _ _ _ => true
  | .CreateNonExistingSecGroupRules _ _ _ _ => true
  | _ => false

/-- The calls `reconcilePortSync` can make. -/
def Ev.isPortSync : Ev → Bool
  | .GetPortByID _ _ => true
  | .RemoveFromLBStatus _ _ => true
  | .SendErrorAsEvent _ => true
  | .PortUpdateSecurityGroups _ _ _ => true
  | .BindSecGroupToPortIfNeeded _ _ _ => true
  | .PatchLBStatus patch _ => patch.PortID.isNone
  | _ => false

/-- The calls `reconcileFIPSync` can make. -/
def Ev.isFIPSync : Ev → Bool
  | .GetFIPByID _ _ => true
  | .RemoveFromLBStatus _ _ => true
  | .SendErrorAsEvent _ => true
  | .FipUpdateDescription _ _ _ => true
  | .PatchLBStatus patch _ => patch.FloatingID.isNone
  | _ => false

/-- The removal of the finalizer. -/
def Ev.isFinalizerRemoval : Ev → Bool
  | .RemoveFinalizerIfNeeded _ _ => true
  | _ => false

/-- The world `w` has the trace `pre` followed by calls that are no finalizer removal. -/
def World.grewFrom {σ : Type} (pre : List Ev) (w : World σ) : Prop :=
  ∃ t, w.trace = pre ++ t ∧ ∀ ev ∈ t, ev.isFinalizerRemoval = false

/-- The piece `m` of a function never removes the finalizer and never drops a call from the
trace: whatever follows it, by return, by panic or by falling through, starts in a world
whose trace is the one before `m` followed by calls that are no finalizer removal. -/
def Pass.Quiet {σ ω ρ α : Type} (m : Pass σ ω ρ α) : Prop :=
  ∀ (G : ω → Prop) (pre : List Ev) (kr : ρ → World σ → ω) (kp : World σ → ω)
    (k : α → World σ → ω) (w : World σ),
    (∀ r w1, w1.grewFrom pre → G (kr r w1)) → (∀ w1, w1.grewFrom pre → G (kp w1)) →
    (∀ a w1, w1.grewFrom pre → G (k a w1)) → w.grewFrom pre → G (m kr kp k w)

/-! ## Concrete environments -/

/-- An environment on any state, which it never touches, in which every call succeeds, every lookup finds nothing
and every create call hands out a record with the id `"id-1"`. -/
def calmEnvOn (σ : Type) : Env σ where
  GroupClient := fun s => (none, s)
  RuleClient := fun s => (none, s)
  FipClient := fun s => (none, s)
  PortClient := fun s => (none, s)
  PatchLBStatus := fun _ s => (none, s)
  RemoveFromLBStatus := fun _ s => (none, s)
  GetSecGroupByName := fun _ s => (.ok none, s)
  CreateSecGroup := fun name s => (.ok ⟨"id-1", name⟩, s)
  GetSecGroupByID := fun id s => (.ok (some ⟨id, "testns/lb"⟩), s)
  GetDesiredSecGroupRulesForLoadBalancer := fun _ _ => []
  DeleteUnusedSecGroupRulesFromSecGroup := fun _ _ s => (none, s)
  CreateNonExistingSecGroupRules := fun _ _ _ s => (none, s)
  DeleteSecGroup := fun _ s => (none, s)
  GroupList := fun _ s => (.ok [], s)
  GetFIPByIP := fun ip s => (.ok ⟨"id-1", "", "", ip, "", "DOWN"⟩, s)
  GetFIPByName := fun _ s => ((none, none), s)
  CreateFIP := fun lb s => (.ok ⟨"id-1", lb.Namespace ++ "/" ++ lb.Name, "", "10.0.0.1", "", "DOWN"⟩, s)
  GetFIPByID := fun id s => (.ok (some ⟨id, "testns/lb", "", "10.0.0.1", "", "DOWN"⟩), s)
  FipUpdateDescription := fun _ _ s => (none, s)
  BindFIPToPort := fun _ _ s => (none, s)
  DeleteFIP := fun _ s => (none, s)
  FipList := fun _ s => (.ok [], s)
  GetPortByName := fun _ s => (.ok none, s)
  CreatePort := fun name net s => (.ok ⟨"id-1", name, net, [], ["192.168.0.1"]⟩, s)
  GetPortByID := fun id s => (.ok (some ⟨id, "testns/lb", "net-1", [], ["192.168.0.1"]⟩), s)
  PortUpdateSecurityGroups := fun _ _ s => (none, s)
  BindSecGroupToPortIfNeeded := fun _ _ s => (.ok false, s)
  DeletePort := fun _ s => (none, s)
  PortList := fun _ s => (.ok [], s)
  GetAllPorts := fun s => (.ok [], s)
  RemoveSecGroupFromPortIfNeeded := fun _ _ s => (none, s)
  ReadCurrentRevisionFromLB := fun _ => .ok 1
  PatchLoadBalancerRevision := fun _ s => (none, s)
  GetHashForLoadBalancerMachineSpecFromLoadBalancer := fun _ => .ok "hash-1"
  GetLoadBalancerSetForHash := fun _ s => (.ok none, s)
  GetNextRevisionFromLB := fun s => (.ok 1, s)
  CreateLoadBalancerSet := fun _ _ _ s => (none, s)
  ReadRevisionFromLBS := fun lbs => .ok lbs.Revision
  PatchLoadBalancerSetReplicas := fun _ _ s => (none, s)
  LoadBalancerSetIsReady := fun _ s => (.ok true, s)
  AreAllLoadBalancerSetsForLBButDownscaled := fun _ s => (.ok true, s)
  ScaleDownAllLoadBalancerSetsForLBBut := fun _ s => ((Result.empty, none), s)
  GetLoadBalancerSetsForLoadBalancer := fun s => (.ok [], s)
  DeleteLoadBalancerSet := fun _ s => (none, s)
  RemoveFinalizerIfNeeded := fun _ s => (none, s)
  Get := fun _ s => (.ok none, s)
  GetOpenStackClientForAuthRef := fun _ s => (none, s)
  AddFinalizerIfNeeded := fun _ s => (none, s)
  LoadBalancerOpenstackReconcileIsNeeded := fun _ _ => true
  GetOpenStackReconcileHash := fun _ => .ok "os-hash-1"
  Now := fun _ => 1000

/-- The calm environment without state. -/
def calmEnv : Env Unit := calmEnvOn Unit

/-- A LoadBalancer `testns/lb` with one replica on network `net-1` and the given status. -/
def sampleLB (status : LoadBalancerStatus) : LoadBalancer where
  Namespace := "testns"
  Name := "lb"
  DeletionTimestamp := none
  Finalizers := [ServiceFinalizer]
  Annotations := []
  Spec :=
    { Replicas := 1
      ExistingFloatingIP := none
      Endpoints := []
      Ports := []
      Infrastructure := ⟨none, "net-1", none, none, "", "testsecret"⟩
      Options := ⟨false, [], false, []⟩ }
  Status := status

/-- The request for `testns/lb`. -/
def sampleReq : NamespacedName := ⟨"testns", "lb"⟩

/-- The environment of the witness for C8: the fetch of a security group by id answers
`ErrDefault404`. -/
def secGroupGoneEnv : Env Unit :=
  { calmEnv with GetSecGroupByID := fun _ s => (.fail .ErrDefault404, s) }

/-- The LoadBalancer of the witness for C8: security group `sg-1` is recorded. -/
def secGroupRecordedLB : LoadBalancer :=
  sampleLB { LoadBalancerStatus.empty with
    SecurityGroupID := some "sg-1", SecurityGroupName := some "testns/lb" }

/-- The environment of the counterexample for C9: the fetch of a port by id answers
`ErrDefault404`. -/
def portGoneEnv : Env Unit :=
  { calmEnv with GetPortByID := fun _ s => (.fail .ErrDefault404, s) }

/-- The LoadBalancer of the counterexample for C9: port `p-1` is recorded. -/
def portRecordedLB : LoadBalancer :=
  sampleLB { LoadBalancerStatus.empty with PortID := some "p-1", PortName := some "testns/lb" }

/-- The environment of the witness for C10: the fetch of a floating IP by id answers
`ErrDefault404`. -/
def fipGoneEnv : Env Unit :=
  { calmEnv with GetFIPByID := fun _ s => (.fail .ErrDefault404, s) }

/-- The LoadBalancer of the witness for C10: floating IP `fip-1` is recorded. -/
def fipRecordedLB : LoadBalancer :=
  sampleLB { LoadBalancerStatus.empty with
    FloatingID := some "fip-1", FloatingName := some "testns/lb" }

/-- The environment of the witness for C7: the create call for a security group succeeds
but hands out a record with an empty id. -/
def emptyIdEnv : Env Unit :=
  { calmEnv with CreateSecGroup := fun name s => (.ok ⟨"", name⟩, s) }

/-- The environment of the witness for C6, security group: a security group named
`testns/lb` with id `sg-7` exists in the provider. -/
def existingSecGroupEnv : Env Unit :=
  { calmEnv with GetSecGroupByName := fun name s => (.ok (some ⟨"sg-7", name⟩), s) }

/-- The environment of the witness for C6, port: a port named `testns/lb` with id `p-7`
exists in the provider. -/
def existingPortEnv : Env Unit :=
  { calmEnv with
    GetPortByName := fun name s => (.ok (some ⟨"p-7", name, "net-1", [], ["192.168.0.1"]⟩), s) }

/-- The environment of the witness for C6, floating IP: a floating IP with the description
`testns/lb` and the id `fip-7` exists in the provider. -/
def existingFipEnv : Env Unit :=
  { calmEnv with
    GetFIPByName := fun name s => ((some ⟨"fip-7", name, "", "10.0.0.7", "", "DOWN"⟩, none), s) }

/-- The LoadBalancer of the witness for C5: the user supplied the floating IP `1.2.3.4`,
and the status carries its id and a name. -/
def existingFipLB : LoadBalancer :=
  { sampleLB { LoadBalancerStatus.empty with
      FloatingID := some "fip-1", FloatingName := some "testns/lb" } with
    Spec :=
      { Replicas := 1
        ExistingFloatingIP := some "1.2.3.4"
        Endpoints := []
        Ports := []
        Infrastructure := ⟨none, "net-1", none, none, "", "testsecret"⟩
        Options := ⟨false, [], false, []⟩ } }

/-- The environment of the witness for C1: a set named `lb-hash-1` exists for the current
hash with one replica, and the other sets of the LoadBalancer are not yet downscaled. -/
def rolloutEnv : Env Unit :=
  { calmEnv with
    GetLoadBalancerSetForHash := fun hash s =>
      (.ok (some ⟨"lb-hash-1", none, hash, 1, 1, some 1, some 1⟩), s)
    AreAllLoadBalancerSetsForLBButDownscaled := fun _ s => (.ok false, s) }

/-- The sets of the witness for C4: `lb-hash-1`, and `lb-hash-0` which already has a
deletion timestamp. -/
def listedSets : List LoadBalancerSet :=
  [⟨"lb-hash-1", none, "hash-1", 1, 1, some 1, some 1⟩,
    ⟨"lb-hash-0", some 7, "hash-0", 0, 0, some 0, some 0⟩]

/-- The environment of the witness for C4: the listing of the owned sets answers
`listedSets`. -/
def setsListedEnv : Env Unit :=
  { calmEnv with GetLoadBalancerSetsForLoadBalancer := fun s => (.ok listedSets, s) }

/-- A LoadBalancer `testns/lb` under deletion, with an empty status. -/
def deletingLB : LoadBalancer :=
  { sampleLB LoadBalancerStatus.empty with DeletionTimestamp := some 7 }

/-! ## A cluster store for the rollout -/

/-- The part of the cluster the rollout reads and writes: the LoadBalancerSets owned by the
LoadBalancer, oldest first, and the revision recorded on the LoadBalancer. -/
structure Store where
  sets : List LoadBalancerSet
  revision : Int
  deriving DecidableEq

/-- The revisions of the owned sets, oldest set first. -/
def Store.revisions (c : Store) : List Int :=
  c.sets.map fun s => s.Revision

/-- What the cluster answers in one pass beyond what the store holds: the revision read
from the LoadBalancer, the hash of its current template, which calls fail, and what the
readiness and downscale checks say. -/
structure Answers where
  current : Reply Int
  hash : Reply String
  lookupErr : Option Err
  nextErr : Option Err
  createErr : Option Err
  patchRevisionErr : Option Err
  patchReplicasErr : Option Err
  ready : Reply Bool
  downscaled : Reply Bool
  scaleDown : CtrlRet

/-- Modelled from the spec: `helper.GetNextRevisionFromLB` is outside the available sources;
the next revision is the maximum revision of all existing owned sets, across all hashes,
plus one. -/
def nextRevision (sets : List LoadBalancerSet) : Int :=
  (sets.map fun s => s.Revision).foldl max 0 + 1

/-- Modelled from the spec: the set `helper.CreateLoadBalancerSet` creates for a template
hash and a revision. -/
def newLoadBalancerSet (hash : String) (revision : Int) : LoadBalancerSet :=
  ⟨"lb-" ++ hash, none, hash, revision, 1, none, none⟩

/-- Modelled from the spec: `helper.PatchLoadBalancerSetReplicas` sets the spec replica
count of the named set. -/
def Store.setReplicas (name : String) (n : Int) (c : Store) : Store :=
  { c with sets := c.sets.map fun s => if s.Name = name then { s with SpecReplicas := n } else s }

/-- Modelled from the spec: `helper.ScaleDownAllLoadBalancerSetsForLBBut` sets the spec
replica count of every owned set but the named one to zero. -/
def Store.scaleDownBut (name : String) (c : Store) : Store :=
  { c with sets := c.sets.map fun s => if s.Name = name then s else { s with SpecReplicas := 0 } }

/-- The environment of a pass over the store `Store`: lookups read the store, a create call
appends the new set, the patches and the scale-down write the store; `a` says which calls
fail and what the checks answer. -/
def storeEnv (a : Answers) : Env Store :=
  { calmEnvOn Store with
    ReadCurrentRevisionFromLB := fun _ => a.current
    PatchLoadBalancerRevision := fun r c =>
      (a.patchRevisionErr, if a.patchRevisionErr = none then { c with revision := r } else c)
    GetHashForLoadBalancerMachineSpecFromLoadBalancer := fun _ => a.hash
    GetLoadBalancerSetForHash := fun hash c =>
      (if a.lookupErr = none then .ok (c.sets.find? fun s => s.Hash = hash)
        else .fail (a.lookupErr.getD (.other "")), c)
    GetNextRevisionFromLB := fun c =>
      (if a.nextErr = none then .ok (nextRevision c.sets)
        else .fail (a.nextErr.getD (.other "")), c)
    CreateLoadBalancerSet := fun _ hash r c =>
      (a.createErr,
        if a.createErr = none then { c with sets := c.sets ++ [newLoadBalancerSet hash r] }
        else c)
    ReadRevisionFromLBS := fun lbs => .ok lbs.Revision
    PatchLoadBalancerSetReplicas := fun lbs n c =>
      (a.patchReplicasErr, if a.patchReplicasErr = none then c.setReplicas lbs.Name n else c)
    LoadBalancerSetIsReady := fun _ c => (a.ready, c)
    AreAllLoadBalancerSetsForLBButDownscaled := fun _ c => (a.downscaled, c)
    ScaleDownAllLoadBalancerSetsForLBBut := fun name c =>
      (a.scaleDown, if a.scaleDown.2 = none then c.scaleDownBut name else c) }

/-- One pass of `reconcileLoadBalancerSet` over the store: the store it leaves. -/
def rolloutPass (a : Answers) (lb : LoadBalancer) (c : Store) : Store :=
  ((reconcileLoadBalancerSet (storeEnv a)).run (World.start c lb)).2.ext

/-- A sequence of passes of `reconcileLoadBalancerSet` for one LoadBalancer; between the
passes the LoadBalancer (its template, its replica count, its status) and the answers of
the cluster may change at will, the owned sets are written by the passes only. -/
def rolloutPasses : List (Answers × LoadBalancer) → Store → Store
  | [], c => c
  | (a, lb) :: rest, c => rolloutPasses rest (rolloutPass a lb c)

/-- The answers of the witness for C2: everything succeeds, the template hash is `hash`. -/
def fairAnswers (hash : String) : Answers :=
  ⟨.ok 1, .ok hash, none, none, none, none, none, .ok true, .ok true, (Result.empty, none)⟩

/-- The passes of the witness for C2: the template hash is `hash-a`, then `hash-b`, then
`hash-a` again; the port of the LoadBalancer is recorded. -/
def revertingPasses : List (Answers × LoadBalancer) :=
  [(fairAnswers "hash-a", portRecordedLB), (fairAnswers "hash-b", portRecordedLB),
    (fairAnswers "hash-a", portRecordedLB)]

/-- The environment of the evaluations of `Reconcile`: the store hands out the sample
LoadBalancer, named after the request, for every request. -/
def loadedEnv : Env Unit :=
  { calmEnv with
    Get := fun req s =>
      (.ok (some { sampleLB LoadBalancerStatus.empty with
        Namespace := req.Namespace, Name := req.Name }), s) }

/-- A reconciler whose only-this-object filter is set to `testns/lb`. -/
def filteringReconciler : Reconciler := ⟨false, some ⟨"testns", "lb"⟩⟩

/-- The environment of the counterexample for C11: the store hands out the sample
LoadBalancer, the security group client of the provider cannot be obtained. -/
def groupClientDownEnv : Env Unit :=
  { loadedEnv with GroupClient := fun s => (some (.other "provider down"), s) }

/-- The environment of the witness for C11: the store hands out the sample LoadBalancer and
no cloud reconciliation is needed. -/
def settledEnv : Env Unit :=
  { loadedEnv with LoadBalancerOpenstackReconcileIsNeeded := fun _ _ => false }

/-- A reconciler with the pause off and no filter. -/
def plainReconciler : Reconciler := ⟨false, none⟩

/-- The calls that write the reconcile timestamp or the reconcile hash of the status. -/
def Ev.writesReconcileMark : Ev → Bool
  | .PatchLBStatus patch _ =>
      patch.LastOpenstackReconcile.isSome || patch.OpenstackReconcileHash.isSome
  | .RemoveFromLBStatus key _ =>
      decide (key = "lastOpenstackReconcile") || decide (key = "openstackReconcileHash")
  | _ => false

/-- The calls that leave the reconcile timestamp and the reconcile hash alone. -/
def Ev.keepsReconcileMark (ev : Ev) : Bool := !ev.writesReconcileMark

/-- The world `w` has the trace `pre` followed by calls of the kind `P`. -/
def World.grewBy {σ : Type} (P : Ev → Bool) (pre : List Ev) (w : World σ) : Prop :=
  ∃ t, w.trace = pre ++ t ∧ ∀ ev ∈ t, P ev = true

/-- The piece `m` of a function makes calls of the kind `P` only and never drops a call
from the trace: whatever follows it, by return, by panic or by falling through, starts in
a world whose trace is the one before `m` followed by calls of the kind `P`. -/
def Pass.Emits {σ ω ρ α : Type} (P : Ev → Bool) (m : Pass σ ω ρ α) : Prop :=
  ∀ (G : ω → Prop) (pre : List Ev) (kr : ρ → World σ → ω) (kp : World σ → ω)
    (k : α → World σ → ω) (w : World σ),
    (∀ r w1, w1.grewBy P pre → G (kr r w1)) → (∀ w1, w1.grewBy P pre → G (kp w1)) →
    (∀ a w1, w1.grewBy P pre → G (k a w1)) → w.grewBy P pre → G (m kr kp k w)

/-- The object behind `lb` after an accepted status patch. -/
def LoadBalancer.patched (lb : LoadBalancer) (patch : LoadBalancerStatus) : LoadBalancer :=
  { lb with Status := lb.Status.merge patch }

/-- The LoadBalancer of the witness for C14: every cloud resource is recorded in the status
and the external IP is the one of the floating IP. -/
def settledLB : LoadBalancer :=
  sampleLB { LoadBalancerStatus.empty with
    ExternalIP := some "10.0.0.1"
    FloatingID := some "fip-1", FloatingName := some "testns/lb"
    PortID := some "p-1", PortName := some "testns/lb"
    SecurityGroupID := some "sg-1", SecurityGroupName := some "testns/lb" }

/-- The environment of the witness for C14: the port carries the security group `sg-1`. -/
def steadyEnv : Env Unit :=
  { calmEnv with
    GetPortByID := fun id s =>
      (.ok (some ⟨id, "testns/lb", "net-1", ["sg-1"], ["192.168.0.1"]⟩), s) }

/-- The environment of the witness for C16: no floating IP with the address asked for
exists in the provider. -/
def addressUnknownEnv : Env Unit :=
  { calmEnv with GetFIPByIP := fun _ s => (.fail .ErrResourceNotFound, s) }

/-- The LoadBalancer of the witness for C16: the user supplied the floating IP `1.2.3.4`,
nothing is recorded in the status. -/
def existingFipUnresolvedLB : LoadBalancer :=
  { sampleLB LoadBalancerStatus.empty with
    Spec :=
      { Replicas := 1
        ExistingFloatingIP := some "1.2.3.4"
        Endpoints := []
        Ports := []
        Infrastructure := ⟨none, "net-1", none, none, "", "testsecret"⟩
        Options := ⟨false, [], false, []⟩ } }

/-- The LoadBalancer of the witness for C17: port `p-1` and floating IP `fip-1` are
recorded. -/
def portAndFipRecordedLB : LoadBalancer :=
  sampleLB { LoadBalancerStatus.empty with
    FloatingID := some "fip-1", FloatingName := some "testns/lb"
    PortID := some "p-1", PortName := some "testns/lb" }

/-- The LoadBalancer of the witness for C20: port `p-1` and security group `sg-1` are
recorded. -/
def portAndGroupRecordedLB : LoadBalancer :=
  sampleLB { LoadBalancerStatus.empty with
    PortID := some "p-1", PortName := some "testns/lb"
    SecurityGroupID := some "sg-1", SecurityGroupName := some "testns/lb" }

/-- The environment of the witness for C19: the listing of ports by name answers three
entries, of which one has no id and one has another name. -/
def orphanPortsEnv : Env Unit :=
  { calmEnv with
    PortList := fun name s =>
      (.ok [⟨"p-1", name, "net-1", [], []⟩, ⟨"", name, "net-1", [], []⟩,
        ⟨"p-3", "testns/other", "net-1", [], []⟩], s) }

/-- The LoadBalancer of the witness for C19: only the port name is recorded. -/
def portNameRecordedLB : LoadBalancer :=
  sampleLB { LoadBalancerStatus.empty with PortName := some "testns/lb" }

/-! ## The fake provider -/

/-- The stored values of `testing.GetFakeClient`: the id counter and the maps of groups,
rules, floating IPs and ports, each kept as the list of its values, oldest first (ids come
from the counter, so no key is stored twice). -/
structure Fake where
  id : Nat
  groups : List SecGroup
  rules : List (String × SecGroupRule)
  fips : List FloatingIP
  ports : List Port
  deriving DecidableEq

/-- The stored values `GetFakeClient` starts with. -/
def Fake.fresh : Fake := ⟨0, [], [], [], []⟩

/-- `getID`: the counter in decimal; the counter goes up by one. -/
def Fake.getID (c : Fake) : String × Fake :=
  (toString c.id, { c with id := c.id + 1 })

/-- `GroupClientObj.ListFunc`, with `opts.Name`. -/
def Fake.groupList (name : String) (c : Fake) : List SecGroup :=
  c.groups.filter fun v => !(decide (name ≠ "") && decide (name ≠ v.Name))

/-- `GroupClientObj.CreateFunc`. -/
def Fake.groupCreate (name : String) (c : Fake) : SecGroup × Fake :=
  let group : SecGroup := ⟨c.getID.1, name⟩
  (group, { c.getID.2 with groups := c.getID.2.groups ++ [group] })

/-- `GroupClientObj.GetFunc`. -/
def Fake.groupGet (id : String) (c : Fake) : Reply SecGroup :=
  match c.groups.find? fun v => decide (v.ID = id) with
  | some group => .ok group
  | none => .fail .ErrDefault404

/-- `GroupClientObj.DeleteFunc`. -/
def Fake.groupDelete (id : String) (c : Fake) : Fake :=
  { c with groups := c.groups.filter fun v => decide (v.ID ≠ id) }

/-- `RuleClientObj.ListFunc`, with `opts.SecGroupID`. -/
def Fake.ruleList (secGroupID : String) (c : Fake) : List (String × SecGroupRule) :=
  c.rules.filter fun v => !(decide (secGroupID ≠ "") && decide (secGroupID ≠ v.2.SecGroupID))

/-- `RuleClientObj.CreateFunc`. -/
def Fake.ruleCreate (rule : SecGroupRule) (c : Fake) : Fake :=
  { c.getID.2 with rules := c.getID.2.rules ++ [(c.getID.1, rule)] }

/-- `RuleClientObj.DeleteFunc`. -/
def Fake.ruleDelete (id : String) (c : Fake) : Fake :=
  { c with rules := c.rules.filter fun v => decide (v.1 ≠ id) }

/-- `FipClientObj.ListFunc`, with `opts.Description` and `opts.FloatingIP`. -/
def Fake.fipList (description floatingIP : String) (c : Fake) : List FloatingIP :=
  c.fips.filter fun v =>
    !(decide (description ≠ "") && decide (description ≠ v.Description)) &&
    !(decide (floatingIP ≠ "") && decide (floatingIP ≠ v.FloatingIP))

/-- `FipClientObj.CreateFunc`; `generated` is what `generateIP()` hands out at this call. -/
def Fake.fipCreate (description floatingNetworkID floatingIP generated : String) (c : Fake) :
    FloatingIP × Fake :=
  let floatingIP := if floatingIP = "" then generated else floatingIP
  let fip : FloatingIP := ⟨c.getID.1, description, floatingNetworkID, floatingIP, "", ""⟩
  (fip, { c.getID.2 with fips := c.getID.2.fips ++ [fip] })

/-- `FipClientObj.GetFunc`. -/
def Fake.fipGet (id : String) (c : Fake) : Reply FloatingIP :=
  match c.fips.find? fun v => decide (v.ID = id) with
  | some fip => .ok fip
  | none => .fail .ErrDefault404

/-- `FipClientObj.DeleteFunc`. -/
def Fake.fipDelete (id : String) (c : Fake) : Fake :=
  { c with fips := c.fips.filter fun v => decide (v.ID ≠ id) }

/-- `FipClientObj.UpdateFunc` with `opts.PortID`, for an id that is stored. -/
def Fake.fipUpdate (id portID : String) (c : Fake) : Fake :=
  { c with fips := c.fips.map fun v => if v.ID = id then { v with PortID := portID } else v }

/-- `PortClientObj.ListFunc`, with `opts.Name`. -/
def Fake.portList (name : String) (c : Fake) : List Port :=
  c.ports.filter fun v => !(decide (name ≠ "") && decide (name ≠ v.Name))

/-- `PortClientObj.CreateFunc` without `opts.SecurityGroups`; `generated` is what
`generateIP()` hands out at this call. -/
def Fake.portCreate (name networkID generated : String) (c : Fake) : Port × Fake :=
  let port : Port := ⟨c.getID.1, name, networkID, [], [generated]⟩
  (port, { c.getID.2 with ports := c.getID.2.ports ++ [port] })

/-- `PortClientObj.GetFunc`. -/
def Fake.portGet (id : String) (c : Fake) : Reply Port :=
  match c.ports.find? fun v => decide (v.ID = id) with
  | some port => .ok port
  | none => .fail .ErrDefault404

/-- `PortClientObj.DeleteFunc`. -/
def Fake.portDelete (id : String) (c : Fake) : Fake :=
  { c with ports := c.ports.filter fun v => decide (v.ID ≠ id) }

/-- `PortClientObj.UpdateFunc` with `opts.SecurityGroups`, for an id that is stored. -/
def Fake.portUpdate (id : String) (securityGroups : List String) (c : Fake) : Fake :=
  { c with ports := c.ports.map fun v =>
      if v.ID = id then { v with SecurityGroups := securityGroups } else v }

/-- Modelled from the spec: `openstackhelper.DeleteUnusedSecGroupRulesFromSecGroup` is
outside the available sources; it deletes the existing rules of the group that are absent
from the desired set. -/
def Fake.deleteUnusedRules (g : SecGroup) (desired : List SecGroupRule) (c : Fake) : Fake :=
  ((c.ruleList g.ID).filter fun v => !desired.contains v.2).foldl
    (fun c v => c.ruleDelete v.1) c

/-- Modelled from the spec: `openstackhelper.CreateNonExistingSecGroupRules` is outside the
available sources; it creates the desired rules that are absent from the existing rules of
the group. -/
def Fake.createNonExistingRules (g : SecGroup) (desired : List SecGroupRule) (c : Fake) :
    Fake :=
  (desired.filter fun r => !((c.ruleList g.ID).map fun v => v.2).contains r).foldl
    (fun c r => c.ruleCreate r) c

/-- Modelled from the spec: `openstackhelper.BindSecGroupToPortIfNeeded` is outside the
available sources; it attaches the security group to the port unless the port carries it,
and says whether it changed the port.  The fake client hands out pointers into its store,
so the port the helper looks at is the stored one. -/
def Fake.bindSecGroupToPortIfNeeded (secGroupID : Option String) (port : Option Port)
    (c : Fake) : Reply Bool × Fake :=
  match secGroupID, port with
  | some sg, some p =>
    match c.ports.find? fun v => decide (v.ID = p.ID) with
    | some stored =>
      if stored.SecurityGroups.contains sg then (.ok false, c)
      else (.ok true, c.portUpdate p.ID (stored.SecurityGroups ++ [sg]))
    | none => (.fail .ErrDefault404, c)
  | _, _ => (.fail (.other "security group or port is nil"), c)

/-- Modelled from the spec: the helper functions of `internal/helper/openstack` are outside
the available sources; in the environment of a pass against `testing.GetFakeClient` they
are the fake client calls they come down to (a lookup by name lists by that name and takes
the first entry of that name, `CreateFIP` describes the floating IP by
`status.floatingName` on the network `spec.infrastructure.floatingNetID`).  The client
accessors hand out the fake clients, the status store accepts every write and the
reconcile-needed gate is open.  An update of a floating IP that carries only a description
makes `UpdateFunc` of the fake client dereference the nil `opts.PortID`: the Go call
panics.  A call of the environment cannot panic in this model, so `FipUpdateDescription`
answers an error here; the pass makes that call only for a LoadBalancer with
`spec.existingFloatingIP`, and every statement below about this environment is for a
LoadBalancer without it.  `generateIP()` is random: `gen n` is the address it hands
out while the id counter is `n`.  `desired` is `GetDesiredSecGroupRulesForLoadBalancer`. -/
def fakeEnv (gen : Nat → String) (desired : LoadBalancer → String → List SecGroupRule) :
    Env Fake :=
  { calmEnvOn Fake with
    GetSecGroupByName := fun name c =>
      (.ok ((c.groupList name).find? fun v => decide (v.Name = name)), c)
    CreateSecGroup := fun name c => (.ok (c.groupCreate name).1, (c.groupCreate name).2)
    GetSecGroupByID := fun id c =>
      (match c.groupGet id with
        | .ok g => .ok (some g)
        | .fail e => .fail e, c)
    GetDesiredSecGroupRulesForLoadBalancer := desired
    DeleteUnusedSecGroupRulesFromSecGroup := fun g rules c => (none, c.deleteUnusedRules g rules)
    CreateNonExistingSecGroupRules := fun _ g rules c => (none, c.createNonExistingRules g rules)
    DeleteSecGroup := fun id c => (none, c.groupDelete id)
    GroupList := fun name c => (.ok (c.groupList name), c)
    GetFIPByIP := fun ip c =>
      (match (c.fipList "" ip).head? with
        | some fip => .ok fip
        | none => .fail .ErrFIPNotFound, c)
    GetFIPByName := fun name c =>
      (((c.fipList name "").find? fun v => decide (v.Description = name), none), c)
    CreateFIP := fun lb c =>
      (.ok (c.fipCreate (lb.Status.FloatingName.getD "")
          (lb.Spec.Infrastructure.FloatingNetID.getD "") "" (gen c.id)).1,
        (c.fipCreate (lb.Status.FloatingName.getD "")
          (lb.Spec.Infrastructure.FloatingNetID.getD "") "" (gen c.id)).2)
    GetFIPByID := fun id c =>
      (match c.fipGet id with
        | .ok fip => .ok (some fip)
        | .fail e => .fail e, c)
    FipUpdateDescription := fun _ _ c =>
      (some (.other "UpdateFunc: nil pointer dereference of opts.PortID"), c)
    BindFIPToPort := fun fipID portID c => (none, c.fipUpdate fipID (portID.getD ""))
    DeleteFIP := fun id c => (none, c.fipDelete id)
    FipList := fun description c => (.ok (c.fipList description ""), c)
    GetPortByName := fun name c =>
      (.ok ((c.portList name).find? fun v => decide (v.Name = name)), c)
    CreatePort := fun name networkID c =>
      (.ok (c.portCreate name networkID (gen c.id)).1,
        (c.portCreate name networkID (gen c.id)).2)
    GetPortByID := fun id c =>
      (match c.portGet id with
        | .ok port => .ok (some port)
        | .fail e => .fail e, c)
    PortUpdateSecurityGroups := fun id groups c => (none, c.portUpdate id groups)
    BindSecGroupToPortIfNeeded := fun sg port c => c.bindSecGroupToPortIfNeeded sg port
    DeletePort := fun id c => (none, c.portDelete id)
    PortList := fun name c => (.ok (c.portList name), c)
    GetAllPorts := fun c => (.ok c.ports, c) }

/-- The addresses of the evaluations against the fake provider: `10.0.0.n` while the id
counter is `n`. -/
def sampleAddresses (n : Nat) : String := "10.0.0." ++ toString n

/-- The fake provider of the evaluations: with the sample addresses and no desired rule. -/
def sampleFakeEnv : Env Fake := fakeEnv sampleAddresses fun _ _ => []

/-- The marker of the calls that create a cloud resource or bind the floating IP to the
port. -/
def Ev.provisions : Ev → Bool
  | .CreateSecGroup _ _ => true
  | .CreateFIP _ => true
  | .CreatePort _ _ _ => true
  | .BindFIPToPort _ _ _ => true
  | _ => false

/-- The stored values of the fake provider once floating IP `0` of `testns/lb` is there. -/
def oneFipFake : Fake :=
  ⟨1, [], [], [⟨"0", "testns/lb", "", "10.0.0.0", "", ""⟩], []⟩

/-- The LoadBalancer whose status records floating IP `0` under the name `testns/lb`. -/
def fakeFipRecordedLB : LoadBalancer :=
  sampleLB { LoadBalancerStatus.empty with
    FloatingID := some "0", FloatingName := some "testns/lb" }

/-- The calls that look a floating IP up for adoption, create one, or update one. -/
def Ev.acquiresFip : Ev → Bool
  | .GetFIPByIP _ _ => true
  | .GetFIPByName _ _ => true
  | .CreateFIP _ => true
  | .FipUpdateDescription _ _ _ => true
  | .BindFIPToPort _ _ _ => true
  | _ => false

/-- The calls that neither look a floating IP up for adoption nor create nor update one. -/
def Ev.sparesFip (ev : Ev) : Bool := !ev.acquiresFip

/-- The sample LoadBalancer as an internal one, with the given status. -/
def internalSampleLB (status : LoadBalancerStatus) : LoadBalancer :=
  { sampleLB status with
    Spec := { (sampleLB status).Spec with Options := ⟨true, [], false, []⟩ } }

/-- The sample LoadBalancer asking for two replicas, with an empty status. -/
def twoReplicasLB : LoadBalancer :=
  { sampleLB LoadBalancerStatus.empty with
    Spec := { (sampleLB LoadBalancerStatus.empty).Spec with Replicas := 2 } }

/-- The environment of a converged LoadBalancer: the store hands out the sample
LoadBalancer, no cloud reconciliation is needed, the set `lb-hash-1` exists for the current
hash with the revision and the replica count of the LoadBalancer, it is ready, and the
other sets are downscaled. -/
def convergedEnv : Env Unit :=
  { settledEnv with
    GetLoadBalancerSetForHash := fun hash s =>
      (.ok (some ⟨"lb-hash-1", none, hash, 1, 1, some 1, some 1⟩), s) }

/-- The environment of the evaluation for C29: the floating IP with the address asked for
exists in the provider, but its record carries an empty id. -/
def emptyIdFipEnv : Env Unit :=
  { calmEnv with GetFIPByIP := fun ip s => (.ok ⟨"", "", "", ip, "", "DOWN"⟩, s) }

/-- A Hoare triple for the piece `m` of a function.  Started in a world with `R`: if `m`
returns `r`, what follows starts in a world with `E r`; if it panics, in a world with `F`;
if it falls through with the value `a`, in a world with `Q a`. -/
def Pass.Moves {σ ω ρ α : Type} (R : World σ → Prop) (E : ρ → World σ → Prop)
    (F : World σ → Prop) (Q : α → World σ → Prop) (m : Pass σ ω ρ α) : Prop :=
  ∀ (G : ω → Prop) (kr : ρ → World σ → ω) (kp : World σ → ω) (k : α → World σ → ω)
    (w : World σ),
    (∀ r w1, E r w1 → G (kr r w1)) → (∀ w1, F w1 → G (kp w1)) →
    (∀ a w1, Q a w1 → G (k a w1)) → R w → G (m kr kp k w)

/-- The calls and writes of `reconcileFIP` that come before the fetch by id: everything but
the fetch by id, the rename, and a status patch that sets the external IP. -/
def Ev.beforeFipFetch : Ev → Bool
  | .GetFIPByID _ _ => false
  | .FipUpdateDescription _ _ _ => false
  | .PatchLBStatus patch _ => patch.ExternalIP.isNone
  | _ => true

/-- The world of `reconcileFIP` before the fetch by id, in a pass started on `lb0`: the spec
and the stored external IP are those of `lb0`, and so far there was no fetch by id, no
rename and no patch of the external IP. -/
def BeforeFipFetch {σ : Type} (lb0 : LoadBalancer) (w : World σ) : Prop :=
  w.lb.Spec = lb0.Spec ∧ w.lb.Status.ExternalIP = lb0.Status.ExternalIP ∧
    ∀ ev ∈ w.trace, ev.beforeFipFetch = true

/-- The calls `t` of a pass of `reconcileFIP` that was started on the object `lb` and left
the result `o` and the object `lb1`, for every floating IP `fip` fetched by id: the
external IP was patched exactly if the stored one was absent or different, and only to the
address of `fip`; an error-free return leaves that address and the id in the status, with
requeue after a patch; the rename was issued only under its condition and with the suffixed
description, and it was issued under its condition unless the patch of the external IP was
refused.  An error-free return fetched a floating IP. -/
def FipFetched (lb : LoadBalancer) (o : Option Ret) (lb1 : LoadBalancer) (t : List Ev) :
    Prop :=
  (∀ id fip, Ev.GetFIPByID id (.ok (some fip)) ∈ t →
    ((∃ r, Ev.PatchLBStatus
        { LoadBalancerStatus.empty with ExternalIP := some fip.FloatingIP } r ∈ t) ↔
      lb.Status.ExternalIP ≠ some fip.FloatingIP) ∧
    (∀ patch r, Ev.PatchLBStatus patch r ∈ t → patch.ExternalIP ≠ none →
      patch = { LoadBalancerStatus.empty with ExternalIP := some fip.FloatingIP }) ∧
    (∀ q, o = some (q, none) →
      lb1.Status.ExternalIP = some fip.FloatingIP ∧ lb1.Status.FloatingID = some id ∧
      (lb.Status.ExternalIP ≠ some fip.FloatingIP → q = true)) ∧
    (∀ i d r, Ev.FipUpdateDescription i d r ∈ t →
      lb.Spec.ExistingFloatingIP ≠ none ∧ lb1.Status.FloatingName = some fip.Description ∧
      i = fip.ID ∧ d = fip.Description ++ " (user managed)") ∧
    (lb.Spec.ExistingFloatingIP ≠ none → lb1.Status.FloatingName = some fip.Description →
      (∀ patch e, Ev.PatchLBStatus patch (some e) ∈ t → patch.ExternalIP = none) →
      ∃ r, Ev.FipUpdateDescription fip.ID (fip.Description ++ " (user managed)") r ∈ t)) ∧
  (∀ q, o = some (q, none) → ∃ id fip, Ev.GetFIPByID id (.ok (some fip)) ∈ t)

/-- The result `o` and the world `w` left by a pass of `reconcileFIP` started on `lb0`: the
trace splits into what came before the fetch by id, in a world `w0` with `BeforeFipFetch`,
and calls `t` with `FipFetched`. -/
def AfterFipFetch {σ : Type} (lb0 : LoadBalancer) (o : Option Ret) (w : World σ) : Prop :=
  ∃ w0 : World σ, BeforeFipFetch lb0 w0 ∧
    ∃ t, w.trace = w0.trace ++ t ∧ FipFetched w0.lb o w.lb t

/-- The sample LoadBalancer with a floating IP of the user: `spec.existingFloatingIP` names
the address `10.0.0.1`, and the status records the id `id-1`, the name `testns/lb` and the
external IP `10.0.0.1`. -/
def userFipLB : LoadBalancer :=
  { sampleLB { LoadBalancerStatus.empty with
      FloatingID := some "id-1", FloatingName := some "testns/lb",
      ExternalIP := some "10.0.0.1" } with
    Spec := { (sampleLB LoadBalancerStatus.empty).Spec with
      ExistingFloatingIP := some "10.0.0.1" } }

/-- The calls and writes of `reconcilePort` that come before the fetch by id: everything
but the fetch by id and a status patch that sets the external IP. -/
def Ev.beforePortFetch : Ev → Bool
  | .GetPortByID _ _ => false
  | .PatchLBStatus patch _ => patch.ExternalIP.isNone
  | _ => true

/-- The world of `reconcilePort` before the fetch by id, in a pass started on `lb0`: the
spec and the stored external IP are those of `lb0`, and so far there was no fetch by id and
no patch of the external IP. -/
def BeforePortFetch {σ : Type} (lb0 : LoadBalancer) (w : World σ) : Prop :=
  w.lb.Spec = lb0.Spec ∧ w.lb.Status.ExternalIP = lb0.Status.ExternalIP ∧
    ∀ ev ∈ w.trace, ev.beforePortFetch = true

/-- The calls `t` of the second half of `reconcilePort`, entered with the object `lb` and
left with the result `o` and the object `lb1`.  For an internal LoadBalancer and a fetched
port with a first fixed address, an error-free return leaves that address as
`status.externalIP`.  A patch of the external IP is issued only for an internal
LoadBalancer and only with a value that differs from the stored one; once accepted, the
result is requeue = true without error; and if `status.portID` was set the value is the
first fixed address of the fetched port.  If `status.portID` was set, an error-free return
comes after a fetch by id that answered. -/
def PortFetched (lb : LoadBalancer) (o : Option Ret) (lb1 : LoadBalancer) (t : List Ev) :
    Prop :=
  (∀ id p ip, Ev.GetPortByID id (.ok (some p)) ∈ t → p.FixedIPs.head? = some ip →
    lb.Spec.Options.InternalLB = true → ∀ q, o = some (q, none) →
      lb1.Status.ExternalIP = some ip) ∧
  (∀ patch r, Ev.PatchLBStatus patch r ∈ t → patch.ExternalIP ≠ none →
    lb.Spec.Options.InternalLB = true ∧ lb.Status.ExternalIP ≠ patch.ExternalIP ∧
    (r = none → o = some (true, none)) ∧
    (lb.Status.PortID ≠ none →
      ∃ id p, Ev.GetPortByID id (.ok (some p)) ∈ t ∧ p.FixedIPs.head? = patch.ExternalIP)) ∧
  (∀ q, o = some (q, none) → lb.Status.PortID ≠ none →
    ∃ id r, Ev.GetPortByID id (.ok r) ∈ t)

/-- The result `o` and the world `w` left by a pass of `reconcilePort` started on `lb0`; the
statement of `PortFetched` for the whole trace, the port id being recorded before the
second half is entered. -/
def AfterPortFetch {σ : Type} (lb0 : LoadBalancer) (o : Option Ret) (w : World σ) : Prop :=
  (∀ id p ip, Ev.GetPortByID id (.ok (some p)) ∈ w.trace → p.FixedIPs.head? = some ip →
    lb0.Spec.Options.InternalLB = true → ∀ q, o = some (q, none) →
      w.lb.Status.ExternalIP = some ip) ∧
  (∀ patch r, Ev.PatchLBStatus patch r ∈ w.trace → patch.ExternalIP ≠ none →
    lb0.Spec.Options.InternalLB = true ∧ lb0.Status.ExternalIP ≠ patch.ExternalIP ∧
    (r = none → o = some (true, none)) ∧
    ∃ id p, Ev.GetPortByID id (.ok (some p)) ∈ w.trace ∧
      p.FixedIPs.head? = patch.ExternalIP) ∧
  (∀ q, o = some (q, none) → ∃ id r, Ev.GetPortByID id (.ok r) ∈ w.trace)

/-- The pairing of the floating IP fields of a status: the id is set only if the name is. -/
def LoadBalancerStatus.floatingPaired (st : LoadBalancerStatus) : Prop :=
  st.FloatingID ≠ none → st.FloatingName ≠ none

/-- The pairing of the port fields of a status: the id is set only if the name is. -/
def LoadBalancerStatus.portPaired (st : LoadBalancerStatus) : Prop :=
  st.PortID ≠ none → st.PortName ≠ none

/-- The pairing of the security group fields of a status: the id is set only if the name
is. -/
def LoadBalancerStatus.secGroupPaired (st : LoadBalancerStatus) : Prop :=
  st.SecurityGroupID ≠ none → st.SecurityGroupName ≠ none

/-- The status pairing invariant: in each of the three pairs the id is set only if the name
is. -/
def LoadBalancerStatus.paired (st : LoadBalancerStatus) : Prop :=
  st.floatingPaired ∧ st.portPaired ∧ st.secGroupPaired

/-- The names of a status are those of the request `N`: each of `securityGroupName`,
`floatingName` and `portName` is unset or equal to `N`. -/
def Named (N : String) (st : LoadBalancerStatus) : Prop :=
  (st.SecurityGroupName = none ∨ st.SecurityGroupName = some N) ∧
  (st.FloatingName = none ∨ st.FloatingName = some N) ∧
  (st.PortName = none ∨ st.PortName = some N)

/-- The calls that carry a resource name carry `N`: the lookups by name, the create calls
that take the name, and the listings by name; and a status patch sets a name only to `N`. -/
def Ev.usesName (N : String) : Ev → Bool
  | .GetSecGroupByName name _ => decide (name = N)
  | .CreateSecGroup name _ => decide (name = N)
  | .GroupList name _ => decide (name = N)
  | .GetFIPByName name _ => decide (name = N)
  | .FipList name _ => decide (name = N)
  | .GetPortByName name _ => decide (name = N)
  | .CreatePort name _ _ => decide (name = N)
  | .PortList name _ => decide (name = N)
  | .PatchLBStatus patch _ =>
    decide ((patch.SecurityGroupName = none ∨ patch.SecurityGroupName = some N) ∧
      (patch.FloatingName = none ∨ patch.FloatingName = some N) ∧
      (patch.PortName = none ∨ patch.PortName = some N))
  | _ => true

/-- A status patch sets a name only if the status of `lb0` does not hold that name. -/
def Ev.keepsNames (lb0 : LoadBalancer) : Ev → Bool
  | .PatchLBStatus patch _ =>
    decide ((patch.SecurityGroupName ≠ none → lb0.Status.SecurityGroupName = none) ∧
      (patch.FloatingName ≠ none → lb0.Status.FloatingName = none) ∧
      (patch.PortName ≠ none → lb0.Status.PortName = none))
  | _ => true

/-- The object `l` in a pass for the request named `N` that was started on `lb0`: the spec
is the one of `lb0`, the names are those of `N`, and, on the reconcile path (`k` set), a
name that `l` does not hold is not held by `lb0` either -- for the floating name only if
`lb0` is not internal. -/
def NamedLB (N : String) (lb0 : LoadBalancer) (k : Bool) (l : LoadBalancer) : Prop :=
  l.Spec = lb0.Spec ∧ Named N l.Status ∧
  (k = true → l.Status.SecurityGroupName = none → lb0.Status.SecurityGroupName = none) ∧
  (k = true → l.Status.PortName = none → lb0.Status.PortName = none) ∧
  (k = true → lb0.Spec.Options.InternalLB = false → l.Status.FloatingName = none →
    lb0.Status.FloatingName = none)

/-- The world `w` in a pass for the request named `N` that was started on `lb0`: the object
satisfies `NamedLB`, every call so far uses the name `N`, and every status patch so far
keeps the names of `lb0`. -/
def NamedBy {σ : Type} (N : String) (lb0 : LoadBalancer) (k : Bool) (w : World σ) : Prop :=
  NamedLB N lb0 k w.lb ∧ ∀ ev ∈ w.trace, (ev.usesName N && ev.keepsNames lb0) = true

/-- The status after the cloud reconciliation passes `passes` for the request `req`, started
on the status `st`: each pass runs `reconcileOpenStackIfNeeded` in the external state and on
the object of its entry, with the status left by the pass before it. -/
def statusAfter {σ : Type} (env : Env σ) (req : NamespacedName) :
    List (σ × LoadBalancer) → LoadBalancerStatus → LoadBalancerStatus
  | [], st => st
  | (ext, lb) :: rest, st =>
    statusAfter env req rest
      ((reconcileOpenStackIfNeeded env req).run
        (World.start ext { lb with Status := st })).2.lb.Status

/-! ## Stepping through a pass -/

namespace Pass

variable {σ ω ρ α β : Type}

@[simp] theorem bind_apply (m : Pass σ ω ρ α) (f : α → Pass σ ω ρ β) (kr : ρ → World σ → ω)
    (kp : World σ → ω) (k : β → World σ → ω) (w : World σ) :
    (m >>= f) kr kp k w = m kr kp (fun a w1 => f a kr kp k w1) w := rfl

@[simp] theorem pure_apply (a : α) (kr : ρ → World σ → ω) (kp : World σ → ω)
    (k : α → World σ → ω) (w : World σ) : (pure a : Pass σ ω ρ α) kr kp k w = k a w := rfl

@[simp] theorem exit_apply (r : ρ) (kr : ρ → World σ → ω) (kp : World σ → ω)
    (k : α → World σ → ω) (w : World σ) : (exit r : Pass σ ω ρ α) kr kp k w = kr r w := rfl

@[simp] theorem panic_apply (kr : ρ → World σ → ω) (kp : World σ → ω)
    (k : α → World σ → ω) (w : World σ) : (panic : Pass σ ω ρ α) kr kp k w = kp w := rfl

@[simp] theorem getLB_apply (kr : ρ → World σ → ω) (kp : World σ → ω)
    (k : LoadBalancer → World σ → ω) (w : World σ) :
    (getLB : Pass σ ω ρ LoadBalancer) kr kp k w = k w.lb w := rfl

@[simp] theorem modifyLB_apply (f : LoadBalancer → LoadBalancer) (kr : ρ → World σ → ω)
    (kp : World σ → ω) (k : Unit → World σ → ω) (w : World σ) :
    (modifyLB f : Pass σ ω ρ Unit) kr kp k w = k () ⟨w.ext, f w.lb, w.trace⟩ := rfl

@[simp] theorem read_apply (f : σ → α) (kr : ρ → World σ → ω) (kp : World σ → ω)
    (k : α → World σ → ω) (w : World σ) :
    (read f : Pass σ ω ρ α) kr kp k w = k (f w.ext) w := rfl

@[simp] theorem call_apply (f : σ → α × σ) (ev : α → Ev) (kr : ρ → World σ → ω)
    (kp : World σ → ω) (k : α → World σ → ω) (w : World σ) :
    (call f ev : Pass σ ω ρ α) kr kp k w =
      k (f w.ext).1 ⟨(f w.ext).2, w.lb, w.trace ++ [ev (f w.ext).1]⟩ := rfl

@[simp] theorem sub_apply {ρ1 : Type} (m : Pass σ ω ρ1 ρ1) (kr : ρ → World σ → ω)
    (kp : World σ → ω) (k : ρ1 → World σ → ω) (w : World σ) :
    (sub m : Pass σ ω ρ ρ1) kr kp k w = m k kp k w := rfl

@[simp] theorem orExit_none_apply (f : Err → ρ) (kr : ρ → World σ → ω) (kp : World σ → ω)
    (k : Unit → World σ → ω) (w : World σ) :
    (orExit none f : Pass σ ω ρ Unit) kr kp k w = k () w := rfl

@[simp] theorem orExit_some_apply (e : Err) (f : Err → ρ) (kr : ρ → World σ → ω)
    (kp : World σ → ω) (k : Unit → World σ → ω) (w : World σ) :
    (orExit (some e) f : Pass σ ω ρ Unit) kr kp k w = kr (f e) w := rfl

@[simp] theorem okOr_ok_apply (a : α) (f : Err → Pass σ ω ρ α) (kr : ρ → World σ → ω)
    (kp : World σ → ω) (k : α → World σ → ω) (w : World σ) :
    (okOr (.ok a) f) kr kp k w = k a w := rfl

@[simp] theorem okOr_fail_apply (e : Err) (f : Err → Pass σ ω ρ α) (kr : ρ → World σ → ω)
    (kp : World σ → ω) (k : α → World σ → ω) (w : World σ) :
    (okOr (.fail e) f) kr kp k w = f e kr kp k w := rfl

@[simp] theorem ifNotNil_some_apply (a : α) (f : α → Pass σ ω ρ β) (g : Pass σ ω ρ β)
    (kr : ρ → World σ → ω) (kp : World σ → ω) (k : β → World σ → ω) (w : World σ) :
    (ifNotNil (some a) f g) kr kp k w = f a kr kp k w := rfl

@[simp] theorem ifNotNil_none_apply (f : α → Pass σ ω ρ β) (g : Pass σ ω ρ β)
    (kr : ρ → World σ → ω) (kp : World σ → ω) (k : β → World σ → ω) (w : World σ) :
    (ifNotNil none f g) kr kp k w = g kr kp k w := rfl

@[simp] theorem deref_some_apply (a : α) (kr : ρ → World σ → ω) (kp : World σ → ω)
    (k : α → World σ → ω) (w : World σ) :
    (deref (some a) : Pass σ ω ρ α) kr kp k w = k a w := rfl

@[simp] theorem deref_none_apply (kr : ρ → World σ → ω) (kp : World σ → ω)
    (k : α → World σ → ω) (w : World σ) :
    (deref none : Pass σ ω ρ α) kr kp k w = kp w := rfl

theorem orExit_apply (err : Option Err) (f : Err → ρ) (kr : ρ → World σ → ω)
    (kp : World σ → ω) (k : Unit → World σ → ω) (w : World σ) :
    (orExit err f) kr kp k w =
      match err with
      | none => k () w
      | some e => kr (f e) w := by
  cases err <;> rfl

theorem okOr_apply (r : Reply α) (f : Err → Pass σ ω ρ α) (kr : ρ → World σ → ω)
    (kp : World σ → ω) (k : α → World σ → ω) (w : World σ) :
    (okOr r f) kr kp k w =
      match r with
      | .ok a => k a w
      | .fail e => f e kr kp k w := by
  cases r <;> rfl

theorem ifNotNil_apply (p : Option α) (f : α → Pass σ ω ρ β) (g : Pass σ ω ρ β)
    (kr : ρ → World σ → ω) (kp : World σ → ω) (k : β → World σ → ω) (w : World σ) :
    (ifNotNil p f g) kr kp k w =
      match p with
      | some a => f a kr kp k w
      | none => g kr kp k w := by
  cases p <;> rfl

theorem deref_apply (p : Option α) (kr : ρ → World σ → ω) (kp : World σ → ω)
    (k : α → World σ → ω) (w : World σ) :
    (deref p) kr kp k w =
      match p with
      | some a => k a w
      | none => kp w := by
  cases p <;> rfl

theorem invoke_apply {ρ1 : Type} (m : Pass σ (Option ρ1 × World σ) ρ1 ρ1)
    (kr : ρ → World σ → ω) (kp : World σ → ω) (k : ρ1 → World σ → ω) (w : World σ) :
    (invoke m : Pass σ ω ρ ρ1) kr kp k w =
      match m.run w with
      | (some r, w1) => k r w1
      | (none, w1) => kp w1 := rfl

theorem ite_apply (c : Prop) [Decidable c] (a b : Pass σ ω ρ α) (kr : ρ → World σ → ω)
    (kp : World σ → ω) (k : α → World σ → ω) (w : World σ) :
    (if c then a else b) kr kp k w = if c then a kr kp k w else b kr kp k w := by
  split <;> rfl

end Pass

section Stepping

variable {σ ω ρ : Type}

@[simp] theorem SendErrorAsEvent_apply (e : Err) (kr : ρ → World σ → ω) (kp : World σ → ω)
    (k : Option Err → World σ → ω) (w : World σ) :
    (SendErrorAsEvent e : Pass σ ω ρ (Option Err)) kr kp k w =
      k (some e) ⟨w.ext, w.lb, w.trace ++ [Ev.SendErrorAsEvent e]⟩ := rfl

end Stepping

section Theorems

variable {σ : Type}

/-! ## What the second halves do to the trace and to the status -/

/-- `reconcileSecGroupSync` only appends calls of its own kinds, and it leaves the object
behind `lb` alone unless it removes a status field. -/
theorem reconcileSecGroupSync_trace (env : Env σ) (req : NamespacedName)
    (create : Option SecGroup × Bool) (w : World σ) (out : Option Ret × World σ)
    (hout : reconcileSecGroupSync env req create (fun r w1 => (some r, w1)) (fun w1 => (none, w1)) (fun r w1 => (some r, w1)) w = out) :
    ∃ t, out.2.trace = w.trace ++ t ∧ (∀ ev ∈ t, ev.isSecGroupSync = true) ∧
      ((∀ k r, Ev.RemoveFromLBStatus k r ∉ t) → out.2.lb = w.lb) := by
  simp only [reconcileSecGroupSync, Pass.bind_apply, Pass.call_apply,
    Pass.getLB_apply] at hout
  repeat' (
    (first
      | rw [Pass.orExit_apply] at hout
      | rw [Pass.okOr_apply] at hout
      | rw [Pass.ifNotNil_apply] at hout
      | rw [Pass.deref_apply] at hout
      | rw [Pass.ite_apply] at hout) ;
    split at hout <;>
    try simp only [*, PatchLBStatus, RemoveFromLBStatus, exitSendErrorAsEvent,
      LoadBalancerStatus.merge, LoadBalancerStatus.empty, Pass.bind_apply, Pass.pure_apply,
      Pass.exit_apply, Pass.panic_apply, Pass.getLB_apply, Pass.modifyLB_apply, Pass.call_apply,
      Pass.sub_apply, Pass.orExit_none_apply, Pass.orExit_some_apply, Pass.okOr_ok_apply,
      Pass.okOr_fail_apply, Pass.ifNotNil_some_apply, Pass.ifNotNil_none_apply,
      Pass.deref_some_apply, Pass.deref_none_apply, SendErrorAsEvent_apply, reduceIte,
      reduceCtorEq, Option.isSome_some, Option.isSome_none, Bool.false_eq_true, ne_eq,
      not_false_eq_true, not_true_eq_false, or_self, and_self, true_and, and_true, false_and,
      and_false, true_or, or_true, false_or, or_false, List.append_assoc, List.nil_append,
      List.cons_append] at hout)
  all_goals subst hout
  all_goals first
    | refine ⟨_, rfl, ?_, ?_⟩
    | refine ⟨[], (List.append_nil _).symm, ?_, ?_⟩
  all_goals first
    | (simp [Ev.isSecGroupSync, LoadBalancerStatus.merge, LoadBalancerStatus.empty]; done)
    | simp_all [Ev.isSecGroupSync, LoadBalancerStatus.merge, LoadBalancerStatus.empty]

set_option maxHeartbeats 1000000 in
/-- `reconcilePortSync` only appends calls of its own kinds, and it never writes a port id. -/
theorem reconcilePortSync_trace (env : Env σ) (created : Option Port × Bool)
    (w : World σ) (out : Option Ret × World σ)
    (hout : reconcilePortSync env created (fun r w1 => (some r, w1)) (fun w1 => (none, w1)) (fun r w1 => (some r, w1)) w = out) :
    ∃ t, out.2.trace = w.trace ++ t ∧ (∀ ev ∈ t, ev.isPortSync = true) ∧
      ((∀ k r, Ev.RemoveFromLBStatus k r ∉ t) →
        out.2.lb.Status.PortID = w.lb.Status.PortID) := by
  simp only [reconcilePortSync, Pass.bind_apply, Pass.call_apply,
    Pass.getLB_apply] at hout
  repeat' (
    (first
      | rw [Pass.orExit_apply] at hout
      | rw [Pass.okOr_apply] at hout
      | rw [Pass.ifNotNil_apply] at hout
      | rw [Pass.deref_apply] at hout
      | rw [Pass.ite_apply] at hout) ;
    split at hout <;>
    try simp only [*, PatchLBStatus, RemoveFromLBStatus, exitSendErrorAsEvent,
      LoadBalancerStatus.merge, LoadBalancerStatus.empty, Pass.bind_apply, Pass.pure_apply,
      Pass.exit_apply, Pass.panic_apply, Pass.getLB_apply, Pass.modifyLB_apply, Pass.call_apply,
      Pass.sub_apply, Pass.orExit_none_apply, Pass.orExit_some_apply, Pass.okOr_ok_apply,
      Pass.okOr_fail_apply, Pass.ifNotNil_some_apply, Pass.ifNotNil_none_apply,
      Pass.deref_some_apply, Pass.deref_none_apply, SendErrorAsEvent_apply, reduceIte,
      reduceCtorEq, Option.isSome_some, Option.isSome_none, Bool.false_eq_true, ne_eq,
      not_false_eq_true, not_true_eq_false, or_self, and_self, true_and, and_true, false_and,
      and_false, true_or, or_true, false_or, or_false, List.append_assoc, List.nil_append,
      List.cons_append] at hout)
  all_goals subst hout
  all_goals first
    | refine ⟨_, rfl, ?_, ?_⟩
    | refine ⟨[], (List.append_nil _).symm, ?_, ?_⟩
  all_goals first
    | (simp [Ev.isPortSync, LoadBalancerStatus.merge, LoadBalancerStatus.empty]; done)
    | simp_all [Ev.isPortSync, LoadBalancerStatus.merge, LoadBalancerStatus.empty]

/-- `reconcileFIPSync` only appends calls of its own kinds, and it never writes a floating
IP id. -/
theorem reconcileFIPSync_trace (env : Env σ) (requeue : Bool)
    (w : World σ) (out : Option Ret × World σ)
    (hout : reconcileFIPSync env requeue (fun r w1 => (some r, w1)) (fun w1 => (none, w1)) (fun r w1 => (some r, w1)) w = out) :
    ∃ t, out.2.trace = w.trace ++ t ∧ (∀ ev ∈ t, ev.isFIPSync = true) ∧
      ((∀ k r, Ev.RemoveFromLBStatus k r ∉ t) →
        out.2.lb.Status.FloatingID = w.lb.Status.FloatingID) := by
  simp only [reconcileFIPSync, Pass.bind_apply, Pass.call_apply,
    Pass.getLB_apply] at hout
  repeat' (
    (first
      | rw [Pass.orExit_apply] at hout
      | rw [Pass.okOr_apply] at hout
      | rw [Pass.ifNotNil_apply] at hout
      | rw [Pass.deref_apply] at hout
      | rw [Pass.ite_apply] at hout) ;
    split at hout <;>
    try simp only [*, PatchLBStatus, RemoveFromLBStatus, exitSendErrorAsEvent,
      LoadBalancerStatus.merge, LoadBalancerStatus.empty, Pass.bind_apply, Pass.pure_apply,
      Pass.exit_apply, Pass.panic_apply, Pass.getLB_apply, Pass.modifyLB_apply, Pass.call_apply,
      Pass.sub_apply, Pass.orExit_none_apply, Pass.orExit_some_apply, Pass.okOr_ok_apply,
      Pass.okOr_fail_apply, Pass.ifNotNil_some_apply, Pass.ifNotNil_none_apply,
      Pass.deref_some_apply, Pass.deref_none_apply, SendErrorAsEvent_apply, reduceIte,
      reduceCtorEq, Option.isSome_some, Option.isSome_none, Bool.false_eq_true, ne_eq,
      not_false_eq_true, not_true_eq_false, or_self, and_self, true_and, and_true, false_and,
      and_false, true_or, or_true, false_or, or_false, List.append_assoc, List.nil_append,
      List.cons_append] at hout)
  all_goals subst hout
  all_goals first
    | refine ⟨_, rfl, ?_, ?_⟩
    | refine ⟨[], (List.append_nil _).symm, ?_, ?_⟩
  all_goals first
    | (simp [Ev.isFIPSync, LoadBalancerStatus.merge, LoadBalancerStatus.empty]; done)
    | simp_all [Ev.isFIPSync, LoadBalancerStatus.merge, LoadBalancerStatus.empty]

/-! ## Security group: self-heal -/

/-- C8.  Self-heal in `reconcileSecGroup`.  Take a LoadBalancer whose
`status.securityGroupID` is set to `id`, clients that are handed out, a provider that
answers the fetch by that id with the error `e`, and, if `status.security_group_name` is
not set yet, a store that accepts the patch that writes the request name there.  The pass
fetches by that id.  If `e` is a not-found error (`ErrDefault404` or
`ErrResourceNotFound`) the pass makes no rule-reconciliation call, and its last call is the
removal of `security_group_id` from the status, the only removal of the pass: when the store
accepts it, the pass returns requeue = true with no error and leaves the status equal to
the incoming one with `security_group_id` removed (`security_group_name` stays what it was,
or is the request name if it had not been set); when the store refuses it, the pass returns
that error and the id is kept.  For any other error `e` the pass removes nothing, returns
`e` with requeue = false, and the id is kept. -/
theorem reconcileSecGroup_self_heal (env : Env σ) (req : NamespacedName) (ext : σ)
    (lb : LoadBalancer) (id : String) (e : Err) (out : Option Ret × World σ)
    (hout : (reconcileSecGroup env req).run (World.start ext lb) = out)
    (hid : lb.Status.SecurityGroupID = some id)
    (hgc : ∀ s, (env.GroupClient s).1 = none) (hrc : ∀ s, (env.RuleClient s).1 = none)
    (hname : lb.Status.SecurityGroupName = none → ∀ s,
      (env.PatchLBStatus
        { LoadBalancerStatus.empty with SecurityGroupName := some req.asString } s).1 = none)
    (hfetch : ∀ s, (env.GetSecGroupByID id s).1 = .fail e) :
    Ev.GetSecGroupByID id (.fail e) ∈ out.2.trace ∧
    (e.isGophercloudNotFound = true →
      (∀ g d r, Ev.DeleteUnusedSecGroupRulesFromSecGroup g d r ∉ out.2.trace) ∧
      (∀ n g d r, Ev.CreateNonExistingSecGroupRules n g d r ∉ out.2.trace) ∧
      ∃ r, out.2.trace.getLast? = some (Ev.RemoveFromLBStatus "security_group_id" r) ∧
        (∀ k r1, Ev.RemoveFromLBStatus k r1 ∈ out.2.trace →
          k = "security_group_id" ∧ r1 = r) ∧
        (r = none →
          out.1 = some (true, none) ∧
          out.2.lb.Status =
            { lb.Status with
              SecurityGroupID := none
              SecurityGroupName :=
                some (lb.Status.SecurityGroupName.getD req.asString) }) ∧
        (∀ e1, r = some e1 →
          out.1 = some (false, some e1) ∧ out.2.lb.Status.SecurityGroupID = some id)) ∧
    (e.isGophercloudNotFound = false →
      (∀ k r, Ev.RemoveFromLBStatus k r ∉ out.2.trace) ∧
      out.1 = some (false, some e) ∧ out.2.lb.Status.SecurityGroupID = some id) := by
  cases hn : lb.Status.SecurityGroupName <;>
    simp only [hn, Option.getD_none, Option.getD_some, LoadBalancerStatus.empty, true_implies,
      reduceCtorEq, false_implies] at hname ⊢
  all_goals (
    simp only [reconcileSecGroup, reconcileSecGroupSync, Pass.run, World.start, Pass.bind_apply, Pass.call_apply,
      Pass.getLB_apply] at hout
    repeat' (
      (first
        | rw [Pass.orExit_apply] at hout
        | rw [Pass.okOr_apply] at hout
        | rw [Pass.ifNotNil_apply] at hout
        | rw [Pass.deref_apply] at hout
        | rw [Pass.ite_apply] at hout) ;
      split at hout <;>
      try simp only [*, PatchLBStatus, RemoveFromLBStatus, exitSendErrorAsEvent,
        LoadBalancerStatus.merge, LoadBalancerStatus.empty, Pass.bind_apply, Pass.pure_apply,
        Pass.exit_apply, Pass.panic_apply, Pass.getLB_apply, Pass.modifyLB_apply, Pass.call_apply,
        Pass.sub_apply, Pass.orExit_none_apply, Pass.orExit_some_apply, Pass.okOr_ok_apply,
        Pass.okOr_fail_apply, Pass.ifNotNil_some_apply, Pass.ifNotNil_none_apply,
        Pass.deref_some_apply, Pass.deref_none_apply, SendErrorAsEvent_apply, reduceIte,
        reduceCtorEq, Option.isSome_some, Option.isSome_none, Bool.false_eq_true, ne_eq,
        not_false_eq_true, not_true_eq_false, or_self, and_self, true_and, and_true, false_and,
        and_false, true_or, or_true, false_or, or_false, List.append_assoc, List.nil_append,
        List.cons_append] at hout)
  )
  all_goals subst hout
  all_goals simp_all [LoadBalancerStatus.remove]

/-- Witness for C8: the security group `sg-1` recorded in the status is gone from the
provider; the pass removes the id and asks for a requeue. -/
theorem reconcileSecGroup_self_heal_witness :
    ((reconcileSecGroup secGroupGoneEnv sampleReq).run
        (World.start () secGroupRecordedLB)).1 = some (true, none) ∧
    ((reconcileSecGroup secGroupGoneEnv sampleReq).run
        (World.start () secGroupRecordedLB)).2.lb.Status =
      { LoadBalancerStatus.empty with SecurityGroupName := some "testns/lb" } := by
  obtain ⟨r, hlast, -, hok, -⟩ :=
    ((reconcileSecGroup_self_heal secGroupGoneEnv sampleReq () secGroupRecordedLB "sg-1"
      Err.ErrDefault404 _ rfl rfl (fun _ => rfl) (fun _ => rfl) (fun _ _ => rfl)
      (fun _ => rfl)).2.1 rfl).2.2
  have hr : r = none := by
    have ht : ((reconcileSecGroup secGroupGoneEnv sampleReq).run
        (World.start () secGroupRecordedLB)).2.trace.getLast? =
        some (Ev.RemoveFromLBStatus "security_group_id" none) := by decide
    rw [ht] at hlast
    simpa using hlast.symm
  exact hok hr

/-! ## Port: self-heal -/

/-- C9, as stated, fails: with port `p-1` recorded and the fetch by id answering
`ErrDefault404`, `reconcilePort` removes `portID` and keeps `portName`, but it returns
requeue = true together with the not-found error, not with a nil error. -/
theorem reconcilePort_self_heal_returns_error :
    ((reconcilePort portGoneEnv sampleReq).run (World.start () portRecordedLB)).1 =
      some (true, some Err.ErrDefault404) ∧
    ((reconcilePort portGoneEnv sampleReq).run (World.start () portRecordedLB)).1 ≠
      some (true, none) ∧
    ((reconcilePort portGoneEnv sampleReq).run (World.start () portRecordedLB)).2.lb.Status =
      { LoadBalancerStatus.empty with PortName := some "testns/lb" } := by
  refine ⟨rfl, by decide, rfl⟩

/-- C9, amended.  Take a LoadBalancer whose `status.portID` is set to `id`, a port client
that is handed out, a provider that answers the fetch by that id with a not-found error
`e`, and, if `status.portName` is not set yet, a store that accepts the patch that writes
the request name there.  The pass of `reconcilePort` fetches by that
id and then removes `portID` from the status, the only removal of the pass.  When the store
accepts the removal, the pass leaves the status equal to the incoming one with `portID`
removed (`portName` stays what it was, or is the request name if it had not been set),
records `e` as an event, and returns requeue = true together with the error `e`; when the
store refuses it, the pass returns that error with requeue = false. -/
theorem reconcilePort_self_heal (env : Env σ) (req : NamespacedName) (ext : σ)
    (lb : LoadBalancer) (id : String) (e : Err) (out : Option Ret × World σ)
    (hout : (reconcilePort env req).run (World.start ext lb) = out)
    (hid : lb.Status.PortID = some id)
    (hpc : ∀ s, (env.PortClient s).1 = none)
    (hname : lb.Status.PortName = none → ∀ s,
      (env.PatchLBStatus
        { LoadBalancerStatus.empty with PortName := some req.asString } s).1 = none)
    (hfetch : ∀ s, (env.GetPortByID id s).1 = .fail e)
    (he : e.isGophercloudNotFound = true) :
    Ev.GetPortByID id (.fail e) ∈ out.2.trace ∧
    ∃ r, Ev.RemoveFromLBStatus "portID" r ∈ out.2.trace ∧
      (∀ k r1, Ev.RemoveFromLBStatus k r1 ∈ out.2.trace → k = "portID" ∧ r1 = r) ∧
      (r = none →
        out.1 = some (true, some e) ∧
        out.2.trace.getLast? = some (Ev.SendErrorAsEvent e) ∧
        out.2.lb.Status =
          { lb.Status with
            PortID := none
            PortName := some (lb.Status.PortName.getD req.asString) }) ∧
      (∀ e1, r = some e1 →
        out.1 = some (false, some e1) ∧ out.2.lb.Status.PortID = some id) := by
  cases hn : lb.Status.PortName <;>
    simp only [hn, Option.getD_none, Option.getD_some, LoadBalancerStatus.empty, true_implies,
      reduceCtorEq, false_implies] at hname ⊢
  all_goals (
    simp only [reconcilePort, reconcilePortSync, Pass.run, World.start, Pass.bind_apply, Pass.call_apply,
      Pass.getLB_apply] at hout
    repeat' (
      (first
        | rw [Pass.orExit_apply] at hout
        | rw [Pass.okOr_apply] at hout
        | rw [Pass.ifNotNil_apply] at hout
        | rw [Pass.deref_apply] at hout
        | rw [Pass.ite_apply] at hout) ;
      split at hout <;>
      try simp only [*, PatchLBStatus, RemoveFromLBStatus, exitSendErrorAsEvent,
        LoadBalancerStatus.merge, LoadBalancerStatus.empty, Pass.bind_apply, Pass.pure_apply,
        Pass.exit_apply, Pass.panic_apply, Pass.getLB_apply, Pass.modifyLB_apply, Pass.call_apply,
        Pass.sub_apply, Pass.orExit_none_apply, Pass.orExit_some_apply, Pass.okOr_ok_apply,
        Pass.okOr_fail_apply, Pass.ifNotNil_some_apply, Pass.ifNotNil_none_apply,
        Pass.deref_some_apply, Pass.deref_none_apply, SendErrorAsEvent_apply, reduceIte,
        reduceCtorEq, Option.isSome_some, Option.isSome_none, Bool.false_eq_true, ne_eq,
        not_false_eq_true, not_true_eq_false, or_self, and_self, true_and, and_true, false_and,
        and_false, true_or, or_true, false_or, or_false, List.append_assoc, List.nil_append,
        List.cons_append] at hout)
  )
  all_goals subst hout
  all_goals simp_all [LoadBalancerStatus.remove]

/-- Witness for the amended C9: the port `p-1` recorded in the status is gone from the
provider; the pass removes the id and returns requeue = true with the not-found error. -/
theorem reconcilePort_self_heal_witness :
    ((reconcilePort portGoneEnv sampleReq).run (World.start () portRecordedLB)).1 =
      some (true, some Err.ErrDefault404) ∧
    ((reconcilePort portGoneEnv sampleReq).run (World.start () portRecordedLB)).2.lb.Status =
      { LoadBalancerStatus.empty with PortName := some "testns/lb" } := by
  obtain ⟨r, hmem, -, hok, -⟩ :=
    (reconcilePort_self_heal portGoneEnv sampleReq () portRecordedLB "p-1" Err.ErrDefault404
      _ rfl rfl (fun _ => rfl) (fun _ _ => rfl) (fun _ => rfl) rfl).2
  have hr : r = none := by
    have ht : ((reconcilePort portGoneEnv sampleReq).run
        (World.start () portRecordedLB)).2.trace =
        [Ev.PortClient none, Ev.GetPortByID "p-1" (.fail Err.ErrDefault404),
          Ev.RemoveFromLBStatus "portID" none, Ev.SendErrorAsEvent Err.ErrDefault404] := by
      decide
    rw [ht] at hmem
    simpa using hmem
  exact ⟨(hok hr).1, (hok hr).2.2⟩

/-! ## Floating IP: self-heal -/

/-- C10.  Take a LoadBalancer that is not internal and whose `status.floatingID` is set to
`id`, a floating IP client that is handed out, a provider that answers the fetch by that id
with a not-found error `e`, and, if `status.floatingName` is not set yet, a store that
accepts the patch that writes the request name there.  The pass of
`reconcileFIP` fetches by that id, and its last call is the removal of `floatingID` from the
status, the only removal of the pass.  When the store accepts the removal, the pass returns
requeue = true (together with the error `e`) and leaves the status equal to the incoming
one with `floatingID` removed; `floatingName` stays what it was, or is the request name if
it had not been set.  When the store refuses it, the pass returns that error with requeue =
false. -/
theorem reconcileFIP_self_heal (env : Env σ) (req : NamespacedName) (ext : σ)
    (lb : LoadBalancer) (id : String) (e : Err) (out : Option Ret × World σ)
    (hout : (reconcileFIP env req).run (World.start ext lb) = out)
    (hint : lb.Spec.Options.InternalLB = false)
    (hid : lb.Status.FloatingID = some id)
    (hfc : ∀ s, (env.FipClient s).1 = none)
    (hname : lb.Status.FloatingName = none → ∀ s,
      (env.PatchLBStatus
        { LoadBalancerStatus.empty with FloatingName := some req.asString } s).1 = none)
    (hfetch : ∀ s, (env.GetFIPByID id s).1 = .fail e)
    (he : e.isGophercloudNotFound = true) :
    Ev.GetFIPByID id (.fail e) ∈ out.2.trace ∧
    ∃ r, out.2.trace.getLast? = some (Ev.RemoveFromLBStatus "floatingID" r) ∧
      (∀ k r1, Ev.RemoveFromLBStatus k r1 ∈ out.2.trace → k = "floatingID" ∧ r1 = r) ∧
      (r = none →
        out.1 = some (true, some e) ∧
        out.2.lb.Status =
          { lb.Status with
            FloatingID := none
            FloatingName := some (lb.Status.FloatingName.getD req.asString) }) ∧
      (∀ e1, r = some e1 →
        out.1 = some (false, some e1) ∧ out.2.lb.Status.FloatingID = some id) := by
  cases hn : lb.Status.FloatingName <;>
    simp only [hn, Option.getD_none, Option.getD_some, LoadBalancerStatus.empty, true_implies,
      reduceCtorEq, false_implies] at hname ⊢
  all_goals (
    simp only [reconcileFIP, reconcileFIPSync, Pass.run, World.start, Pass.bind_apply,
      Pass.call_apply, Pass.getLB_apply] at hout
    simp [hint] at hout
    repeat' (
      (first
        | rw [Pass.orExit_apply] at hout
        | rw [Pass.okOr_apply] at hout
        | rw [Pass.ifNotNil_apply] at hout
        | rw [Pass.deref_apply] at hout
        | rw [Pass.ite_apply] at hout) ;
      split at hout <;>
      try simp only [*, PatchLBStatus, RemoveFromLBStatus, exitSendErrorAsEvent,
        LoadBalancerStatus.merge, LoadBalancerStatus.empty, Pass.bind_apply, Pass.pure_apply,
        Pass.exit_apply, Pass.panic_apply, Pass.getLB_apply, Pass.modifyLB_apply, Pass.call_apply,
        Pass.sub_apply, Pass.orExit_none_apply, Pass.orExit_some_apply, Pass.okOr_ok_apply,
        Pass.okOr_fail_apply, Pass.ifNotNil_some_apply, Pass.ifNotNil_none_apply,
        Pass.deref_some_apply, Pass.deref_none_apply, SendErrorAsEvent_apply, reduceIte,
        reduceCtorEq, Option.isSome_some, Option.isSome_none, Bool.false_eq_true, ne_eq,
        not_false_eq_true, not_true_eq_false, or_self, and_self, true_and, and_true, false_and,
        and_false, true_or, or_true, false_or, or_false, List.append_assoc, List.nil_append,
        List.cons_append] at hout)
  )
  all_goals subst hout
  all_goals simp_all [LoadBalancerStatus.remove]

/-- Witness for C10: the floating IP `fip-1` recorded in the status is gone from the
provider; the pass removes the id and returns requeue = true. -/
theorem reconcileFIP_self_heal_witness :
    ((reconcileFIP fipGoneEnv sampleReq).run (World.start () fipRecordedLB)).1 =
      some (true, some Err.ErrDefault404) ∧
    ((reconcileFIP fipGoneEnv sampleReq).run (World.start () fipRecordedLB)).2.lb.Status =
      { LoadBalancerStatus.empty with FloatingName := some "testns/lb" } := by
  obtain ⟨r, hlast, -, hok, -⟩ :=
    (reconcileFIP_self_heal fipGoneEnv sampleReq () fipRecordedLB "fip-1" Err.ErrDefault404
      _ rfl rfl rfl (fun _ => rfl) (fun _ _ => rfl) (fun _ => rfl) rfl).2
  have hr : r = none := by
    have ht : ((reconcileFIP fipGoneEnv sampleReq).run
        (World.start () fipRecordedLB)).2.trace.getLast? =
        some (Ev.RemoveFromLBStatus "floatingID" none) := by decide
    rw [ht] at hlast
    simpa using hlast.symm
  exact hok hr

/-! ## Integrity violation: a create call answers an empty id -/

/-- `reconcileSecGroup`: a created security group with an empty id is an error and no id is
written. -/
theorem reconcileSecGroup_empty_id (env : Env σ) (req : NamespacedName) (ext : σ)
    (lb : LoadBalancer) (out : Option Ret × World σ)
    (hout : (reconcileSecGroup env req).run (World.start ext lb) = out)
    (n : String) (g : SecGroup) (hcreate : Ev.CreateSecGroup n (.ok g) ∈ out.2.trace)
    (hempty : g.ID = "") :
    out.1 = some (false, some Err.ErrSecGroupIDEmpty) ∧
    (∀ patch r, Ev.PatchLBStatus patch r ∈ out.2.trace → patch.SecurityGroupID = none) ∧
    out.2.lb.Status.SecurityGroupID = none := by
  simp only [reconcileSecGroup, Pass.run, World.start, Pass.bind_apply, Pass.call_apply,
    Pass.getLB_apply] at hout
  repeat' (
    (first
      | rw [Pass.orExit_apply] at hout
      | rw [Pass.okOr_apply] at hout
      | rw [Pass.ifNotNil_apply] at hout
      | rw [Pass.deref_apply] at hout
      | rw [Pass.ite_apply] at hout) ;
    split at hout <;>
    try simp only [*, PatchLBStatus, RemoveFromLBStatus, exitSendErrorAsEvent,
      LoadBalancerStatus.merge, LoadBalancerStatus.empty, Pass.bind_apply, Pass.pure_apply,
      Pass.exit_apply, Pass.panic_apply, Pass.getLB_apply, Pass.modifyLB_apply, Pass.call_apply,
      Pass.sub_apply, Pass.orExit_none_apply, Pass.orExit_some_apply, Pass.okOr_ok_apply,
      Pass.okOr_fail_apply, Pass.ifNotNil_some_apply, Pass.ifNotNil_none_apply,
      Pass.deref_some_apply, Pass.deref_none_apply, SendErrorAsEvent_apply, reduceIte,
      reduceCtorEq, Option.isSome_some, Option.isSome_none, Bool.false_eq_true, ne_eq,
      not_false_eq_true, not_true_eq_false, or_self, and_self, true_and, and_true, false_and,
      and_false, true_or, or_true, false_or, or_false, List.append_assoc, List.nil_append,
      List.cons_append] at hout)
  all_goals first
    | (obtain ⟨t, ht, hk, -⟩ := reconcileSecGroupSync_trace _ _ _ _ _ hout
       rw [ht, List.mem_append] at hcreate
       rcases hcreate with h | h
       · first
         | (simp at h; done)
         | (simp at h; simp_all; done)
       · exact absurd (hk _ h) (by simp [Ev.isSecGroupSync]))
    | (subst hout; simp at hcreate; done)
    | (subst hout; simp at hcreate; simp_all; done)

/-- `reconcilePort`: a created port with an empty id is an error and no id is written. -/
theorem reconcilePort_empty_id (env : Env σ) (req : NamespacedName) (ext : σ)
    (lb : LoadBalancer) (out : Option Ret × World σ)
    (hout : (reconcilePort env req).run (World.start ext lb) = out)
    (n net : String) (p : Port) (hcreate : Ev.CreatePort n net (.ok p) ∈ out.2.trace)
    (hempty : p.ID = "") :
    out.1 = some (false, some Err.ErrPortIDEmpty) ∧
    (∀ patch r, Ev.PatchLBStatus patch r ∈ out.2.trace → patch.PortID = none) ∧
    out.2.lb.Status.PortID = none := by
  simp only [reconcilePort, Pass.run, World.start, Pass.bind_apply, Pass.call_apply,
    Pass.getLB_apply] at hout
  repeat' (
    (first
      | rw [Pass.orExit_apply] at hout
      | rw [Pass.okOr_apply] at hout
      | rw [Pass.ifNotNil_apply] at hout
      | rw [Pass.deref_apply] at hout
      | rw [Pass.ite_apply] at hout) ;
    split at hout <;>
    try simp only [*, PatchLBStatus, RemoveFromLBStatus, exitSendErrorAsEvent,
      LoadBalancerStatus.merge, LoadBalancerStatus.empty, Pass.bind_apply, Pass.pure_apply,
      Pass.exit_apply, Pass.panic_apply, Pass.getLB_apply, Pass.modifyLB_apply, Pass.call_apply,
      Pass.sub_apply, Pass.orExit_none_apply, Pass.orExit_some_apply, Pass.okOr_ok_apply,
      Pass.okOr_fail_apply, Pass.ifNotNil_some_apply, Pass.ifNotNil_none_apply,
      Pass.deref_some_apply, Pass.deref_none_apply, SendErrorAsEvent_apply, reduceIte,
      reduceCtorEq, Option.isSome_some, Option.isSome_none, Bool.false_eq_true, ne_eq,
      not_false_eq_true, not_true_eq_false, or_self, and_self, true_and, and_true, false_and,
      and_false, true_or, or_true, false_or, or_false, List.append_assoc, List.nil_append,
      List.cons_append] at hout)
  all_goals first
    | (obtain ⟨t, ht, hk, -⟩ := reconcilePortSync_trace _ _ _ _ hout
       rw [ht, List.mem_append] at hcreate
       rcases hcreate with h | h
       · first
         | (simp at h; done)
         | (simp at h; simp_all; done)
       · exact absurd (hk _ h) (by simp [Ev.isPortSync]))
    | (subst hout; simp at hcreate; done)
    | (subst hout; simp at hcreate; simp_all; done)

/-- `reconcileFIP` with `assignOrCreateFIP`: a created floating IP with an empty id is an
error and no id is written. -/
theorem reconcileFIP_empty_id (env : Env σ) (req : NamespacedName) (ext : σ)
    (lb : LoadBalancer) (out : Option Ret × World σ)
    (hout : (reconcileFIP env req).run (World.start ext lb) = out)
    (hint : lb.Spec.Options.InternalLB = false)
    (fip : FloatingIP) (hcreate : Ev.CreateFIP (.ok fip) ∈ out.2.trace)
    (hempty : fip.ID = "") :
    out.1 = some (false, some Err.ErrFIPIDEmpty) ∧
    (∀ patch r, Ev.PatchLBStatus patch r ∈ out.2.trace → patch.FloatingID = none) ∧
    out.2.lb.Status.FloatingID = none := by
  simp only [reconcileFIP, Pass.run, World.start, Pass.bind_apply, Pass.call_apply,
    Pass.getLB_apply] at hout
  simp only [hint, Bool.false_eq_true, reduceIte, Pass.pure_apply] at hout
  repeat' (
    (first
      | rw [Pass.orExit_apply] at hout
      | rw [Pass.okOr_apply] at hout
      | rw [Pass.ifNotNil_apply] at hout
      | rw [Pass.deref_apply] at hout
      | rw [Pass.ite_apply] at hout) ;
    split at hout <;>
    try simp only [*, PatchLBStatus, RemoveFromLBStatus, exitSendErrorAsEvent, assignOrCreateFIP,
      LoadBalancerStatus.merge, LoadBalancerStatus.empty, Pass.bind_apply, Pass.pure_apply,
      Pass.exit_apply, Pass.panic_apply, Pass.getLB_apply, Pass.modifyLB_apply, Pass.call_apply,
      Pass.sub_apply, Pass.orExit_none_apply, Pass.orExit_some_apply, Pass.okOr_ok_apply,
      Pass.okOr_fail_apply, Pass.ifNotNil_some_apply, Pass.ifNotNil_none_apply,
      Pass.deref_some_apply, Pass.deref_none_apply, SendErrorAsEvent_apply, reduceIte,
      reduceCtorEq, Option.isSome_some, Option.isSome_none, Bool.false_eq_true, ne_eq,
      not_false_eq_true, not_true_eq_false, or_self, and_self, true_and, and_true, false_and,
      and_false, true_or, or_true, false_or, or_false, List.append_assoc, List.nil_append,
      List.cons_append] at hout)
  all_goals first
    | (obtain ⟨t, ht, hk, -⟩ := reconcileFIPSync_trace _ _ _ _ hout
       rw [ht, List.mem_append] at hcreate
       rcases hcreate with h | h
       · first
         | (simp at h; done)
         | (simp at h; simp_all; done)
       · exact absurd (hk _ h) (by simp [Ev.isFIPSync]))
    | (subst hout; simp at hcreate; done)
    | (subst hout; simp at hcreate; simp_all; done)

/-- C7.  Integrity violation.  In a pass of `reconcileSecGroup`, of `reconcilePort`, or of
`reconcileFIP` for a LoadBalancer that is not internal, if the create call of that resource
succeeded but answered a record with an empty id, the pass returns the error
`ErrSecGroupIDEmpty`, `ErrPortIDEmpty`, `ErrFIPIDEmpty` respectively (with requeue = false),
no status patch of the pass carries an id for that resource, and the id is unset in the
status the pass leaves. -/
theorem create_with_empty_id_is_an_error (env : Env σ) (req : NamespacedName) (ext : σ)
    (lb : LoadBalancer) :
    (∀ n g, Ev.CreateSecGroup n (.ok g) ∈
        ((reconcileSecGroup env req).run (World.start ext lb)).2.trace → g.ID = "" →
      ((reconcileSecGroup env req).run (World.start ext lb)).1 =
        some (false, some Err.ErrSecGroupIDEmpty) ∧
      (∀ patch r, Ev.PatchLBStatus patch r ∈
          ((reconcileSecGroup env req).run (World.start ext lb)).2.trace →
        patch.SecurityGroupID = none) ∧
      ((reconcileSecGroup env req).run (World.start ext lb)).2.lb.Status.SecurityGroupID =
        none) ∧
    (∀ n net p, Ev.CreatePort n net (.ok p) ∈
        ((reconcilePort env req).run (World.start ext lb)).2.trace → p.ID = "" →
      ((reconcilePort env req).run (World.start ext lb)).1 =
        some (false, some Err.ErrPortIDEmpty) ∧
      (∀ patch r, Ev.PatchLBStatus patch r ∈
          ((reconcilePort env req).run (World.start ext lb)).2.trace →
        patch.PortID = none) ∧
      ((reconcilePort env req).run (World.start ext lb)).2.lb.Status.PortID = none) ∧
    (lb.Spec.Options.InternalLB = false →
      ∀ fip, Ev.CreateFIP (.ok fip) ∈
        ((reconcileFIP env req).run (World.start ext lb)).2.trace → fip.ID = "" →
      ((reconcileFIP env req).run (World.start ext lb)).1 =
        some (false, some Err.ErrFIPIDEmpty) ∧
      (∀ patch r, Ev.PatchLBStatus patch r ∈
          ((reconcileFIP env req).run (World.start ext lb)).2.trace →
        patch.FloatingID = none) ∧
      ((reconcileFIP env req).run (World.start ext lb)).2.lb.Status.FloatingID = none) :=
  ⟨fun n g h he => reconcileSecGroup_empty_id env req ext lb _ rfl n g h he,
   fun n net p h he => reconcilePort_empty_id env req ext lb _ rfl n net p h he,
   fun hint fip h he => reconcileFIP_empty_id env req ext lb _ rfl hint fip h he⟩

/-- Witness for C7: the provider hands out a security group with an empty id. -/
theorem create_with_empty_id_is_an_error_witness :
    ((reconcileSecGroup emptyIdEnv sampleReq).run
        (World.start () (sampleLB LoadBalancerStatus.empty))).1 =
      some (false, some Err.ErrSecGroupIDEmpty) :=
  ((create_with_empty_id_is_an_error emptyIdEnv sampleReq ()
    (sampleLB LoadBalancerStatus.empty)).1 "testns/lb" ⟨"", "testns/lb"⟩ (by decide) rfl).1

/-! ## Adoption over duplication -/

/-- `reconcileSecGroup` adopts a security group found by name. -/
theorem reconcileSecGroup_adopts (env : Env σ) (req : NamespacedName) (ext : σ)
    (lb : LoadBalancer) (g : SecGroup) (res : Reply (Option SecGroup))
    (out : Option Ret × World σ)
    (hout : (reconcileSecGroup env req).run (World.start ext lb) = out)
    (hid : lb.Status.SecurityGroupID = none)
    (hgc : ∀ s, (env.GroupClient s).1 = none) (hrc : ∀ s, (env.RuleClient s).1 = none)
    (hname : lb.Status.SecurityGroupName = none → ∀ s,
      (env.PatchLBStatus
        { LoadBalancerStatus.empty with SecurityGroupName := some req.asString } s).1 = none)
    (hlookup : ∀ s,
      (env.GetSecGroupByName (lb.Status.SecurityGroupName.getD req.asString) s).1 =
        .ok (some g))
    (hfetch : ∀ s, (env.GetSecGroupByID g.ID s).1 = res) :
    Ev.GetSecGroupByName (lb.Status.SecurityGroupName.getD req.asString) (.ok (some g)) ∈
      out.2.trace ∧
    (∀ n1 r, Ev.CreateSecGroup n1 r ∉ out.2.trace) ∧
    ∃ r, Ev.PatchLBStatus { LoadBalancerStatus.empty with SecurityGroupID := some g.ID } r ∈
        out.2.trace ∧
      (∀ r1, Ev.PatchLBStatus { LoadBalancerStatus.empty with SecurityGroupID := some g.ID }
        r1 ∈ out.2.trace → r1 = r) ∧
      (∀ e, r = some e → out.1 = some (false, some e)) ∧
      (r = none → (∀ e, res = .fail e → e.isGophercloudNotFound = false) →
        out.2.lb.Status.SecurityGroupID = some g.ID) := by
  cases hn : lb.Status.SecurityGroupName <;>
    simp only [hn, Option.getD_none, Option.getD_some, LoadBalancerStatus.empty, true_implies,
      reduceCtorEq, false_implies] at hlookup hname ⊢
  all_goals (
    simp only [reconcileSecGroup, reconcileSecGroupSync, Pass.run, World.start, Pass.bind_apply, Pass.call_apply,
      Pass.getLB_apply] at hout
    repeat' (
      (first
        | rw [Pass.orExit_apply] at hout
        | rw [Pass.okOr_apply] at hout
        | rw [Pass.ifNotNil_apply] at hout
        | rw [Pass.deref_apply] at hout
        | rw [Pass.ite_apply] at hout) ;
      split at hout <;>
      try simp only [*, PatchLBStatus, RemoveFromLBStatus, exitSendErrorAsEvent,
        LoadBalancerStatus.merge, LoadBalancerStatus.empty, Pass.bind_apply, Pass.pure_apply,
        Pass.exit_apply, Pass.panic_apply, Pass.getLB_apply, Pass.modifyLB_apply, Pass.call_apply,
        Pass.sub_apply, Pass.orExit_none_apply, Pass.orExit_some_apply, Pass.okOr_ok_apply,
        Pass.okOr_fail_apply, Pass.ifNotNil_some_apply, Pass.ifNotNil_none_apply,
        Pass.deref_some_apply, Pass.deref_none_apply, SendErrorAsEvent_apply, reduceIte,
        reduceCtorEq, Option.isSome_some, Option.isSome_none, Bool.false_eq_true, ne_eq,
        not_false_eq_true, not_true_eq_false, or_self, and_self, true_and, and_true, false_and,
        and_false, true_or, or_true, false_or, or_false, List.append_assoc, List.nil_append,
        List.cons_append] at hout)
  )
  all_goals subst hout
  all_goals simp_all [LoadBalancerStatus.remove]

set_option maxHeartbeats 1000000 in
/-- `reconcilePort` adopts a port found by name. -/
theorem reconcilePort_adopts (env : Env σ) (req : NamespacedName) (ext : σ)
    (lb : LoadBalancer) (p : Port) (res : Reply (Option Port))
    (out : Option Ret × World σ)
    (hout : (reconcilePort env req).run (World.start ext lb) = out)
    (hid : lb.Status.PortID = none)
    (hpc : ∀ s, (env.PortClient s).1 = none)
    (hname : lb.Status.PortName = none → ∀ s,
      (env.PatchLBStatus
        { LoadBalancerStatus.empty with PortName := some req.asString } s).1 = none)
    (hlookup : ∀ s,
      (env.GetPortByName (lb.Status.PortName.getD req.asString) s).1 = .ok (some p))
    (hfetch : ∀ s, (env.GetPortByID p.ID s).1 = res) :
    Ev.GetPortByName (lb.Status.PortName.getD req.asString) (.ok (some p)) ∈ out.2.trace ∧
    (∀ n1 net r, Ev.CreatePort n1 net r ∉ out.2.trace) ∧
    ∃ r, Ev.PatchLBStatus { LoadBalancerStatus.empty with PortID := some p.ID } r ∈
        out.2.trace ∧
      (∀ r1, Ev.PatchLBStatus { LoadBalancerStatus.empty with PortID := some p.ID } r1 ∈
        out.2.trace → r1 = r) ∧
      (∀ e, r = some e → out.1 = some (false, some e)) ∧
      (r = none → (∀ e, res = .fail e → e.isGophercloudNotFound = false) →
        out.2.lb.Status.PortID = some p.ID) := by
  cases hn : lb.Status.PortName <;>
    simp only [hn, Option.getD_none, Option.getD_some, LoadBalancerStatus.empty, true_implies,
      reduceCtorEq, false_implies] at hlookup hname ⊢
  all_goals (
    simp only [reconcilePort, reconcilePortSync, Pass.run, World.start, Pass.bind_apply, Pass.call_apply,
      Pass.getLB_apply] at hout
    repeat' (
      (first
        | rw [Pass.orExit_apply] at hout
        | rw [Pass.okOr_apply] at hout
        | rw [Pass.ifNotNil_apply] at hout
        | rw [Pass.deref_apply] at hout
        | rw [Pass.ite_apply] at hout) ;
      split at hout <;>
      try simp only [*, PatchLBStatus, RemoveFromLBStatus, exitSendErrorAsEvent,
        LoadBalancerStatus.merge, LoadBalancerStatus.empty, Pass.bind_apply, Pass.pure_apply,
        Pass.exit_apply, Pass.panic_apply, Pass.getLB_apply, Pass.modifyLB_apply, Pass.call_apply,
        Pass.sub_apply, Pass.orExit_none_apply, Pass.orExit_some_apply, Pass.okOr_ok_apply,
        Pass.okOr_fail_apply, Pass.ifNotNil_some_apply, Pass.ifNotNil_none_apply,
        Pass.deref_some_apply, Pass.deref_none_apply, SendErrorAsEvent_apply, reduceIte,
        reduceCtorEq, Option.isSome_some, Option.isSome_none, Bool.false_eq_true, ne_eq,
        not_false_eq_true, not_true_eq_false, or_self, and_self, true_and, and_true, false_and,
        and_false, true_or, or_true, false_or, or_false, List.append_assoc, List.nil_append,
        List.cons_append] at hout)
  )
  all_goals subst hout
  all_goals simp_all [LoadBalancerStatus.remove]

/-- `assignOrCreateFIP` adopts a floating IP found by name. -/
theorem assignOrCreateFIP_adopts (env : Env σ) (ext : σ)
    (lb : LoadBalancer) (n : String) (fip : FloatingIP) (out : Option (Option Err) × World σ)
    (hout : (assignOrCreateFIP env).run (World.start ext lb) = out)
    (hexist : lb.Spec.ExistingFloatingIP = none)
    (hname : lb.Status.FloatingName = some n)
    (hlookup : ∀ s, (env.GetFIPByName n s).1.1 = some fip) :
    (∃ err, Ev.GetFIPByName n (some fip, err) ∈ out.2.trace) ∧
    (∀ r, Ev.CreateFIP r ∉ out.2.trace) ∧
    ∃ r, out.2.trace.getLast? =
        some (Ev.PatchLBStatus { LoadBalancerStatus.empty with FloatingID := some fip.ID } r) ∧
      (∀ p r1, Ev.PatchLBStatus p r1 ∈ out.2.trace →
        p = { LoadBalancerStatus.empty with FloatingID := some fip.ID } ∧ r1 = r) ∧
      (∀ e, r = some e → out.1 = some (some e) ∧ out.2.lb = lb) ∧
      (r = none →
        out.1 = some none ∧
        out.2.lb.Status = { lb.Status with FloatingID := some fip.ID }) := by
  simp only [assignOrCreateFIP, Pass.run, World.start, Pass.bind_apply, Pass.call_apply,
    Pass.getLB_apply] at hout
  repeat' (
    (first
      | rw [Pass.orExit_apply] at hout
      | rw [Pass.okOr_apply] at hout
      | rw [Pass.ifNotNil_apply] at hout
      | rw [Pass.deref_apply] at hout
      | rw [Pass.ite_apply] at hout) ;
    split at hout <;>
    try simp only [*, PatchLBStatus, RemoveFromLBStatus, exitSendErrorAsEvent,
      LoadBalancerStatus.merge, LoadBalancerStatus.empty, Pass.bind_apply, Pass.pure_apply,
      Pass.exit_apply, Pass.panic_apply, Pass.getLB_apply, Pass.modifyLB_apply, Pass.call_apply,
      Pass.sub_apply, Pass.orExit_none_apply, Pass.orExit_some_apply, Pass.okOr_ok_apply,
      Pass.okOr_fail_apply, Pass.ifNotNil_some_apply, Pass.ifNotNil_none_apply,
      Pass.deref_some_apply, Pass.deref_none_apply, SendErrorAsEvent_apply, reduceIte,
      reduceCtorEq, Option.isSome_some, Option.isSome_none, Bool.false_eq_true, ne_eq,
      not_false_eq_true, not_true_eq_false, or_self, and_self, true_and, and_true, false_and,
      and_false, true_or, or_true, false_or, or_false, List.append_assoc, List.nil_append,
      List.cons_append] at hout)
  all_goals subst hout
  all_goals simp_all [LoadBalancerStatus.remove, LoadBalancerStatus.empty]
  all_goals exact ⟨_, Prod.ext (hlookup ext).symm rfl⟩

/-- C6.  Adoption over duplication.  Take a provider whose lookup by the status name (the
name in the status, or the request name the pass writes there first when none is set; that
first patch is accepted) answers an existing resource, and client accessors that hand out
their clients.

In `reconcileSecGroup` and in `reconcilePort`, when the status id is unset: the pass makes
that lookup, makes no create call for a security group (a port), and issues exactly one
status patch with the id of the resource found.  If the store refuses the patch the pass
returns that error with requeue = false.  If the store accepts it, the id in the status at
the end of the pass is the id of the resource found, unless the fetch by that id that
follows answers not-found (the self-heal of C8 and C9).

In `assignOrCreateFIP`, when `spec.existingFloatingIP` is not given and the status name is
`n`: the pass makes that lookup, makes no create call for a floating IP, and its last call
is the status patch with the id of the floating IP found, the only patch of the pass.  If
the store refuses it the function returns that error and the status is unchanged; if the
store accepts it the function returns nil and the status is the incoming one with
`floatingID` set to the id of the floating IP found. -/
theorem adoption_over_duplication (env : Env σ) (req : NamespacedName) (ext : σ)
    (lb : LoadBalancer) (sg port : Option Ret × World σ) (fl : Option (Option Err) × World σ)
    (hsg : (reconcileSecGroup env req).run (World.start ext lb) = sg)
    (hport : (reconcilePort env req).run (World.start ext lb) = port)
    (hfl : (assignOrCreateFIP env).run (World.start ext lb) = fl) :
    (∀ (g : SecGroup) (res : Reply (Option SecGroup)),
      lb.Status.SecurityGroupID = none →
      (∀ s, (env.GroupClient s).1 = none) → (∀ s, (env.RuleClient s).1 = none) →
      (lb.Status.SecurityGroupName = none → ∀ s,
        (env.PatchLBStatus
          { LoadBalancerStatus.empty with SecurityGroupName := some req.asString } s).1 =
            none) →
      (∀ s, (env.GetSecGroupByName (lb.Status.SecurityGroupName.getD req.asString) s).1 =
        .ok (some g)) →
      (∀ s, (env.GetSecGroupByID g.ID s).1 = res) →
      Ev.GetSecGroupByName (lb.Status.SecurityGroupName.getD req.asString) (.ok (some g)) ∈
        sg.2.trace ∧
      (∀ n1 r, Ev.CreateSecGroup n1 r ∉ sg.2.trace) ∧
      ∃ r, Ev.PatchLBStatus { LoadBalancerStatus.empty with SecurityGroupID := some g.ID } r ∈
          sg.2.trace ∧
        (∀ r1, Ev.PatchLBStatus { LoadBalancerStatus.empty with SecurityGroupID := some g.ID }
          r1 ∈ sg.2.trace → r1 = r) ∧
        (∀ e, r = some e → sg.1 = some (false, some e)) ∧
        (r = none → (∀ e, res = .fail e → e.isGophercloudNotFound = false) →
          sg.2.lb.Status.SecurityGroupID = some g.ID)) ∧
    (∀ (p : Port) (res : Reply (Option Port)),
      lb.Status.PortID = none →
      (∀ s, (env.PortClient s).1 = none) →
      (lb.Status.PortName = none → ∀ s,
        (env.PatchLBStatus
          { LoadBalancerStatus.empty with PortName := some req.asString } s).1 = none) →
      (∀ s, (env.GetPortByName (lb.Status.PortName.getD req.asString) s).1 = .ok (some p)) →
      (∀ s, (env.GetPortByID p.ID s).1 = res) →
      Ev.GetPortByName (lb.Status.PortName.getD req.asString) (.ok (some p)) ∈
        port.2.trace ∧
      (∀ n1 net r, Ev.CreatePort n1 net r ∉ port.2.trace) ∧
      ∃ r, Ev.PatchLBStatus { LoadBalancerStatus.empty with PortID := some p.ID } r ∈
          port.2.trace ∧
        (∀ r1, Ev.PatchLBStatus { LoadBalancerStatus.empty with PortID := some p.ID } r1 ∈
          port.2.trace → r1 = r) ∧
        (∀ e, r = some e → port.1 = some (false, some e)) ∧
        (r = none → (∀ e, res = .fail e → e.isGophercloudNotFound = false) →
          port.2.lb.Status.PortID = some p.ID)) ∧
    (∀ (n : String) (fip : FloatingIP),
      lb.Spec.ExistingFloatingIP = none →
      lb.Status.FloatingName = some n →
      (∀ s, (env.GetFIPByName n s).1.1 = some fip) →
      (∃ err, Ev.GetFIPByName n (some fip, err) ∈ fl.2.trace) ∧
      (∀ r, Ev.CreateFIP r ∉ fl.2.trace) ∧
      ∃ r, fl.2.trace.getLast? =
          some (Ev.PatchLBStatus
            { LoadBalancerStatus.empty with FloatingID := some fip.ID } r) ∧
        (∀ p r1, Ev.PatchLBStatus p r1 ∈ fl.2.trace →
          p = { LoadBalancerStatus.empty with FloatingID := some fip.ID } ∧ r1 = r) ∧
        (∀ e, r = some e → fl.1 = some (some e) ∧ fl.2.lb = lb) ∧
        (r = none →
          fl.1 = some none ∧
          fl.2.lb.Status = { lb.Status with FloatingID := some fip.ID })) :=
  ⟨fun g res h1 h2 h3 h4 h5 h6 =>
      reconcileSecGroup_adopts env req ext lb g res sg hsg h1 h2 h3 h4 h5 h6,
   fun p res h1 h2 h3 h4 h5 =>
      reconcilePort_adopts env req ext lb p res port hport h1 h2 h3 h4 h5,
   fun n fip h1 h2 h3 => assignOrCreateFIP_adopts env ext lb n fip fl hfl h1 h2 h3⟩

/-- Witness for C6.  A security group with id `sg-7`, a port with id `p-7` and a floating
IP with id `fip-7` already exist under the name `testns/lb`: each pass records the id it
found and creates nothing. -/
theorem adoption_over_duplication_witness :
    ((∀ n1 r, Ev.CreateSecGroup n1 r ∉
        ((reconcileSecGroup existingSecGroupEnv sampleReq).run
          (World.start () (sampleLB LoadBalancerStatus.empty))).2.trace) ∧
      ((reconcileSecGroup existingSecGroupEnv sampleReq).run
        (World.start () (sampleLB LoadBalancerStatus.empty))).2.lb.Status.SecurityGroupID =
          some "sg-7") ∧
    ((∀ n1 net r, Ev.CreatePort n1 net r ∉
        ((reconcilePort existingPortEnv sampleReq).run
          (World.start () (sampleLB LoadBalancerStatus.empty))).2.trace) ∧
      ((reconcilePort existingPortEnv sampleReq).run
        (World.start () (sampleLB LoadBalancerStatus.empty))).2.lb.Status.PortID =
          some "p-7") ∧
    ((∀ r, Ev.CreateFIP r ∉
        ((assignOrCreateFIP existingFipEnv).run
          (World.start () (sampleLB { LoadBalancerStatus.empty with
            FloatingName := some "testns/lb" }))).2.trace) ∧
      ((assignOrCreateFIP existingFipEnv).run
        (World.start () (sampleLB { LoadBalancerStatus.empty with
          FloatingName := some "testns/lb" }))).1 = some none ∧
      ((assignOrCreateFIP existingFipEnv).run
        (World.start () (sampleLB { LoadBalancerStatus.empty with
          FloatingName := some "testns/lb" }))).2.lb.Status.FloatingID = some "fip-7") := by
  obtain ⟨-, hsg, r, -, hu, -, hok⟩ :=
    (adoption_over_duplication existingSecGroupEnv sampleReq ()
      (sampleLB LoadBalancerStatus.empty) _ _ _ rfl rfl rfl).1
      ⟨"sg-7", "testns/lb"⟩ (.ok (some ⟨"sg-7", "testns/lb"⟩)) rfl (fun _ => rfl)
      (fun _ => rfl) (fun _ _ => rfl) (fun _ => rfl) (fun _ => rfl)
  obtain ⟨-, hport, r2, -, hu2, -, hok2⟩ :=
    (adoption_over_duplication existingPortEnv sampleReq ()
      (sampleLB LoadBalancerStatus.empty) _ _ _ rfl rfl rfl).2.1
      ⟨"p-7", "testns/lb", "net-1", [], ["192.168.0.1"]⟩
      (.ok (some ⟨"p-7", "testns/lb", "net-1", [], ["192.168.0.1"]⟩)) rfl (fun _ => rfl)
      (fun _ _ => rfl) (fun _ => rfl) (fun _ => rfl)
  obtain ⟨-, hfl, r3, hlast, -, -, hok3⟩ :=
    (adoption_over_duplication existingFipEnv sampleReq ()
      (sampleLB { LoadBalancerStatus.empty with FloatingName := some "testns/lb" })
      _ _ _ rfl rfl rfl).2.2
      "testns/lb" ⟨"fip-7", "testns/lb", "", "10.0.0.7", "", "DOWN"⟩ rfl rfl (fun _ => rfl)
  have hr : r = none := (hu none (by decide)).symm
  have hr2 : r2 = none := (hu2 none (by decide)).symm
  have hr3 : r3 = none := by
    have ht : ((assignOrCreateFIP existingFipEnv).run
        (World.start () (sampleLB { LoadBalancerStatus.empty with
          FloatingName := some "testns/lb" }))).2.trace.getLast? =
        some (Ev.PatchLBStatus
          { LoadBalancerStatus.empty with FloatingID := some "fip-7" } none) := by decide
    rw [ht] at hlast
    simpa using hlast.symm
  exact ⟨⟨hsg, hok hr (fun _ h => nomatch h)⟩, ⟨hport, hok2 hr2 (fun _ h => nomatch h)⟩,
    hfl, (hok3 hr3).1, by rw [(hok3 hr3).2]⟩

/-! ## Teardown of a floating IP the user supplied -/

/-- C5.  For a LoadBalancer whose `spec.existingFloatingIP` is set, a pass of `deleteFips`
issues no floating-IP delete call: all it ever calls is the client accessor and the removal
of `floatingID` and `floatingName` from the status.  The first call is the accessor; if it
fails the pass returns its error and changes nothing.  Otherwise: if `status.floatingID`
and `status.floatingName` are both unset the pass returns `(false, nil)` without any further
call and changes nothing; if one of them is set, the second call is the removal of
`floatingID`, and when the store accepts it the third and last call is the removal of
`floatingName`; when the store accepts that one too the pass returns requeue = true with no
error and leaves the status equal to the incoming one without the two fields.  A removal
the store refuses ends the pass with that error and requeue = false. -/
theorem deleteFips_existing_floating_ip (env : Env σ) (ext : σ) (lb : LoadBalancer)
    (ip : String) (out : Option Ret × World σ)
    (hout : (deleteFips env).run (World.start ext lb) = out)
    (hexist : lb.Spec.ExistingFloatingIP = some ip) :
    (∀ id r, Ev.DeleteFIP id r ∉ out.2.trace) ∧
    (∀ ev ∈ out.2.trace, (∃ r, ev = Ev.FipClient r) ∨
      (∃ r, ev = Ev.RemoveFromLBStatus "floatingID" r) ∨
      (∃ r, ev = Ev.RemoveFromLBStatus "floatingName" r)) ∧
    ∃ c, out.2.trace.head? = some (Ev.FipClient c) ∧
      (∀ e, c = some e →
        out.1 = some (false, some e) ∧ out.2.lb = lb ∧
        out.2.trace = [Ev.FipClient (some e)]) ∧
      (c = none →
        (lb.Status.FloatingID = none ∧ lb.Status.FloatingName = none →
          out.1 = some (false, none) ∧ out.2.lb = lb ∧ out.2.trace = [Ev.FipClient none]) ∧
        (¬(lb.Status.FloatingID = none ∧ lb.Status.FloatingName = none) →
          ∃ r1, out.2.trace.take 2 =
              [Ev.FipClient none, Ev.RemoveFromLBStatus "floatingID" r1] ∧
            (∀ e, r1 = some e →
              out.1 = some (false, some e) ∧ out.2.lb = lb ∧ out.2.trace.length = 2) ∧
            (r1 = none →
              ∃ r2, out.2.trace =
                  [Ev.FipClient none, Ev.RemoveFromLBStatus "floatingID" none,
                    Ev.RemoveFromLBStatus "floatingName" r2] ∧
                (∀ e, r2 = some e →
                  out.1 = some (false, some e) ∧
                  out.2.lb.Status = { lb.Status with FloatingID := none }) ∧
                (r2 = none →
                  out.1 = some (true, none) ∧
                  out.2.lb.Status =
                    { lb.Status with FloatingID := none, FloatingName := none })))) := by
  simp only [deleteFips, Pass.run, World.start, Pass.bind_apply, Pass.call_apply,
    Pass.getLB_apply] at hout
  simp only [hexist, ne_eq, reduceCtorEq, not_false_eq_true, reduceIte] at hout
  repeat' (
    (first
      | rw [Pass.orExit_apply] at hout
      | rw [Pass.okOr_apply] at hout
      | rw [Pass.ifNotNil_apply] at hout
      | rw [Pass.deref_apply] at hout
      | rw [Pass.ite_apply] at hout) ;
    split at hout <;>
    try simp only [*, PatchLBStatus, RemoveFromLBStatus, exitSendErrorAsEvent,
      LoadBalancerStatus.merge, LoadBalancerStatus.empty, Pass.bind_apply, Pass.pure_apply,
      Pass.exit_apply, Pass.panic_apply, Pass.getLB_apply, Pass.modifyLB_apply, Pass.call_apply,
      Pass.sub_apply, Pass.orExit_none_apply, Pass.orExit_some_apply, Pass.okOr_ok_apply,
      Pass.okOr_fail_apply, Pass.ifNotNil_some_apply, Pass.ifNotNil_none_apply,
      Pass.deref_some_apply, Pass.deref_none_apply, SendErrorAsEvent_apply, reduceIte,
      reduceCtorEq, Option.isSome_some, Option.isSome_none, Bool.false_eq_true, ne_eq,
      not_false_eq_true, not_true_eq_false, or_self, and_self, true_and, and_true, false_and,
      and_false, true_or, or_true, false_or, or_false, List.append_assoc, List.nil_append,
      List.cons_append] at hout)
  all_goals subst hout
  all_goals simp_all [LoadBalancerStatus.remove]

/-- Witness for C5: the user supplied `1.2.3.4` and the status still carries the id and
the name. -/
theorem deleteFips_existing_floating_ip_witness :
    ((deleteFips calmEnv).run (World.start () existingFipLB)).1 = some (true, none) ∧
    ((deleteFips calmEnv).run (World.start () existingFipLB)).2.lb.Status =
      LoadBalancerStatus.empty := by
  obtain ⟨c, hhead, -, hc⟩ :=
    (deleteFips_existing_floating_ip calmEnv () existingFipLB "1.2.3.4" _ rfl rfl).2.2
  have ht : ((deleteFips calmEnv).run (World.start () existingFipLB)).2.trace =
      [Ev.FipClient none, Ev.RemoveFromLBStatus "floatingID" none,
        Ev.RemoveFromLBStatus "floatingName" none] := by decide
  rw [ht] at hhead
  have hcn : c = none := by simpa using hhead.symm
  obtain ⟨r1, h1, -, hr1⟩ := (hc hcn).2 (by decide)
  rw [ht] at h1
  have hr1n : r1 = none := by simpa using h1.symm
  obtain ⟨r2, h2, -, hr2⟩ := hr1 hr1n
  rw [ht] at h2
  have hr2n : r2 = none := by simpa using h2.symm
  exact hr2 hr2n

/-! ## Rollout: scale-down only after the current set is ready -/

/-- C1.  In every pass of `reconcileLoadBalancerSet`: if the scale-down of the other sets
(`ScaleDownAllLoadBalancerSetsForLBBut`) was invoked, then the lookup for the current
template hash answered an existing set (with a name), it is that set's name the scale-down
was told to spare, the set's spec replica count equals the LoadBalancer's, and the last
three calls of the pass are, in this order, `LoadBalancerSetIsReady` answering true for that
set, the downscaled check, and the scale-down.  And if `LoadBalancerSetIsReady` answered
false, the result is `RequeueAfter` one second with no error, no scale-down was invoked
and no replica count was patched. -/
theorem reconcileLoadBalancerSet_scale_down_after_ready (env : Env σ) (ext : σ)
    (lb : LoadBalancer) (out : Option CtrlRet × World σ)
    (hout : (reconcileLoadBalancerSet env).run (World.start ext lb) = out) :
    (∀ name r, Ev.ScaleDownAllLoadBalancerSetsForLBBut name r ∈ out.2.trace →
      ∃ hash lbs t, env.GetHashForLoadBalancerMachineSpecFromLoadBalancer lb = .ok hash ∧
        Ev.GetLoadBalancerSetForHash hash (.ok (some lbs)) ∈ out.2.trace ∧
        lbs.Name = name ∧ lbs.Name ≠ "" ∧ lbs.SpecReplicas = lb.Spec.Replicas ∧
        out.2.trace = t ++ [Ev.LoadBalancerSetIsReady lbs (.ok true),
          Ev.AreAllLoadBalancerSetsForLBButDownscaled name (.ok false),
          Ev.ScaleDownAllLoadBalancerSetsForLBBut name r] ∧
        out.1 = some r) ∧
    (∀ lbs, Ev.LoadBalancerSetIsReady lbs (.ok false) ∈ out.2.trace →
      out.1 = some (⟨false, 1000⟩, none) ∧
      (∀ name r, Ev.ScaleDownAllLoadBalancerSetsForLBBut name r ∉ out.2.trace) ∧
      (∀ l n r, Ev.PatchLoadBalancerSetReplicas l n r ∉ out.2.trace)) := by
  simp only [reconcileLoadBalancerSet, Pass.run, World.start, Pass.bind_apply, Pass.call_apply,
    Pass.getLB_apply] at hout
  repeat' (
    (first
      | rw [Pass.orExit_apply] at hout
      | rw [Pass.okOr_apply] at hout
      | rw [Pass.ifNotNil_apply] at hout
      | rw [Pass.deref_apply] at hout
      | rw [Pass.ite_apply] at hout) ;
    split at hout <;>
    try simp only [*, PatchLBStatus, RemoveFromLBStatus, exitSendErrorAsEvent,
      LoadBalancerStatus.merge, LoadBalancerStatus.empty, Pass.bind_apply, Pass.pure_apply,
      Pass.exit_apply, Pass.panic_apply, Pass.getLB_apply, Pass.modifyLB_apply, Pass.call_apply,
      Pass.sub_apply, Pass.orExit_none_apply, Pass.orExit_some_apply, Pass.okOr_ok_apply,
      Pass.okOr_fail_apply, Pass.ifNotNil_some_apply, Pass.ifNotNil_none_apply,
      Pass.deref_some_apply, Pass.deref_none_apply, SendErrorAsEvent_apply, reduceIte,
      reduceCtorEq, Option.isSome_some, Option.isSome_none, Bool.false_eq_true, ne_eq,
      not_false_eq_true, not_true_eq_false, or_self, and_self, true_and, and_true, false_and,
      and_false, true_or, or_true, false_or, or_false, List.append_assoc, List.nil_append,
      List.cons_append] at hout)
  all_goals subst hout
  all_goals try (simp; done)
  all_goals try (simp_all; done)
  all_goals (
    simp_all
    first
      | exact ⟨[_], rfl⟩
      | exact ⟨[_, _], rfl⟩)

/-- Witness for C1: a set for the current hash exists with the right replica count, reports
ready, and the other sets are not yet downscaled; the pass ends in the scale-down. -/
theorem reconcileLoadBalancerSet_scale_down_after_ready_witness :
    Ev.ScaleDownAllLoadBalancerSetsForLBBut "lb-hash-1" (Result.empty, none) ∈
      ((reconcileLoadBalancerSet rolloutEnv).run
        (World.start () (sampleLB LoadBalancerStatus.empty))).2.trace ∧
    ∃ hash lbs t,
      rolloutEnv.GetHashForLoadBalancerMachineSpecFromLoadBalancer
          (sampleLB LoadBalancerStatus.empty) = .ok hash ∧
      Ev.GetLoadBalancerSetForHash hash (.ok (some lbs)) ∈
        ((reconcileLoadBalancerSet rolloutEnv).run
          (World.start () (sampleLB LoadBalancerStatus.empty))).2.trace ∧
      lbs.Name = "lb-hash-1" ∧ lbs.Name ≠ "" ∧
      lbs.SpecReplicas = (sampleLB LoadBalancerStatus.empty).Spec.Replicas ∧
      ((reconcileLoadBalancerSet rolloutEnv).run
          (World.start () (sampleLB LoadBalancerStatus.empty))).2.trace =
        t ++ [Ev.LoadBalancerSetIsReady lbs (.ok true),
          Ev.AreAllLoadBalancerSetsForLBButDownscaled "lb-hash-1" (.ok false),
          Ev.ScaleDownAllLoadBalancerSetsForLBBut "lb-hash-1" (Result.empty, none)] ∧
      ((reconcileLoadBalancerSet rolloutEnv).run
          (World.start () (sampleLB LoadBalancerStatus.empty))).1 = some (Result.empty, none) :=
  ⟨by decide,
    (reconcileLoadBalancerSet_scale_down_after_ready rolloutEnv ()
      (sampleLB LoadBalancerStatus.empty) _ rfl).1 _ _ (by decide)⟩

/-! ## Deletion: the owned sets go first -/

/-- The loop of `deletionRoutine`, for any continuations: it only appends delete calls for
listed sets without a deletion timestamp and leaves the object behind `lb` alone; either
every delete was accepted, the calls are exactly those for the listed sets without a
deletion timestamp and the function goes on, or a delete answered an error and the
function returns that error. -/
theorem deletionRoutineLoop_apply {ω : Type} (env : Env σ) (kr : CtrlRet → World σ → ω)
    (kp : World σ → ω) (k : Unit → World σ → ω) :
    ∀ (l : List LoadBalancerSet) (w : World σ), ∃ t ext1,
      (∀ ev ∈ t, ∃ s r, ev = Ev.DeleteLoadBalancerSet s r ∧ s ∈ l ∧
        s.DeletionTimestamp = none) ∧
      ((deletionRoutineLoop env l kr kp k w = k () ⟨ext1, w.lb, w.trace ++ t⟩ ∧
          t = (l.filter fun s => s.DeletionTimestamp = none).map
            fun s => Ev.DeleteLoadBalancerSet s none) ∨
        (∃ e s, deletionRoutineLoop env l kr kp k w =
            kr (Result.empty, some e) ⟨ext1, w.lb, w.trace ++ t⟩ ∧
          Ev.DeleteLoadBalancerSet s (some e) ∈ t))
  | [], w => ⟨[], w.ext, by simp, Or.inl ⟨by simp [deletionRoutineLoop], rfl⟩⟩
  | lbs :: rest, w => by
    simp only [deletionRoutineLoop, Pass.bind_apply]
    rw [Pass.ite_apply]
    split
    · rename_i hts
      simp only [Pass.bind_apply, Pass.call_apply]
      rw [Pass.orExit_apply]
      split
      · rename_i hnone
        obtain ⟨t, ext1, ht, h⟩ := deletionRoutineLoop_apply env kr kp k rest
          ⟨(env.DeleteLoadBalancerSet lbs w.ext).2, w.lb,
            w.trace ++ [Ev.DeleteLoadBalancerSet lbs (env.DeleteLoadBalancerSet lbs w.ext).1]⟩
        refine ⟨Ev.DeleteLoadBalancerSet lbs none :: t, ext1, ?_, ?_⟩
        · intro ev hev
          rcases List.mem_cons.1 hev with rfl | hev
          · exact ⟨lbs, none, rfl, List.mem_cons_self _ _, hts⟩
          · obtain ⟨s, r, h1, h2, h3⟩ := ht ev hev
            exact ⟨s, r, h1, List.mem_cons_of_mem _ h2, h3⟩
        · rw [hnone] at h
          rcases h with ⟨h1, h2⟩ | ⟨e, s, h1, h2⟩
          · refine Or.inl ⟨?_, ?_⟩
            · rw [hnone, h1]; simp
            · simp [List.filter_cons, hts, h2]
          · refine Or.inr ⟨e, s, ?_, List.mem_cons_of_mem _ h2⟩
            rw [hnone, h1]; simp
      · rename_i e hsome
        refine ⟨[Ev.DeleteLoadBalancerSet lbs (some e)], (env.DeleteLoadBalancerSet lbs w.ext).2,
          ?_, Or.inr ⟨e, lbs, by rw [hsome], by simp⟩⟩
        intro ev hev
        exact ⟨lbs, some e, by simpa using hev, List.mem_cons_self _ _, hts⟩
    · rename_i hts
      simp only [Pass.pure_apply]
      obtain ⟨t, ext1, ht, h⟩ := deletionRoutineLoop_apply env kr kp k rest w
      refine ⟨t, ext1, ?_, ?_⟩
      · intro ev hev
        obtain ⟨s, r, h1, h2, h3⟩ := ht ev hev
        exact ⟨s, r, h1, List.mem_cons_of_mem _ h2, h3⟩
      · rcases h with ⟨h1, h2⟩ | ⟨e, s, h1, h2⟩
        · exact Or.inl ⟨h1, by simp [List.filter_cons, hts, h2]⟩
        · exact Or.inr ⟨e, s, h1, h2⟩

/-- C4.  Take a pass of `deletionRoutine` in which the listing of the owned sets answered a
non-empty list `sets`.  Then every call of the pass after the listing is a delete for a
listed set without a deletion timestamp (so there is no floating-IP, port or
security-group teardown and no finalizer removal), and the object behind `lb` is
untouched.  If no delete answered an error, the deletes are, in list order, exactly those
for the listed sets without a deletion timestamp, and the pass returns `RequeueAfter` ten
seconds with no error -- also when every listed set already has a deletion timestamp, in
which case no delete is issued at all. -/
theorem deletionRoutine_sets_listed (env : Env σ) (ext : σ) (lb : LoadBalancer)
    (sets : List LoadBalancerSet) (out : Option CtrlRet × World σ)
    (hout : (deletionRoutine env).run (World.start ext lb) = out)
    (hlist : (env.GetLoadBalancerSetsForLoadBalancer ext).1 = .ok sets)
    (hne : sets ≠ []) :
    (∃ t, out.2.trace = Ev.GetLoadBalancerSetsForLoadBalancer (.ok sets) :: t ∧
      ∀ ev ∈ t, ∃ s r, ev = Ev.DeleteLoadBalancerSet s r ∧ s ∈ sets ∧
        s.DeletionTimestamp = none) ∧
    out.2.lb = lb ∧
    ((∀ s e, Ev.DeleteLoadBalancerSet s (some e) ∉ out.2.trace) →
      out.1 = some (⟨false, 10000⟩, none) ∧
      out.2.trace = Ev.GetLoadBalancerSetsForLoadBalancer (.ok sets) ::
        (sets.filter fun s => s.DeletionTimestamp = none).map
          fun s => Ev.DeleteLoadBalancerSet s none) ∧
    ((∀ s ∈ sets, s.DeletionTimestamp ≠ none) →
      out.1 = some (⟨false, 10000⟩, none) ∧
      out.2.trace = [Ev.GetLoadBalancerSetsForLoadBalancer (.ok sets)]) := by
  simp only [deletionRoutine, Pass.run, World.start, Pass.bind_apply, Pass.call_apply,
    hlist, Pass.okOr_ok_apply, List.nil_append] at hout
  obtain ⟨t, ext1, ht, h⟩ := deletionRoutineLoop_apply env
    (fun r w1 => (some r, w1)) (fun w1 => ((none : Option CtrlRet), w1)) _ sets
    ⟨(env.GetLoadBalancerSetsForLoadBalancer ext).2, lb,
      [Ev.GetLoadBalancerSetsForLoadBalancer (.ok sets)]⟩
  have hlen : sets.length ≠ 0 := by simpa using hne
  rcases h with ⟨h1, h2⟩ | ⟨e, s, h1, h2⟩
  · rw [h1] at hout
    rw [Pass.ite_apply, if_pos hlen] at hout
    simp only [Pass.exit_apply] at hout
    subst hout
    refine ⟨⟨t, rfl, ht⟩, rfl, fun _ => ⟨rfl, by simp [h2]⟩, fun hall => ⟨rfl, ?_⟩⟩
    have : (sets.filter fun s => s.DeletionTimestamp = none) = [] := by
      simp [List.filter_eq_nil_iff]
      exact hall
    simp [h2, this]
  · rw [h1] at hout
    subst hout
    refine ⟨⟨t, rfl, ht⟩, rfl, fun hno => absurd ?_ (hno s e), fun hall => ?_⟩
    · simp [h2]
    · obtain ⟨s1, r, -, hs, hts⟩ := ht _ h2
      exact absurd hts (hall s1 hs)

/-- Witness for C4: two sets are listed, the second already has a deletion timestamp; one
delete is issued and the pass asks to be run again in ten seconds. -/
theorem deletionRoutine_sets_listed_witness :
    ((deletionRoutine setsListedEnv).run (World.start () deletingLB)).1 =
      some (⟨false, 10000⟩, none) ∧
    ((deletionRoutine setsListedEnv).run (World.start () deletingLB)).2.trace =
      [Ev.GetLoadBalancerSetsForLoadBalancer (.ok listedSets),
        Ev.DeleteLoadBalancerSet ⟨"lb-hash-1", none, "hash-1", 1, 1, some 1, some 1⟩ none] :=
  (deletionRoutine_sets_listed setsListedEnv () deletingLB listedSets _ rfl rfl
    (by decide)).2.2.1 (by
      intro s e h
      have ht : ((deletionRoutine setsListedEnv).run (World.start () deletingLB)).2.trace =
          [Ev.GetLoadBalancerSetsForLoadBalancer (.ok listedSets),
            Ev.DeleteLoadBalancerSet ⟨"lb-hash-1", none, "hash-1", 1, 1, some 1, some 1⟩
              none] := rfl
      rw [ht] at h
      simp at h)

/-! ## Deletion: the finalizer goes last -/

theorem World.grewFrom_refl (w : World σ) : w.grewFrom w.trace :=
  ⟨[], (List.append_nil _).symm, by simp⟩

theorem World.grewFrom_call {pre : List Ev} {w : World σ} (h : w.grewFrom pre) (ev : Ev)
    (hev : ev.isFinalizerRemoval = false) (ext1 : σ) (lb1 : LoadBalancer) :
    World.grewFrom pre (⟨ext1, lb1, w.trace ++ [ev]⟩ : World σ) := by
  obtain ⟨t, ht, hP⟩ := h
  refine ⟨t ++ [ev], by simp [ht], ?_⟩
  intro e he
  rcases List.mem_append.1 he with h1 | h1
  · exact hP e h1
  · simp at h1; subst h1; exact hev

namespace Pass

variable {ω ρ α β : Type}

theorem Quiet.pure (a : α) : Quiet (pure a : Pass σ ω ρ α) :=
  fun _ _ _ _ _ _ _ _ hk hw => hk _ _ hw

theorem Quiet.exit (r : ρ) : Quiet (exit r : Pass σ ω ρ α) :=
  fun _ _ _ _ _ _ hr _ _ hw => hr _ _ hw

theorem Quiet.panic : Quiet (panic : Pass σ ω ρ α) :=
  fun _ _ _ _ _ _ _ hp _ hw => hp _ hw

theorem Quiet.getLB : Quiet (getLB : Pass σ ω ρ LoadBalancer) :=
  fun _ _ _ _ _ _ _ _ hk hw => hk _ _ hw

theorem Quiet.modifyLB (f : LoadBalancer → LoadBalancer) :
    Quiet (modifyLB f : Pass σ ω ρ Unit) :=
  fun _ _ _ _ _ _ _ _ hk hw => hk _ _ hw

theorem Quiet.call (f : σ → α × σ) (ev : α → Ev)
    (hev : ∀ a, (ev a).isFinalizerRemoval = false) : Quiet (call f ev : Pass σ ω ρ α) :=
  fun _ _ _ _ _ _ _ _ hk hw => hk _ _ (World.grewFrom_call hw _ (hev _) _ _)

theorem Quiet.bind {m : Pass σ ω ρ α} {f : α → Pass σ ω ρ β} (hm : Quiet m)
    (hf : ∀ a, Quiet (f a)) : Quiet (m >>= f) :=
  fun G pre kr kp k w hr hp hk hw =>
    hm G pre kr kp _ w hr hp (fun a w1 h1 => hf a G pre kr kp k w1 hr hp hk h1) hw

theorem Quiet.orExit (err : Option Err) (f : Err → ρ) :
    Quiet (orExit err f : Pass σ ω ρ Unit) := by
  cases err
  · exact fun _ _ _ _ _ _ _ _ hk hw => hk _ _ hw
  · exact fun _ _ _ _ _ _ hr _ _ hw => hr _ _ hw

theorem Quiet.okOr (r : Reply α) {f : Err → Pass σ ω ρ α} (hf : ∀ e, Quiet (f e)) :
    Quiet (okOr r f) := by
  cases r
  · exact fun _ _ _ _ _ _ _ _ hk hw => hk _ _ hw
  · exact hf _

theorem Quiet.ifNotNil (p : Option α) {f : α → Pass σ ω ρ β} {g : Pass σ ω ρ β}
    (hf : ∀ a, Quiet (f a)) (hg : Quiet g) : Quiet (ifNotNil p f g) := by
  cases p
  · exact hg
  · exact hf _

theorem Quiet.deref (p : Option α) : Quiet (deref p : Pass σ ω ρ α) := by
  cases p
  · exact fun _ _ _ _ _ _ _ hp _ hw => hp _ hw
  · exact fun _ _ _ _ _ _ _ _ hk hw => hk _ _ hw

theorem Quiet.ite (c : Prop) [Decidable c] {a b : Pass σ ω ρ α} (ha : Quiet a)
    (hb : Quiet b) : Quiet (if c then a else b) := by
  split
  · exact ha
  · exact hb

theorem Quiet.sub {ρ1 : Type} {m : Pass σ ω ρ1 ρ1} (hm : Quiet m) :
    Quiet (sub m : Pass σ ω ρ ρ1) :=
  fun G pre _ kp k w _ hp hk hw => hm G pre k kp k w hk hp hk hw

/-- A quiet function, run as a whole, leaves a world whose trace is the one it started with
followed by calls that are no finalizer removal. -/
theorem Quiet.run {m : Pass σ (Option ρ × World σ) ρ ρ} (hm : Quiet m) (w : World σ) :
    (m.run w).2.grewFrom w.trace :=
  hm (fun o => o.2.grewFrom w.trace) w.trace _ _ _ w (fun _ _ h => h) (fun _ h => h)
    (fun _ _ h => h) (World.grewFrom_refl w)

end Pass

section Quiet

variable {ω ρ : Type}

theorem SendErrorAsEvent_quiet (e : Err) :
    Pass.Quiet (SendErrorAsEvent e : Pass σ ω ρ (Option Err)) :=
  fun _ _ _ _ _ _ _ _ hk hw =>
    hk _ _ (World.grewFrom_call hw (Ev.SendErrorAsEvent e) rfl _ _)

theorem exitSendErrorAsEvent_quiet {α : Type} (requeue : Bool) (e : Err) :
    Pass.Quiet (exitSendErrorAsEvent requeue e : Pass σ ω Ret α) :=
  Pass.Quiet.bind (SendErrorAsEvent_quiet e) fun _ => Pass.Quiet.exit _

theorem RemoveFromLBStatus_quiet (env : Env σ) (key : String) :
    Pass.Quiet (RemoveFromLBStatus env key : Pass σ ω ρ (Option Err)) :=
  Pass.Quiet.bind (Pass.Quiet.call _ _ fun _ => rfl) fun _ =>
    Pass.Quiet.ifNotNil _ (fun _ => Pass.Quiet.pure _)
      (Pass.Quiet.bind (Pass.Quiet.modifyLB _) fun _ => Pass.Quiet.pure _)

end Quiet

section Stages

variable {ω : Type}

theorem deleteFipsLoop_quiet (env : Env σ) (n : String) :
    ∀ l : List FloatingIP, Pass.Quiet (deleteFipsLoop env n l : Pass σ ω Ret Unit)
  | [] => Pass.Quiet.pure _
  | _ :: rest => by
    have ih := deleteFipsLoop_quiet env n rest
    unfold deleteFipsLoop
    repeat' (first | rfl | with_reducible first
      | refine Pass.Quiet.bind ?_ (fun _ => ?_)
      | exact Pass.Quiet.pure _
      | exact Pass.Quiet.exit _
      | exact Pass.Quiet.getLB
      | exact Pass.Quiet.orExit _ _
      | refine Pass.Quiet.okOr _ (fun _ => ?_)
      | refine Pass.Quiet.ifNotNil _ (fun _ => ?_) ?_
      | refine Pass.Quiet.ite _ ?_ ?_
      | refine Pass.Quiet.sub ?_
      | refine Pass.Quiet.call _ _ (fun _ => ?_)
      | exact RemoveFromLBStatus_quiet _ _
      | exact exitSendErrorAsEvent_quiet _ _
      | exact SendErrorAsEvent_quiet _
      | exact ih)

theorem deleteFips_quiet (env : Env σ) :
    Pass.Quiet (deleteFips env : Pass σ ω Ret Ret) := by
  have ih0 := @deleteFipsLoop_quiet σ ω env
  unfold deleteFips
  repeat' (first | rfl | with_reducible first
    | refine Pass.Quiet.bind ?_ (fun _ => ?_)
    | exact Pass.Quiet.pure _
    | exact Pass.Quiet.exit _
    | exact Pass.Quiet.getLB
    | exact Pass.Quiet.orExit _ _
    | refine Pass.Quiet.okOr _ (fun _ => ?_)
    | refine Pass.Quiet.ifNotNil _ (fun _ => ?_) ?_
    | refine Pass.Quiet.ite _ ?_ ?_
    | refine Pass.Quiet.sub ?_
    | refine Pass.Quiet.call _ _ (fun _ => ?_)
    | exact RemoveFromLBStatus_quiet _ _
    | exact exitSendErrorAsEvent_quiet _ _
    | exact SendErrorAsEvent_quiet _
    | exact ih0 _ _)

theorem deletePortsLoop_quiet (env : Env σ) (n : String) :
    ∀ l : List Port, Pass.Quiet (deletePortsLoop env n l : Pass σ ω Ret Unit)
  | [] => Pass.Quiet.pure _
  | _ :: rest => by
    have ih := deletePortsLoop_quiet env n rest
    unfold deletePortsLoop
    repeat' (first | rfl | with_reducible first
      | refine Pass.Quiet.bind ?_ (fun _ => ?_)
      | exact Pass.Quiet.pure _
      | exact Pass.Quiet.exit _
      | exact Pass.Quiet.getLB
      | exact Pass.Quiet.orExit _ _
      | refine Pass.Quiet.okOr _ (fun _ => ?_)
      | refine Pass.Quiet.ifNotNil _ (fun _ => ?_) ?_
      | refine Pass.Quiet.ite _ ?_ ?_
      | refine Pass.Quiet.sub ?_
      | refine Pass.Quiet.call _ _ (fun _ => ?_)
      | exact RemoveFromLBStatus_quiet _ _
      | exact exitSendErrorAsEvent_quiet _ _
      | exact SendErrorAsEvent_quiet _
      | exact ih)

theorem deletePorts_quiet (env : Env σ) :
    Pass.Quiet (deletePorts env : Pass σ ω Ret Ret) := by
  have ih0 := @deletePortsLoop_quiet σ ω env
  unfold deletePorts
  repeat' (first | rfl | with_reducible first
    | refine Pass.Quiet.bind ?_ (fun _ => ?_)
    | exact Pass.Quiet.pure _
    | exact Pass.Quiet.exit _
    | exact Pass.Quiet.getLB
    | exact Pass.Quiet.orExit _ _
    | refine Pass.Quiet.okOr _ (fun _ => ?_)
    | refine Pass.Quiet.ifNotNil _ (fun _ => ?_) ?_
    | refine Pass.Quiet.ite _ ?_ ?_
    | refine Pass.Quiet.sub ?_
    | refine Pass.Quiet.call _ _ (fun _ => ?_)
    | exact RemoveFromLBStatus_quiet _ _
    | exact exitSendErrorAsEvent_quiet _ _
    | exact SendErrorAsEvent_quiet _
    | exact ih0 _ _)

theorem findAndDeleteSecGroupUsagesLoop_quiet (env : Env σ) (n : String) :
    ∀ l : List Port, Pass.Quiet (findAndDeleteSecGroupUsagesLoop env n l : Pass σ ω (Option Err) Unit)
  | [] => Pass.Quiet.pure _
  | _ :: rest => by
    have ih := findAndDeleteSecGroupUsagesLoop_quiet env n rest
    unfold findAndDeleteSecGroupUsagesLoop
    repeat' (first | rfl | with_reducible first
      | refine Pass.Quiet.bind ?_ (fun _ => ?_)
      | exact Pass.Quiet.pure _
      | exact Pass.Quiet.exit _
      | exact Pass.Quiet.getLB
      | exact Pass.Quiet.orExit _ _
      | refine Pass.Quiet.okOr _ (fun _ => ?_)
      | refine Pass.Quiet.ifNotNil _ (fun _ => ?_) ?_
      | refine Pass.Quiet.ite _ ?_ ?_
      | refine Pass.Quiet.sub ?_
      | refine Pass.Quiet.call _ _ (fun _ => ?_)
      | exact RemoveFromLBStatus_quiet _ _
      | exact exitSendErrorAsEvent_quiet _ _
      | exact SendErrorAsEvent_quiet _
      | exact ih)

theorem findAndDeleteSecGroupUsages_quiet (env : Env σ) :
    Pass.Quiet (findAndDeleteSecGroupUsages env : Pass σ ω (Option Err) (Option Err)) := by
  have ih0 := @findAndDeleteSecGroupUsagesLoop_quiet σ ω env
  unfold findAndDeleteSecGroupUsages
  repeat' (first | rfl | with_reducible first
    | refine Pass.Quiet.bind ?_ (fun _ => ?_)
    | exact Pass.Quiet.pure _
    | exact Pass.Quiet.exit _
    | exact Pass.Quiet.getLB
    | exact Pass.Quiet.orExit _ _
    | refine Pass.Quiet.okOr _ (fun _ => ?_)
    | refine Pass.Quiet.ifNotNil _ (fun _ => ?_) ?_
    | refine Pass.Quiet.ite _ ?_ ?_
    | refine Pass.Quiet.sub ?_
    | refine Pass.Quiet.call _ _ (fun _ => ?_)
    | exact RemoveFromLBStatus_quiet _ _
    | exact exitSendErrorAsEvent_quiet _ _
    | exact SendErrorAsEvent_quiet _
    | exact ih0 _ _)

theorem deleteSecGroupsLoop_quiet (env : Env σ) (n : String) :
    ∀ l : List SecGroup, Pass.Quiet (deleteSecGroupsLoop env n l : Pass σ ω Ret Unit)
  | [] => Pass.Quiet.pure _
  | _ :: rest => by
    have ih := deleteSecGroupsLoop_quiet env n rest
    unfold deleteSecGroupsLoop
    repeat' (first | rfl | with_reducible first
      | refine Pass.Quiet.bind ?_ (fun _ => ?_)
      | exact Pass.Quiet.pure _
      | exact Pass.Quiet.exit _
      | exact Pass.Quiet.getLB
      | exact Pass.Quiet.orExit _ _
      | refine Pass.Quiet.okOr _ (fun _ => ?_)
      | refine Pass.Quiet.ifNotNil _ (fun _ => ?_) ?_
      | refine Pass.Quiet.ite _ ?_ ?_
      | refine Pass.Quiet.sub ?_
      | refine Pass.Quiet.call _ _ (fun _ => ?_)
      | exact RemoveFromLBStatus_quiet _ _
      | exact exitSendErrorAsEvent_quiet _ _
      | exact SendErrorAsEvent_quiet _
      | exact ih)

theorem deleteSecGroups_quiet (env : Env σ) :
    Pass.Quiet (deleteSecGroups env : Pass σ ω Ret Ret) := by
  have ih0 := @deleteSecGroupsLoop_quiet σ ω env
  have ih1 := @findAndDeleteSecGroupUsages_quiet σ ω env
  unfold deleteSecGroups
  repeat' (first | rfl | with_reducible first
    | refine Pass.Quiet.bind ?_ (fun _ => ?_)
    | exact Pass.Quiet.pure _
    | exact Pass.Quiet.exit _
    | exact Pass.Quiet.getLB
    | exact Pass.Quiet.orExit _ _
    | refine Pass.Quiet.okOr _ (fun _ => ?_)
    | refine Pass.Quiet.ifNotNil _ (fun _ => ?_) ?_
    | refine Pass.Quiet.ite _ ?_ ?_
    | refine Pass.Quiet.sub ?_
    | refine Pass.Quiet.call _ _ (fun _ => ?_)
    | exact RemoveFromLBStatus_quiet _ _
    | exact exitSendErrorAsEvent_quiet _ _
    | exact SendErrorAsEvent_quiet _
    | exact ih0 _ _
    | exact ih1)

end Stages

theorem World.grewFrom_clean {pre : List Ev} {w : World σ} (h : w.grewFrom pre)
    (hpre : ∀ ev ∈ pre, ev.isFinalizerRemoval = false) :
    ∀ ev ∈ w.trace, ev.isFinalizerRemoval = false := by
  obtain ⟨t, ht, hP⟩ := h
  intro ev hev
  rw [ht] at hev
  rcases List.mem_append.1 hev with h1 | h1
  · exact hpre ev h1
  · exact hP ev h1

/-- C3.  In every pass of `deletionRoutine`: if the finalizer removal was called, then the
listing of the owned sets answered the empty list, `deleteFips`, `deletePorts` and
`deleteSecGroups` ran in this order, each in the world the one before left, each returned
`(false, nil)`, and the removal of `ServiceFinalizer` is the last call of the pass and the
only finalizer removal in it.  And when the listing is empty, a stage that returns an
error or requeue = true ends the pass in the very world that stage left -- no later stage
ran and no finalizer removal is in the trace -- with that error, or else with
`RequeueAfter` the default requeue time. -/
theorem deletionRoutine_finalizer_last (env : Env σ) (ext : σ) (lb : LoadBalancer)
    (out : Option CtrlRet × World σ)
    (hout : (deletionRoutine env).run (World.start ext lb) = out) :
    (∀ key r, Ev.RemoveFinalizerIfNeeded key r ∈ out.2.trace →
      (env.GetLoadBalancerSetsForLoadBalancer ext).1 = .ok [] ∧
      ∃ w1 w2 w3 : World σ,
        (deleteFips env).run ⟨(env.GetLoadBalancerSetsForLoadBalancer ext).2, lb,
          [Ev.GetLoadBalancerSetsForLoadBalancer (.ok [])]⟩ = (some (false, none), w1) ∧
        (deletePorts env).run w1 = (some (false, none), w2) ∧
        (deleteSecGroups env).run w2 = (some (false, none), w3) ∧
        key = ServiceFinalizer ∧
        out.2.trace = w3.trace ++ [Ev.RemoveFinalizerIfNeeded ServiceFinalizer r] ∧
        ∀ ev ∈ w3.trace, ev.isFinalizerRemoval = false) ∧
    ((env.GetLoadBalancerSetsForLoadBalancer ext).1 = .ok [] →
      (∀ r w1,
        (deleteFips env).run ⟨(env.GetLoadBalancerSetsForLoadBalancer ext).2, lb,
          [Ev.GetLoadBalancerSetsForLoadBalancer (.ok [])]⟩ = (some r, w1) →
        r.1 = true ∨ r.2 ≠ none →
        out.2 = w1 ∧ (∀ ev ∈ out.2.trace, ev.isFinalizerRemoval = false) ∧
        out.1 = some (if r.2 = none then (⟨false, DefaultRequeueTime⟩, none)
          else (Result.empty, r.2))) ∧
      (∀ w1 r w2,
        (deleteFips env).run ⟨(env.GetLoadBalancerSetsForLoadBalancer ext).2, lb,
          [Ev.GetLoadBalancerSetsForLoadBalancer (.ok [])]⟩ = (some (false, none), w1) →
        (deletePorts env).run w1 = (some r, w2) →
        r.1 = true ∨ r.2 ≠ none →
        out.2 = w2 ∧ (∀ ev ∈ out.2.trace, ev.isFinalizerRemoval = false) ∧
        out.1 = some (if r.2 = none then (⟨false, DefaultRequeueTime⟩, none)
          else (Result.empty, r.2))) ∧
      (∀ w1 w2 r w3,
        (deleteFips env).run ⟨(env.GetLoadBalancerSetsForLoadBalancer ext).2, lb,
          [Ev.GetLoadBalancerSetsForLoadBalancer (.ok [])]⟩ = (some (false, none), w1) →
        (deletePorts env).run w1 = (some (false, none), w2) →
        (deleteSecGroups env).run w2 = (some r, w3) →
        r.1 = true ∨ r.2 ≠ none →
        out.2 = w3 ∧ (∀ ev ∈ out.2.trace, ev.isFinalizerRemoval = false) ∧
        out.1 = some (if r.2 = none then (⟨false, DefaultRequeueTime⟩, none)
          else (Result.empty, r.2)))) := by
  simp only [deletionRoutine, Pass.run, World.start, Pass.bind_apply, Pass.call_apply,
    List.nil_append] at hout
  rcases hl : (env.GetLoadBalancerSetsForLoadBalancer ext).1 with sets | e
  swap
  · -- the listing failed
    simp only [hl, Pass.okOr_fail_apply, Pass.exit_apply] at hout
    subst hout
    simp
  rcases sets with _ | ⟨s, rest⟩
  swap
  · -- at least one set is listed
    simp only [hl, Pass.okOr_ok_apply] at hout
    obtain ⟨t, ext1, ht, h⟩ := deletionRoutineLoop_apply env
      (fun r w1 => (some r, w1)) (fun w1 => ((none : Option CtrlRet), w1)) _ (s :: rest)
      ⟨(env.GetLoadBalancerSetsForLoadBalancer ext).2, lb,
        [Ev.GetLoadBalancerSetsForLoadBalancer (.ok (s :: rest))]⟩
    have hclean : ∀ key r, Ev.RemoveFinalizerIfNeeded key r ∉
        Ev.GetLoadBalancerSetsForLoadBalancer (.ok (s :: rest)) :: t := by
      intro key r hm
      rcases List.mem_cons.1 hm with h1 | h1
      · simp at h1
      · obtain ⟨s1, r1, h2, -⟩ := ht _ h1
        simp at h2
    rcases h with ⟨h1, -⟩ | ⟨e, s1, h1, -⟩
    · rw [h1] at hout
      rw [Pass.ite_apply, if_pos (by simp)] at hout
      simp only [Pass.exit_apply] at hout
      subst hout
      exact ⟨fun key r hm => absurd hm (hclean key r), by simp⟩
    · rw [h1] at hout
      subst hout
      exact ⟨fun key r hm => absurd hm (hclean key r), by simp⟩
  -- no set is listed
  simp only [hl, Pass.okOr_ok_apply, deletionRoutineLoop, Pass.pure_apply] at hout
  rw [Pass.ite_apply, if_neg (by simp)] at hout
  simp only [Pass.pure_apply, Pass.invoke_apply] at hout
  have c0 : ∀ ev ∈ [Ev.GetLoadBalancerSetsForLoadBalancer (.ok ([] : List LoadBalancerSet))],
      ev.isFinalizerRemoval = false := by
    simp [Ev.isFinalizerRemoval]
  have c1 := World.grewFrom_clean ((deleteFips_quiet env).run
    ⟨(env.GetLoadBalancerSetsForLoadBalancer ext).2, lb,
      [Ev.GetLoadBalancerSetsForLoadBalancer (.ok [])]⟩) c0
  rcases h1 : (deleteFips env).run ⟨(env.GetLoadBalancerSetsForLoadBalancer ext).2, lb,
    [Ev.GetLoadBalancerSetsForLoadBalancer (.ok [])]⟩ with ⟨_ | ⟨_ | _, _ | e1⟩, w1⟩
  all_goals rw [h1] at hout c1
  all_goals simp only [Pass.orExit_none_apply, Pass.orExit_some_apply, Pass.exit_apply,
      Pass.pure_apply, Pass.ite_apply, Pass.invoke_apply, Pass.call_apply, Bool.false_eq_true,
      reduceIte] at hout
  case mk.some.mk.false.none =>
    have c2 := World.grewFrom_clean ((deletePorts_quiet env).run w1) c1
    rcases h2 : (deletePorts env).run w1 with ⟨_ | ⟨_ | _, _ | e2⟩, w2⟩
    all_goals rw [h2] at hout c2
    all_goals simp only [Pass.orExit_none_apply, Pass.orExit_some_apply, Pass.exit_apply,
        Pass.pure_apply, Pass.ite_apply, Pass.invoke_apply, Pass.call_apply, Bool.false_eq_true,
        reduceIte] at hout
    case mk.some.mk.false.none =>
      have c3 := World.grewFrom_clean ((deleteSecGroups_quiet env).run w2) c2
      rcases h3 : (deleteSecGroups env).run w2 with ⟨_ | ⟨_ | _, _ | e3⟩, w3⟩
      all_goals rw [h3] at hout c3
      all_goals simp only [Pass.orExit_none_apply, Pass.orExit_some_apply, Pass.exit_apply,
          Pass.pure_apply, Pass.ite_apply, Pass.invoke_apply, Pass.call_apply, Bool.false_eq_true,
          reduceIte] at hout
      case mk.some.mk.false.none =>
        rw [Pass.orExit_apply] at hout
        split at hout
        all_goals (
          subst hout
          refine ⟨fun key r hm => ?_, fun _ => ⟨fun r w h hr => ?_, fun w r wb h hp hr => ?_,
            fun w wb r wc h hp hq hr => ?_⟩⟩
          · rcases List.mem_append.1 hm with hm1 | hm1
            · exact absurd (c3 _ hm1) (by simp [Ev.isFinalizerRemoval])
            · simp only [List.mem_singleton, Ev.RemoveFinalizerIfNeeded.injEq] at hm1
              obtain ⟨rfl, rfl⟩ := hm1
              exact ⟨rfl, w1, w2, w3, rfl, h2, h3, rfl, rfl, c3⟩
          · cases h <;> simp_all
          · cases h <;> (rw [h2] at hp; cases hp <;> simp_all)
          · cases h <;> (rw [h2] at hp; cases hp <;> (rw [h3] at hq; cases hq <;> simp_all)))
      all_goals (
        subst hout
        refine ⟨fun key r hm => ?_, fun _ => ⟨fun r w h hr => ?_, fun w r wb h hp hr => ?_,
          fun w wb r wc h hp hq hr => ?_⟩⟩
        · first
            | exact absurd (c3 _ hm) (by simp [Ev.isFinalizerRemoval])
            | exact absurd (c2 _ hm) (by simp [Ev.isFinalizerRemoval])
            | exact absurd (c1 _ hm) (by simp [Ev.isFinalizerRemoval])
        · cases h <;> simp_all
        · cases h <;> (rw [h2] at hp; cases hp <;> simp_all)
        · cases h <;> (rw [h2] at hp; cases hp <;> (rw [h3] at hq; cases hq <;> simp_all)))
    all_goals (
      subst hout
      refine ⟨fun key r hm => ?_, fun _ => ⟨fun r w h hr => ?_, fun w r wb h hp hr => ?_,
        fun w wb r wc h hp hq hr => ?_⟩⟩
      · first
          | exact absurd (c3 _ hm) (by simp [Ev.isFinalizerRemoval])
          | exact absurd (c2 _ hm) (by simp [Ev.isFinalizerRemoval])
          | exact absurd (c1 _ hm) (by simp [Ev.isFinalizerRemoval])
      · cases h <;> simp_all
      · cases h <;> (rw [h2] at hp; cases hp <;> simp_all)
      · cases h <;> (rw [h2] at hp; cases hp <;> (rw [h3] at hq; cases hq <;> simp_all)))
  all_goals (
    subst hout
    refine ⟨fun key r hm => ?_, fun _ => ⟨fun r w h hr => ?_, fun w r wb h hp hr => ?_,
      fun w wb r wc h hp hq hr => ?_⟩⟩
    · first
        | exact absurd (c3 _ hm) (by simp [Ev.isFinalizerRemoval])
        | exact absurd (c2 _ hm) (by simp [Ev.isFinalizerRemoval])
        | exact absurd (c1 _ hm) (by simp [Ev.isFinalizerRemoval])
    · cases h <;> simp_all
    · cases h <;> (rw [h2] at hp; cases hp <;> simp_all)
    · cases h <;> (rw [h2] at hp; cases hp <;> (rw [h3] at hq; cases hq <;> simp_all)))

/-- Witness for C3: nothing is listed and nothing is recorded in the status; the three
stages return `(false, nil)` and the pass ends with the finalizer removal. -/
theorem deletionRoutine_finalizer_last_witness :
    Ev.RemoveFinalizerIfNeeded ServiceFinalizer none ∈
      ((deletionRoutine calmEnv).run (World.start () deletingLB)).2.trace ∧
    ∃ w1 w2 w3 : World Unit,
      (deleteFips calmEnv).run ⟨(calmEnv.GetLoadBalancerSetsForLoadBalancer ()).2, deletingLB,
        [Ev.GetLoadBalancerSetsForLoadBalancer (.ok [])]⟩ = (some (false, none), w1) ∧
      (deletePorts calmEnv).run w1 = (some (false, none), w2) ∧
      (deleteSecGroups calmEnv).run w2 = (some (false, none), w3) ∧
      ServiceFinalizer = ServiceFinalizer ∧
      ((deletionRoutine calmEnv).run (World.start () deletingLB)).2.trace =
        w3.trace ++ [Ev.RemoveFinalizerIfNeeded ServiceFinalizer none] ∧
      ∀ ev ∈ w3.trace, ev.isFinalizerRemoval = false :=
  ⟨by decide,
    ((deletionRoutine_finalizer_last calmEnv () deletingLB _ rfl).1 _ _ (by decide)).2⟩

/-! ## Rollout: revisions only grow -/

theorem le_foldl_max (l : List Int) : ∀ m : Int, m ≤ l.foldl max m := by
  induction l with
  | nil => intro m; exact le_refl m
  | cons x xs ih => intro m; exact le_trans (le_max_left m x) (ih (max m x))

theorem mem_le_foldl_max (l : List Int) : ∀ (m r : Int), r ∈ l → r ≤ l.foldl max m := by
  induction l with
  | nil => intro m r h; simp at h
  | cons x xs ih =>
    intro m r h
    rcases List.mem_cons.1 h with rfl | h
    · exact le_trans (le_max_right m r) (le_foldl_max xs (max m r))
    · exact ih (max m x) r h

/-- Every owned set has a revision below the next revision. -/
theorem lt_nextRevision (sets : List LoadBalancerSet) (r : Int)
    (h : r ∈ sets.map fun s => s.Revision) : r < nextRevision sets := by
  have := mem_le_foldl_max _ 0 r h
  unfold nextRevision
  omega

theorem Store.setReplicas_revisions (name : String) (n : Int) (c : Store) :
    (c.setReplicas name n).sets.map (fun s => s.Revision) = c.sets.map fun s => s.Revision := by
  simp only [Store.setReplicas, List.map_map]
  congr 1
  funext s
  simp only [Function.comp]
  split <;> rfl

theorem Store.scaleDownBut_revisions (name : String) (c : Store) :
    (c.scaleDownBut name).sets.map (fun s => s.Revision) = c.sets.map fun s => s.Revision := by
  simp only [Store.scaleDownBut, List.map_map]
  congr 1
  funext s
  simp only [Function.comp]
  split <;> rfl

theorem Reply.ite_ok_eq_ok {α : Type} (p : Prop) [Decidable p] (x r : α) (e : Err) :
    (if p then Reply.ok x else Reply.fail e) = Reply.ok r ↔ p ∧ x = r := by
  split <;> simp [*]

set_option maxHeartbeats 1000000 in
/-- One pass over the store: either no set is created and the revisions of the owned sets
stay as they are, or the last two calls of the pass are the creation of a set with the next
revision and the patch of the LoadBalancer to that revision. -/
theorem reconcileLoadBalancerSet_store (a : Answers) (lb : LoadBalancer) (c : Store)
    (out : Option CtrlRet × World Store)
    (hout : (reconcileLoadBalancerSet (storeEnv a)).run (World.start c lb) = out) :
    (out.2.ext.revisions = c.revisions ∧
      ∀ p h r, Ev.CreateLoadBalancerSet p h r none ∉ out.2.trace) ∨
    (∃ p h e t,
      out.2.trace = t ++ [Ev.CreateLoadBalancerSet p h (nextRevision c.sets) none,
        Ev.PatchLoadBalancerRevision (nextRevision c.sets) e] ∧
      (∀ p1 h1 r1 e1, Ev.CreateLoadBalancerSet p1 h1 r1 e1 ∉ t) ∧
      out.2.ext.sets = c.sets ++ [newLoadBalancerSet h (nextRevision c.sets)] ∧
      (e = none → out.2.ext.revision = nextRevision c.sets)) := by
  simp only [reconcileLoadBalancerSet, Pass.run, World.start, Pass.bind_apply, Pass.call_apply,
    Pass.getLB_apply] at hout
  repeat' (
    (first
      | rw [Pass.orExit_apply] at hout
      | rw [Pass.okOr_apply] at hout
      | rw [Pass.ifNotNil_apply] at hout
      | rw [Pass.deref_apply] at hout
      | rw [Pass.ite_apply] at hout) ;
    split at hout <;>
    try simp only [*, PatchLBStatus, RemoveFromLBStatus, exitSendErrorAsEvent,
      LoadBalancerStatus.merge, LoadBalancerStatus.empty, Pass.bind_apply, Pass.pure_apply,
      Pass.exit_apply, Pass.panic_apply, Pass.getLB_apply, Pass.modifyLB_apply, Pass.call_apply,
      Pass.sub_apply, Pass.orExit_none_apply, Pass.orExit_some_apply, Pass.okOr_ok_apply,
      Pass.okOr_fail_apply, Pass.ifNotNil_some_apply, Pass.ifNotNil_none_apply,
      Pass.deref_some_apply, Pass.deref_none_apply, SendErrorAsEvent_apply, reduceIte,
      reduceCtorEq, Option.isSome_some, Option.isSome_none, Bool.false_eq_true, ne_eq,
      not_false_eq_true, not_true_eq_false, or_self, and_self, true_and, and_true, false_and,
      and_false, true_or, or_true, false_or, or_false, List.append_assoc, List.nil_append,
      List.cons_append] at hout)
  all_goals subst hout
  all_goals first
    | (left
       simp_all [storeEnv, Store.revisions, Store.setReplicas_revisions,
         Store.scaleDownBut_revisions, Reply.ite_ok_eq_ok]
       done)
    | (left
       simp_all [storeEnv, Store.revisions, Store.setReplicas_revisions,
         Store.scaleDownBut_revisions]
       split <;> simp [Store.scaleDownBut_revisions]
       done)
    | (right
       simp_all [storeEnv, Reply.ite_ok_eq_ok]
       first
         | (refine ⟨_, _, _, [_, _], rfl, ?_, ?_, ?_⟩ <;> simp_all
            done)
         | (refine ⟨_, _, _, [_, _], rfl, ?_, ?_⟩ <;> simp_all
            done))

/-- C2.  Over every sequence of passes of `reconcileLoadBalancerSet` on the store, from
every store and with any template hashes and answers in the passes: the revisions of the
owned sets at the end are those at the start followed by the revisions of the sets created
since, and each of these is strictly greater than every revision before it in that list.
In every single pass in which a set was created with revision `r`: `r` is the next revision
of the store the pass started in, strictly greater than the revision of every set in it,
the store gained exactly that set, and the creation is followed at once, as the last call
of the pass, by the patch of the LoadBalancer to the same `r`, which is the recorded
revision if the patch was accepted.  A pass that creates no set leaves the revisions of the
owned sets as they are. -/
theorem rollout_revisions_increase (ps : List (Answers × LoadBalancer)) (c0 : Store) :
    (∃ new : List Int, (rolloutPasses ps c0).revisions = c0.revisions ++ new ∧
      ∀ l1 r l2, new = l1 ++ r :: l2 → ∀ r1 ∈ c0.revisions ++ l1, r1 < r) ∧
    (∀ (a : Answers) (lb : LoadBalancer) (c : Store) (p h : String) (r : Int),
      Ev.CreateLoadBalancerSet p h r none ∈
        ((reconcileLoadBalancerSet (storeEnv a)).run (World.start c lb)).2.trace →
      r = nextRevision c.sets ∧ (∀ s ∈ c.sets, s.Revision < r) ∧
      (rolloutPass a lb c).sets = c.sets ++ [newLoadBalancerSet h r] ∧
      ∃ t e, ((reconcileLoadBalancerSet (storeEnv a)).run (World.start c lb)).2.trace =
          t ++ [Ev.CreateLoadBalancerSet p h r none, Ev.PatchLoadBalancerRevision r e] ∧
        (e = none → (rolloutPass a lb c).revision = r)) ∧
    (∀ (a : Answers) (lb : LoadBalancer) (c : Store),
      (∀ p h r, Ev.CreateLoadBalancerSet p h r none ∉
        ((reconcileLoadBalancerSet (storeEnv a)).run (World.start c lb)).2.trace) →
      (rolloutPass a lb c).revisions = c.revisions) := by
  refine ⟨?_, ?_, ?_⟩
  · induction ps generalizing c0 with
    | nil => exact ⟨[], by simp [rolloutPasses], by simp⟩
    | cons x rest ih =>
      obtain ⟨a, lb⟩ := x
      obtain ⟨new1, hnew1, hinc1⟩ := ih (rolloutPass a lb c0)
      rcases reconcileLoadBalancerSet_store a lb c0 _ rfl with ⟨hrev, -⟩ | ⟨p, h, e, t, -, -, hsets, -⟩
      · refine ⟨new1, ?_, ?_⟩
        · simp only [rolloutPasses]
          rw [hnew1]
          exact congrArg (· ++ new1) hrev
        · intro l1 r l2 hl r1 hr1
          have hrev1 : (rolloutPass a lb c0).revisions = c0.revisions := hrev
          exact hinc1 l1 r l2 hl r1 (by rw [hrev1]; exact hr1)
      · have hrev1 : (rolloutPass a lb c0).revisions =
            c0.revisions ++ [nextRevision c0.sets] := by
          have hs : (rolloutPass a lb c0).sets =
            c0.sets ++ [newLoadBalancerSet h (nextRevision c0.sets)] := hsets
          simp [Store.revisions, hs, newLoadBalancerSet]
        refine ⟨nextRevision c0.sets :: new1, ?_, ?_⟩
        · simp only [rolloutPasses]
          rw [hnew1, hrev1]
          simp
        · intro l1 r l2 hl r1 hr1
          cases l1 with
          | nil =>
            simp only [List.nil_append, List.cons.injEq] at hl
            obtain ⟨rfl, -⟩ := hl
            simp only [List.append_nil] at hr1
            exact lt_nextRevision c0.sets r1 hr1
          | cons y l1 =>
            simp only [List.cons_append, List.cons.injEq] at hl
            obtain ⟨rfl, hl⟩ := hl
            refine hinc1 l1 r l2 hl r1 ?_
            rw [hrev1]
            simpa using hr1
  · intro a lb c p h r hm
    rcases reconcileLoadBalancerSet_store a lb c _ rfl with ⟨-, hno⟩ | ⟨p1, h1, e, t, ht, hnt, hsets, hrev⟩
    · exact absurd hm (hno p h r)
    · rw [ht] at hm
      have hm1 : Ev.CreateLoadBalancerSet p h r none =
          Ev.CreateLoadBalancerSet p1 h1 (nextRevision c.sets) none := by
        rcases List.mem_append.1 hm with hm | hm
        · exact absurd hm (hnt p h r none)
        · simpa using hm
      simp only [Ev.CreateLoadBalancerSet.injEq, and_true] at hm1
      obtain ⟨rfl, rfl, rfl⟩ := hm1
      refine ⟨rfl, ?_, hsets, t, e, ht, hrev⟩
      intro s hs
      exact lt_nextRevision c.sets s.Revision (List.mem_map_of_mem _ hs)
  · intro a lb c hno
    rcases reconcileLoadBalancerSet_store a lb c _ rfl with ⟨hrev, -⟩ | ⟨p1, h1, e, t, ht, -, -, -⟩
    · exact hrev
    · refine absurd ?_ (hno p1 h1 (nextRevision c.sets))
      rw [ht]
      simp

/-- Witness for C2: the template hash goes from `hash-a` to `hash-b` and back; two sets are
created, with the revisions 1 and 2. -/
theorem rollout_revisions_increase_witness :
    (rolloutPasses revertingPasses ⟨[], 0⟩).revisions = [1, 2] ∧
    ∃ new : List Int,
      (rolloutPasses revertingPasses ⟨[], 0⟩).revisions = Store.revisions ⟨[], 0⟩ ++ new ∧
      ∀ l1 r l2, new = l1 ++ r :: l2 → ∀ r1 ∈ Store.revisions ⟨[], 0⟩ ++ l1, r1 < r :=
  ⟨by decide, (rollout_revisions_increase revertingPasses ⟨[], 0⟩).1⟩

/-! ## The global gate of `Reconcile` -/

/-- When the condition of the gate holds, `Reconcile` returns `RequeueAfter`
`DefaultRequeueTime` with no error and makes no call at all. -/
theorem Reconcile_gate_closed (r : Reconciler) (env : Env σ) (req : NamespacedName) (ext : σ)
    (lb : LoadBalancer) (h : r.skips req = true) :
    (Reconcile r env req).run (World.start ext lb) =
      (some (⟨false, DefaultRequeueTime⟩, none), World.start ext lb) := by
  simp only [Reconcile, Pass.run, Pass.bind_apply]
  rw [Pass.ite_apply, if_pos h]
  rfl

/-- The condition of the gate, spelled out: the pause is on, or the filter is set and both
the name and the namespace of the request differ from the filter's. -/
theorem Reconciler.skips_iff (r : Reconciler) (req : NamespacedName) :
    r.skips req = true ↔
      r.skipReconciles = true ∨
        ∃ nn, r.skipAllButNN = some nn ∧ nn.Name ≠ req.Name ∧ nn.Namespace ≠ req.Namespace := by
  unfold Reconciler.skips
  cases r.skipAllButNN <;> simp

/-- C13, evaluated where it fails: the filter is set to `testns/lb` and the request is for
`testns/other`, the same namespace and a different name.  The condition of the gate is
false, and `Reconcile` loads the object `testns/other` and goes on to reconcile it: it adds
the finalizer and creates a security group for it. -/
theorem Reconcile_filter_same_namespace :
    filteringReconciler.skips ⟨"testns", "other"⟩ = false ∧
    ((Reconcile filteringReconciler loadedEnv ⟨"testns", "other"⟩).run
      (World.start () LoadBalancer.zero)).2.trace.head? =
        some (Ev.Get ⟨"testns", "other"⟩ (.ok (some { sampleLB LoadBalancerStatus.empty with
          Namespace := "testns", Name := "other" }))) ∧
    Ev.AddFinalizerIfNeeded ServiceFinalizer none ∈
      ((Reconcile filteringReconciler loadedEnv ⟨"testns", "other"⟩).run
        (World.start () LoadBalancer.zero)).2.trace ∧
    Ev.CreateSecGroup "testns/other" (.ok ⟨"id-1", "testns/other"⟩) ∈
      ((Reconcile filteringReconciler loadedEnv ⟨"testns", "other"⟩).run
        (World.start () LoadBalancer.zero)).2.trace ∧
    ((Reconcile filteringReconciler loadedEnv ⟨"testns", "other"⟩).run
      (World.start () LoadBalancer.zero)) ≠
        (some (⟨false, DefaultRequeueTime⟩, none), World.start () LoadBalancer.zero) := by
  refine ⟨by decide, by decide, by decide, by decide, ?_⟩
  intro h
  have h2 := congrArg (fun o => o.2.trace.length) h
  revert h2
  decide

/-! ## `Reconcile`: the rollout after the cloud reconciliation -/

/-- C11, as stated, fails: the LoadBalancer has no deletion timestamp and the cloud
reconciliation fails at its first step.  `Reconcile` returns that error; the calls of the
pass are the load, the client, the finalizer and the failed accessor, and none of them is
a call of the rollout, which in this environment would have looked up the set for the
current hash first. -/
theorem Reconcile_skips_rollout_on_error :
    ((Reconcile plainReconciler groupClientDownEnv sampleReq).run
      (World.start () LoadBalancer.zero)).1 = some (Result.empty, some (.other "provider down")) ∧
    ((Reconcile plainReconciler groupClientDownEnv sampleReq).run
      (World.start () LoadBalancer.zero)).2.trace =
      [Ev.Get sampleReq (.ok (some (sampleLB LoadBalancerStatus.empty))),
        Ev.GetOpenStackClientForAuthRef "testsecret" none,
        Ev.AddFinalizerIfNeeded ServiceFinalizer none,
        Ev.GroupClient (some (.other "provider down"))] ∧
    Ev.GetLoadBalancerSetForHash "hash-1" (.ok none) ∈
      ((reconcileLoadBalancerSet groupClientDownEnv).run
        ((Reconcile plainReconciler groupClientDownEnv sampleReq).run
          (World.start () LoadBalancer.zero)).2).2.trace ∧
    ((Reconcile plainReconciler groupClientDownEnv sampleReq).run
      (World.start () LoadBalancer.zero)).2.lb.DeletionTimestamp = none := by
  refine ⟨by decide, by decide, by decide, by decide⟩

/-- C11, amended.  Take a pass of `Reconcile` that got past the gate, loaded a LoadBalancer
without a deletion timestamp, obtained the client and added the finalizer, and let `w1` be
the world `reconcileOpenStackIfNeeded` left and `res` what it returned.  If `res` carries
an error or a requeue request, `Reconcile` returns `res` in the world `w1`: the rollout is
not run.  Otherwise the rollout `reconcileLoadBalancerSet` runs from `w1` in the same pass,
the pass ends in the world the rollout left, and `Reconcile` returns what the rollout
returned if that carries an error or a requeue request, and `RequeueAfter` five minutes
otherwise. -/
theorem Reconcile_rollout_after_cloud (r : Reconciler) (env : Env σ) (req : NamespacedName)
    (ext : σ) (lb0 lb : LoadBalancer) (out : Option CtrlRet × World σ) (res : CtrlRet)
    (w1 : World σ)
    (hout : (Reconcile r env req).run (World.start ext lb0) = out)
    (hgate : r.skips req = false)
    (hget : (env.Get req ext).1 = .ok (some lb))
    (hdel : lb.DeletionTimestamp = none)
    (hclient : (env.GetOpenStackClientForAuthRef lb.Spec.Infrastructure.AuthSecretRef
      (env.Get req ext).2).1 = none)
    (hfin : (env.AddFinalizerIfNeeded ServiceFinalizer
      (env.GetOpenStackClientForAuthRef lb.Spec.Infrastructure.AuthSecretRef
        (env.Get req ext).2).2).1 = none)
    (hcloud : (reconcileOpenStackIfNeeded env req).run
      ⟨(env.AddFinalizerIfNeeded ServiceFinalizer
          (env.GetOpenStackClientForAuthRef lb.Spec.Infrastructure.AuthSecretRef
            (env.Get req ext).2).2).2, lb,
        [Ev.Get req (.ok (some lb)),
          Ev.GetOpenStackClientForAuthRef lb.Spec.Infrastructure.AuthSecretRef none,
          Ev.AddFinalizerIfNeeded ServiceFinalizer none]⟩ = (some res, w1)) :
    (res.stops = true → out = (some res, w1)) ∧
    (res.stops = false →
      out.2 = ((reconcileLoadBalancerSet env).run w1).2 ∧
      ∀ res2, ((reconcileLoadBalancerSet env).run w1).1 = some res2 →
        out.1 = some (if res2.stops then res2 else (⟨false, 5 * 60 * 1000⟩, none))) := by
  simp only [Reconcile, Pass.run, World.start, Pass.bind_apply, Pass.call_apply,
    List.nil_append] at hout
  rw [Pass.ite_apply, if_neg (by simp [hgate])] at hout
  simp only [Pass.pure_apply, hget, Pass.okOr_ok_apply, Pass.ifNotNil_some_apply,
    Pass.modifyLB_apply, hclient, Pass.orExit_none_apply, List.singleton_append,
    List.cons_append, List.nil_append] at hout
  rw [Pass.ite_apply, if_neg (by simp [hdel])] at hout
  simp only [Pass.pure_apply, hfin, Pass.orExit_none_apply, Pass.invoke_apply,
    List.cons_append, List.nil_append, hcloud] at hout
  rw [Pass.ite_apply] at hout
  refine ⟨fun hs => ?_, fun hs => ?_⟩
  · rw [if_pos hs] at hout
    exact hout.symm
  · rw [if_neg (by simp [hs])] at hout
    simp only [Pass.pure_apply] at hout
    rcases h2 : (reconcileLoadBalancerSet env).run w1 with ⟨_ | res2, w2⟩
    · rw [h2] at hout
      subst hout
      exact ⟨rfl, fun res2 h => by simp at h⟩
    · rw [h2] at hout
      simp only [] at hout
      rw [Pass.ite_apply] at hout
      subst hout
      refine ⟨?_, ?_⟩
      · split <;> rfl
      · intro res3 h3
        simp only [Option.some.injEq] at h3
        subst h3
        split <;> rfl

/-- Witness for C11: no cloud reconciliation is needed, `reconcileOpenStackIfNeeded`
returns the empty result at once, and the pass ends in the world the rollout left. -/
theorem Reconcile_rollout_after_cloud_witness :
    ((Reconcile plainReconciler settledEnv sampleReq).run
      (World.start () LoadBalancer.zero)).2 =
      ((reconcileLoadBalancerSet settledEnv).run
        ⟨(), sampleLB LoadBalancerStatus.empty,
          [Ev.Get sampleReq (.ok (some (sampleLB LoadBalancerStatus.empty))),
            Ev.GetOpenStackClientForAuthRef "testsecret" none,
            Ev.AddFinalizerIfNeeded ServiceFinalizer none]⟩).2 :=
  ((Reconcile_rollout_after_cloud plainReconciler settledEnv sampleReq ()
    LoadBalancer.zero (sampleLB LoadBalancerStatus.empty) _ (Result.empty, none)
    ⟨(), sampleLB LoadBalancerStatus.empty,
      [Ev.Get sampleReq (.ok (some (sampleLB LoadBalancerStatus.empty))),
        Ev.GetOpenStackClientForAuthRef "testsecret" none,
        Ev.AddFinalizerIfNeeded ServiceFinalizer none]⟩
    rfl rfl rfl rfl rfl rfl rfl).2 rfl).1

/-! ## Calls of one kind only -/

theorem World.grewBy_refl (P : Ev → Bool) (w : World σ) : w.grewBy P w.trace :=
  ⟨[], (List.append_nil _).symm, by simp⟩

theorem World.grewBy_call {P : Ev → Bool} {pre : List Ev} {w : World σ}
    (h : w.grewBy P pre) (ev : Ev) (hev : P ev = true) (ext1 : σ) (lb1 : LoadBalancer) :
    World.grewBy P pre (⟨ext1, lb1, w.trace ++ [ev]⟩ : World σ) := by
  obtain ⟨t, ht, hP⟩ := h
  refine ⟨t ++ [ev], by simp [ht], ?_⟩
  intro e he
  rcases List.mem_append.1 he with h1 | h1
  · exact hP e h1
  · simp at h1; subst h1; exact hev

theorem World.grewBy_all {P : Ev → Bool} {pre : List Ev} {w : World σ} (h : w.grewBy P pre)
    (hpre : ∀ ev ∈ pre, P ev = true) : ∀ ev ∈ w.trace, P ev = true := by
  obtain ⟨t, ht, hP⟩ := h
  intro ev hev
  rw [ht] at hev
  rcases List.mem_append.1 hev with h1 | h1
  · exact hpre ev h1
  · exact hP ev h1

namespace Pass

variable {ω ρ α β : Type} {P : Ev → Bool}

theorem Emits.pure_emits (a : α) : Emits P (pure a : Pass σ ω ρ α) :=
  fun _ _ _ _ _ _ _ _ hk hw => hk _ _ hw

theorem Emits.exit_emits (r : ρ) : Emits P (exit r : Pass σ ω ρ α) :=
  fun _ _ _ _ _ _ hr _ _ hw => hr _ _ hw

theorem Emits.panic_emits : Emits P (panic : Pass σ ω ρ α) :=
  fun _ _ _ _ _ _ _ hp _ hw => hp _ hw

theorem Emits.getLB_emits : Emits P (getLB : Pass σ ω ρ LoadBalancer) :=
  fun _ _ _ _ _ _ _ _ hk hw => hk _ _ hw

theorem Emits.modifyLB_emits (f : LoadBalancer → LoadBalancer) :
    Emits P (modifyLB f : Pass σ ω ρ Unit) :=
  fun _ _ _ _ _ _ _ _ hk hw => hk _ _ hw

theorem Emits.read_emits (f : σ → α) : Emits P (read f : Pass σ ω ρ α) :=
  fun _ _ _ _ _ _ _ _ hk hw => hk _ _ hw

theorem Emits.call_emits (f : σ → α × σ) (ev : α → Ev) (hev : ∀ a, P (ev a) = true) :
    Emits P (call f ev : Pass σ ω ρ α) :=
  fun _ _ _ _ _ _ _ _ hk hw => hk _ _ (World.grewBy_call hw _ (hev _) _ _)

theorem Emits.bind_emits {m : Pass σ ω ρ α} {f : α → Pass σ ω ρ β} (hm : Emits P m)
    (hf : ∀ a, Emits P (f a)) : Emits P (m >>= f) :=
  fun G pre kr kp k w hr hp hk hw =>
    hm G pre kr kp _ w hr hp (fun a w1 h1 => hf a G pre kr kp k w1 hr hp hk h1) hw

theorem Emits.orExit_emits (err : Option Err) (f : Err → ρ) :
    Emits P (orExit err f : Pass σ ω ρ Unit) := by
  cases err
  · exact fun _ _ _ _ _ _ _ _ hk hw => hk _ _ hw
  · exact fun _ _ _ _ _ _ hr _ _ hw => hr _ _ hw

theorem Emits.okOr_emits (r : Reply α) {f : Err → Pass σ ω ρ α} (hf : ∀ e, Emits P (f e)) :
    Emits P (okOr r f) := by
  cases r
  · exact fun _ _ _ _ _ _ _ _ hk hw => hk _ _ hw
  · exact hf _

theorem Emits.ifNotNil_emits (p : Option α) {f : α → Pass σ ω ρ β} {g : Pass σ ω ρ β}
    (hf : ∀ a, Emits P (f a)) (hg : Emits P g) : Emits P (ifNotNil p f g) := by
  cases p
  · exact hg
  · exact hf _

theorem Emits.deref_emits (p : Option α) : Emits P (deref p : Pass σ ω ρ α) := by
  cases p
  · exact fun _ _ _ _ _ _ _ hp _ hw => hp _ hw
  · exact fun _ _ _ _ _ _ _ _ hk hw => hk _ _ hw

theorem Emits.ite_emits (c : Prop) [Decidable c] {a b : Pass σ ω ρ α} (ha : Emits P a)
    (hb : Emits P b) : Emits P (if c then a else b) := by
  split
  · exact ha
  · exact hb

theorem Emits.sub_emits {ρ1 : Type} {m : Pass σ ω ρ1 ρ1} (hm : Emits P m) :
    Emits P (sub m : Pass σ ω ρ ρ1) :=
  fun G pre _ kp k w _ hp hk hw => hm G pre k kp k w hk hp hk hw

theorem Emits.invoke_emits {ρ1 : Type} {m : Pass σ (Option ρ1 × World σ) ρ1 ρ1} (hm : Emits P m) :
    Emits P (invoke m : Pass σ ω ρ ρ1) :=
  fun G pre _ kp k w _ hp hk hw =>
    hm (fun o => G (match o with
        | (some r, w1) => k r w1
        | (none, w1) => kp w1)) pre _ _ _ w
      (fun r w1 h => hk r w1 h) (fun w1 h => hp w1 h) (fun r w1 h => hk r w1 h) hw

/-- A function that makes calls of the kind `P` only, run as a whole, leaves a world whose
trace is the one it started with followed by calls of the kind `P`. -/
theorem Emits.run_emits {m : Pass σ (Option ρ × World σ) ρ ρ} (hm : Emits P m) (w : World σ) :
    (m.run w).2.grewBy P w.trace :=
  hm (fun o => o.2.grewBy P w.trace) w.trace _ _ _ w (fun _ _ h => h) (fun _ h => h)
    (fun _ _ h => h) (World.grewBy_refl P w)

end Pass

section Emits

variable {ω ρ : Type} {P : Ev → Bool}

theorem SendErrorAsEvent_emits (e : Err) (hP : P (Ev.SendErrorAsEvent e) = true) :
    Pass.Emits P (SendErrorAsEvent e : Pass σ ω ρ (Option Err)) :=
  fun _ _ _ _ _ _ _ _ hk hw =>
    hk _ _ (World.grewBy_call hw (Ev.SendErrorAsEvent e) hP _ _)

theorem exitSendErrorAsEvent_emits {α : Type} (requeue : Bool) (e : Err)
    (hP : P (Ev.SendErrorAsEvent e) = true) :
    Pass.Emits P (exitSendErrorAsEvent requeue e : Pass σ ω Ret α) :=
  Pass.Emits.bind_emits (SendErrorAsEvent_emits e hP) fun _ => Pass.Emits.exit_emits _

theorem PatchLBStatus_emits (env : Env σ) (patch : LoadBalancerStatus)
    (hP : ∀ r, P (Ev.PatchLBStatus patch r) = true) :
    Pass.Emits P (PatchLBStatus env patch : Pass σ ω ρ (Option Err)) :=
  Pass.Emits.bind_emits (Pass.Emits.call_emits _ _ hP) fun _ =>
    Pass.Emits.ifNotNil_emits _ (fun _ => Pass.Emits.pure_emits _)
      (Pass.Emits.bind_emits (Pass.Emits.modifyLB_emits _) fun _ => Pass.Emits.pure_emits _)

theorem RemoveFromLBStatus_emits (env : Env σ) (key : String)
    (hP : ∀ r, P (Ev.RemoveFromLBStatus key r) = true) :
    Pass.Emits P (RemoveFromLBStatus env key : Pass σ ω ρ (Option Err)) :=
  Pass.Emits.bind_emits (Pass.Emits.call_emits _ _ hP) fun _ =>
    Pass.Emits.ifNotNil_emits _ (fun _ => Pass.Emits.pure_emits _)
      (Pass.Emits.bind_emits (Pass.Emits.modifyLB_emits _) fun _ => Pass.Emits.pure_emits _)

end Emits

section Keeps

variable {ω : Type}

theorem deleteFipsLoop_keeps (env : Env σ) (n : String) :
    ∀ l : List FloatingIP, Pass.Emits Ev.keepsReconcileMark (deleteFipsLoop env n l : Pass σ ω Ret Unit)
  | [] => Pass.Emits.pure_emits _
  | _ :: rest => by
    have ih := deleteFipsLoop_keeps env n rest
    unfold deleteFipsLoop
    repeat' (first | rfl | with_reducible first
      | refine Pass.Emits.bind_emits ?_ (fun _ => ?_)
      | exact Pass.Emits.pure_emits _
      | exact Pass.Emits.exit_emits _
      | exact Pass.Emits.getLB_emits
      | exact Pass.Emits.read_emits _
      | exact Pass.Emits.orExit_emits _ _
      | exact Pass.Emits.deref_emits _
      | refine Pass.Emits.okOr_emits _ (fun _ => ?_)
      | refine Pass.Emits.ifNotNil_emits _ (fun _ => ?_) ?_
      | refine Pass.Emits.ite_emits _ ?_ ?_
      | refine Pass.Emits.sub_emits ?_
      | refine Pass.Emits.invoke_emits ?_
      | refine Pass.Emits.call_emits _ _ (fun _ => ?_)
      | refine PatchLBStatus_emits _ _ (fun _ => ?_)
      | refine RemoveFromLBStatus_emits _ _ (fun _ => ?_)
      | refine exitSendErrorAsEvent_emits _ _ ?_
      | refine SendErrorAsEvent_emits _ ?_
      | exact ih)

theorem deleteFips_keeps (env : Env σ) :
    Pass.Emits Ev.keepsReconcileMark (deleteFips env : Pass σ ω Ret Ret) := by
  have ih0 := @deleteFipsLoop_keeps σ ω env
  unfold deleteFips
  repeat' (first | rfl | with_reducible first
    | refine Pass.Emits.bind_emits ?_ (fun _ => ?_)
    | exact Pass.Emits.pure_emits _
    | exact Pass.Emits.exit_emits _
    | exact Pass.Emits.getLB_emits
    | exact Pass.Emits.read_emits _
    | exact Pass.Emits.orExit_emits _ _
    | exact Pass.Emits.deref_emits _
    | refine Pass.Emits.okOr_emits _ (fun _ => ?_)
    | refine Pass.Emits.ifNotNil_emits _ (fun _ => ?_) ?_
    | refine Pass.Emits.ite_emits _ ?_ ?_
    | refine Pass.Emits.sub_emits ?_
    | refine Pass.Emits.invoke_emits ?_
    | refine Pass.Emits.call_emits _ _ (fun _ => ?_)
    | refine PatchLBStatus_emits _ _ (fun _ => ?_)
    | refine RemoveFromLBStatus_emits _ _ (fun _ => ?_)
    | refine exitSendErrorAsEvent_emits _ _ ?_
    | refine SendErrorAsEvent_emits _ ?_
    | exact ih0 _ _)

theorem assignOrCreateFIP_keeps (env : Env σ) :
    Pass.Emits Ev.keepsReconcileMark (assignOrCreateFIP env : Pass σ ω (Option Err) (Option Err)) := by
  unfold assignOrCreateFIP
  repeat' (first | rfl | with_reducible first
    | refine Pass.Emits.bind_emits ?_ (fun _ => ?_)
    | exact Pass.Emits.pure_emits _
    | exact Pass.Emits.exit_emits _
    | exact Pass.Emits.getLB_emits
    | exact Pass.Emits.read_emits _
    | exact Pass.Emits.orExit_emits _ _
    | exact Pass.Emits.deref_emits _
    | refine Pass.Emits.okOr_emits _ (fun _ => ?_)
    | refine Pass.Emits.ifNotNil_emits _ (fun _ => ?_) ?_
    | refine Pass.Emits.ite_emits _ ?_ ?_
    | refine Pass.Emits.sub_emits ?_
    | refine Pass.Emits.invoke_emits ?_
    | refine Pass.Emits.call_emits _ _ (fun _ => ?_)
    | refine PatchLBStatus_emits _ _ (fun _ => ?_)
    | refine RemoveFromLBStatus_emits _ _ (fun _ => ?_)
    | refine exitSendErrorAsEvent_emits _ _ ?_
    | refine SendErrorAsEvent_emits _ ?_)

theorem reconcileFIPSync_keeps (env : Env σ) (requeue : Bool) :
    Pass.Emits Ev.keepsReconcileMark (reconcileFIPSync env requeue : Pass σ ω Ret Ret) := by
  unfold reconcileFIPSync
  repeat' (first | rfl | with_reducible first
    | refine Pass.Emits.bind_emits ?_ (fun _ => ?_)
    | exact Pass.Emits.pure_emits _
    | exact Pass.Emits.exit_emits _
    | exact Pass.Emits.getLB_emits
    | exact Pass.Emits.read_emits _
    | exact Pass.Emits.orExit_emits _ _
    | exact Pass.Emits.deref_emits _
    | refine Pass.Emits.okOr_emits _ (fun _ => ?_)
    | refine Pass.Emits.ifNotNil_emits _ (fun _ => ?_) ?_
    | refine Pass.Emits.ite_emits _ ?_ ?_
    | refine Pass.Emits.sub_emits ?_
    | refine Pass.Emits.invoke_emits ?_
    | refine Pass.Emits.call_emits _ _ (fun _ => ?_)
    | refine PatchLBStatus_emits _ _ (fun _ => ?_)
    | refine RemoveFromLBStatus_emits _ _ (fun _ => ?_)
    | refine exitSendErrorAsEvent_emits _ _ ?_
    | refine SendErrorAsEvent_emits _ ?_)

theorem reconcileFIP_keeps (env : Env σ) (req : NamespacedName) :
    Pass.Emits Ev.keepsReconcileMark (reconcileFIP env req : Pass σ ω Ret Ret) := by
  have ih0 := @deleteFips_keeps σ ω env
  have ih1 := @assignOrCreateFIP_keeps σ ω env
  have ih2 := @reconcileFIPSync_keeps σ ω env
  unfold reconcileFIP
  repeat' (first | rfl | with_reducible first
    | refine Pass.Emits.bind_emits ?_ (fun _ => ?_)
    | exact Pass.Emits.pure_emits _
    | exact Pass.Emits.exit_emits _
    | exact Pass.Emits.getLB_emits
    | exact Pass.Emits.read_emits _
    | exact Pass.Emits.orExit_emits _ _
    | exact Pass.Emits.deref_emits _
    | refine Pass.Emits.okOr_emits _ (fun _ => ?_)
    | refine Pass.Emits.ifNotNil_emits _ (fun _ => ?_) ?_
    | refine Pass.Emits.ite_emits _ ?_ ?_
    | refine Pass.Emits.sub_emits ?_
    | refine Pass.Emits.invoke_emits ?_
    | refine Pass.Emits.call_emits _ _ (fun _ => ?_)
    | refine PatchLBStatus_emits _ _ (fun _ => ?_)
    | refine RemoveFromLBStatus_emits _ _ (fun _ => ?_)
    | refine exitSendErrorAsEvent_emits _ _ ?_
    | refine SendErrorAsEvent_emits _ ?_
    | exact ih0
    | exact ih1
    | exact ih2 _)

theorem reconcileSecGroupSync_keeps (env : Env σ) (req : NamespacedName) (create : Option SecGroup × Bool) :
    Pass.Emits Ev.keepsReconcileMark (reconcileSecGroupSync env req create : Pass σ ω Ret Ret) := by
  unfold reconcileSecGroupSync
  repeat' (first | rfl | with_reducible first
    | refine Pass.Emits.bind_emits ?_ (fun _ => ?_)
    | exact Pass.Emits.pure_emits _
    | exact Pass.Emits.exit_emits _
    | exact Pass.Emits.getLB_emits
    | exact Pass.Emits.read_emits _
    | exact Pass.Emits.orExit_emits _ _
    | exact Pass.Emits.deref_emits _
    | refine Pass.Emits.okOr_emits _ (fun _ => ?_)
    | refine Pass.Emits.ifNotNil_emits _ (fun _ => ?_) ?_
    | refine Pass.Emits.ite_emits _ ?_ ?_
    | refine Pass.Emits.sub_emits ?_
    | refine Pass.Emits.invoke_emits ?_
    | refine Pass.Emits.call_emits _ _ (fun _ => ?_)
    | refine PatchLBStatus_emits _ _ (fun _ => ?_)
    | refine RemoveFromLBStatus_emits _ _ (fun _ => ?_)
    | refine exitSendErrorAsEvent_emits _ _ ?_
    | refine SendErrorAsEvent_emits _ ?_)

theorem reconcileSecGroup_keeps (env : Env σ) (req : NamespacedName) :
    Pass.Emits Ev.keepsReconcileMark (reconcileSecGroup env req : Pass σ ω Ret Ret) := by
  have ih0 := @reconcileSecGroupSync_keeps σ ω env
  unfold reconcileSecGroup
  repeat' (first | rfl | with_reducible first
    | refine Pass.Emits.bind_emits ?_ (fun _ => ?_)
    | exact Pass.Emits.pure_emits _
    | exact Pass.Emits.exit_emits _
    | exact Pass.Emits.getLB_emits
    | exact Pass.Emits.read_emits _
    | exact Pass.Emits.orExit_emits _ _
    | exact Pass.Emits.deref_emits _
    | refine Pass.Emits.okOr_emits _ (fun _ => ?_)
    | refine Pass.Emits.ifNotNil_emits _ (fun _ => ?_) ?_
    | refine Pass.Emits.ite_emits _ ?_ ?_
    | refine Pass.Emits.sub_emits ?_
    | refine Pass.Emits.invoke_emits ?_
    | refine Pass.Emits.call_emits _ _ (fun _ => ?_)
    | refine PatchLBStatus_emits _ _ (fun _ => ?_)
    | refine RemoveFromLBStatus_emits _ _ (fun _ => ?_)
    | refine exitSendErrorAsEvent_emits _ _ ?_
    | refine SendErrorAsEvent_emits _ ?_
    | exact ih0 _ _)

theorem reconcilePortSync_keeps (env : Env σ) (created : Option Port × Bool) :
    Pass.Emits Ev.keepsReconcileMark (reconcilePortSync env created : Pass σ ω Ret Ret) := by
  unfold reconcilePortSync
  repeat' (first | rfl | with_reducible first
    | refine Pass.Emits.bind_emits ?_ (fun _ => ?_)
    | exact Pass.Emits.pure_emits _
    | exact Pass.Emits.exit_emits _
    | exact Pass.Emits.getLB_emits
    | exact Pass.Emits.read_emits _
    | exact Pass.Emits.orExit_emits _ _
    | exact Pass.Emits.deref_emits _
    | refine Pass.Emits.okOr_emits _ (fun _ => ?_)
    | refine Pass.Emits.ifNotNil_emits _ (fun _ => ?_) ?_
    | refine Pass.Emits.ite_emits _ ?_ ?_
    | refine Pass.Emits.sub_emits ?_
    | refine Pass.Emits.invoke_emits ?_
    | refine Pass.Emits.call_emits _ _ (fun _ => ?_)
    | refine PatchLBStatus_emits _ _ (fun _ => ?_)
    | refine RemoveFromLBStatus_emits _ _ (fun _ => ?_)
    | refine exitSendErrorAsEvent_emits _ _ ?_
    | refine SendErrorAsEvent_emits _ ?_)

theorem reconcilePort_keeps (env : Env σ) (req : NamespacedName) :
    Pass.Emits Ev.keepsReconcileMark (reconcilePort env req : Pass σ ω Ret Ret) := by
  have ih0 := @reconcilePortSync_keeps σ ω env
  unfold reconcilePort
  repeat' (first | rfl | with_reducible first
    | refine Pass.Emits.bind_emits ?_ (fun _ => ?_)
    | exact Pass.Emits.pure_emits _
    | exact Pass.Emits.exit_emits _
    | exact Pass.Emits.getLB_emits
    | exact Pass.Emits.read_emits _
    | exact Pass.Emits.orExit_emits _ _
    | exact Pass.Emits.deref_emits _
    | refine Pass.Emits.okOr_emits _ (fun _ => ?_)
    | refine Pass.Emits.ifNotNil_emits _ (fun _ => ?_) ?_
    | refine Pass.Emits.ite_emits _ ?_ ?_
    | refine Pass.Emits.sub_emits ?_
    | refine Pass.Emits.invoke_emits ?_
    | refine Pass.Emits.call_emits _ _ (fun _ => ?_)
    | refine PatchLBStatus_emits _ _ (fun _ => ?_)
    | refine RemoveFromLBStatus_emits _ _ (fun _ => ?_)
    | refine exitSendErrorAsEvent_emits _ _ ?_
    | refine SendErrorAsEvent_emits _ ?_
    | exact ih0 _)

theorem reconcileFIPAssociate_keeps (env : Env σ) (req : NamespacedName) :
    Pass.Emits Ev.keepsReconcileMark (reconcileFIPAssociate env req : Pass σ ω Ret Ret) := by
  unfold reconcileFIPAssociate
  repeat' (first | rfl | with_reducible first
    | refine Pass.Emits.bind_emits ?_ (fun _ => ?_)
    | exact Pass.Emits.pure_emits _
    | exact Pass.Emits.exit_emits _
    | exact Pass.Emits.getLB_emits
    | exact Pass.Emits.read_emits _
    | exact Pass.Emits.orExit_emits _ _
    | exact Pass.Emits.deref_emits _
    | refine Pass.Emits.okOr_emits _ (fun _ => ?_)
    | refine Pass.Emits.ifNotNil_emits _ (fun _ => ?_) ?_
    | refine Pass.Emits.ite_emits _ ?_ ?_
    | refine Pass.Emits.sub_emits ?_
    | refine Pass.Emits.invoke_emits ?_
    | refine Pass.Emits.call_emits _ _ (fun _ => ?_)
    | refine PatchLBStatus_emits _ _ (fun _ => ?_)
    | refine RemoveFromLBStatus_emits _ _ (fun _ => ?_)
    | refine exitSendErrorAsEvent_emits _ _ ?_
    | refine SendErrorAsEvent_emits _ ?_)

end Keeps

/-! ## Cloud reconciliation: order, abort on error -/

/-- A function that leaves a kind of calls alone, run as a whole from a world whose trace
has no call of that kind, leaves a world whose trace has none. -/
theorem Pass.Emits.run_all {ρ : Type} {P : Ev → Bool} {m : Pass σ (Option ρ × World σ) ρ ρ}
    (hm : Pass.Emits P m) (w : World σ) (r : Option ρ) (w1 : World σ)
    (h : m.run w = (r, w1)) (hw : ∀ ev ∈ w.trace, P ev = true) :
    ∀ ev ∈ w1.trace, P ev = true := by
  have := hm.run_emits w
  rw [h] at this
  exact World.grewBy_all this hw

/-- C15.  Take a pass of `reconcileOpenStackIfNeeded` with the reconcile-needed gate open.
The sub-reconcilers run in the order security group, floating IP, port, association, each
in the world the one before left.  If one of them returns an error `e` (with whatever
requeue flag `q`), those before it having returned no error, the pass returns the empty
result with `e` in the very world that sub-reconciler left -- no later sub-reconciler
ran -- and no call of the pass wrote the reconcile timestamp or the reconcile hash. -/
theorem reconcileOpenStackIfNeeded_aborts_on_error (env : Env σ) (req : NamespacedName)
    (ext : σ) (lb : LoadBalancer) (out : Option CtrlRet × World σ)
    (hout : (reconcileOpenStackIfNeeded env req).run (World.start ext lb) = out)
    (hneeded : env.LoadBalancerOpenstackReconcileIsNeeded lb ext = true) :
    (∀ (q : Bool) (e : Err) (w1 : World σ),
        (reconcileSecGroup env req).run ⟨ext, lb, []⟩ = (some (q, some e), w1) →
        out = (some (Result.empty, some e), w1) ∧
          ∀ ev ∈ out.2.trace, ev.writesReconcileMark = false) ∧
    (∀ (q1 q : Bool) (e : Err) (w1 w2 : World σ),
        (reconcileSecGroup env req).run ⟨ext, lb, []⟩ = (some (q1, none), w1) →
        (reconcileFIP env req).run w1 = (some (q, some e), w2) →
        out = (some (Result.empty, some e), w2) ∧
          ∀ ev ∈ out.2.trace, ev.writesReconcileMark = false) ∧
    (∀ (q1 q2 q : Bool) (e : Err) (w1 w2 w3 : World σ),
        (reconcileSecGroup env req).run ⟨ext, lb, []⟩ = (some (q1, none), w1) →
        (reconcileFIP env req).run w1 = (some (q2, none), w2) →
        (reconcilePort env req).run w2 = (some (q, some e), w3) →
        out = (some (Result.empty, some e), w3) ∧
          ∀ ev ∈ out.2.trace, ev.writesReconcileMark = false) ∧
    (∀ (q1 q2 q3 q : Bool) (e : Err) (w1 w2 w3 w4 : World σ),
        (reconcileSecGroup env req).run ⟨ext, lb, []⟩ = (some (q1, none), w1) →
        (reconcileFIP env req).run w1 = (some (q2, none), w2) →
        (reconcilePort env req).run w2 = (some (q3, none), w3) →
        (reconcileFIPAssociate env req).run w3 = (some (q, some e), w4) →
        out = (some (Result.empty, some e), w4) ∧
          ∀ ev ∈ out.2.trace, ev.writesReconcileMark = false) := by
  simp only [reconcileOpenStackIfNeeded, Pass.run, World.start, Pass.bind_apply,
    Pass.getLB_apply, Pass.read_apply, hneeded, Bool.not_true] at hout
  rw [Pass.ite_apply, if_neg (by simp)] at hout
  simp only [Pass.pure_apply, Pass.invoke_apply] at hout
  refine ⟨?_, ?_, ?_, ?_⟩
  · intro q e w1 h1
    have c0 : ∀ ev ∈ ([] : List Ev), ev.keepsReconcileMark = true := by simp
    have c1 := Pass.Emits.run_all (reconcileSecGroup_keeps env req) (⟨ext, lb, []⟩ : World σ) _ _ h1 c0
    simp only [h1, Pass.orExit_none_apply, Pass.orExit_some_apply, Pass.invoke_apply] at hout
    subst hout
    exact ⟨rfl, fun ev hev => by simpa [Ev.keepsReconcileMark] using c1 ev hev⟩
  · intro q1 q e w1 w2 h1 h2
    have c0 : ∀ ev ∈ ([] : List Ev), ev.keepsReconcileMark = true := by simp
    have c1 := Pass.Emits.run_all (reconcileSecGroup_keeps env req) (⟨ext, lb, []⟩ : World σ) _ _ h1 c0
    have c2 := Pass.Emits.run_all (reconcileFIP_keeps env req) w1 _ _ h2 c1
    simp only [h1, h2, Pass.orExit_none_apply, Pass.orExit_some_apply, Pass.invoke_apply] at hout
    subst hout
    exact ⟨rfl, fun ev hev => by simpa [Ev.keepsReconcileMark] using c2 ev hev⟩
  · intro q1 q2 q e w1 w2 w3 h1 h2 h3
    have c0 : ∀ ev ∈ ([] : List Ev), ev.keepsReconcileMark = true := by simp
    have c1 := Pass.Emits.run_all (reconcileSecGroup_keeps env req) (⟨ext, lb, []⟩ : World σ) _ _ h1 c0
    have c2 := Pass.Emits.run_all (reconcileFIP_keeps env req) w1 _ _ h2 c1
    have c3 := Pass.Emits.run_all (reconcilePort_keeps env req) w2 _ _ h3 c2
    simp only [h1, h2, h3, Pass.orExit_none_apply, Pass.orExit_some_apply, Pass.invoke_apply] at hout
    subst hout
    exact ⟨rfl, fun ev hev => by simpa [Ev.keepsReconcileMark] using c3 ev hev⟩
  · intro q1 q2 q3 q e w1 w2 w3 w4 h1 h2 h3 h4
    have c0 : ∀ ev ∈ ([] : List Ev), ev.keepsReconcileMark = true := by simp
    have c1 := Pass.Emits.run_all (reconcileSecGroup_keeps env req) (⟨ext, lb, []⟩ : World σ) _ _ h1 c0
    have c2 := Pass.Emits.run_all (reconcileFIP_keeps env req) w1 _ _ h2 c1
    have c3 := Pass.Emits.run_all (reconcilePort_keeps env req) w2 _ _ h3 c2
    have c4 := Pass.Emits.run_all (reconcileFIPAssociate_keeps env req) w3 _ _ h4 c3
    simp only [h1, h2, h3, h4, Pass.orExit_none_apply, Pass.orExit_some_apply, Pass.invoke_apply] at hout
    subst hout
    exact ⟨rfl, fun ev hev => by simpa [Ev.keepsReconcileMark] using c4 ev hev⟩

/-! ## Cloud reconciliation: the timestamp and the hash -/

/-- The last part of `reconcileOpenStackIfNeeded`, run from any world `w`: the first call is
the patch of `LastOpenstackReconcile` with the time now.  If the store refuses it, the error
is returned and nothing else is called.  If it is accepted and the hash of the object as
it then is cannot be computed, the error is returned; if the hash equals the stored one,
nothing is written; otherwise the one further status patch carries the fresh hash. -/
theorem reconcileOpenStackDone_run (env : Env σ) (w : World σ)
    (out : Option CtrlRet × World σ)
    (hout : (reconcileOpenStackDone env).run w = out) :
    ∃ r0 rest,
      out.2.trace = w.trace ++ Ev.PatchLBStatus
        { LoadBalancerStatus.empty with LastOpenstackReconcile := some (env.Now w.ext) } r0 ::
          rest ∧
      (∀ e, r0 = some e → rest = [] ∧ out.1 = some (Result.empty, some e)) ∧
      (r0 = none →
        (∀ e, env.GetOpenStackReconcileHash (w.lb.patched
            { LoadBalancerStatus.empty with LastOpenstackReconcile := some (env.Now w.ext) }) =
              .fail e →
          rest = [] ∧ out.1 = some (Result.empty, some e)) ∧
        (∀ h, env.GetOpenStackReconcileHash (w.lb.patched
            { LoadBalancerStatus.empty with LastOpenstackReconcile := some (env.Now w.ext) }) =
              .ok h →
          (w.lb.Status.OpenstackReconcileHash = some h →
            rest = [] ∧ out.1 = some (Result.empty, none)) ∧
          (w.lb.Status.OpenstackReconcileHash ≠ some h →
            ∃ r2, rest.head? = some (Ev.PatchLBStatus
                { LoadBalancerStatus.empty with OpenstackReconcileHash := some h } r2) ∧
              (r2 = none → rest.length = 1 ∧ out.1 = some (Result.empty, none)) ∧
              (∀ e, r2 = some e →
                rest.tail = [Ev.SendErrorAsEvent e] ∧
                out.1 = some (Result.empty, some e))))) := by
  simp only [reconcileOpenStackDone, updateOpenstackReconcileHash, PatchLBStatus, Pass.read_apply, Pass.sub_apply, Pass.run, World.start, Pass.bind_apply, Pass.call_apply,
    Pass.getLB_apply] at hout
  repeat' (
    (first
      | rw [Pass.orExit_apply] at hout
      | rw [Pass.okOr_apply] at hout
      | rw [Pass.ifNotNil_apply] at hout
      | rw [Pass.deref_apply] at hout
      | rw [Pass.ite_apply] at hout) ;
    split at hout <;>
    try simp only [*, PatchLBStatus, RemoveFromLBStatus, exitSendErrorAsEvent, Pass.read_apply,
      LoadBalancerStatus.merge, LoadBalancerStatus.empty, Pass.bind_apply, Pass.pure_apply,
      Pass.exit_apply, Pass.panic_apply, Pass.getLB_apply, Pass.modifyLB_apply, Pass.call_apply,
      Pass.sub_apply, Pass.orExit_none_apply, Pass.orExit_some_apply, Pass.okOr_ok_apply,
      Pass.okOr_fail_apply, Pass.ifNotNil_some_apply, Pass.ifNotNil_none_apply,
      Pass.deref_some_apply, Pass.deref_none_apply, SendErrorAsEvent_apply, reduceIte,
      reduceCtorEq, Option.isSome_some, Option.isSome_none, Bool.false_eq_true, ne_eq,
      not_false_eq_true, not_true_eq_false, or_self, and_self, true_and, and_true, false_and,
      and_false, true_or, or_true, false_or, or_false, List.append_assoc, List.nil_append,
      List.cons_append] at hout)
  all_goals subst hout
  all_goals refine ⟨_, _, rfl, ?_, ?_⟩
  all_goals simp_all [LoadBalancer.patched, LoadBalancerStatus.merge, LoadBalancerStatus.empty]
  all_goals (intro hs; simp_all)

/-- C14.  Take a pass of `reconcileOpenStackIfNeeded` with the reconcile-needed gate open.
A status patch that sets `LastOpenstackReconcile` is among the calls of the pass if and
only if the four sub-reconcilers, run in order, each returned `(false, nil)`.  If none of
them failed and one asked for a requeue, the pass returns `RequeueAfter`
`DefaultRequeueTime` in the world the last one left, and no call of the pass wrote the
timestamp or the hash.  If all four returned `(false, nil)`, the next call is the
timestamp patch; once it is accepted, the hash of the object is computed and a status
patch with that hash follows only if the stored hash is not already equal to it (absent or
different); a refused patch or a failed hash computation is returned as the error. -/
theorem reconcileOpenStackIfNeeded_refresh (env : Env σ) (req : NamespacedName)
    (ext : σ) (lb : LoadBalancer) (out : Option CtrlRet × World σ)
    (hout : (reconcileOpenStackIfNeeded env req).run (World.start ext lb) = out)
    (hneeded : env.LoadBalancerOpenstackReconcileIsNeeded lb ext = true) :
    ((∃ patch r, Ev.PatchLBStatus patch r ∈ out.2.trace ∧
        patch.LastOpenstackReconcile.isSome = true) ↔
      ∃ w1 w2 w3 w4 : World σ,
        (reconcileSecGroup env req).run ⟨ext, lb, []⟩ = (some (false, none), w1) ∧
        (reconcileFIP env req).run w1 = (some (false, none), w2) ∧
        (reconcilePort env req).run w2 = (some (false, none), w3) ∧
        (reconcileFIPAssociate env req).run w3 = (some (false, none), w4)) ∧
    (∀ (q1 q2 q3 q4 : Bool) (w1 w2 w3 w4 : World σ),
      (reconcileSecGroup env req).run ⟨ext, lb, []⟩ = (some (q1, none), w1) →
      (reconcileFIP env req).run w1 = (some (q2, none), w2) →
      (reconcilePort env req).run w2 = (some (q3, none), w3) →
      (reconcileFIPAssociate env req).run w3 = (some (q4, none), w4) →
      ((((false || q1) || q2) || q3) || q4) = true →
      out = (some (⟨false, DefaultRequeueTime⟩, none), w4) ∧
        ∀ ev ∈ out.2.trace, ev.writesReconcileMark = false) ∧
    (∀ (w1 w2 w3 w4 : World σ),
      (reconcileSecGroup env req).run ⟨ext, lb, []⟩ = (some (false, none), w1) →
      (reconcileFIP env req).run w1 = (some (false, none), w2) →
      (reconcilePort env req).run w2 = (some (false, none), w3) →
      (reconcileFIPAssociate env req).run w3 = (some (false, none), w4) →
      (∀ ev ∈ w4.trace, ev.writesReconcileMark = false) ∧
      ∃ r0 rest,
        out.2.trace = w4.trace ++ Ev.PatchLBStatus
          { LoadBalancerStatus.empty with LastOpenstackReconcile := some (env.Now w4.ext) } r0 ::
            rest ∧
        (∀ e, r0 = some e → rest = [] ∧ out.1 = some (Result.empty, some e)) ∧
        (r0 = none →
          (∀ e, env.GetOpenStackReconcileHash (w4.lb.patched
              { LoadBalancerStatus.empty with LastOpenstackReconcile := some (env.Now w4.ext) }) =
                .fail e →
            rest = [] ∧ out.1 = some (Result.empty, some e)) ∧
          (∀ h, env.GetOpenStackReconcileHash (w4.lb.patched
              { LoadBalancerStatus.empty with LastOpenstackReconcile := some (env.Now w4.ext) }) =
                .ok h →
            (w4.lb.Status.OpenstackReconcileHash = some h →
              rest = [] ∧ out.1 = some (Result.empty, none)) ∧
            (w4.lb.Status.OpenstackReconcileHash ≠ some h →
              ∃ r2, rest.head? = some (Ev.PatchLBStatus
                  { LoadBalancerStatus.empty with OpenstackReconcileHash := some h } r2) ∧
                (r2 = none → rest.length = 1 ∧ out.1 = some (Result.empty, none)) ∧
                (∀ e, r2 = some e →
                  rest.tail = [Ev.SendErrorAsEvent e] ∧
                  out.1 = some (Result.empty, some e)))))) := by
  simp only [reconcileOpenStackIfNeeded, Pass.run, World.start, Pass.bind_apply,
    Pass.getLB_apply, Pass.read_apply, hneeded, Bool.not_true] at hout
  rw [Pass.ite_apply, if_neg (by simp)] at hout
  simp only [Pass.pure_apply, Pass.invoke_apply] at hout
  have c0 : ∀ ev ∈ ([] : List Ev), ev.keepsReconcileMark = true := by simp
  have hfwd : ∀ (q1 q2 q3 q4 : Bool) (w1 w2 w3 w4 : World σ),
      (reconcileSecGroup env req).run ⟨ext, lb, []⟩ = (some (q1, none), w1) →
      (reconcileFIP env req).run w1 = (some (q2, none), w2) →
      (reconcilePort env req).run w2 = (some (q3, none), w3) →
      (reconcileFIPAssociate env req).run w3 = (some (q4, none), w4) →
      out = if ((((false || q1) || q2) || q3) || q4) = true then
          (some (⟨false, DefaultRequeueTime⟩, none), w4)
        else (reconcileOpenStackDone env).run w4 := by
    intro q1 q2 q3 q4 w1 w2 w3 w4 h1 h2 h3 h4
    simp only [h1, h2, h3, h4, Pass.orExit_none_apply, Pass.invoke_apply] at hout
    rw [Pass.ite_apply] at hout
    by_cases hany : ((((false || q1) || q2) || q3) || q4) = true
    · rw [if_pos hany] at hout ⊢
      exact hout.symm
    · rw [if_neg hany] at hout ⊢
      exact hout.symm
  have hclean : ∀ (q1 q2 q3 q4 : Bool) (w1 w2 w3 w4 : World σ),
      (reconcileSecGroup env req).run ⟨ext, lb, []⟩ = (some (q1, none), w1) →
      (reconcileFIP env req).run w1 = (some (q2, none), w2) →
      (reconcilePort env req).run w2 = (some (q3, none), w3) →
      (reconcileFIPAssociate env req).run w3 = (some (q4, none), w4) →
      ∀ ev ∈ w4.trace, ev.writesReconcileMark = false := by
    intro q1 q2 q3 q4 w1 w2 w3 w4 h1 h2 h3 h4
    have c1 := Pass.Emits.run_all (reconcileSecGroup_keeps env req) ⟨ext, lb, []⟩ _ _ h1 c0
    have c2 := Pass.Emits.run_all (reconcileFIP_keeps env req) w1 _ _ h2 c1
    have c3 := Pass.Emits.run_all (reconcilePort_keeps env req) w2 _ _ h3 c2
    have c4 := Pass.Emits.run_all (reconcileFIPAssociate_keeps env req) w3 _ _ h4 c3
    exact fun ev hev => by simpa [Ev.keepsReconcileMark] using c4 ev hev
  have hdone : ∀ (w1 w2 w3 w4 : World σ),
      (reconcileSecGroup env req).run ⟨ext, lb, []⟩ = (some (false, none), w1) →
      (reconcileFIP env req).run w1 = (some (false, none), w2) →
      (reconcilePort env req).run w2 = (some (false, none), w3) →
      (reconcileFIPAssociate env req).run w3 = (some (false, none), w4) →
      (reconcileOpenStackDone env).run w4 = out := by
    intro w1 w2 w3 w4 h1 h2 h3 h4
    have := hfwd false false false false w1 w2 w3 w4 h1 h2 h3 h4
    simpa using this.symm
  refine ⟨⟨?_, ?_⟩, ?_, ?_⟩
  · rintro ⟨patch, r, hm, hts⟩
    have hmark : (Ev.PatchLBStatus patch r).writesReconcileMark = true := by
      simp [Ev.writesReconcileMark, hts]
    rcases h1 : (reconcileSecGroup env req).run (⟨ext, lb, []⟩ : World σ) with ⟨_ | ⟨q1, _ | e1⟩, w1⟩
    all_goals have c1 := Pass.Emits.run_all (reconcileSecGroup_keeps env req) (⟨ext, lb, []⟩ : World σ) _ _ h1 c0
    · simp only [h1, Pass.orExit_none_apply, Pass.orExit_some_apply, Pass.invoke_apply] at hout
      subst hout
      have hk := c1 _ hm
      simp [Ev.keepsReconcileMark, hmark] at hk
    · rcases h2 : (reconcileFIP env req).run w1 with ⟨_ | ⟨q2, _ | e2⟩, w2⟩
      all_goals have c2 := Pass.Emits.run_all (reconcileFIP_keeps env req) w1 _ _ h2 c1
      · simp only [h1, h2, Pass.orExit_none_apply, Pass.orExit_some_apply, Pass.invoke_apply] at hout
        subst hout
        have hk := c2 _ hm
        simp [Ev.keepsReconcileMark, hmark] at hk
      · rcases h3 : (reconcilePort env req).run w2 with ⟨_ | ⟨q3, _ | e3⟩, w3⟩
        all_goals have c3 := Pass.Emits.run_all (reconcilePort_keeps env req) w2 _ _ h3 c2
        · simp only [h1, h2, h3, Pass.orExit_none_apply, Pass.orExit_some_apply, Pass.invoke_apply] at hout
          subst hout
          have hk := c3 _ hm
          simp [Ev.keepsReconcileMark, hmark] at hk
        · rcases h4 : (reconcileFIPAssociate env req).run w3 with ⟨_ | ⟨q4, _ | e4⟩, w4⟩
          all_goals have c4 := Pass.Emits.run_all (reconcileFIPAssociate_keeps env req) w3 _ _ h4 c3
          · simp only [h1, h2, h3, h4, Pass.orExit_none_apply, Pass.orExit_some_apply, Pass.invoke_apply] at hout
            subst hout
            have hk := c4 _ hm
            simp [Ev.keepsReconcileMark, hmark] at hk
          · have hq := hfwd q1 q2 q3 q4 w1 w2 w3 w4 h1 h2 h3 h4
            by_cases hany : ((((false || q1) || q2) || q3) || q4) = true
            · rw [if_pos hany] at hq
              subst hq
              have hk := c4 _ hm
              simp [Ev.keepsReconcileMark, hmark] at hk
            · simp only [Bool.false_or, Bool.or_eq_true, not_or, Bool.not_eq_true] at hany
              obtain ⟨⟨⟨rfl, rfl⟩, rfl⟩, rfl⟩ := hany
              exact ⟨w1, w2, w3, w4, rfl, h2, h3, h4⟩
          · simp only [h1, h2, h3, h4, Pass.orExit_none_apply, Pass.orExit_some_apply, Pass.invoke_apply] at hout
            subst hout
            have hk := c4 _ hm
            simp [Ev.keepsReconcileMark, hmark] at hk
        · simp only [h1, h2, h3, Pass.orExit_none_apply, Pass.orExit_some_apply, Pass.invoke_apply] at hout
          subst hout
          have hk := c3 _ hm
          simp [Ev.keepsReconcileMark, hmark] at hk
      · simp only [h1, h2, Pass.orExit_none_apply, Pass.orExit_some_apply, Pass.invoke_apply] at hout
        subst hout
        have hk := c2 _ hm
        simp [Ev.keepsReconcileMark, hmark] at hk
    · simp only [h1, Pass.orExit_none_apply, Pass.orExit_some_apply, Pass.invoke_apply] at hout
      subst hout
      have hk := c1 _ hm
      simp [Ev.keepsReconcileMark, hmark] at hk
  · rintro ⟨w1, w2, w3, w4, h1, h2, h3, h4⟩
    obtain ⟨r0, rest, ht, -⟩ := reconcileOpenStackDone_run env w4 out (hdone w1 w2 w3 w4 h1 h2 h3 h4)
    exact ⟨{ LoadBalancerStatus.empty with LastOpenstackReconcile := some (env.Now w4.ext) },
      r0, by rw [ht]; simp, rfl⟩
  · intro q1 q2 q3 q4 w1 w2 w3 w4 h1 h2 h3 h4 hany
    have hq := hfwd q1 q2 q3 q4 w1 w2 w3 w4 h1 h2 h3 h4
    rw [if_pos hany] at hq
    subst hq
    exact ⟨rfl, hclean q1 q2 q3 q4 w1 w2 w3 w4 h1 h2 h3 h4⟩
  · intro w1 w2 w3 w4 h1 h2 h3 h4
    exact ⟨hclean false false false false w1 w2 w3 w4 h1 h2 h3 h4,
      reconcileOpenStackDone_run env w4 out (hdone w1 w2 w3 w4 h1 h2 h3 h4)⟩

/-- Witness for C14: every resource is in place; the pass patches the timestamp, and the
four sub-reconcilers returned `(false, nil)`. -/
theorem reconcileOpenStackIfNeeded_refresh_witness :
    ∃ w1 w2 w3 w4 : World Unit,
      (reconcileSecGroup steadyEnv sampleReq).run ⟨(), settledLB, []⟩ =
        (some (false, none), w1) ∧
      (reconcileFIP steadyEnv sampleReq).run w1 = (some (false, none), w2) ∧
      (reconcilePort steadyEnv sampleReq).run w2 = (some (false, none), w3) ∧
      (reconcileFIPAssociate steadyEnv sampleReq).run w3 = (some (false, none), w4) :=
  (reconcileOpenStackIfNeeded_refresh steadyEnv sampleReq () settledLB _ rfl rfl).1.1
    ⟨{ LoadBalancerStatus.empty with LastOpenstackReconcile := some 1000 }, none,
      by decide, rfl⟩

/-- Witness for C15: the security group client cannot be obtained; the pass returns that
error after this one call. -/
theorem reconcileOpenStackIfNeeded_aborts_on_error_witness :
    (reconcileOpenStackIfNeeded groupClientDownEnv sampleReq).run
        (World.start () (sampleLB LoadBalancerStatus.empty)) =
      (some (Result.empty, some (.other "provider down")),
        ⟨(), sampleLB LoadBalancerStatus.empty,
          [Ev.GroupClient (some (.other "provider down"))]⟩) :=
  ((reconcileOpenStackIfNeeded_aborts_on_error groupClientDownEnv sampleReq ()
    (sampleLB LoadBalancerStatus.empty) _ rfl rfl).1 false (.other "provider down")
    ⟨(), sampleLB LoadBalancerStatus.empty, [Ev.GroupClient (some (.other "provider down"))]⟩
    rfl).1

/-! ## Floating IP: a supplied address that does not resolve -/

/-- C16.  In `reconcileFIP` for a LoadBalancer that is not internal, has
`spec.existingFloatingIP` set to `ip` and `status.floatingID` unset, take a pass in which
the lookup of `ip` in the provider answered an error `e`, of whatever kind.  The pass
returns requeue = false with the error `e`, calls no creation of a floating IP, and leaves
`status.floatingID` unset -- so the next pass starts from the same condition. -/
theorem reconcileFIP_existing_address_unresolved (env : Env σ) (req : NamespacedName)
    (ext : σ) (lb : LoadBalancer) (ip : String) (e : Err) (out : Option Ret × World σ)
    (hout : (reconcileFIP env req).run (World.start ext lb) = out)
    (hint : lb.Spec.Options.InternalLB = false)
    (hexist : lb.Spec.ExistingFloatingIP = some ip)
    (hid : lb.Status.FloatingID = none)
    (hfetch : Ev.GetFIPByIP ip (.fail e) ∈ out.2.trace) :
    out.1 = some (false, some e) ∧
    (∀ r, Ev.CreateFIP r ∉ out.2.trace) ∧
    out.2.lb.Status.FloatingID = none ∧
    out.2.lb.Spec = lb.Spec := by
  simp only [reconcileFIP, Pass.run, World.start, Pass.bind_apply, Pass.call_apply,
    Pass.getLB_apply] at hout
  simp only [hint, Bool.false_eq_true, reduceIte, Pass.pure_apply] at hout
  repeat' (
    (first
      | rw [Pass.orExit_apply] at hout
      | rw [Pass.okOr_apply] at hout
      | rw [Pass.ifNotNil_apply] at hout
      | rw [Pass.deref_apply] at hout
      | rw [Pass.ite_apply] at hout) ;
    split at hout <;>
    try simp only [*, PatchLBStatus, RemoveFromLBStatus, exitSendErrorAsEvent, assignOrCreateFIP,
      LoadBalancerStatus.merge, LoadBalancerStatus.empty, Pass.bind_apply, Pass.pure_apply,
      Pass.exit_apply, Pass.panic_apply, Pass.getLB_apply, Pass.modifyLB_apply, Pass.call_apply,
      Pass.sub_apply, Pass.orExit_none_apply, Pass.orExit_some_apply, Pass.okOr_ok_apply,
      Pass.okOr_fail_apply, Pass.ifNotNil_some_apply, Pass.ifNotNil_none_apply,
      Pass.deref_some_apply, Pass.deref_none_apply, SendErrorAsEvent_apply, reduceIte,
      reduceCtorEq, Option.isSome_some, Option.isSome_none, Bool.false_eq_true, ne_eq,
      not_false_eq_true, not_true_eq_false, or_self, and_self, true_and, and_true, false_and,
      and_false, true_or, or_true, false_or, or_false, List.append_assoc, List.nil_append,
      List.cons_append] at hout)
  all_goals first
    | (obtain ⟨t, ht, hk, -⟩ := reconcileFIPSync_trace _ _ _ _ hout
       rw [ht, List.mem_append] at hfetch
       rcases hfetch with h | h
       · first
         | (simp at h; done)
         | (simp at h; simp_all; done)
       · exact absurd (hk _ h) (by simp [Ev.isFIPSync]))
    | (subst hout; simp at hfetch; done)
    | (subst hout; simp at hfetch; simp_all; done)

/-- Witness for C16: the address `1.2.3.4` is unknown to the provider. -/
theorem reconcileFIP_existing_address_unresolved_witness :
    ((reconcileFIP addressUnknownEnv sampleReq).run
      (World.start () existingFipUnresolvedLB)).1 = some (false, some Err.ErrResourceNotFound) ∧
    ((reconcileFIP addressUnknownEnv sampleReq).run
      (World.start () existingFipUnresolvedLB)).2.lb.Status.FloatingID = none :=
  ⟨(reconcileFIP_existing_address_unresolved addressUnknownEnv sampleReq ()
      existingFipUnresolvedLB "1.2.3.4" Err.ErrResourceNotFound _ rfl rfl rfl rfl
      (by decide)).1,
    (reconcileFIP_existing_address_unresolved addressUnknownEnv sampleReq ()
      existingFipUnresolvedLB "1.2.3.4" Err.ErrResourceNotFound _ rfl rfl rfl rfl
      (by decide)).2.2.1⟩

/-! ## Association of the floating IP with the port -/

/-- C17.  `reconcileFIPAssociate` for a LoadBalancer that is not internal, in a pass in
which the floating IP client was obtained.  If `status.portID` or `status.floatingID` is
unset, the pass returns requeue = true with no error and calls nothing else.  If both are
set and the fetch of the floating IP fails, the error is recorded as an event and returned,
and no bind call is made.  If the fetch answers a floating IP: when its port is
`status.portID` and its state is `"ACTIVE"` no bind call is made and the pass returns
`(false, nil)`; otherwise the one further provider call is the bind of `status.floatingID`
to `status.portID`, and the pass returns `(false, nil)` when the bind is accepted and the
error, recorded as an event, when it is refused.  The status is never changed. -/
theorem reconcileFIPAssociate_binds_when_needed (env : Env σ) (req : NamespacedName)
    (ext : σ) (lb : LoadBalancer) (out : Option Ret × World σ)
    (hout : (reconcileFIPAssociate env req).run (World.start ext lb) = out)
    (hint : lb.Spec.Options.InternalLB = false)
    (hclient : (env.FipClient ext).1 = none) :
    out.2.lb = lb ∧
    ((lb.Status.PortID = none ∨ lb.Status.FloatingID = none) →
      out.1 = some (true, none) ∧ out.2.trace = [Ev.FipClient none]) ∧
    (∀ portID floatingID, lb.Status.PortID = some portID →
      lb.Status.FloatingID = some floatingID →
      ∃ r, out.2.trace.take 2 = [Ev.FipClient none, Ev.GetFIPByID floatingID r] ∧
        (∀ e, r = .fail e →
          out.1 = some (false, some e) ∧
          out.2.trace = [Ev.FipClient none, Ev.GetFIPByID floatingID r,
            Ev.SendErrorAsEvent e]) ∧
        (∀ fip, r = .ok (some fip) →
          ((fip.PortID = portID ∧ fip.Status = "ACTIVE") →
            out.1 = some (false, none) ∧
            out.2.trace = [Ev.FipClient none, Ev.GetFIPByID floatingID r]) ∧
          (¬(fip.PortID = portID ∧ fip.Status = "ACTIVE") →
            ∃ rb, out.2.trace.take 3 = [Ev.FipClient none, Ev.GetFIPByID floatingID r,
                Ev.BindFIPToPort floatingID (some portID) rb] ∧
              (rb = none → out.1 = some (false, none) ∧ out.2.trace.length = 3) ∧
              (∀ e, rb = some e → out.1 = some (false, some e) ∧
                out.2.trace.drop 3 = [Ev.SendErrorAsEvent e])))) := by
  simp only [reconcileFIPAssociate, Pass.run, World.start, Pass.bind_apply, Pass.call_apply,
    Pass.getLB_apply] at hout
  simp only [hint, hclient, Bool.false_eq_true, reduceIte, Pass.pure_apply, Pass.orExit_none_apply] at hout
  repeat' (
    (first
      | rw [Pass.orExit_apply] at hout
      | rw [Pass.okOr_apply] at hout
      | rw [Pass.ifNotNil_apply] at hout
      | rw [Pass.deref_apply] at hout
      | rw [Pass.ite_apply] at hout) ;
    split at hout <;>
    try simp only [*, PatchLBStatus, RemoveFromLBStatus, exitSendErrorAsEvent,
      LoadBalancerStatus.merge, LoadBalancerStatus.empty, Pass.bind_apply, Pass.pure_apply,
      Pass.exit_apply, Pass.panic_apply, Pass.getLB_apply, Pass.modifyLB_apply, Pass.call_apply,
      Pass.sub_apply, Pass.orExit_none_apply, Pass.orExit_some_apply, Pass.okOr_ok_apply,
      Pass.okOr_fail_apply, Pass.ifNotNil_some_apply, Pass.ifNotNil_none_apply,
      Pass.deref_some_apply, Pass.deref_none_apply, SendErrorAsEvent_apply, reduceIte,
      reduceCtorEq, Option.isSome_some, Option.isSome_none, Bool.false_eq_true, ne_eq,
      not_false_eq_true, not_true_eq_false, or_self, and_self, true_and, and_true, false_and,
      and_false, true_or, or_true, false_or, or_false, List.append_assoc, List.nil_append,
      List.cons_append] at hout)
  all_goals subst hout
  all_goals try (simp_all; done)
  rename_i hunset
  refine ⟨rfl, fun _ => ⟨rfl, rfl⟩, fun p f hp hf => ?_⟩
  rcases hunset with h | h
  · rw [h] at hp; exact absurd hp (by simp)
  · rw [h] at hf; exact absurd hf (by simp)

/-- Witness for C17: port and floating IP are recorded, the floating IP is bound to no port
yet; the pass binds it. -/
theorem reconcileFIPAssociate_binds_when_needed_witness :
    ((reconcileFIPAssociate calmEnv sampleReq).run (World.start () portAndFipRecordedLB)).2.lb =
      portAndFipRecordedLB ∧
    Ev.BindFIPToPort "fip-1" (some "p-1") none ∈
      ((reconcileFIPAssociate calmEnv sampleReq).run
        (World.start () portAndFipRecordedLB)).2.trace :=
  ⟨(reconcileFIPAssociate_binds_when_needed calmEnv sampleReq () portAndFipRecordedLB _ rfl rfl
    rfl).1, by decide⟩

/-! ## Port: exactly one security group -/

theorem List.length_one_and_head (l : List String) (a : String) :
    (l.length ≠ 1 ∨ l.head? ≠ some a) ↔ l ≠ [a] := by
  rcases l with _ | ⟨x, _ | ⟨y, rest⟩⟩ <;> simp

set_option maxHeartbeats 1000000 in
/-- The second half of `reconcilePort`, run from a world whose status carries the security
group `sg`: for the port the fetch by id answered, the update call to `[sg]` is made if the
list of the port is not `[sg]`, and then a pass that ends without error asks for a requeue;
no update call is made if the list is `[sg]`. -/
theorem reconcilePortSync_secgroups (env : Env σ) (created : Option Port × Bool)
    (w : World σ) (out : Option Ret × World σ) (sg : String)
    (hout : reconcilePortSync env created (fun r w1 => (some r, w1)) (fun w1 => (none, w1)) (fun r w1 => (some r, w1)) w = out)
    (hsg : w.lb.Status.SecurityGroupID = some sg) :
    ∃ t, out.2.trace = w.trace ++ t ∧
      ∀ id port, Ev.GetPortByID id (.ok (some port)) ∈ t →
        (port.SecurityGroups ≠ [sg] →
          (∃ r, Ev.PortUpdateSecurityGroups port.ID [sg] r ∈ t) ∧ out.1 ≠ none ∧
            ∀ q, out.1 = some (q, none) → q = true) ∧
        (port.SecurityGroups = [sg] →
          ∀ pid l r, Ev.PortUpdateSecurityGroups pid l r ∉ t) := by
  simp only [reconcilePortSync, Pass.bind_apply, Pass.call_apply,
    Pass.getLB_apply] at hout
  repeat' (
    (first
      | rw [Pass.orExit_apply] at hout
      | rw [Pass.okOr_apply] at hout
      | rw [Pass.ifNotNil_apply] at hout
      | rw [Pass.deref_apply] at hout
      | rw [Pass.ite_apply] at hout) ;
    split at hout <;>
    try simp only [*, PatchLBStatus, RemoveFromLBStatus, exitSendErrorAsEvent, List.length_one_and_head,
      LoadBalancerStatus.merge, LoadBalancerStatus.empty, Pass.bind_apply, Pass.pure_apply,
      Pass.exit_apply, Pass.panic_apply, Pass.getLB_apply, Pass.modifyLB_apply, Pass.call_apply,
      Pass.sub_apply, Pass.orExit_none_apply, Pass.orExit_some_apply, Pass.okOr_ok_apply,
      Pass.okOr_fail_apply, Pass.ifNotNil_some_apply, Pass.ifNotNil_none_apply,
      Pass.deref_some_apply, Pass.deref_none_apply, SendErrorAsEvent_apply, reduceIte,
      reduceCtorEq, Option.isSome_some, Option.isSome_none, Bool.false_eq_true, ne_eq,
      not_false_eq_true, not_true_eq_false, or_self, and_self, true_and, and_true, false_and,
      and_false, true_or, or_true, false_or, or_false, List.append_assoc, List.nil_append,
      List.cons_append] at hout)
  all_goals subst hout
  all_goals first
    | refine ⟨_, rfl, ?_⟩
    | refine ⟨[], (List.append_nil _).symm, ?_⟩
  all_goals simp_all

/-- C20.  In a pass of `reconcilePort` for a LoadBalancer whose `status.securityGroupID` is
set to `sg`, let `port` be what the fetch by id answered.  If the security groups of
`port` are not exactly `[sg]`, the update call that sets them to `[sg]` is among the calls
of the pass, and the pass, unless it ends with an error, returns requeue = true.  If they
are exactly `[sg]`, the pass makes no update call of the security groups. -/
theorem reconcilePort_security_groups (env : Env σ) (req : NamespacedName) (ext : σ)
    (lb : LoadBalancer) (out : Option Ret × World σ) (sg id : String) (port : Port)
    (hout : (reconcilePort env req).run (World.start ext lb) = out)
    (hsg : lb.Status.SecurityGroupID = some sg)
    (hfetch : Ev.GetPortByID id (.ok (some port)) ∈ out.2.trace) :
    (port.SecurityGroups ≠ [sg] →
      (∃ r, Ev.PortUpdateSecurityGroups port.ID [sg] r ∈ out.2.trace) ∧ out.1 ≠ none ∧
        ∀ q, out.1 = some (q, none) → q = true) ∧
    (port.SecurityGroups = [sg] →
      ∀ pid l r, Ev.PortUpdateSecurityGroups pid l r ∉ out.2.trace) := by
  simp only [reconcilePort, Pass.run, World.start, Pass.bind_apply, Pass.call_apply,
    Pass.getLB_apply] at hout
  repeat' (
    (first
      | rw [Pass.orExit_apply] at hout
      | rw [Pass.okOr_apply] at hout
      | rw [Pass.ifNotNil_apply] at hout
      | rw [Pass.deref_apply] at hout
      | rw [Pass.ite_apply] at hout) ;
    split at hout <;>
    try simp only [*, PatchLBStatus, RemoveFromLBStatus, exitSendErrorAsEvent,
      LoadBalancerStatus.merge, LoadBalancerStatus.empty, Pass.bind_apply, Pass.pure_apply,
      Pass.exit_apply, Pass.panic_apply, Pass.getLB_apply, Pass.modifyLB_apply, Pass.call_apply,
      Pass.sub_apply, Pass.orExit_none_apply, Pass.orExit_some_apply, Pass.okOr_ok_apply,
      Pass.okOr_fail_apply, Pass.ifNotNil_some_apply, Pass.ifNotNil_none_apply,
      Pass.deref_some_apply, Pass.deref_none_apply, SendErrorAsEvent_apply, reduceIte,
      reduceCtorEq, Option.isSome_some, Option.isSome_none, Bool.false_eq_true, ne_eq,
      not_false_eq_true, not_true_eq_false, or_self, and_self, true_and, and_true, false_and,
      and_false, true_or, or_true, false_or, or_false, List.append_assoc, List.nil_append,
      List.cons_append] at hout)
  all_goals first
    | (obtain ⟨t, ht, hk⟩ := reconcilePortSync_secgroups _ _ _ _ sg hout
        (by simp [LoadBalancerStatus.merge, LoadBalancerStatus.empty, hsg])
       rw [ht, List.mem_append] at hfetch
       rcases hfetch with h | h
       · simp at h
       · obtain ⟨h1, h2⟩ := hk _ _ h
         refine ⟨fun hne => ?_, fun heq => ?_⟩
         · obtain ⟨⟨r, hr⟩, h3⟩ := h1 hne
           exact ⟨⟨r, by rw [ht]; exact List.mem_append_right _ hr⟩, h3⟩
         · intro pid l r hm
           rw [ht, List.mem_append] at hm
           rcases hm with hm | hm
           · simp at hm
           · exact h2 heq pid l r hm)
    | (subst hout; simp at hfetch; done)

/-- Witness for C20: the port the provider hands out carries no security group; the pass
updates it to `["sg-1"]`. -/
theorem reconcilePort_security_groups_witness :
    (∃ r, Ev.PortUpdateSecurityGroups "p-1" ["sg-1"] r ∈
      ((reconcilePort calmEnv sampleReq).run (World.start () portAndGroupRecordedLB)).2.trace) ∧
    ((reconcilePort calmEnv sampleReq).run (World.start () portAndGroupRecordedLB)).1 ≠ none ∧
    ∀ q, ((reconcilePort calmEnv sampleReq).run (World.start () portAndGroupRecordedLB)).1 =
      some (q, none) → q = true :=
  (reconcilePort_security_groups calmEnv sampleReq () portAndGroupRecordedLB _ "sg-1" "p-1"
    ⟨"p-1", "testns/lb", "net-1", [], ["192.168.0.1"]⟩ rfl rfl (by decide)).1 (by decide)

/-! ## Teardown: the sweep by name -/

/-- The loop `deleteFipsLoop`, whatever follows it: either every delete is accepted, the calls
are the deletes of the listed entries with a non-empty id and the name `n`, in list order,
and control goes on; or a delete is refused and the function returns that error, recorded
as an event.  The object behind `lb` is not touched. -/
theorem deleteFipsLoop_elim {ω : Type} (env : Env σ) (n : String) (kr : Ret → World σ → ω)
    (kp : World σ → ω) (k : Unit → World σ → ω) {motive : ω → Prop} :
    ∀ (l : List FloatingIP) (w : World σ) (out : ω), deleteFipsLoop env n l kr kp k w = out →
      (∀ ext1 out1,
        k () ⟨ext1, w.lb, w.trace ++
          (l.filter fun x => decide (x.ID ≠ "" ∧ x.Description = n)).map
            fun x => Ev.DeleteFIP x.ID none⟩ = out1 → motive out1) →
      (∀ ext1 (ids : List String) id e out1,
        kr (false, some e) ⟨ext1, w.lb, w.trace ++ ids.map (fun i => Ev.DeleteFIP i none) ++
          [Ev.DeleteFIP id (some e), Ev.SendErrorAsEvent e]⟩ = out1 → motive out1) →
      motive out
  | [], w, out, hout, hdone, _ => by
    refine hdone w.ext out ?_
    simpa [deleteFipsLoop] using hout
  | x :: rest, w, out, hout, hdone, hfail => by
    simp only [deleteFipsLoop, Pass.bind_apply] at hout
    rw [Pass.ite_apply] at hout
    split at hout
    · rename_i hskip
      simp only [Pass.pure_apply] at hout
      refine deleteFipsLoop_elim env n kr kp k rest w out hout ?_ hfail
      intro ext1 out1 h1
      refine hdone ext1 out1 ?_
      have hx : decide (x.ID ≠ "" ∧ x.Description = n) = false := by
        simp only [decide_eq_false_iff_not]
        intro hc
        rcases hskip with h | h
        · exact hc.1 h
        · exact h hc.2
      rw [List.filter_cons_of_neg (by simp [hx])]
      exact h1
    · rename_i hkeep
      simp only [Pass.bind_apply, Pass.call_apply] at hout
      rw [Pass.ifNotNil_apply] at hout
      split at hout
      · rename_i e he
        simp only [exitSendErrorAsEvent, Pass.bind_apply, SendErrorAsEvent_apply,
          Pass.exit_apply, he] at hout
        refine hfail (env.DeleteFIP x.ID w.ext).2 [] x.ID e out ?_
        simpa using hout
      · rename_i he
        simp only [Pass.pure_apply, he] at hout
        refine deleteFipsLoop_elim env n kr kp k rest _ out hout ?_ ?_
        · intro ext1 out1 h1
          refine hdone ext1 out1 ?_
          have hx : decide (x.ID ≠ "" ∧ x.Description = n) = true := by
            simp only [decide_eq_true_eq]
            exact ⟨fun h => hkeep (Or.inl h), by_contra fun h => hkeep (Or.inr h)⟩
          rw [List.filter_cons_of_pos (by simp [hx])]
          simpa using h1
        · intro ext1 ids id e out1 h1
          refine hfail ext1 (x.ID :: ids) id e out1 ?_
          simpa using h1

/-- The loop `deletePortsLoop`, whatever follows it: either every delete is accepted, the calls
are the deletes of the listed entries with a non-empty id and the name `n`, in list order,
and control goes on; or a delete is refused and the function returns that error, recorded
as an event.  The object behind `lb` is not touched. -/
theorem deletePortsLoop_elim {ω : Type} (env : Env σ) (n : String) (kr : Ret → World σ → ω)
    (kp : World σ → ω) (k : Unit → World σ → ω) {motive : ω → Prop} :
    ∀ (l : List Port) (w : World σ) (out : ω), deletePortsLoop env n l kr kp k w = out →
      (∀ ext1 out1,
        k () ⟨ext1, w.lb, w.trace ++
          (l.filter fun x => decide (x.ID ≠ "" ∧ x.Name = n)).map
            fun x => Ev.DeletePort x.ID none⟩ = out1 → motive out1) →
      (∀ ext1 (ids : List String) id e out1,
        kr (false, some e) ⟨ext1, w.lb, w.trace ++ ids.map (fun i => Ev.DeletePort i none) ++
          [Ev.DeletePort id (some e), Ev.SendErrorAsEvent e]⟩ = out1 → motive out1) →
      motive out
  | [], w, out, hout, hdone, _ => by
    refine hdone w.ext out ?_
    simpa [deletePortsLoop] using hout
  | x :: rest, w, out, hout, hdone, hfail => by
    simp only [deletePortsLoop, Pass.bind_apply] at hout
    rw [Pass.ite_apply] at hout
    split at hout
    · rename_i hskip
      simp only [Pass.pure_apply] at hout
      refine deletePortsLoop_elim env n kr kp k rest w out hout ?_ hfail
      intro ext1 out1 h1
      refine hdone ext1 out1 ?_
      have hx : decide (x.ID ≠ "" ∧ x.Name = n) = false := by
        simp only [decide_eq_false_iff_not]
        intro hc
        rcases hskip with h | h
        · exact hc.1 h
        · exact h hc.2
      rw [List.filter_cons_of_neg (by simp [hx])]
      exact h1
    · rename_i hkeep
      simp only [Pass.bind_apply, Pass.call_apply] at hout
      rw [Pass.ifNotNil_apply] at hout
      split at hout
      · rename_i e he
        simp only [exitSendErrorAsEvent, Pass.bind_apply, SendErrorAsEvent_apply,
          Pass.exit_apply, he] at hout
        refine hfail (env.DeletePort x.ID w.ext).2 [] x.ID e out ?_
        simpa using hout
      · rename_i he
        simp only [Pass.pure_apply, he] at hout
        refine deletePortsLoop_elim env n kr kp k rest _ out hout ?_ ?_
        · intro ext1 out1 h1
          refine hdone ext1 out1 ?_
          have hx : decide (x.ID ≠ "" ∧ x.Name = n) = true := by
            simp only [decide_eq_true_eq]
            exact ⟨fun h => hkeep (Or.inl h), by_contra fun h => hkeep (Or.inr h)⟩
          rw [List.filter_cons_of_pos (by simp [hx])]
          simpa using h1
        · intro ext1 ids id e out1 h1
          refine hfail ext1 (x.ID :: ids) id e out1 ?_
          simpa using h1

/-- The loop `deleteSecGroupsLoop`, whatever follows it: either every delete is accepted, the calls
are the deletes of the listed entries with a non-empty id and the name `n`, in list order,
and control goes on; or a delete is refused and the function returns that error, recorded
as an event.  The object behind `lb` is not touched. -/
theorem deleteSecGroupsLoop_elim {ω : Type} (env : Env σ) (n : String) (kr : Ret → World σ → ω)
    (kp : World σ → ω) (k : Unit → World σ → ω) {motive : ω → Prop} :
    ∀ (l : List SecGroup) (w : World σ) (out : ω), deleteSecGroupsLoop env n l kr kp k w = out →
      (∀ ext1 out1,
        k () ⟨ext1, w.lb, w.trace ++
          (l.filter fun x => decide (x.ID ≠ "" ∧ x.Name = n)).map
            fun x => Ev.DeleteSecGroup x.ID none⟩ = out1 → motive out1) →
      (∀ ext1 (ids : List String) id e out1,
        kr (false, some e) ⟨ext1, w.lb, w.trace ++ ids.map (fun i => Ev.DeleteSecGroup i none) ++
          [Ev.DeleteSecGroup id (some e), Ev.SendErrorAsEvent e]⟩ = out1 → motive out1) →
      motive out
  | [], w, out, hout, hdone, _ => by
    refine hdone w.ext out ?_
    simpa [deleteSecGroupsLoop] using hout
  | x :: rest, w, out, hout, hdone, hfail => by
    simp only [deleteSecGroupsLoop, Pass.bind_apply] at hout
    rw [Pass.ite_apply] at hout
    split at hout
    · rename_i hskip
      simp only [Pass.pure_apply] at hout
      refine deleteSecGroupsLoop_elim env n kr kp k rest w out hout ?_ hfail
      intro ext1 out1 h1
      refine hdone ext1 out1 ?_
      have hx : decide (x.ID ≠ "" ∧ x.Name = n) = false := by
        simp only [decide_eq_false_iff_not]
        intro hc
        rcases hskip with h | h
        · exact hc.1 h
        · exact h hc.2
      rw [List.filter_cons_of_neg (by simp [hx])]
      exact h1
    · rename_i hkeep
      simp only [Pass.bind_apply, Pass.call_apply] at hout
      rw [Pass.ifNotNil_apply] at hout
      split at hout
      · rename_i e he
        simp only [exitSendErrorAsEvent, Pass.bind_apply, SendErrorAsEvent_apply,
          Pass.exit_apply, he] at hout
        refine hfail (env.DeleteSecGroup x.ID w.ext).2 [] x.ID e out ?_
        simpa using hout
      · rename_i he
        simp only [Pass.pure_apply, he] at hout
        refine deleteSecGroupsLoop_elim env n kr kp k rest _ out hout ?_ ?_
        · intro ext1 out1 h1
          refine hdone ext1 out1 ?_
          have hx : decide (x.ID ≠ "" ∧ x.Name = n) = true := by
            simp only [decide_eq_true_eq]
            exact ⟨fun h => hkeep (Or.inl h), by_contra fun h => hkeep (Or.inr h)⟩
          rw [List.filter_cons_of_pos (by simp [hx])]
          simpa using h1
        · intro ext1 ids id e out1 h1
          refine hfail ext1 (x.ID :: ids) id e out1 ?_
          simpa using h1

/-- The loop `findAndDeleteSecGroupUsagesLoop`, whatever follows it: either every port is
handled and control goes on, or a removal is refused and the function returns that error,
recorded as an event.  The object behind `lb` is not touched. -/
theorem findAndDeleteSecGroupUsagesLoop_elim {ω : Type} (env : Env σ) (id : String)
    (kr : Option Err → World σ → ω) (kp : World σ → ω) (k : Unit → World σ → ω)
    {motive : ω → Prop} :
    ∀ (l : List Port) (w : World σ) (out : ω),
      findAndDeleteSecGroupUsagesLoop env id l kr kp k w = out →
      (∀ ext1 out1,
        k () ⟨ext1, w.lb, w.trace ++
          l.map fun p => Ev.RemoveSecGroupFromPortIfNeeded p id none⟩ = out1 → motive out1) →
      (∀ ext1 (pre : List Port) p e out1,
        kr (some e) ⟨ext1, w.lb, w.trace ++
          pre.map (fun q => Ev.RemoveSecGroupFromPortIfNeeded q id none) ++
          [Ev.RemoveSecGroupFromPortIfNeeded p id (some e), Ev.SendErrorAsEvent e]⟩ = out1 →
        motive out1) →
      motive out
  | [], w, out, hout, hdone, _ => by
    refine hdone w.ext out ?_
    simpa [findAndDeleteSecGroupUsagesLoop] using hout
  | x :: rest, w, out, hout, hdone, hfail => by
    simp only [findAndDeleteSecGroupUsagesLoop, Pass.bind_apply, Pass.call_apply] at hout
    rw [Pass.ifNotNil_apply] at hout
    split at hout
    · rename_i e he
      simp only [Pass.bind_apply, SendErrorAsEvent_apply, Pass.exit_apply, he] at hout
      refine hfail (env.RemoveSecGroupFromPortIfNeeded x id w.ext).2 [] x e out ?_
      simpa using hout
    · rename_i he
      simp only [Pass.pure_apply, he] at hout
      refine findAndDeleteSecGroupUsagesLoop_elim env id kr kp k rest _ out hout ?_ ?_
      · intro ext1 out1 h1
        refine hdone ext1 out1 ?_
        simpa using h1
      · intro ext1 pre p e out1 h1
        refine hfail ext1 (x :: pre) p e out1 ?_
        simpa using h1

/-- What a list ends with, it still ends with after an entry is put in front. -/
theorem List.exists_front_cons {α : Type} {a : α} {l s : List α} (h : ∃ t, l = t ++ s) :
    ∃ t, a :: l = t ++ s := by
  obtain ⟨t, rfl⟩ := h
  exact ⟨a :: t, rfl⟩

/-- What a list ends with, it still ends with after a list is put in front. -/
theorem List.exists_front_append {α : Type} {m l s : List α} (h : ∃ t, l = t ++ s) :
    ∃ t, m ++ l = t ++ s := by
  obtain ⟨t, rfl⟩ := h
  exact ⟨m ++ t, (List.append_assoc _ _ _).symm⟩

/-- The sweep by name of `deleteFips`, for a pass in which the listing by name answered `l`:
the name asked for is the floating IP name of the status; an empty `l` ends the pass with the
removal of the name and requeue = false; a non-empty `l`, no delete being refused, is
followed by the deletes of its entries with a non-empty id and that name, the name stays
in the status and the pass returns requeue = true. -/
theorem deleteFips_sweep (env : Env σ) (ext : σ) (lb : LoadBalancer) (out : Option Ret × World σ)
    (name : String) (l : List FloatingIP)
    (hout : (deleteFips env).run (World.start ext lb) = out)
    (hlist : Ev.FipList name (.ok l) ∈ out.2.trace) :
    lb.Status.FloatingName = some name ∧
    (l = [] →
      ∃ r, out.1 = some (false, r) ∧
        out.2.trace.getLast? = some (Ev.RemoveFromLBStatus "floatingName" r) ∧
        (r = none → out.2.lb.Status.FloatingName = none)) ∧
    (l ≠ [] → (∀ id e, Ev.DeleteFIP id (some e) ∉ out.2.trace) →
      out.1 = some (true, none) ∧ out.2.lb.Status.FloatingName = some name ∧
      ∃ t, out.2.trace = t ++ Ev.FipList name (.ok l) ::
        (l.filter fun x => decide (x.ID ≠ "" ∧ x.Description = name)).map
          fun x => Ev.DeleteFIP x.ID none) := by
  simp only [deleteFips, Pass.run, World.start, Pass.bind_apply, Pass.call_apply,
    Pass.getLB_apply] at hout
  repeat' (
    (first
      | rw [Pass.orExit_apply] at hout
      | rw [Pass.okOr_apply] at hout
      | rw [Pass.ifNotNil_apply] at hout
      | rw [Pass.deref_apply] at hout
      | rw [Pass.ite_apply] at hout) ;
    split at hout <;>
    try simp only [*, PatchLBStatus, RemoveFromLBStatus, exitSendErrorAsEvent,
      LoadBalancerStatus.merge, LoadBalancerStatus.empty, Pass.bind_apply, Pass.pure_apply,
      Pass.exit_apply, Pass.panic_apply, Pass.getLB_apply, Pass.modifyLB_apply, Pass.call_apply,
      Pass.sub_apply, Pass.orExit_none_apply, Pass.orExit_some_apply, Pass.okOr_ok_apply,
      Pass.okOr_fail_apply, Pass.ifNotNil_some_apply, Pass.ifNotNil_none_apply,
      Pass.deref_some_apply, Pass.deref_none_apply, SendErrorAsEvent_apply, reduceIte,
      reduceCtorEq, Option.isSome_some, Option.isSome_none, Bool.false_eq_true, ne_eq,
      not_false_eq_true, not_true_eq_false, or_self, and_self, true_and, and_true, false_and,
      and_false, true_or, or_true, false_or, or_false, List.append_assoc, List.nil_append,
      List.cons_append] at hout)
  all_goals first
    | (subst hout; simp at hlist; done)
    | (revert hlist
       apply deleteFipsLoop_elim env _ _ _ _ _ _ out hout
       · intro ext1 out1 h1
         subst h1
         intro hlist
         simp at hlist
         obtain ⟨rfl, rfl⟩ := hlist
         refine ⟨by assumption, fun hl => ?_, fun _ _ => ⟨rfl, by assumption, ?_⟩⟩
         · simp_all
         · first
           | exact ⟨[_], rfl⟩
           | exact ⟨[_, _], rfl⟩
           | exact ⟨[_, _, _], rfl⟩
           | exact ⟨[_, _, _, _], rfl⟩
           | (simp only [List.append_assoc, List.cons_append, List.nil_append]
              repeat (first
                | exact ⟨[], rfl⟩
                | apply List.exists_front_cons
                | apply List.exists_front_append))
       · intro ext1 ids id e out1 h1
         subst h1
         intro hlist
         simp at hlist
         obtain ⟨rfl, rfl⟩ := hlist
         refine ⟨by assumption, fun hl => ?_, fun _ hno => ?_⟩
         · simp_all
         · exact absurd (by simp) (hno id e))
    | (subst hout
       simp at hlist
       obtain ⟨rfl, rfl⟩ := hlist
       refine ⟨by assumption, fun _ => ⟨_, rfl, ?_, ?_⟩, fun hne => ?_⟩
       · first
         | (simp; done)
         | simp [List.getLast?_append, List.getLast?_cons]
       · simp_all [LoadBalancerStatus.remove]
       · simp_all)

/-- The sweep by name of `deletePorts`, for a pass in which the listing by name answered `l`:
the name asked for is the port name of the status; an empty `l` ends the pass with the
removal of the name and requeue = false; a non-empty `l`, no delete being refused, is
followed by the deletes of its entries with a non-empty id and that name, the name stays
in the status and the pass returns requeue = true. -/
theorem deletePorts_sweep (env : Env σ) (ext : σ) (lb : LoadBalancer) (out : Option Ret × World σ)
    (name : String) (l : List Port)
    (hout : (deletePorts env).run (World.start ext lb) = out)
    (hlist : Ev.PortList name (.ok l) ∈ out.2.trace) :
    lb.Status.PortName = some name ∧
    (l = [] →
      ∃ r, out.1 = some (false, r) ∧
        out.2.trace.getLast? = some (Ev.RemoveFromLBStatus "portName" r) ∧
        (r = none → out.2.lb.Status.PortName = none)) ∧
    (l ≠ [] → (∀ id e, Ev.DeletePort id (some e) ∉ out.2.trace) →
      out.1 = some (true, none) ∧ out.2.lb.Status.PortName = some name ∧
      ∃ t, out.2.trace = t ++ Ev.PortList name (.ok l) ::
        (l.filter fun x => decide (x.ID ≠ "" ∧ x.Name = name)).map
          fun x => Ev.DeletePort x.ID none) := by
  simp only [deletePorts, Pass.run, World.start, Pass.bind_apply, Pass.call_apply,
    Pass.getLB_apply] at hout
  repeat' (
    (first
      | rw [Pass.orExit_apply] at hout
      | rw [Pass.okOr_apply] at hout
      | rw [Pass.ifNotNil_apply] at hout
      | rw [Pass.deref_apply] at hout
      | rw [Pass.ite_apply] at hout) ;
    split at hout <;>
    try simp only [*, PatchLBStatus, RemoveFromLBStatus, exitSendErrorAsEvent,
      LoadBalancerStatus.merge, LoadBalancerStatus.empty, Pass.bind_apply, Pass.pure_apply,
      Pass.exit_apply, Pass.panic_apply, Pass.getLB_apply, Pass.modifyLB_apply, Pass.call_apply,
      Pass.sub_apply, Pass.orExit_none_apply, Pass.orExit_some_apply, Pass.okOr_ok_apply,
      Pass.okOr_fail_apply, Pass.ifNotNil_some_apply, Pass.ifNotNil_none_apply,
      Pass.deref_some_apply, Pass.deref_none_apply, SendErrorAsEvent_apply, reduceIte,
      reduceCtorEq, Option.isSome_some, Option.isSome_none, Bool.false_eq_true, ne_eq,
      not_false_eq_true, not_true_eq_false, or_self, and_self, true_and, and_true, false_and,
      and_false, true_or, or_true, false_or, or_false, List.append_assoc, List.nil_append,
      List.cons_append] at hout)
  all_goals first
    | (subst hout; simp at hlist; done)
    | (revert hlist
       apply deletePortsLoop_elim env _ _ _ _ _ _ out hout
       · intro ext1 out1 h1
         subst h1
         intro hlist
         simp at hlist
         obtain ⟨rfl, rfl⟩ := hlist
         refine ⟨by assumption, fun hl => ?_, fun _ _ => ⟨rfl, by assumption, ?_⟩⟩
         · simp_all
         · first
           | exact ⟨[_], rfl⟩
           | exact ⟨[_, _], rfl⟩
           | exact ⟨[_, _, _], rfl⟩
           | exact ⟨[_, _, _, _], rfl⟩
           | (simp only [List.append_assoc, List.cons_append, List.nil_append]
              repeat (first
                | exact ⟨[], rfl⟩
                | apply List.exists_front_cons
                | apply List.exists_front_append))
       · intro ext1 ids id e out1 h1
         subst h1
         intro hlist
         simp at hlist
         obtain ⟨rfl, rfl⟩ := hlist
         refine ⟨by assumption, fun hl => ?_, fun _ hno => ?_⟩
         · simp_all
         · exact absurd (by simp) (hno id e))
    | (subst hout
       simp at hlist
       obtain ⟨rfl, rfl⟩ := hlist
       refine ⟨by assumption, fun _ => ⟨_, rfl, ?_, ?_⟩, fun hne => ?_⟩
       · first
         | (simp; done)
         | simp [List.getLast?_append, List.getLast?_cons]
       · simp_all [LoadBalancerStatus.remove]
       · simp_all)

/-- The sweep by name of `deleteSecGroups`, for a pass in which the listing by name answered `l`:
the name asked for is the security group name of the status; an empty `l` ends the pass with the
removal of the name and requeue = false; a non-empty `l`, no delete being refused, is
followed by the deletes of its entries with a non-empty id and that name, the name stays
in the status and the pass returns requeue = true. -/
theorem deleteSecGroups_sweep (env : Env σ) (ext : σ) (lb : LoadBalancer) (out : Option Ret × World σ)
    (name : String) (l : List SecGroup)
    (hout : (deleteSecGroups env).run (World.start ext lb) = out)
    (hlist : Ev.GroupList name (.ok l) ∈ out.2.trace) :
    lb.Status.SecurityGroupName = some name ∧
    (l = [] →
      ∃ r, out.1 = some (false, r) ∧
        out.2.trace.getLast? = some (Ev.RemoveFromLBStatus "security_group_name" r) ∧
        (r = none → out.2.lb.Status.SecurityGroupName = none)) ∧
    (l ≠ [] → (∀ id e, Ev.DeleteSecGroup id (some e) ∉ out.2.trace) →
      out.1 = some (true, none) ∧ out.2.lb.Status.SecurityGroupName = some name ∧
      ∃ t, out.2.trace = t ++ Ev.GroupList name (.ok l) ::
        (l.filter fun x => decide (x.ID ≠ "" ∧ x.Name = name)).map
          fun x => Ev.DeleteSecGroup x.ID none) := by
  simp only [deleteSecGroups, Pass.run, World.start, Pass.bind_apply, Pass.call_apply,
    Pass.getLB_apply] at hout
  repeat' (
    (first
      | rw [Pass.orExit_apply] at hout
      | rw [Pass.okOr_apply] at hout
      | rw [Pass.ifNotNil_apply] at hout
      | rw [Pass.deref_apply] at hout
      | rw [Pass.ite_apply] at hout) ;
    split at hout <;>
    try simp only [*, PatchLBStatus, RemoveFromLBStatus, exitSendErrorAsEvent, findAndDeleteSecGroupUsages,
      LoadBalancerStatus.merge, LoadBalancerStatus.empty, Pass.bind_apply, Pass.pure_apply,
      Pass.exit_apply, Pass.panic_apply, Pass.getLB_apply, Pass.modifyLB_apply, Pass.call_apply,
      Pass.sub_apply, Pass.orExit_none_apply, Pass.orExit_some_apply, Pass.okOr_ok_apply,
      Pass.okOr_fail_apply, Pass.ifNotNil_some_apply, Pass.ifNotNil_none_apply,
      Pass.deref_some_apply, Pass.deref_none_apply, SendErrorAsEvent_apply, reduceIte,
      reduceCtorEq, Option.isSome_some, Option.isSome_none, Bool.false_eq_true, ne_eq,
      not_false_eq_true, not_true_eq_false, or_self, and_self, true_and, and_true, false_and,
      and_false, true_or, or_true, false_or, or_false, List.append_assoc, List.nil_append,
      List.cons_append] at hout)
  all_goals try (
    revert hlist
    apply findAndDeleteSecGroupUsagesLoop_elim env _ _ _ _ _ _ out hout <;> clear hout out <;>
      (first
        | intro ext1 pre p e out hout hlist
        | intro ext1 out hout hlist) <;>
      try simp only [Pass.pure_apply, Pass.orExit_none_apply, Pass.orExit_some_apply,
        Pass.exit_apply, Pass.getLB_apply, Pass.bind_apply, Pass.call_apply] at hout)
  repeat' (
    (first
      | rw [Pass.orExit_apply] at hout
      | rw [Pass.okOr_apply] at hout
      | rw [Pass.ifNotNil_apply] at hout
      | rw [Pass.deref_apply] at hout
      | rw [Pass.ite_apply] at hout) ;
    split at hout <;>
    try simp only [*, PatchLBStatus, RemoveFromLBStatus, exitSendErrorAsEvent,
      LoadBalancerStatus.merge, LoadBalancerStatus.empty, Pass.bind_apply, Pass.pure_apply,
      Pass.exit_apply, Pass.panic_apply, Pass.getLB_apply, Pass.modifyLB_apply, Pass.call_apply,
      Pass.sub_apply, Pass.orExit_none_apply, Pass.orExit_some_apply, Pass.okOr_ok_apply,
      Pass.okOr_fail_apply, Pass.ifNotNil_some_apply, Pass.ifNotNil_none_apply,
      Pass.deref_some_apply, Pass.deref_none_apply, SendErrorAsEvent_apply, reduceIte,
      reduceCtorEq, Option.isSome_some, Option.isSome_none, Bool.false_eq_true, ne_eq,
      not_false_eq_true, not_true_eq_false, or_self, and_self, true_and, and_true, false_and,
      and_false, true_or, or_true, false_or, or_false, List.append_assoc, List.nil_append,
      List.cons_append] at hout)
  all_goals first
    | (subst hout; simp at hlist; done)
    | (revert hlist
       apply deleteSecGroupsLoop_elim env _ _ _ _ _ _ out hout
       · intro ext1 out1 h1
         subst h1
         intro hlist
         simp at hlist
         obtain ⟨rfl, rfl⟩ := hlist
         refine ⟨by assumption, fun hl => ?_, fun _ _ => ⟨rfl, by assumption, ?_⟩⟩
         · simp_all
         · first
           | exact ⟨[_], rfl⟩
           | exact ⟨[_, _], rfl⟩
           | exact ⟨[_, _, _], rfl⟩
           | exact ⟨[_, _, _, _], rfl⟩
           | (simp only [List.append_assoc, List.cons_append, List.nil_append]
              repeat (first
                | exact ⟨[], rfl⟩
                | apply List.exists_front_cons
                | apply List.exists_front_append))
       · intro ext1 ids id e out1 h1
         subst h1
         intro hlist
         simp at hlist
         obtain ⟨rfl, rfl⟩ := hlist
         refine ⟨by assumption, fun hl => ?_, fun _ hno => ?_⟩
         · simp_all
         · exact absurd (by simp) (hno id e))
    | (subst hout
       simp at hlist
       obtain ⟨rfl, rfl⟩ := hlist
       refine ⟨by assumption, fun _ => ⟨_, rfl, ?_, ?_⟩, fun hne => ?_⟩
       · first
         | (simp; done)
         | simp [List.getLast?_append, List.getLast?_cons]
       · simp_all [LoadBalancerStatus.remove]
       · simp_all)

/-- C19.  The sweep by name of `deleteFips`, `deletePorts` and `deleteSecGroups`.  In a
pass in which the listing by name was answered with `l`, the name asked for is the name
recorded in the status.  If `l` is empty the pass ends with the removal of the name field
from the status and returns requeue = false with the outcome of that removal; once the
removal is accepted the name is unset in the status the pass leaves.  If `l` is not empty
and no delete is refused, the calls after the listing are exactly the deletes of the entries
of `l` with a non-empty id and that name (description for floating IPs), in the order of
`l`, the name stays in the status, and the pass returns requeue = true without error. -/
theorem sweep_by_name (env : Env σ) (ext : σ) (lb : LoadBalancer) :
    (∀ (name : String) (l : List FloatingIP),
      Ev.FipList name (.ok l) ∈ ((deleteFips env).run (World.start ext lb)).2.trace →
      lb.Status.FloatingName = some name ∧
      (l = [] →
        ∃ r, ((deleteFips env).run (World.start ext lb)).1 = some (false, r) ∧
          ((deleteFips env).run (World.start ext lb)).2.trace.getLast? =
            some (Ev.RemoveFromLBStatus "floatingName" r) ∧
          (r = none → ((deleteFips env).run (World.start ext lb)).2.lb.Status.FloatingName = none)) ∧
      (l ≠ [] →
        (∀ id e, Ev.DeleteFIP id (some e) ∉ ((deleteFips env).run (World.start ext lb)).2.trace) →
        ((deleteFips env).run (World.start ext lb)).1 = some (true, none) ∧
        ((deleteFips env).run (World.start ext lb)).2.lb.Status.FloatingName = some name ∧
        ∃ t, ((deleteFips env).run (World.start ext lb)).2.trace =
          t ++ Ev.FipList name (.ok l) ::
            (l.filter fun x => decide (x.ID ≠ "" ∧ x.Description = name)).map
              fun x => Ev.DeleteFIP x.ID none)) ∧
    (∀ (name : String) (l : List Port),
      Ev.PortList name (.ok l) ∈ ((deletePorts env).run (World.start ext lb)).2.trace →
      lb.Status.PortName = some name ∧
      (l = [] →
        ∃ r, ((deletePorts env).run (World.start ext lb)).1 = some (false, r) ∧
          ((deletePorts env).run (World.start ext lb)).2.trace.getLast? =
            some (Ev.RemoveFromLBStatus "portName" r) ∧
          (r = none → ((deletePorts env).run (World.start ext lb)).2.lb.Status.PortName = none)) ∧
      (l ≠ [] →
        (∀ id e, Ev.DeletePort id (some e) ∉ ((deletePorts env).run (World.start ext lb)).2.trace) →
        ((deletePorts env).run (World.start ext lb)).1 = some (true, none) ∧
        ((deletePorts env).run (World.start ext lb)).2.lb.Status.PortName = some name ∧
        ∃ t, ((deletePorts env).run (World.start ext lb)).2.trace =
          t ++ Ev.PortList name (.ok l) ::
            (l.filter fun x => decide (x.ID ≠ "" ∧ x.Name = name)).map
              fun x => Ev.DeletePort x.ID none)) ∧
    (∀ (name : String) (l : List SecGroup),
      Ev.GroupList name (.ok l) ∈ ((deleteSecGroups env).run (World.start ext lb)).2.trace →
      lb.Status.SecurityGroupName = some name ∧
      (l = [] →
        ∃ r, ((deleteSecGroups env).run (World.start ext lb)).1 = some (false, r) ∧
          ((deleteSecGroups env).run (World.start ext lb)).2.trace.getLast? =
            some (Ev.RemoveFromLBStatus "security_group_name" r) ∧
          (r = none → ((deleteSecGroups env).run (World.start ext lb)).2.lb.Status.SecurityGroupName = none)) ∧
      (l ≠ [] →
        (∀ id e, Ev.DeleteSecGroup id (some e) ∉ ((deleteSecGroups env).run (World.start ext lb)).2.trace) →
        ((deleteSecGroups env).run (World.start ext lb)).1 = some (true, none) ∧
        ((deleteSecGroups env).run (World.start ext lb)).2.lb.Status.SecurityGroupName = some name ∧
        ∃ t, ((deleteSecGroups env).run (World.start ext lb)).2.trace =
          t ++ Ev.GroupList name (.ok l) ::
            (l.filter fun x => decide (x.ID ≠ "" ∧ x.Name = name)).map
              fun x => Ev.DeleteSecGroup x.ID none)) :=
  ⟨fun name l h => deleteFips_sweep env ext lb _ name l rfl h,
   fun name l h => deletePorts_sweep env ext lb _ name l rfl h,
   fun name l h => deleteSecGroups_sweep env ext lb _ name l rfl h⟩

/-- Witness for C19: of the three ports listed under the recorded name only `p-1` has an id
and that name; it alone is deleted and the pass asks to be run again. -/
theorem sweep_by_name_witness :
    ((deletePorts orphanPortsEnv).run (World.start () portNameRecordedLB)).1 =
      some (true, none) ∧
    ∃ t, ((deletePorts orphanPortsEnv).run (World.start () portNameRecordedLB)).2.trace =
      t ++ [Ev.PortList "testns/lb"
        (.ok [⟨"p-1", "testns/lb", "net-1", [], []⟩, ⟨"", "testns/lb", "net-1", [], []⟩,
          ⟨"p-3", "testns/other", "net-1", [], []⟩]),
        Ev.DeletePort "p-1" none] :=
  have h := ((sweep_by_name orphanPortsEnv () portNameRecordedLB).2.1 "testns/lb"
    [⟨"p-1", "testns/lb", "net-1", [], []⟩, ⟨"", "testns/lb", "net-1", [], []⟩,
      ⟨"p-3", "testns/other", "net-1", [], []⟩] (by decide)).2.2 (by decide) (by
      intro id e h
      have ht : ((deletePorts orphanPortsEnv).run (World.start () portNameRecordedLB)).2.trace =
          [Ev.PortClient none,
            Ev.PortList "testns/lb"
              (.ok [⟨"p-1", "testns/lb", "net-1", [], []⟩, ⟨"", "testns/lb", "net-1", [], []⟩,
                ⟨"p-3", "testns/other", "net-1", [], []⟩]),
            Ev.DeletePort "p-1" none] := rfl
      rw [ht] at h
      simp at h)
  ⟨h.1, h.2.2⟩

/-! ## Against the fake provider -/

theorem Nat.toDigitsCore_ne_nil (b : Nat) : ∀ (fuel n : Nat) (ds : List Char),
    (ds ≠ [] ∨ 0 < fuel) → Nat.toDigitsCore b fuel n ds ≠ []
  | 0, n, ds, h => by
    simp [Nat.toDigitsCore]
    rcases h with h | h
    · exact h
    · exact absurd h (by decide)
  | fuel + 1, n, ds, _ => by
    simp only [Nat.toDigitsCore]
    split
    · simp
    · exact Nat.toDigitsCore_ne_nil b fuel _ _ (Or.inl (by simp))

/-- The decimal form of a number is not the empty string: `getID` never hands out an empty
id. -/
theorem Nat.toString_ne_empty (n : Nat) : toString n ≠ "" := by
  intro h
  have h1 : (Nat.toDigits 10 n) = [] := by
    have := congrArg String.data h
    simpa [toString, Nat.repr, List.asString] using this
  exact Nat.toDigitsCore_ne_nil 10 (n + 1) n [] (Or.inr (Nat.succ_pos n)) h1

/-- Creating rules leaves the groups, floating IPs and ports of the fake provider alone. -/
theorem Fake.foldl_ruleCreate (l : List SecGroupRule) : ∀ (c : Fake),
    (l.foldl (fun c r => c.ruleCreate r) c).groups = c.groups ∧
    (l.foldl (fun c r => c.ruleCreate r) c).fips = c.fips ∧
    (l.foldl (fun c r => c.ruleCreate r) c).ports = c.ports := by
  induction l with
  | nil => intro c; exact ⟨rfl, rfl, rfl⟩
  | cons r rest ih =>
    intro c
    simp only [List.foldl_cons]
    obtain ⟨h1, h2, h3⟩ := ih (c.ruleCreate r)
    exact ⟨h1, h2, h3⟩

/-- Deleting rules leaves the id counter, the groups, floating IPs and ports of the fake
provider alone. -/
theorem Fake.foldl_ruleDelete (l : List (String × SecGroupRule)) : ∀ (c : Fake),
    (l.foldl (fun c v => c.ruleDelete v.1) c).groups = c.groups ∧
    (l.foldl (fun c v => c.ruleDelete v.1) c).fips = c.fips ∧
    (l.foldl (fun c v => c.ruleDelete v.1) c).ports = c.ports := by
  induction l with
  | nil => intro c; exact ⟨rfl, rfl, rfl⟩
  | cons r rest ih =>
    intro c
    simp only [List.foldl_cons]
    obtain ⟨h1, h2, h3⟩ := ih (c.ruleDelete r.1)
    exact ⟨h1, h2, h3⟩

/-- Against the fake provider without a group, for a status without security group name
and id: `reconcileSecGroup` creates the group and records its name and id. -/
theorem reconcileSecGroup_fake (gen : Nat → String)
    (desired : LoadBalancer → String → List SecGroupRule) (req : NamespacedName)
    (w : World Fake) (out : Option Ret × World Fake)
    (hout : (reconcileSecGroup (fakeEnv gen desired) req).run w = out)
    (hname : w.lb.Status.SecurityGroupName = none) (hid : w.lb.Status.SecurityGroupID = none)
    (hgroups : w.ext.groups = []) :
    out.1 = some (true, none) ∧
    out.2.lb = { w.lb with Status := { w.lb.Status with
      SecurityGroupName := some req.asString, SecurityGroupID := some (toString w.ext.id) } } ∧
    out.2.ext.fips = w.ext.fips ∧ out.2.ext.ports = w.ext.ports ∧
    ∃ evs, out.2.trace = w.trace ++ evs ∧
      evs.filter Ev.provisions =
        [Ev.CreateSecGroup req.asString (.ok ⟨toString w.ext.id, req.asString⟩)] := by
  simp [reconcileSecGroup, reconcileSecGroupSync, hname, hid, hgroups,
    Pass.run, fakeEnv, calmEnvOn, Pass.ite_apply,
    PatchLBStatus, RemoveFromLBStatus, exitSendErrorAsEvent,
    LoadBalancerStatus.merge, LoadBalancerStatus.empty, Pass.bind_apply, Pass.pure_apply,
      Pass.exit_apply, Pass.panic_apply, Pass.getLB_apply, Pass.modifyLB_apply, Pass.call_apply,
      Pass.sub_apply, Pass.orExit_none_apply, Pass.orExit_some_apply, Pass.okOr_ok_apply,
      Pass.okOr_fail_apply, Pass.ifNotNil_some_apply, Pass.ifNotNil_none_apply,
      Pass.deref_some_apply, Pass.deref_none_apply, SendErrorAsEvent_apply, reduceIte,
      reduceCtorEq, Option.isSome_some, Option.isSome_none, Bool.false_eq_true, ne_eq,
      not_false_eq_true, not_true_eq_false, or_self, and_self, true_and, and_true, false_and,
      and_false, true_or, or_true, false_or, or_false, List.append_assoc, List.nil_append,
      List.cons_append,
    Fake.groupList, Fake.groupCreate, Fake.getID, Fake.groupGet,
    Fake.fipList, Fake.fipCreate, Fake.fipGet, Fake.fipUpdate, Fake.portList, Fake.portCreate,
    Fake.portGet, Fake.portUpdate, Fake.bindSecGroupToPortIfNeeded,
    Fake.deleteUnusedRules, Fake.createNonExistingRules, Fake.ruleList,
    Nat.toString_ne_empty, Fake.foldl_ruleCreate, Fake.foldl_ruleDelete] at hout
  subst hout
  refine ⟨rfl, ?_, ?_, ?_, _, rfl, ?_⟩
  · simp
  · simp [Fake.foldl_ruleCreate, Fake.foldl_ruleDelete]
  · simp [Fake.foldl_ruleCreate, Fake.foldl_ruleDelete]
  · simp [Ev.provisions]

/-- Against the fake provider without a floating IP, for a LoadBalancer that is not internal
and names no existing floating IP, with a status without floating IP name, id and address:
`reconcileFIP` creates the floating IP and records its name, id and address. -/
theorem reconcileFIP_fake (gen : Nat → String)
    (desired : LoadBalancer → String → List SecGroupRule) (req : NamespacedName)
    (w : World Fake) (out : Option Ret × World Fake)
    (hout : (reconcileFIP (fakeEnv gen desired) req).run w = out)
    (hint : w.lb.Spec.Options.InternalLB = false)
    (hexist : w.lb.Spec.ExistingFloatingIP = none)
    (hname : w.lb.Status.FloatingName = none) (hid : w.lb.Status.FloatingID = none)
    (hip : w.lb.Status.ExternalIP = none) (hfips : w.ext.fips = []) :
    out.1 = some (true, none) ∧
    out.2.lb = { w.lb with Status := { w.lb.Status with
      FloatingName := some req.asString, FloatingID := some (toString w.ext.id),
      ExternalIP := some (gen w.ext.id) } } ∧
    out.2.ext.fips =
      [⟨toString w.ext.id, req.asString, w.lb.Spec.Infrastructure.FloatingNetID.getD "",
        gen w.ext.id, "", ""⟩] ∧
    out.2.ext.ports = w.ext.ports ∧
    ∃ evs, out.2.trace = w.trace ++ evs ∧
      evs.filter Ev.provisions =
        [Ev.CreateFIP (.ok ⟨toString w.ext.id, req.asString,
          w.lb.Spec.Infrastructure.FloatingNetID.getD "", gen w.ext.id, "", ""⟩)] := by
  simp [reconcileFIP, reconcileFIPSync, assignOrCreateFIP, hint, hexist, hname, hid, hip,
    hfips, NamespacedName.asString,
    Pass.run, fakeEnv, calmEnvOn, Pass.ite_apply,
    PatchLBStatus, RemoveFromLBStatus, exitSendErrorAsEvent,
    LoadBalancerStatus.merge, LoadBalancerStatus.empty, Pass.bind_apply, Pass.pure_apply,
      Pass.exit_apply, Pass.panic_apply, Pass.getLB_apply, Pass.modifyLB_apply, Pass.call_apply,
      Pass.sub_apply, Pass.orExit_none_apply, Pass.orExit_some_apply, Pass.okOr_ok_apply,
      Pass.okOr_fail_apply, Pass.ifNotNil_some_apply, Pass.ifNotNil_none_apply,
      Pass.deref_some_apply, Pass.deref_none_apply, SendErrorAsEvent_apply, reduceIte,
      reduceCtorEq, Option.isSome_some, Option.isSome_none, Bool.false_eq_true, ne_eq,
      not_false_eq_true, not_true_eq_false, or_self, and_self, true_and, and_true, false_and,
      and_false, true_or, or_true, false_or, or_false, List.append_assoc, List.nil_append,
      List.cons_append,
    Fake.groupList, Fake.groupCreate, Fake.getID, Fake.groupGet,
    Fake.fipList, Fake.fipCreate, Fake.fipGet, Fake.fipUpdate, Fake.portList, Fake.portCreate,
    Fake.portGet, Fake.portUpdate, Fake.bindSecGroupToPortIfNeeded,
    Fake.deleteUnusedRules, Fake.createNonExistingRules, Fake.ruleList,
    Nat.toString_ne_empty, Fake.foldl_ruleCreate, Fake.foldl_ruleDelete] at hout
  subst hout
  refine ⟨rfl, ?_, ?_, ?_, _, rfl, ?_⟩
  · simp [NamespacedName.asString]
  · simp [NamespacedName.asString]
  · simp
  · simp [Ev.provisions, NamespacedName.asString]

set_option maxHeartbeats 1000000 in
/-- Against the fake provider without a port, for a LoadBalancer that is not internal, with
a status without port name and id and with a security group id: `reconcilePort` creates the
port and records its name and id. -/
theorem reconcilePort_fake (gen : Nat → String)
    (desired : LoadBalancer → String → List SecGroupRule) (req : NamespacedName)
    (w : World Fake) (out : Option Ret × World Fake) (sg : String)
    (hout : (reconcilePort (fakeEnv gen desired) req).run w = out)
    (hint : w.lb.Spec.Options.InternalLB = false)
    (hname : w.lb.Status.PortName = none) (hid : w.lb.Status.PortID = none)
    (hsg : w.lb.Status.SecurityGroupID = some sg) (hports : w.ext.ports = []) :
    out.1 = some (true, none) ∧
    out.2.lb = { w.lb with Status := { w.lb.Status with
      PortName := some req.asString, PortID := some (toString w.ext.id) } } ∧
    out.2.ext.fips = w.ext.fips ∧
    ∃ evs, out.2.trace = w.trace ++ evs ∧
      evs.filter Ev.provisions =
        [Ev.CreatePort req.asString w.lb.Spec.Infrastructure.NetworkID
          (.ok ⟨toString w.ext.id, req.asString, w.lb.Spec.Infrastructure.NetworkID, [],
            [gen w.ext.id]⟩)] := by
  simp [reconcilePort, reconcilePortSync, hint, hname, hid, hsg, hports,
    Pass.run, fakeEnv, calmEnvOn, Pass.ite_apply,
    PatchLBStatus, RemoveFromLBStatus, exitSendErrorAsEvent,
    LoadBalancerStatus.merge, LoadBalancerStatus.empty, Pass.bind_apply, Pass.pure_apply,
      Pass.exit_apply, Pass.panic_apply, Pass.getLB_apply, Pass.modifyLB_apply, Pass.call_apply,
      Pass.sub_apply, Pass.orExit_none_apply, Pass.orExit_some_apply, Pass.okOr_ok_apply,
      Pass.okOr_fail_apply, Pass.ifNotNil_some_apply, Pass.ifNotNil_none_apply,
      Pass.deref_some_apply, Pass.deref_none_apply, SendErrorAsEvent_apply, reduceIte,
      reduceCtorEq, Option.isSome_some, Option.isSome_none, Bool.false_eq_true, ne_eq,
      not_false_eq_true, not_true_eq_false, or_self, and_self, true_and, and_true, false_and,
      and_false, true_or, or_true, false_or, or_false, List.append_assoc, List.nil_append,
      List.cons_append,
    Fake.groupList, Fake.groupCreate, Fake.getID, Fake.groupGet,
    Fake.fipList, Fake.fipCreate, Fake.fipGet, Fake.fipUpdate, Fake.portList, Fake.portCreate,
    Fake.portGet, Fake.portUpdate, Fake.bindSecGroupToPortIfNeeded,
    Fake.deleteUnusedRules, Fake.createNonExistingRules, Fake.ruleList,
    Nat.toString_ne_empty, Fake.foldl_ruleCreate, Fake.foldl_ruleDelete] at hout
  subst hout
  refine ⟨rfl, ?_, ?_, _, rfl, ?_⟩
  · simp [hsg]
  · simp
  · simp [Ev.provisions]

/-- Against the fake provider holding one floating IP, for a LoadBalancer that is not
internal whose status records that floating IP and a port: `reconcileFIPAssociate` binds the
floating IP to the port (the fake provider never reports a floating IP as `ACTIVE`). -/
theorem reconcileFIPAssociate_fake (gen : Nat → String)
    (desired : LoadBalancer → String → List SecGroupRule) (req : NamespacedName)
    (w : World Fake) (out : Option Ret × World Fake) (fip : FloatingIP) (pid : String)
    (hout : (reconcileFIPAssociate (fakeEnv gen desired) req).run w = out)
    (hint : w.lb.Spec.Options.InternalLB = false)
    (hport : w.lb.Status.PortID = some pid) (hid : w.lb.Status.FloatingID = some fip.ID)
    (hfips : w.ext.fips = [fip]) (hstatus : fip.Status = "") :
    out.1 = some (false, none) ∧ out.2.lb = w.lb ∧
    ∃ evs, out.2.trace = w.trace ++ evs ∧
      evs.filter Ev.provisions = [Ev.BindFIPToPort fip.ID (some pid) none] := by
  simp [reconcileFIPAssociate, hint, hport, hid, hfips, hstatus,
    Pass.run, fakeEnv, calmEnvOn, Pass.ite_apply,
    PatchLBStatus, RemoveFromLBStatus, exitSendErrorAsEvent,
    LoadBalancerStatus.merge, LoadBalancerStatus.empty, Pass.bind_apply, Pass.pure_apply,
      Pass.exit_apply, Pass.panic_apply, Pass.getLB_apply, Pass.modifyLB_apply, Pass.call_apply,
      Pass.sub_apply, Pass.orExit_none_apply, Pass.orExit_some_apply, Pass.okOr_ok_apply,
      Pass.okOr_fail_apply, Pass.ifNotNil_some_apply, Pass.ifNotNil_none_apply,
      Pass.deref_some_apply, Pass.deref_none_apply, SendErrorAsEvent_apply, reduceIte,
      reduceCtorEq, Option.isSome_some, Option.isSome_none, Bool.false_eq_true, ne_eq,
      not_false_eq_true, not_true_eq_false, or_self, and_self, true_and, and_true, false_and,
      and_false, true_or, or_true, false_or, or_false, List.append_assoc, List.nil_append,
      List.cons_append,
    Fake.groupList, Fake.groupCreate, Fake.getID, Fake.groupGet,
    Fake.fipList, Fake.fipCreate, Fake.fipGet, Fake.fipUpdate, Fake.portList, Fake.portCreate,
    Fake.portGet, Fake.portUpdate, Fake.bindSecGroupToPortIfNeeded,
    Fake.deleteUnusedRules, Fake.createNonExistingRules, Fake.ruleList,
    Nat.toString_ne_empty, Fake.foldl_ruleCreate, Fake.foldl_ruleDelete] at hout
  subst hout
  refine ⟨rfl, rfl, _, rfl, ?_⟩
  simp [Ev.provisions]

/-- C12, counterexample.  Against the fake provider as `GetFakeClient` hands it out, for the
sample LoadBalancer (not internal, no existing floating IP, empty status): the first pass of
`reconcileOpenStackIfNeeded` creates not only the security group but also the floating IP
and the port, and binds the floating IP to the port. -/
theorem reconcileOpenStackIfNeeded_first_pass_creates_all :
    ((reconcileOpenStackIfNeeded sampleFakeEnv sampleReq).run
        (World.start Fake.fresh (sampleLB LoadBalancerStatus.empty))).1 =
      some (⟨false, DefaultRequeueTime⟩, none) ∧
    ((reconcileOpenStackIfNeeded sampleFakeEnv sampleReq).run
        (World.start Fake.fresh (sampleLB LoadBalancerStatus.empty))).2.trace.filter
        Ev.provisions =
      [Ev.CreateSecGroup "testns/lb" (.ok ⟨"0", "testns/lb"⟩),
        Ev.CreateFIP (.ok ⟨"1", "testns/lb", "", "10.0.0.1", "", ""⟩),
        Ev.CreatePort "testns/lb" "net-1" (.ok ⟨"2", "testns/lb", "net-1", [], ["10.0.0.2"]⟩),
        Ev.BindFIPToPort "1" (some "2") none] := by
  decide

/-- C12, amended.  Starting from a LoadBalancer with internalLB = false, no
existingFloatingIP and an empty status, against the fake provider as `GetFakeClient` hands
it out, the cloud reconciliation does not proceed one resource per pass: the first pass of
`reconcileOpenStackIfNeeded` creates the security group, then the floating IP, then the
port, and binds the floating IP to the port, these being all create and bind calls of the
pass, in this order; the status it leaves records the three ids and the address of the
floating IP as external IP, and the pass returns `RequeueAfter` `DefaultRequeueTime`
without error. -/
theorem reconcileOpenStackIfNeeded_fake_first_pass (gen : Nat → String)
    (desired : LoadBalancer → String → List SecGroupRule) (req : NamespacedName)
    (lb : LoadBalancer) (out : Option CtrlRet × World Fake)
    (hout : (reconcileOpenStackIfNeeded (fakeEnv gen desired) req).run
      (World.start Fake.fresh lb) = out)
    (hint : lb.Spec.Options.InternalLB = false)
    (hexist : lb.Spec.ExistingFloatingIP = none)
    (hst : lb.Status = LoadBalancerStatus.empty) :
    out.1 = some (⟨false, DefaultRequeueTime⟩, none) ∧
    ∃ (g : SecGroup) (fip : FloatingIP) (p : Port),
      out.2.trace.filter Ev.provisions =
        [Ev.CreateSecGroup req.asString (.ok g), Ev.CreateFIP (.ok fip),
          Ev.CreatePort req.asString lb.Spec.Infrastructure.NetworkID (.ok p),
          Ev.BindFIPToPort fip.ID (some p.ID) none] ∧
      out.2.lb.Status.SecurityGroupID = some g.ID ∧
      out.2.lb.Status.FloatingID = some fip.ID ∧
      out.2.lb.Status.PortID = some p.ID ∧
      out.2.lb.Status.ExternalIP = some fip.FloatingIP := by
  rcases h1 : (reconcileSecGroup (fakeEnv gen desired) req).run ⟨Fake.fresh, lb, []⟩
    with ⟨o1, w1⟩
  obtain ⟨ho1, hlb1, hf1, hp1, evs1, ht1, he1⟩ :=
    reconcileSecGroup_fake gen desired req _ _ h1
      (by simp [hst, LoadBalancerStatus.empty]) (by simp [hst, LoadBalancerStatus.empty]) rfl
  simp only [hst] at ho1 hlb1 hf1 hp1 ht1 he1
  subst ho1
  rcases h2 : (reconcileFIP (fakeEnv gen desired) req).run w1 with ⟨o2, w2⟩
  obtain ⟨ho2, hlb2, hf2, hp2, evs2, ht2, he2⟩ :=
    reconcileFIP_fake gen desired req w1 _ h2 (by simp [hlb1, hint]) (by simp [hlb1, hexist])
      (by simp [hlb1, LoadBalancerStatus.empty]) (by simp [hlb1, LoadBalancerStatus.empty])
      (by simp [hlb1, LoadBalancerStatus.empty]) (by simp [hf1, Fake.fresh])
  simp only at ho2 hlb2 hf2 hp2 ht2 he2
  subst ho2
  rcases h3 : (reconcilePort (fakeEnv gen desired) req).run w2 with ⟨o3, w3⟩
  obtain ⟨ho3, hlb3, hf3, evs3, ht3, he3⟩ :=
    reconcilePort_fake gen desired req w2 _ (toString Fake.fresh.id) h3
      (by simp [hlb2, hlb1, hint]) (by simp [hlb2, hlb1, LoadBalancerStatus.empty])
      (by simp [hlb2, hlb1, LoadBalancerStatus.empty])
      (by simp [hlb2, hlb1, LoadBalancerStatus.empty]) (by simp [hp2, hp1, Fake.fresh])
  simp only at ho3 hlb3 hf3 ht3 he3
  subst ho3
  rcases h4 : (reconcileFIPAssociate (fakeEnv gen desired) req).run w3 with ⟨o4, w4⟩
  obtain ⟨ho4, hlb4, evs4, ht4, he4⟩ :=
    reconcileFIPAssociate_fake gen desired req w3 _
      ⟨toString w1.ext.id, req.asString, w1.lb.Spec.Infrastructure.FloatingNetID.getD "",
        gen w1.ext.id, "", ""⟩ (toString w2.ext.id) h4
      (by simp [hlb3, hlb2, hlb1, hint]) (by simp [hlb3])
      (by simp [hlb3, hlb2]) (by rw [hf3, hf2]) rfl
  simp only at ho4 hlb4 ht4 he4
  subst ho4
  have hneeded :
    (fakeEnv gen desired).LoadBalancerOpenstackReconcileIsNeeded lb Fake.fresh = true := rfl
  simp only [reconcileOpenStackIfNeeded, Pass.run, World.start, Pass.bind_apply,
    Pass.getLB_apply, Pass.read_apply, hneeded, Bool.not_true] at hout
  rw [Pass.ite_apply, if_neg (by simp)] at hout
  simp only [Pass.pure_apply, Pass.invoke_apply] at hout
  simp only [h1, h2, h3, h4, Pass.orExit_none_apply, Pass.orExit_some_apply,
    Pass.invoke_apply] at hout
  rw [Pass.ite_apply, if_pos (by simp)] at hout
  simp only [Pass.exit_apply] at hout
  subst hout
  refine ⟨rfl, ⟨toString Fake.fresh.id, req.asString⟩,
    ⟨toString w1.ext.id, req.asString, w1.lb.Spec.Infrastructure.FloatingNetID.getD "",
      gen w1.ext.id, "", ""⟩,
    ⟨toString w2.ext.id, req.asString, w2.lb.Spec.Infrastructure.NetworkID, [],
      [gen w2.ext.id]⟩, ?_, ?_, ?_, ?_, ?_⟩
  · simp only [ht4, ht3, ht2, ht1, List.filter_append, he1, he2, he3, he4, List.filter_nil,
      List.nil_append, List.cons_append]
    simp [hlb2, hlb1]
  · simp [hlb4, hlb3, hlb2, hlb1]
  · simp [hlb4, hlb3, hlb2, hlb1]
  · simp [hlb4, hlb3, hlb2, hlb1]
  · simp [hlb4, hlb3, hlb2, hlb1]

/-- Witness for C12: the sample LoadBalancer against the fake provider with the sample
addresses and no desired rule. -/
theorem reconcileOpenStackIfNeeded_fake_first_pass_witness :
    ((reconcileOpenStackIfNeeded sampleFakeEnv sampleReq).run
        (World.start Fake.fresh (sampleLB LoadBalancerStatus.empty))).1 =
      some (⟨false, DefaultRequeueTime⟩, none) :=
  (reconcileOpenStackIfNeeded_fake_first_pass sampleAddresses (fun _ _ => []) sampleReq
    (sampleLB LoadBalancerStatus.empty) _ rfl rfl rfl rfl).1

/-! ## Teardown: the floating IP recorded by id -/

/-- C18, at the failing input.  Against the fake provider holding floating IP `0` of
`testns/lb`, with that id and that name recorded in the status and no
`spec.existingFloatingIP`: the pass of `deleteFips` fetches the floating IP by id and
deletes it, which sets the local `requeue` to true (`requeue so next run will delete the
status`); the listing by name that follows is empty, and the pass returns from there with
requeue = false after removing the name.  The requeue asked for by the first half is lost,
and the id is still in the status the pass leaves. -/
theorem deleteFips_by_id_then_empty_listing :
    ((deleteFips sampleFakeEnv).run (World.start oneFipFake fakeFipRecordedLB)).1 =
      some (false, none) ∧
    ((deleteFips sampleFakeEnv).run (World.start oneFipFake fakeFipRecordedLB)).2.trace =
      [Ev.FipClient none,
        Ev.GetFIPByID "0" (.ok (some ⟨"0", "testns/lb", "", "10.0.0.0", "", ""⟩)),
        Ev.DeleteFIP "0" none, Ev.FipList "testns/lb" (.ok []),
        Ev.RemoveFromLBStatus "floatingName" none] ∧
    ((deleteFips sampleFakeEnv).run
        (World.start oneFipFake fakeFipRecordedLB)).2.lb.Status.FloatingID = some "0" := by
  decide

/-! ## Internal LoadBalancers: no floating IP -/

theorem deleteFipsLoop_sparesFip {ω : Type} (env : Env σ) (n : String) :
    ∀ l : List FloatingIP,
      Pass.Emits Ev.sparesFip (deleteFipsLoop env n l : Pass σ ω Ret Unit)
  | [] => Pass.Emits.pure_emits _
  | _ :: rest => by
    have ih0 := fun (_ _ : Unit) => deleteFipsLoop_sparesFip (ω := ω) env n rest
    unfold deleteFipsLoop
    repeat' (first | rfl | with_reducible first
      | refine Pass.Emits.bind_emits ?_ (fun _ => ?_)
      | exact Pass.Emits.pure_emits _
      | exact Pass.Emits.exit_emits _
      | exact Pass.Emits.getLB_emits
      | exact Pass.Emits.read_emits _
      | exact Pass.Emits.orExit_emits _ _
      | exact Pass.Emits.deref_emits _
      | refine Pass.Emits.okOr_emits _ (fun _ => ?_)
      | refine Pass.Emits.ifNotNil_emits _ (fun _ => ?_) ?_
      | refine Pass.Emits.ite_emits _ ?_ ?_
      | refine Pass.Emits.sub_emits ?_
      | refine Pass.Emits.invoke_emits ?_
      | refine Pass.Emits.call_emits _ _ (fun _ => ?_)
      | refine PatchLBStatus_emits _ _ (fun _ => ?_)
      | refine RemoveFromLBStatus_emits _ _ (fun _ => ?_)
      | refine exitSendErrorAsEvent_emits _ _ ?_
      | refine SendErrorAsEvent_emits _ ?_
      | exact ih0 () ())

/-- `deleteFips` neither looks a floating IP up for adoption nor creates nor updates one. -/
theorem deleteFips_sparesFip {ω : Type} (env : Env σ) :
    Pass.Emits Ev.sparesFip (deleteFips env : Pass σ ω Ret Ret) := by
  have ih0 := @deleteFipsLoop_sparesFip σ ω env
  unfold deleteFips
  repeat' (first | rfl | with_reducible first
    | refine Pass.Emits.bind_emits ?_ (fun _ => ?_)
    | exact Pass.Emits.pure_emits _
    | exact Pass.Emits.exit_emits _
    | exact Pass.Emits.getLB_emits
    | exact Pass.Emits.read_emits _
    | exact Pass.Emits.orExit_emits _ _
    | exact Pass.Emits.deref_emits _
    | refine Pass.Emits.okOr_emits _ (fun _ => ?_)
    | refine Pass.Emits.ifNotNil_emits _ (fun _ => ?_) ?_
    | refine Pass.Emits.ite_emits _ ?_ ?_
    | refine Pass.Emits.sub_emits ?_
    | refine Pass.Emits.invoke_emits ?_
    | refine Pass.Emits.call_emits _ _ (fun _ => ?_)
    | refine PatchLBStatus_emits _ _ (fun _ => ?_)
    | refine RemoveFromLBStatus_emits _ _ (fun _ => ?_)
    | refine exitSendErrorAsEvent_emits _ _ ?_
    | refine SendErrorAsEvent_emits _ ?_
    | exact ih0 _ _)

/-- C21.  For an internal LoadBalancer (`spec.options.internalLB` = true): a pass of
`reconcileFIP` is a pass of `deleteFips`, with the same result and the same world left; none
of its calls looks a floating IP up for adoption (by address or by name), creates one or
updates one (description or port binding); and `reconcileFIPAssociate` returns `(false, nil)`
without any call. -/
theorem internal_lb_no_floating_ip (env : Env σ) (req : NamespacedName) (ext : σ)
    (lb : LoadBalancer) (hint : lb.Spec.Options.InternalLB = true) :
    (reconcileFIP env req).run (World.start ext lb) =
      (deleteFips env).run (World.start ext lb) ∧
    (∀ ev ∈ ((reconcileFIP env req).run (World.start ext lb)).2.trace,
      ev.acquiresFip = false) ∧
    (reconcileFIPAssociate env req).run (World.start ext lb) =
      (some (false, none), World.start ext lb) := by
  have h1 : (reconcileFIP env req).run (World.start ext lb) =
      (deleteFips env).run (World.start ext lb) := by
    simp only [reconcileFIP, Pass.run, World.start, Pass.bind_apply, Pass.getLB_apply, hint,
      Pass.ite_apply, if_true, Pass.sub_apply, Pass.exit_apply]
  refine ⟨h1, ?_, ?_⟩
  · rw [h1]
    intro ev hev
    have h := World.grewBy_all (Pass.Emits.run_emits (deleteFips_sparesFip env)
      (World.start ext lb)) (by simp [World.start]) ev hev
    simpa [Ev.sparesFip] using h
  · simp only [reconcileFIPAssociate, Pass.run, World.start, Pass.bind_apply,
      Pass.getLB_apply, hint, Pass.ite_apply, if_true, Pass.exit_apply]

/-- Witness for C21: the internal sample LoadBalancer with a floating IP recorded; the pass
of `reconcileFIP` is the teardown of that floating IP. -/
theorem internal_lb_no_floating_ip_witness :
    (reconcileFIP calmEnv sampleReq).run
        (World.start () (internalSampleLB fipRecordedLB.Status)) =
      (deleteFips calmEnv).run (World.start () (internalSampleLB fipRecordedLB.Status)) :=
  (internal_lb_no_floating_ip calmEnv sampleReq () (internalSampleLB fipRecordedLB.Status)
    rfl).1

/-! ## Rollout: the port must be recorded before a set is created -/

/-- C23.  In a pass of `reconcileLoadBalancerSet` for a LoadBalancer with a positive
revision `rev`, whose lookup of the set for the current template hash answers no set (or a
set without a name), while `status.portID` is unset: no LoadBalancerSet is created and the
revision of the LoadBalancer is not patched, the only calls being the lookup and the
allocation of the next revision; the object behind `lb` is unchanged; and once the next
revision was allocated the pass returns the empty result with `ErrLBPortNotSet`. -/
theorem reconcileLoadBalancerSet_port_not_set (env : Env σ) (ext : σ) (lb : LoadBalancer)
    (out : Option CtrlRet × World σ) (rev : Int) (hash : String)
    (found : Option LoadBalancerSet)
    (hout : (reconcileLoadBalancerSet env).run (World.start ext lb) = out)
    (hrev : env.ReadCurrentRevisionFromLB lb = .ok rev) (hpos : 0 < rev)
    (hhash : env.GetHashForLoadBalancerMachineSpecFromLoadBalancer lb = .ok hash)
    (hlookup : (env.GetLoadBalancerSetForHash hash ext).1 = .ok found)
    (hnone : (found.filter fun s => s.Name ≠ "") = none)
    (hport : lb.Status.PortID = none) :
    (∀ p h r e, Ev.CreateLoadBalancerSet p h r e ∉ out.2.trace) ∧
    (∀ r e, Ev.PatchLoadBalancerRevision r e ∉ out.2.trace) ∧
    (∃ r, out.2.trace =
      [Ev.GetLoadBalancerSetForHash hash (.ok found), Ev.GetNextRevisionFromLB r]) ∧
    out.2.lb = lb ∧
    (∀ n, Ev.GetNextRevisionFromLB (.ok n) ∈ out.2.trace →
      out.1 = some (Result.empty, some Err.ErrLBPortNotSet)) := by
  have hzero : rev ≠ 0 := by omega
  simp only [reconcileLoadBalancerSet, Pass.run, World.start, Pass.bind_apply, Pass.call_apply,
    Pass.getLB_apply, hrev, hhash, hlookup, hnone, hport, Pass.okOr_ok_apply, Pass.ite_apply,
    hzero, if_false, Pass.pure_apply, Pass.ifNotNil_none_apply, Pass.exit_apply,
    List.nil_append, List.cons_append] at hout
  rw [Pass.okOr_apply] at hout
  split at hout <;> subst hout <;> simp_all

/-- Witness for C23: nothing is recorded in the status of the sample LoadBalancer and no set
exists; the pass returns `ErrLBPortNotSet`. -/
theorem reconcileLoadBalancerSet_port_not_set_witness :
    ((reconcileLoadBalancerSet calmEnv).run
        (World.start () (sampleLB LoadBalancerStatus.empty))).1 =
      some (Result.empty, some Err.ErrLBPortNotSet) :=
  (reconcileLoadBalancerSet_port_not_set calmEnv () (sampleLB LoadBalancerStatus.empty) _ 1
    "hash-1" none rfl rfl (by decide) rfl rfl rfl rfl).2.2.2.2 1 (by decide)

/-! ## Rollout: the replica count goes to the current set -/

/-- C24.  In a pass of `reconcileLoadBalancerSet` for a LoadBalancer with a revision other
than zero, whose lookup answers a set `lbs` for the current template hash with a spec
replica count different from the LoadBalancer's: the readiness of the set is not evaluated,
the downscale of the other sets is neither checked nor done; and once the revision of the
set was read and no revision patch was refused, the last call of the pass patches the
replicas of `lbs` to the LoadBalancer's count, and the pass returns `RequeueAfter`
`DefaultRequeueTime` without error if that patch is accepted, and its error otherwise. -/
theorem reconcileLoadBalancerSet_replicas (env : Env σ) (ext : σ) (lb : LoadBalancer)
    (out : Option CtrlRet × World σ) (rev : Int) (hash : String) (lbs : LoadBalancerSet)
    (hout : (reconcileLoadBalancerSet env).run (World.start ext lb) = out)
    (hrev : env.ReadCurrentRevisionFromLB lb = .ok rev) (hzero : rev ≠ 0)
    (hhash : env.GetHashForLoadBalancerMachineSpecFromLoadBalancer lb = .ok hash)
    (hlookup : (env.GetLoadBalancerSetForHash hash ext).1 = .ok (some lbs))
    (hname : lbs.Name ≠ "")
    (hdiff : lbs.SpecReplicas ≠ lb.Spec.Replicas) :
    (∀ l r, Ev.LoadBalancerSetIsReady l r ∉ out.2.trace) ∧
    (∀ n r, Ev.AreAllLoadBalancerSetsForLBButDownscaled n r ∉ out.2.trace) ∧
    (∀ n r, Ev.ScaleDownAllLoadBalancerSetsForLBBut n r ∉ out.2.trace) ∧
    (∀ lrev, env.ReadRevisionFromLBS lbs = .ok lrev →
      (∀ r e, Ev.PatchLoadBalancerRevision r (some e) ∉ out.2.trace) →
      ∃ r, out.2.trace.getLast? =
          some (Ev.PatchLoadBalancerSetReplicas lbs lb.Spec.Replicas r) ∧
        out.1 = some (match r with
          | none => (⟨false, DefaultRequeueTime⟩, none)
          | some e => (Result.empty, some e))) := by
  simp only [reconcileLoadBalancerSet, Pass.run, World.start, Pass.bind_apply, Pass.call_apply,
    Pass.getLB_apply, hrev, hhash, hlookup, Pass.okOr_ok_apply, Pass.ite_apply,
    hzero, if_false, Pass.pure_apply, Option.filter, hname, ne_eq, not_false_eq_true,
    decide_True, if_true, Pass.ifNotNil_some_apply, hdiff, Pass.exit_apply,
    List.nil_append, List.cons_append] at hout
  rw [Pass.okOr_apply] at hout
  split at hout
  · split at hout
    · rw [Pass.orExit_apply] at hout
      split at hout
      · rw [Pass.orExit_apply] at hout
        split at hout <;> subst hout <;> simp_all
      · subst hout
        simp_all
    · rw [Pass.orExit_apply] at hout
      split at hout <;> subst hout <;> simp_all
  · subst hout
    simp_all

/-- Witness for C24: the set for the current hash has one replica, the LoadBalancer asks
for two; the pass patches the set and asks to be run again. -/
theorem reconcileLoadBalancerSet_replicas_witness :
    ((reconcileLoadBalancerSet rolloutEnv).run (World.start () twoReplicasLB)).2.trace.getLast?
      = some (Ev.PatchLoadBalancerSetReplicas
        ⟨"lb-hash-1", none, "hash-1", 1, 1, some 1, some 1⟩ 2 none) ∧
    ((reconcileLoadBalancerSet rolloutEnv).run (World.start () twoReplicasLB)).1 =
      some (⟨false, DefaultRequeueTime⟩, none) := by
  obtain ⟨r, h1, h2⟩ := (reconcileLoadBalancerSet_replicas rolloutEnv () twoReplicasLB _ 1
    "hash-1" ⟨"lb-hash-1", none, "hash-1", 1, 1, some 1, some 1⟩ rfl rfl (by decide) rfl rfl
    (by decide) (by decide)).2.2.2 1 rfl (by
      intro r e h
      have ht : ((reconcileLoadBalancerSet rolloutEnv).run
          (World.start () twoReplicasLB)).2.trace =
          [Ev.GetLoadBalancerSetForHash "hash-1"
              (.ok (some ⟨"lb-hash-1", none, "hash-1", 1, 1, some 1, some 1⟩)),
            Ev.PatchLoadBalancerSetReplicas
              ⟨"lb-hash-1", none, "hash-1", 1, 1, some 1, some 1⟩ 2 none] := rfl
      rw [ht] at h
      simp at h)
  have hr : r = none := by
    have ht : ((reconcileLoadBalancerSet rolloutEnv).run
        (World.start () twoReplicasLB)).2.trace.getLast? =
        some (Ev.PatchLoadBalancerSetReplicas
          ⟨"lb-hash-1", none, "hash-1", 1, 1, some 1, some 1⟩ 2 none) := rfl
    rw [ht] at h1
    have h3 := h1.symm
    simp at h3
    exact h3.2
  subst hr
  exact ⟨h1, h2⟩

/-! ## Idempotence of a pass over a converged LoadBalancer -/

/-- C25.  Take a pass of `Reconcile` that is not stopped by the gate, for a LoadBalancer
`lb` without deletion timestamp that is converged: the client is obtained, the finalizer
helper reports no error, the reconcile-needed gate is closed, the revision `rev` of
the LoadBalancer is not zero and is the revision of the set `lbs` the lookup answers for the
current template hash, `lbs` has the replica count of the LoadBalancer and is ready, and the
other sets are downscaled.  Then the calls of the pass are the load of the object, the
client, the finalizer call, the lookup of the set, the readiness check and the downscale
check, and nothing else -- no provider call, no status patch, no revision patch, no write of
a LoadBalancerSet; the object behind `lb` is the loaded one, and the pass returns
`RequeueAfter` five minutes without error. -/
theorem Reconcile_converged (r : Reconciler) (env : Env σ) (req : NamespacedName)
    (ext s1 s2 s3 s4 s5 s6 : σ) (lb0 lb : LoadBalancer) (out : Option CtrlRet × World σ)
    (rev : Int) (hash : String) (lbs : LoadBalancerSet)
    (hout : (Reconcile r env req).run (World.start ext lb0) = out)
    (hgate : r.skips req = false)
    (hget : env.Get req ext = (.ok (some lb), s1))
    (hdel : lb.DeletionTimestamp = none)
    (hclient : env.GetOpenStackClientForAuthRef lb.Spec.Infrastructure.AuthSecretRef s1 =
      (none, s2))
    (hfin : env.AddFinalizerIfNeeded ServiceFinalizer s2 = (none, s3))
    (hneeded : env.LoadBalancerOpenstackReconcileIsNeeded lb s3 = false)
    (hrev : env.ReadCurrentRevisionFromLB lb = .ok rev) (hzero : rev ≠ 0)
    (hhash : env.GetHashForLoadBalancerMachineSpecFromLoadBalancer lb = .ok hash)
    (hlookup : env.GetLoadBalancerSetForHash hash s3 = (.ok (some lbs), s4))
    (hname : lbs.Name ≠ "")
    (hlrev : env.ReadRevisionFromLBS lbs = .ok rev)
    (hreplicas : lbs.SpecReplicas = lb.Spec.Replicas)
    (hready : env.LoadBalancerSetIsReady lbs s4 = (.ok true, s5))
    (hdown : env.AreAllLoadBalancerSetsForLBButDownscaled lbs.Name s5 = (.ok true, s6)) :
    out.1 = some (⟨false, 5 * 60 * 1000⟩, none) ∧
    out.2.trace =
      [Ev.Get req (.ok (some lb)),
        Ev.GetOpenStackClientForAuthRef lb.Spec.Infrastructure.AuthSecretRef none,
        Ev.AddFinalizerIfNeeded ServiceFinalizer none,
        Ev.GetLoadBalancerSetForHash hash (.ok (some lbs)),
        Ev.LoadBalancerSetIsReady lbs (.ok true),
        Ev.AreAllLoadBalancerSetsForLBButDownscaled lbs.Name (.ok true)] ∧
    out.2.lb = lb ∧ out.2.ext = s6 := by
  have hcloud : ∀ t, (reconcileOpenStackIfNeeded env req).run ⟨s3, lb, t⟩ =
      (some (Result.empty, none), ⟨s3, lb, t⟩) := by
    intro t
    simp only [reconcileOpenStackIfNeeded, Pass.run, Pass.bind_apply, Pass.getLB_apply,
      Pass.read_apply, hneeded, Bool.not_false, Pass.ite_apply, if_true, Pass.exit_apply]
  have hroll : ∀ t, (reconcileLoadBalancerSet env).run ⟨s3, lb, t⟩ =
      (some (Result.empty, none),
        ⟨s6, lb, t ++ [Ev.GetLoadBalancerSetForHash hash (.ok (some lbs)),
          Ev.LoadBalancerSetIsReady lbs (.ok true),
          Ev.AreAllLoadBalancerSetsForLBButDownscaled lbs.Name (.ok true)]⟩) := by
    intro t
    simp only [reconcileLoadBalancerSet, Pass.run, Pass.bind_apply, Pass.call_apply,
      Pass.getLB_apply, hrev, hhash, hlookup, Pass.okOr_ok_apply, Pass.ite_apply,
      hzero, if_false, Pass.pure_apply, Option.filter, hname, ne_eq, not_false_eq_true,
      decide_True, if_true, Pass.ifNotNil_some_apply, hlrev, hreplicas, not_true_eq_false,
      hready, hdown, Bool.not_true, Bool.false_eq_true, List.append_assoc, List.cons_append,
      List.nil_append]
  simp only [Reconcile, Pass.run, World.start, Pass.bind_apply, Pass.call_apply,
    List.nil_append] at hout
  rw [Pass.ite_apply, if_neg (by simp [hgate])] at hout
  simp only [Pass.pure_apply, hget, Pass.okOr_ok_apply, Pass.ifNotNil_some_apply,
    Pass.modifyLB_apply, hclient, Pass.orExit_none_apply, List.singleton_append,
    List.cons_append, List.nil_append] at hout
  rw [Pass.ite_apply, if_neg (by simp [hdel])] at hout
  simp only [Pass.pure_apply, hfin, Pass.orExit_none_apply, Pass.invoke_apply,
    List.cons_append, List.nil_append, hcloud, hroll] at hout
  rw [Pass.ite_apply, if_neg (by simp [CtrlRet.stops, Result.empty])] at hout
  simp only [Pass.pure_apply, Pass.invoke_apply, hroll] at hout
  rw [Pass.ite_apply, if_neg (by simp [CtrlRet.stops, Result.empty])] at hout
  simp only [Pass.pure_apply] at hout
  subst hout
  exact ⟨rfl, rfl, rfl, rfl⟩

/-- Witness for C25: the sample LoadBalancer in the converged environment. -/
theorem Reconcile_converged_witness :
    ((Reconcile plainReconciler convergedEnv sampleReq).run
        (World.start () LoadBalancer.zero)).1 = some (⟨false, 5 * 60 * 1000⟩, none) :=
  (Reconcile_converged plainReconciler convergedEnv sampleReq () () () () () () ()
    LoadBalancer.zero (sampleLB LoadBalancerStatus.empty) _ 1 "hash-1"
    ⟨"lb-hash-1", none, "hash-1", 1, 1, some 1, some 1⟩ rfl rfl rfl rfl rfl rfl rfl rfl
    (by decide) rfl rfl (by decide) rfl rfl rfl rfl).1

/-! ## Floating IP: the id is dereferenced after `assignOrCreateFIP` -/

/-- C29, at the failing input.  The LoadBalancer is not internal, the user supplied the
floating IP `1.2.3.4`, nothing is recorded in the status, and the provider answers the lookup
by address with a record whose id is empty.  `assignOrCreateFIP` skips the status patch and
returns no error, leaving `status.floatingID` unset; `reconcileFIP` goes on to the fetch by
id and dereferences the unset `status.floatingID`: the pass panics, after the client
accessor, the patch of the name and the lookup by address. -/
theorem reconcileFIP_existing_address_empty_id :
    ((assignOrCreateFIP emptyIdFipEnv).run
        (World.start () (existingFipUnresolvedLB.patched
          { LoadBalancerStatus.empty with FloatingName := some "testns/lb" }))).1 =
      some none ∧
    ((assignOrCreateFIP emptyIdFipEnv).run
        (World.start () (existingFipUnresolvedLB.patched
          { LoadBalancerStatus.empty with FloatingName := some "testns/lb" }))).2.trace =
      [Ev.GetFIPByIP "1.2.3.4" (.ok ⟨"", "", "", "1.2.3.4", "", "DOWN"⟩)] ∧
    ((assignOrCreateFIP emptyIdFipEnv).run
        (World.start () (existingFipUnresolvedLB.patched
          { LoadBalancerStatus.empty with FloatingName := some "testns/lb" }))).2.lb.Status.FloatingID
      = none ∧
    ((reconcileFIP emptyIdFipEnv sampleReq).run
        (World.start () existingFipUnresolvedLB)).1 = none ∧
    ((reconcileFIP emptyIdFipEnv sampleReq).run
        (World.start () existingFipUnresolvedLB)).2.trace =
      [Ev.FipClient none,
        Ev.PatchLBStatus { LoadBalancerStatus.empty with FloatingName := some "testns/lb" }
          none,
        Ev.GetFIPByIP "1.2.3.4" (.ok ⟨"", "", "", "1.2.3.4", "", "DOWN"⟩)] ∧
    ((reconcileFIP emptyIdFipEnv sampleReq).run
        (World.start () existingFipUnresolvedLB)).2.lb.Status.FloatingID = none := by
  refine ⟨by decide, by decide, by decide, by decide, by decide, by decide⟩

/-! ## Hoare triples for the pieces of a pass -/

namespace Pass

variable {ω ρ α β : Type} {R : World σ → Prop} {E : ρ → World σ → Prop}
  {F : World σ → Prop}

theorem Moves.pure_moves {Q : α → World σ → Prop} (a : α) (h : ∀ w, R w → Q a w) :
    Moves R E F Q (pure a : Pass σ ω ρ α) :=
  fun _ _ _ _ w _ _ hk hw => hk _ _ (h w hw)

theorem Moves.exit_moves {Q : α → World σ → Prop} (r : ρ) (h : ∀ w, R w → E r w) :
    Moves R E F Q (exit r : Pass σ ω ρ α) :=
  fun _ _ _ _ w hr _ _ hw => hr _ _ (h w hw)

theorem Moves.panic_moves {Q : α → World σ → Prop} (h : ∀ w, R w → F w) :
    Moves R E F Q (panic : Pass σ ω ρ α) :=
  fun _ _ _ _ w _ hp _ hw => hp _ (h w hw)

theorem Moves.getLB_moves {Q : LoadBalancer → World σ → Prop} (h : ∀ w, R w → Q w.lb w) :
    Moves R E F Q (getLB : Pass σ ω ρ LoadBalancer) :=
  fun _ _ _ _ w _ _ hk hw => hk _ _ (h w hw)

theorem Moves.read_moves {Q : α → World σ → Prop} (f : σ → α)
    (h : ∀ w, R w → Q (f w.ext) w) : Moves R E F Q (read f : Pass σ ω ρ α) :=
  fun _ _ _ _ w _ _ hk hw => hk _ _ (h w hw)

theorem Moves.modifyLB_moves {Q : Unit → World σ → Prop} (f : LoadBalancer → LoadBalancer)
    (h : ∀ w, R w → Q () ⟨w.ext, f w.lb, w.trace⟩) :
    Moves R E F Q (modifyLB f : Pass σ ω ρ Unit) :=
  fun _ _ _ _ w _ _ hk hw => hk _ _ (h w hw)

theorem Moves.call_moves {Q : α → World σ → Prop} (f : σ → α × σ) (ev : α → Ev)
    (h : ∀ w a s, R w → Q a ⟨s, w.lb, w.trace ++ [ev a]⟩) :
    Moves R E F Q (call f ev : Pass σ ω ρ α) :=
  fun _ _ _ _ w _ _ hk hw => hk _ _ (h w _ _ hw)

theorem Moves.bind_moves {P : α → World σ → Prop} {Q : β → World σ → Prop}
    {m : Pass σ ω ρ α} {f : α → Pass σ ω ρ β} (hm : Moves R E F P m)
    (hf : ∀ a, Moves (P a) E F Q (f a)) : Moves R E F Q (m >>= f) :=
  fun G kr kp k w hr hp hk hw =>
    hm G kr kp _ w hr hp (fun a w1 h1 => hf a G kr kp k w1 hr hp hk h1) hw

/-- The rule for a bind whose first piece keeps the assertion it started with. -/
theorem Moves.bind_same {Q : β → World σ → Prop} {m : Pass σ ω ρ α}
    {f : α → Pass σ ω ρ β} (hm : Moves R E F (fun _ => R) m)
    (hf : ∀ a, Moves R E F Q (f a)) : Moves R E F Q (m >>= f) :=
  Moves.bind_moves hm hf

/-- The rule for a bind of `getLB`: the value bound is the object of a world with `R`. -/
theorem Moves.getLB_bind {Q : β → World σ → Prop} {f : LoadBalancer → Pass σ ω ρ β}
    (hf : ∀ a, (∃ w, R w ∧ w.lb = a) → Moves R E F Q (f a)) :
    Moves R E F Q (getLB >>= f) :=
  fun G kr kp k w hr hp hk hw => hf w.lb ⟨w, hw, rfl⟩ G kr kp k w hr hp hk hw

/-- The rule for a bind of `deref`: the value bound is what the pointer holds. -/
theorem Moves.deref_bind {Q : β → World σ → Prop} (p : Option α) {f : α → Pass σ ω ρ β}
    (h : ∀ w, p = none → R w → F w) (hf : ∀ a, p = some a → Moves R E F Q (f a)) :
    Moves R E F Q (deref p >>= f) := by
  cases p with
  | none => exact fun _ _ _ _ w _ hp _ hw => hp _ (h w rfl hw)
  | some a => exact fun G kr kp k w hr hp hk hw => hf a rfl G kr kp k w hr hp hk hw

theorem Moves.orExit_moves {Q : Unit → World σ → Prop} (err : Option Err) (f : Err → ρ)
    (h1 : ∀ e w, err = some e → R w → E (f e) w) (h2 : ∀ w, err = none → R w → Q () w) :
    Moves R E F Q (orExit err f : Pass σ ω ρ Unit) := by
  cases err with
  | none => exact fun _ _ _ _ w _ _ hk hw => hk _ _ (h2 w rfl hw)
  | some e => exact fun _ _ _ _ w hr _ _ hw => hr _ _ (h1 e w rfl hw)

theorem Moves.okOr_moves {Q : α → World σ → Prop} (r : Reply α) {f : Err → Pass σ ω ρ α}
    (h1 : ∀ a w, r = .ok a → R w → Q a w) (h2 : ∀ e, r = .fail e → Moves R E F Q (f e)) :
    Moves R E F Q (okOr r f) := by
  cases r with
  | ok a => exact fun _ _ _ _ w _ _ hk hw => hk _ _ (h1 a w rfl hw)
  | fail e => exact h2 e rfl

theorem Moves.ifNotNil_moves {Q : β → World σ → Prop} (p : Option α)
    {f : α → Pass σ ω ρ β} {g : Pass σ ω ρ β} (hf : ∀ a, p = some a → Moves R E F Q (f a))
    (hg : p = none → Moves R E F Q g) : Moves R E F Q (ifNotNil p f g) := by
  cases p with
  | none => exact hg rfl
  | some a => exact hf a rfl

theorem Moves.deref_moves {Q : α → World σ → Prop} (p : Option α)
    (h1 : ∀ a w, p = some a → R w → Q a w) (h2 : ∀ w, p = none → R w → F w) :
    Moves R E F Q (deref p : Pass σ ω ρ α) := by
  cases p with
  | none => exact fun _ _ _ _ w _ hp _ hw => hp _ (h2 w rfl hw)
  | some a => exact fun _ _ _ _ w _ _ hk hw => hk _ _ (h1 a w rfl hw)

theorem Moves.ite_moves {Q : α → World σ → Prop} (c : Prop) [Decidable c]
    {a b : Pass σ ω ρ α} (ha : c → Moves R E F Q a) (hb : ¬c → Moves R E F Q b) :
    Moves R E F Q (if c then a else b) := by
  split
  · exact ha ‹_›
  · exact hb ‹_›

theorem Moves.sub_moves {ρ1 : Type} {Q : ρ1 → World σ → Prop} {m : Pass σ ω ρ1 ρ1}
    (hm : Moves R Q F Q m) : Moves R E F Q (sub m : Pass σ ω ρ ρ1) :=
  fun G _ kp k w _ hp hk hw => hm G k kp k w hk hp hk hw

theorem Moves.invoke_moves {ρ1 : Type} {Q : ρ1 → World σ → Prop}
    {m : Pass σ (Option ρ1 × World σ) ρ1 ρ1} (hm : Moves R Q F Q m) :
    Moves R E F Q (invoke m : Pass σ ω ρ ρ1) :=
  fun G _ kp k w _ hp hk hw =>
    hm (fun o => G (match o with
        | (some r, w1) => k r w1
        | (none, w1) => kp w1)) _ _ _ w
      (fun r w1 h => hk r w1 h) (fun w1 h => hp w1 h) (fun r w1 h => hk r w1 h) hw

/-- The rule of consequence. -/
theorem Moves.weaken {Q Q1 : α → World σ → Prop} {R1 : World σ → Prop}
    {E1 : ρ → World σ → Prop} {F1 : World σ → Prop} {m : Pass σ ω ρ α}
    (hm : Moves R1 E1 F1 Q1 m) (hR : ∀ w, R w → R1 w) (hE : ∀ r w, E1 r w → E r w)
    (hF : ∀ w, F1 w → F w) (hQ : ∀ a w, Q1 a w → Q a w) : Moves R E F Q m :=
  fun G kr kp k w hr hp hk hw =>
    hm G kr kp k w (fun r w1 h => hr r w1 (hE r w1 h)) (fun w1 h => hp w1 (hF w1 h))
      (fun a w1 h => hk a w1 (hQ a w1 h)) (hR w hw)

/-- A function with a triple, run as a whole from a world with `R`: what it returns and the
world it leaves satisfy `E`; if it panics, the world it leaves satisfies `F`. -/
theorem Moves.run_moves {m : Pass σ (Option ρ × World σ) ρ ρ} (hm : Moves R E F E m)
    (w : World σ) (hw : R w) :
    (∀ r, (m.run w).1 = some r → E r (m.run w).2) ∧ ((m.run w).1 = none → F (m.run w).2) :=
  hm (fun o => (∀ r, o.1 = some r → E r o.2) ∧ (o.1 = none → F o.2)) _ _ _ w
    (fun r w1 h => ⟨fun r1 h1 => (by cases h1; exact h), fun h1 => (by cases h1)⟩)
    (fun w1 h => ⟨fun r1 h1 => (by cases h1), fun _ => h⟩)
    (fun r w1 h => ⟨fun r1 h1 => (by cases h1; exact h), fun h1 => (by cases h1)⟩) hw

/-- The rule for a bind of `getLB` under an assertion that implies `I` of the object: the
value bound satisfies `I`. -/
theorem Moves.getLB_with {Q : β → World σ → Prop} {I : LoadBalancer → Prop}
    {f : LoadBalancer → Pass σ ω ρ β} (hI : ∀ w, R w → I w.lb)
    (hf : ∀ a, I a → Moves R E F Q (f a)) : Moves R E F Q (getLB >>= f) :=
  fun G kr kp k w hr hp hk hw => hf w.lb (hI w hw) G kr kp k w hr hp hk hw

/-- A function that keeps the assertion `R` on every way out, run as a whole from a world
with `R`, leaves a world with `R`. -/
theorem Moves.run_same {m : Pass σ (Option ρ × World σ) ρ ρ}
    (hm : Moves R (fun _ => R) R (fun _ => R) m) (w : World σ) (hw : R w) : R (m.run w).2 :=
  hm (fun o => R o.2) _ _ _ w (fun _ _ h => h) (fun _ h => h) (fun _ _ h => h) hw

/-- A triple keeps holding when the entry assertion is strengthened by a conjunct. -/
theorem Moves.of_left {Q : α → World σ → Prop} {S : World σ → Prop} {m : Pass σ ω ρ α}
    (hm : Moves R E F Q m) : Moves (fun w => R w ∧ S w) E F Q m :=
  fun G kr kp k w hr hp hk hw => hm G kr kp k w hr hp hk hw.1

/-- A fact that does not depend on the world can be taken out of the entry assertion. -/
theorem Moves.of_pure {Q : α → World σ → Prop} {S : Prop} {m : Pass σ ω ρ α}
    (hm : S → Moves R E F Q m) : Moves (fun w => R w ∧ S) E F Q m :=
  fun G kr kp k w hr hp hk hw => hm hw.2 G kr kp k w hr hp hk hw.1

/-- The rule for `getLB` that keeps the link between the value and the object. -/
theorem Moves.getLB_link :
    Moves R E F (fun a w => R w ∧ w.lb = a) (getLB : Pass σ ω ρ LoadBalancer) :=
  fun _ _ _ _ w _ _ hk hw => hk _ _ ⟨hw, rfl⟩

/-- The rule for a piece that ends in `pure a`: the piece before it establishes `Q a`. -/
theorem Moves.bind_pure {Q : β → World σ → Prop} {m : Pass σ ω ρ α} (b : β)
    (hm : Moves R E F (fun _ => Q b) m) : Moves R E F Q (m >>= fun _ => pure b) :=
  Moves.bind_moves hm fun _ => Moves.pure_moves b fun _ h => h

end Pass

section Triples

variable {ω ρ : Type} {R : World σ → Prop} {E : ρ → World σ → Prop} {F : World σ → Prop}

theorem SendErrorAsEvent_moves {Q : Option Err → World σ → Prop} (e : Err)
    (h : ∀ w, R w → Q (some e) ⟨w.ext, w.lb, w.trace ++ [Ev.SendErrorAsEvent e]⟩) :
    Pass.Moves R E F Q (SendErrorAsEvent e : Pass σ ω ρ (Option Err)) :=
  fun _ _ _ _ w _ _ hk hw => hk _ _ (h w hw)

theorem exitSendErrorAsEvent_moves {α : Type} {E : Ret → World σ → Prop}
    {Q : α → World σ → Prop} (requeue : Bool) (e : Err)
    (h : ∀ w, R w → E (requeue, some e) ⟨w.ext, w.lb, w.trace ++ [Ev.SendErrorAsEvent e]⟩) :
    Pass.Moves R E F Q (exitSendErrorAsEvent requeue e : Pass σ ω Ret α) :=
  fun _ _ _ _ w hr _ _ hw => hr _ _ (h w hw)

theorem PatchLBStatus_moves {Q : Option Err → World σ → Prop} (env : Env σ)
    (patch : LoadBalancerStatus)
    (h1 : ∀ w s e, R w → Q (some e) ⟨s, w.lb, w.trace ++ [Ev.PatchLBStatus patch (some e)]⟩)
    (h2 : ∀ w s, R w →
      Q none ⟨s, w.lb.patched patch, w.trace ++ [Ev.PatchLBStatus patch none]⟩) :
    Pass.Moves R E F Q (PatchLBStatus env patch : Pass σ ω ρ (Option Err)) := by
  intro G kr kp k w _ _ hk hw
  simp only [PatchLBStatus, Pass.bind_apply, Pass.call_apply]
  generalize env.PatchLBStatus patch w.ext = res
  obtain ⟨err, s⟩ := res
  cases err with
  | none =>
    simp only [Pass.ifNotNil_apply, Pass.bind_apply, Pass.modifyLB_apply, Pass.pure_apply]
    exact hk _ _ (h2 w s hw)
  | some e =>
    simp only [Pass.ifNotNil_apply, Pass.pure_apply]
    exact hk _ _ (h1 w s e hw)

theorem RemoveFromLBStatus_moves {Q : Option Err → World σ → Prop} (env : Env σ)
    (key : String)
    (h1 : ∀ w s e, R w →
      Q (some e) ⟨s, w.lb, w.trace ++ [Ev.RemoveFromLBStatus key (some e)]⟩)
    (h2 : ∀ w s, R w →
      Q none ⟨s, { w.lb with Status := w.lb.Status.remove key },
        w.trace ++ [Ev.RemoveFromLBStatus key none]⟩) :
    Pass.Moves R E F Q (RemoveFromLBStatus env key : Pass σ ω ρ (Option Err)) := by
  intro G kr kp k w _ _ hk hw
  simp only [RemoveFromLBStatus, Pass.bind_apply, Pass.call_apply]
  generalize env.RemoveFromLBStatus key w.ext = res
  obtain ⟨err, s⟩ := res
  cases err with
  | none =>
    simp only [Pass.ifNotNil_apply, Pass.bind_apply, Pass.modifyLB_apply, Pass.pure_apply]
    exact hk _ _ (h2 w s hw)
  | some e =>
    simp only [Pass.ifNotNil_apply, Pass.pure_apply]
    exact hk _ _ (h1 w s e hw)

/-- The statements `if err := PatchLBStatus(...); err != nil { return f err }` followed by
`rest`: a refused patch returns, an accepted one goes on with the patched object, of which
`P` holds. -/
theorem patchOrExit_moves {α : Type} {P : World σ → Prop} {Q : α → World σ → Prop}
    (env : Env σ) (patch : LoadBalancerStatus) (f : Err → ρ) {rest : Pass σ ω ρ α}
    (h1 : ∀ w s e, R w → E (f e) ⟨s, w.lb, w.trace ++ [Ev.PatchLBStatus patch (some e)]⟩)
    (h2 : ∀ w s, R w →
      P ⟨s, w.lb.patched patch, w.trace ++ [Ev.PatchLBStatus patch none]⟩)
    (hrest : Pass.Moves P E F Q rest) :
    Pass.Moves R E F Q
      ((PatchLBStatus env patch : Pass σ ω ρ (Option Err)) >>= fun err =>
        Pass.orExit err f >>= fun _ => rest) := by
  intro G kr kp k w hr hp hk hw
  simp only [PatchLBStatus, Pass.bind_apply, Pass.call_apply]
  generalize env.PatchLBStatus patch w.ext = res
  obtain ⟨err, s⟩ := res
  cases err with
  | none =>
    simp only [Pass.ifNotNil_apply, Pass.bind_apply, Pass.modifyLB_apply, Pass.pure_apply,
      Pass.orExit_none_apply]
    exact hrest G kr kp k _ hr hp hk (h2 w s hw)
  | some e =>
    simp only [Pass.ifNotNil_apply, Pass.pure_apply, Pass.orExit_some_apply]
    exact hr _ _ (h1 w s e hw)

end Triples

/-! ## Floating IP: the external IP and the rename after the fetch -/

theorem BeforeFipFetch.fip_step {lb0 : LoadBalancer} {w : World σ} (h : BeforeFipFetch lb0 w)
    (s : σ) (ev : Ev) (hev : ev.beforeFipFetch = true) :
    BeforeFipFetch lb0 ⟨s, w.lb, w.trace ++ [ev]⟩ := by
  refine ⟨h.1, h.2.1, fun e he => ?_⟩
  rcases List.mem_append.1 he with he | he
  · exact h.2.2 e he
  · rw [List.mem_singleton.1 he]; exact hev

theorem BeforeFipFetch.fip_patch {lb0 : LoadBalancer} {w : World σ} (h : BeforeFipFetch lb0 w)
    (s : σ) (patch : LoadBalancerStatus) (hp : patch.ExternalIP = none) :
    BeforeFipFetch lb0 ⟨s, w.lb.patched patch, w.trace ++ [Ev.PatchLBStatus patch none]⟩ := by
  refine ⟨h.1, ?_, fun e he => ?_⟩
  · simpa [LoadBalancer.patched, LoadBalancerStatus.merge, hp] using h.2.1
  · rcases List.mem_append.1 he with he | he
    · exact h.2.2 e he
    · rw [List.mem_singleton.1 he]; simp [Ev.beforeFipFetch, hp]

/-- The second half of `reconcileFIP`, entered in the world `w0`: the calls it adds to the
trace satisfy `FipFetched`. -/
theorem reconcileFIPSync_moves {ω : Type} (env : Env σ) (requeue : Bool) (w0 : World σ) :
    Pass.Moves (fun w => w = w0)
      (fun r w => ∃ t, w.trace = w0.trace ++ t ∧ FipFetched w0.lb (some r) w.lb t)
      (fun w => ∃ t, w.trace = w0.trace ++ t ∧ FipFetched w0.lb none w.lb t)
      (fun r w => ∃ t, w.trace = w0.trace ++ t ∧ FipFetched w0.lb (some r) w.lb t)
      (reconcileFIPSync env requeue : Pass σ ω Ret Ret) := by
  intro G kr kp k w hr hp hk hw
  subst hw
  generalize hout : reconcileFIPSync env requeue kr kp k w = out
  revert hr hp hk
  simp only [reconcileFIPSync, Pass.bind_apply, Pass.call_apply,
    Pass.getLB_apply] at hout
  repeat' (
    (first
      | rw [Pass.orExit_apply] at hout
      | rw [Pass.okOr_apply] at hout
      | rw [Pass.ifNotNil_apply] at hout
      | rw [Pass.deref_apply] at hout
      | rw [Pass.ite_apply] at hout) ;
    split at hout <;>
    try simp only [*, PatchLBStatus, RemoveFromLBStatus, exitSendErrorAsEvent,
      LoadBalancerStatus.merge, LoadBalancerStatus.empty, Pass.bind_apply, Pass.pure_apply,
      Pass.exit_apply, Pass.panic_apply, Pass.getLB_apply, Pass.modifyLB_apply, Pass.call_apply,
      Pass.sub_apply, Pass.orExit_none_apply, Pass.orExit_some_apply, Pass.okOr_ok_apply,
      Pass.okOr_fail_apply, Pass.ifNotNil_some_apply, Pass.ifNotNil_none_apply,
      Pass.deref_some_apply, Pass.deref_none_apply, SendErrorAsEvent_apply, reduceIte,
      reduceCtorEq, Option.isSome_some, Option.isSome_none, Bool.false_eq_true, ne_eq,
      not_false_eq_true, not_true_eq_false, or_self, and_self, true_and, and_true, false_and,
      and_false, true_or, or_true, false_or, or_false, List.append_assoc, List.nil_append,
      List.cons_append] at hout)
  all_goals (
    subst hout
    intro hr hp hk
    first | apply hr | apply hp | apply hk)
  all_goals (
    clear hr hp hk
    first
      | refine ⟨_, rfl, ?_⟩
      | refine ⟨[], (List.append_nil _).symm, ?_⟩)
  all_goals first
    | (simp [FipFetched, LoadBalancerStatus.merge, LoadBalancerStatus.empty]; done)
    | (simp_all [FipFetched, LoadBalancerStatus.merge, LoadBalancerStatus.empty]; done)
    | (simp_all [FipFetched, LoadBalancerStatus.merge, LoadBalancerStatus.empty]
       intro hc; simp_all)

theorem BeforeFipFetch.fip_done {lb0 : LoadBalancer} {w : World σ} (h : BeforeFipFetch lb0 w)
    (o : Option Ret) (ho : ∀ q, o ≠ some (q, none)) : AfterFipFetch lb0 o w :=
  ⟨w, h, [], (List.append_nil _).symm,
    fun _ _ hm => absurd hm (List.not_mem_nil _), fun q hq => absurd hq (ho q)⟩

/-- The second half of `reconcileFIP`, entered before any fetch, leaves `AfterFipFetch`. -/
theorem reconcileFIPSync_after {ω : Type} (env : Env σ) (requeue : Bool)
    (lb0 : LoadBalancer) :
    Pass.Moves (BeforeFipFetch lb0) (fun r w => AfterFipFetch lb0 (some r) w)
      (fun w => AfterFipFetch lb0 none w) (fun r w => AfterFipFetch lb0 (some r) w)
      (reconcileFIPSync env requeue : Pass σ ω Ret Ret) :=
  fun G kr kp k w hr hp hk hw =>
    reconcileFIPSync_moves env requeue w G kr kp k w
      (fun r w1 h => hr r w1 ⟨w, hw, h⟩) (fun w1 h => hp w1 ⟨w, hw, h⟩)
      (fun r w1 h => hk r w1 ⟨w, hw, h⟩) rfl

/-- Nothing in `assignOrCreateFIP` fetches by id, renames or patches the external IP. -/
theorem assignOrCreateFIP_before {ω : Type} (env : Env σ) (lb0 : LoadBalancer) :
    Pass.Moves (BeforeFipFetch lb0) (fun _ => BeforeFipFetch lb0)
      (fun w => AfterFipFetch lb0 none w) (fun _ => BeforeFipFetch lb0)
      (assignOrCreateFIP env : Pass σ ω (Option Err) (Option Err)) := by
  unfold assignOrCreateFIP
  repeat' (first | with_reducible first
    | refine Pass.Moves.getLB_bind (fun _ _ => ?_)
    | refine Pass.Moves.bind_same ?_ (fun _ => ?_)
    | refine Pass.Moves.pure_moves _ ?_
    | refine Pass.Moves.exit_moves _ ?_
    | refine Pass.Moves.panic_moves ?_
    | refine Pass.Moves.getLB_moves ?_
    | refine Pass.Moves.read_moves _ ?_
    | refine Pass.Moves.orExit_moves _ _ ?_ ?_
    | refine Pass.Moves.deref_moves _ ?_ ?_
    | refine Pass.Moves.okOr_moves _ ?_ (fun _ _ => ?_)
    | refine Pass.Moves.ifNotNil_moves _ (fun _ _ => ?_) (fun _ => ?_)
    | refine Pass.Moves.ite_moves _ (fun _ => ?_) (fun _ => ?_)
    | refine Pass.Moves.sub_moves ?_
    | refine Pass.Moves.invoke_moves ?_
    | refine Pass.Moves.call_moves _ _ ?_
    | refine PatchLBStatus_moves _ _ ?_ ?_
    | refine RemoveFromLBStatus_moves _ _ ?_ ?_
    | refine exitSendErrorAsEvent_moves _ _ ?_
    | refine SendErrorAsEvent_moves _ ?_)
  all_goals first
    | exact fun _ h => h
    | exact fun _ _ h => h
    | exact fun _ _ _ h => h
    | exact fun _ _ s h => h.fip_step s _ rfl
    | exact fun _ s _ h => h.fip_step s _ rfl
    | exact fun w h => h.fip_step w.ext _ rfl
    | exact fun _ s h => h.fip_patch s _ rfl
    | exact fun _ _ h => h.fip_done none (by simp)

/-- A pass of `reconcileFIP` over a LoadBalancer that is not internal leaves
`AfterFipFetch`. -/
theorem reconcileFIP_moves {ω : Type} (env : Env σ) (req : NamespacedName)
    (lb0 : LoadBalancer) (hint : lb0.Spec.Options.InternalLB = false) :
    Pass.Moves (BeforeFipFetch lb0) (fun r w => AfterFipFetch lb0 (some r) w)
      (fun w => AfterFipFetch lb0 none w) (fun r w => AfterFipFetch lb0 (some r) w)
      (reconcileFIP env req : Pass σ ω Ret Ret) := by
  unfold reconcileFIP
  refine Pass.Moves.getLB_bind (fun lb1 hlb1 => ?_)
  have hi : lb1.Spec.Options.InternalLB = false := by
    obtain ⟨w, hw, rfl⟩ := hlb1
    rw [hw.1]; exact hint
  refine Pass.Moves.bind_same (Pass.Moves.ite_moves _ (fun hc => absurd hc (by simp [hi]))
    (fun _ => Pass.Moves.pure_moves _ (fun _ h => h))) (fun _ => ?_)
  have ih0 := fun (_ _ : Unit) => @assignOrCreateFIP_before σ ω env lb0
  have ih1 := @reconcileFIPSync_after σ ω env
  repeat' (first | with_reducible first
    | refine Pass.Moves.getLB_bind (fun _ _ => ?_)
    | refine Pass.Moves.bind_same ?_ (fun _ => ?_)
    | refine Pass.Moves.pure_moves _ ?_
    | refine Pass.Moves.exit_moves _ ?_
    | refine Pass.Moves.panic_moves ?_
    | refine Pass.Moves.getLB_moves ?_
    | refine Pass.Moves.read_moves _ ?_
    | refine Pass.Moves.orExit_moves _ _ ?_ ?_
    | refine Pass.Moves.deref_moves _ ?_ ?_
    | refine Pass.Moves.okOr_moves _ ?_ (fun _ _ => ?_)
    | refine Pass.Moves.ifNotNil_moves _ (fun _ _ => ?_) (fun _ => ?_)
    | refine Pass.Moves.ite_moves _ (fun _ => ?_) (fun _ => ?_)
    | refine Pass.Moves.sub_moves ?_
    | refine Pass.Moves.invoke_moves ?_
    | refine Pass.Moves.call_moves _ _ ?_
    | refine PatchLBStatus_moves _ _ ?_ ?_
    | refine RemoveFromLBStatus_moves _ _ ?_ ?_
    | refine exitSendErrorAsEvent_moves _ _ ?_
    | refine SendErrorAsEvent_moves _ ?_
    | exact ih0 () ()
    | exact ih1 _ _)
  all_goals first
    | exact fun _ h => h
    | exact fun _ _ h => h
    | exact fun _ _ _ h => h
    | exact fun _ _ s h => h.fip_step s _ rfl
    | exact fun _ s _ h => h.fip_step s _ rfl
    | exact fun w h => h.fip_step w.ext _ rfl
    | exact fun _ s h => h.fip_patch s _ rfl
    | exact fun _ _ h => h.fip_done none (by simp)
    | exact fun _ _ _ h => h.fip_done _ (by simp)

theorem BeforeFipFetch.fetch_mem {lb0 : LoadBalancer} {w : World σ}
    (h : BeforeFipFetch lb0 w) {t : List Ev} {id : String} {r : Reply (Option FloatingIP)}
    (hm : Ev.GetFIPByID id r ∈ w.trace ++ t) : Ev.GetFIPByID id r ∈ t := by
  rcases List.mem_append.1 hm with hm | hm
  · simpa [Ev.beforeFipFetch] using h.2.2 _ hm
  · exact hm

theorem BeforeFipFetch.rename_mem {lb0 : LoadBalancer} {w : World σ}
    (h : BeforeFipFetch lb0 w) {t : List Ev} {i d : String} {r : Option Err}
    (hm : Ev.FipUpdateDescription i d r ∈ w.trace ++ t) :
    Ev.FipUpdateDescription i d r ∈ t := by
  rcases List.mem_append.1 hm with hm | hm
  · simpa [Ev.beforeFipFetch] using h.2.2 _ hm
  · exact hm

theorem BeforeFipFetch.patch_mem {lb0 : LoadBalancer} {w : World σ}
    (h : BeforeFipFetch lb0 w) {t : List Ev} {patch : LoadBalancerStatus} {r : Option Err}
    (hm : Ev.PatchLBStatus patch r ∈ w.trace ++ t) (hne : patch.ExternalIP ≠ none) :
    Ev.PatchLBStatus patch r ∈ t := by
  rcases List.mem_append.1 hm with hm | hm
  · have := h.2.2 _ hm
    simp [Ev.beforeFipFetch] at this
    exact absurd this hne
  · exact hm

/-- A pass of `reconcileFIP` over a LoadBalancer that is not internal, run as a whole. -/
theorem reconcileFIP_fetched (env : Env σ) (req : NamespacedName) (ext : σ)
    (lb : LoadBalancer) (hint : lb.Spec.Options.InternalLB = false) :
    AfterFipFetch lb ((reconcileFIP env req).run (World.start ext lb)).1
      ((reconcileFIP env req).run (World.start ext lb)).2 := by
  have h := (reconcileFIP_moves env req lb hint).run_moves (World.start ext lb)
    ⟨rfl, rfl, fun _ h => absurd h (List.not_mem_nil _)⟩
  generalize (reconcileFIP env req).run (World.start ext lb) = out at h
  obtain ⟨o, w⟩ := out
  cases o with
  | none => exact h.2 rfl
  | some r => exact h.1 r rfl

theorem String.append_user_managed_ne (d : String) : d ++ " (user managed)" ≠ d := by
  intro h
  have h1 := congrArg String.length h
  rw [String.length_append] at h1
  have h2 : " (user managed)".length = 15 := by decide
  omega

/-- C28.  Take a pass of `reconcileFIP` over a LoadBalancer `lb` that is not internal.  For
the floating IP `fip` that the pass fetched by id: a status patch of `externalIP` to the
address of `fip` is issued if and only if the `externalIP` stored in `lb` is absent or
different from that address; no other value of `externalIP` is patched; and when the pass
returns without error, `status.externalIP` is the address of `fip`, the id it was fetched by
is `status.floatingID`, and requeue is true if the patch was issued.  A pass that returns
without error has fetched a floating IP. -/
theorem reconcileFIP_external_ip (env : Env σ) (req : NamespacedName) (ext : σ)
    (lb : LoadBalancer) (out : Option Ret × World σ)
    (hout : (reconcileFIP env req).run (World.start ext lb) = out)
    (hint : lb.Spec.Options.InternalLB = false) :
    (∀ id fip, Ev.GetFIPByID id (.ok (some fip)) ∈ out.2.trace →
      ((∃ r, Ev.PatchLBStatus
          { LoadBalancerStatus.empty with ExternalIP := some fip.FloatingIP } r ∈
            out.2.trace) ↔
        lb.Status.ExternalIP ≠ some fip.FloatingIP) ∧
      (∀ patch r, Ev.PatchLBStatus patch r ∈ out.2.trace → patch.ExternalIP ≠ none →
        patch = { LoadBalancerStatus.empty with ExternalIP := some fip.FloatingIP }) ∧
      (∀ q, out.1 = some (q, none) →
        out.2.lb.Status.ExternalIP = some fip.FloatingIP ∧
        out.2.lb.Status.FloatingID = some id ∧
        (lb.Status.ExternalIP ≠ some fip.FloatingIP → q = true))) ∧
    (∀ q, out.1 = some (q, none) →
      ∃ id fip, Ev.GetFIPByID id (.ok (some fip)) ∈ out.2.trace) := by
  subst hout
  obtain ⟨w0, hb, t, ht, hf, hq⟩ := reconcileFIP_fetched env req ext lb hint
  refine ⟨fun id fip hm => ?_, fun q hq1 => ?_⟩
  · rw [ht] at hm ⊢
    obtain ⟨h1, h2, h3, -, -⟩ := hf id fip (hb.fetch_mem hm)
    rw [hb.2.1] at h1 h3
    refine ⟨⟨fun ⟨r, hr⟩ => h1.1 ⟨r, hb.patch_mem hr (by simp)⟩, fun hne => ?_⟩,
      fun patch r hp hne => h2 patch r (hb.patch_mem hp hne) hne, h3⟩
    obtain ⟨r, hr⟩ := h1.2 hne
    exact ⟨r, List.mem_append_right _ hr⟩
  · obtain ⟨id, fip, hm⟩ := hq q hq1
    exact ⟨id, fip, ht ▸ List.mem_append_right _ hm⟩

/-- Witness for C28: the calm provider answers the floating IP of address `10.0.0.1` for the
recorded id; the status holds no external IP, so the pass patches it and asks for a
requeue. -/
theorem reconcileFIP_external_ip_witness :
    (∃ r, Ev.PatchLBStatus { LoadBalancerStatus.empty with ExternalIP := some "10.0.0.1" } r ∈
      ((reconcileFIP calmEnv sampleReq).run (World.start () fakeFipRecordedLB)).2.trace) ∧
    ((reconcileFIP calmEnv sampleReq).run
      (World.start () fakeFipRecordedLB)).2.lb.Status.ExternalIP = some "10.0.0.1" :=
  have h := (reconcileFIP_external_ip calmEnv sampleReq () fakeFipRecordedLB _ rfl rfl).1 "0"
    ⟨"0", "testns/lb", "", "10.0.0.1", "", "DOWN"⟩ (by decide)
  ⟨h.1.2 (by decide), (h.2.2 true rfl).1⟩

/-- C27.  Take a pass of `reconcileFIP` over a LoadBalancer `lb` that is not internal, and
the floating IP `fip` that the pass fetched by id.  An update of the description is issued
only if `spec.existingFloatingIP` is set and the description of `fip` equals
`status.floatingName`, and then for the id of `fip` with the old description followed by
" (user managed)".  If `spec.existingFloatingIP` is set and the description of `fip` equals
`status.floatingName`, the update is issued, unless the store refused the patch of the
external IP, which ends the pass before the rename.  Consequently, in a pass that fetches
the floating IP with the description `d` followed by " (user managed)" while
`status.floatingName` is `d`, no update of the description is issued. -/
theorem reconcileFIP_rename (env : Env σ) (req : NamespacedName) (ext : σ)
    (lb : LoadBalancer) (out : Option Ret × World σ)
    (hout : (reconcileFIP env req).run (World.start ext lb) = out)
    (hint : lb.Spec.Options.InternalLB = false) :
    ∀ id fip, Ev.GetFIPByID id (.ok (some fip)) ∈ out.2.trace →
      (∀ i d r, Ev.FipUpdateDescription i d r ∈ out.2.trace →
        lb.Spec.ExistingFloatingIP ≠ none ∧
        out.2.lb.Status.FloatingName = some fip.Description ∧
        i = fip.ID ∧ d = fip.Description ++ " (user managed)") ∧
      (lb.Spec.ExistingFloatingIP ≠ none →
        out.2.lb.Status.FloatingName = some fip.Description →
        (∀ patch e, Ev.PatchLBStatus patch (some e) ∈ out.2.trace →
          patch.ExternalIP = none) →
        ∃ r, Ev.FipUpdateDescription fip.ID (fip.Description ++ " (user managed)") r ∈
          out.2.trace) ∧
      (∀ d, fip.Description = d ++ " (user managed)" →
        out.2.lb.Status.FloatingName = some d →
        ∀ i dd r, Ev.FipUpdateDescription i dd r ∉ out.2.trace) := by
  subst hout
  obtain ⟨w0, hb, t, ht, hf, -⟩ := reconcileFIP_fetched env req ext lb hint
  intro id fip hm
  rw [ht] at hm ⊢
  obtain ⟨-, -, -, h4, h5⟩ := hf id fip (hb.fetch_mem hm)
  rw [hb.1] at h4 h5
  refine ⟨fun i d r hr => h4 i d r (hb.rename_mem hr), fun hx hn hp => ?_,
    fun d hd hn i dd r hr => ?_⟩
  · obtain ⟨r, hr⟩ := h5 hx hn fun patch e hpm => hp patch e (List.mem_append_right _ hpm)
    exact ⟨r, List.mem_append_right _ hr⟩
  · have h6 := (h4 i dd r (hb.rename_mem hr)).2.1
    rw [hn, hd] at h6
    exact String.append_user_managed_ne d (Option.some.inj h6).symm

/-- Witness for C27: the floating IP of the user carries the description `testns/lb`, the
name this controller records; the pass renames it to `testns/lb (user managed)`. -/
theorem reconcileFIP_rename_witness :
    ∃ r, Ev.FipUpdateDescription "id-1" ("testns/lb" ++ " (user managed)") r ∈
      ((reconcileFIP calmEnv sampleReq).run (World.start () userFipLB)).2.trace :=
  (reconcileFIP_rename calmEnv sampleReq () userFipLB _ rfl rfl "id-1"
    ⟨"id-1", "testns/lb", "", "10.0.0.1", "", "DOWN"⟩ (by decide)).2.1 (by decide) rfl
    (by
      intro patch e h
      have ht : ((reconcileFIP calmEnv sampleReq).run (World.start () userFipLB)).2.trace =
          [Ev.FipClient none,
            Ev.GetFIPByID "id-1" (.ok (some ⟨"id-1", "testns/lb", "", "10.0.0.1", "", "DOWN"⟩)),
            Ev.FipUpdateDescription "id-1" "testns/lb (user managed)" none] := by decide
      rw [ht] at h
      simp at h)

/-! ## Port: the external IP of an internal LoadBalancer -/

/-- The second half of `reconcilePort`, entered in the world `w0`: the calls it adds to the
trace satisfy `PortFetched`. -/
theorem reconcilePortSync_moves {ω : Type} (env : Env σ) (created : Option Port × Bool)
    (w0 : World σ) :
    Pass.Moves (fun w => w = w0)
      (fun r w => ∃ t, w.trace = w0.trace ++ t ∧ PortFetched w0.lb (some r) w.lb t)
      (fun w => ∃ t, w.trace = w0.trace ++ t ∧ PortFetched w0.lb none w.lb t)
      (fun r w => ∃ t, w.trace = w0.trace ++ t ∧ PortFetched w0.lb (some r) w.lb t)
      (reconcilePortSync env created : Pass σ ω Ret Ret) := by
  intro G kr kp k w hr hp hk hw
  subst hw
  generalize hout : reconcilePortSync env created kr kp k w = out
  revert hr hp hk
  simp only [reconcilePortSync, Pass.bind_apply, Pass.call_apply,
    Pass.getLB_apply] at hout
  repeat' (
    (first
      | rw [Pass.orExit_apply] at hout
      | rw [Pass.okOr_apply] at hout
      | rw [Pass.ifNotNil_apply] at hout
      | rw [Pass.deref_apply] at hout
      | rw [Pass.ite_apply] at hout) ;
    split at hout <;>
    try simp only [*, PatchLBStatus, RemoveFromLBStatus, exitSendErrorAsEvent,
      LoadBalancerStatus.merge, LoadBalancerStatus.empty, Pass.bind_apply, Pass.pure_apply,
      Pass.exit_apply, Pass.panic_apply, Pass.getLB_apply, Pass.modifyLB_apply, Pass.call_apply,
      Pass.sub_apply, Pass.orExit_none_apply, Pass.orExit_some_apply, Pass.okOr_ok_apply,
      Pass.okOr_fail_apply, Pass.ifNotNil_some_apply, Pass.ifNotNil_none_apply,
      Pass.deref_some_apply, Pass.deref_none_apply, SendErrorAsEvent_apply, reduceIte,
      reduceCtorEq, Option.isSome_some, Option.isSome_none, Bool.false_eq_true, ne_eq,
      not_false_eq_true, not_true_eq_false, or_self, and_self, true_and, and_true, false_and,
      and_false, true_or, or_true, false_or, or_false, List.append_assoc, List.nil_append,
      List.cons_append] at hout)
  all_goals (
    subst hout
    intro hr hp hk
    first | apply hr | apply hp | apply hk)
  all_goals (
    clear hr hp hk
    first
      | refine ⟨_, rfl, ?_⟩
      | refine ⟨[], (List.append_nil _).symm, ?_⟩)
  all_goals (
    simp_all [PortFetched, LoadBalancerStatus.merge, LoadBalancerStatus.empty] <;>
    first
      | (intro hc; simp_all; done)
      | (refine ⟨?_, _, _, ⟨rfl, rfl⟩, by assumption⟩; intro hc; simp_all))

theorem BeforePortFetch.port_step {lb0 : LoadBalancer} {w : World σ} (h : BeforePortFetch lb0 w)
    (s : σ) (ev : Ev) (hev : ev.beforePortFetch = true) :
    BeforePortFetch lb0 ⟨s, w.lb, w.trace ++ [ev]⟩ := by
  refine ⟨h.1, h.2.1, fun e he => ?_⟩
  rcases List.mem_append.1 he with he | he
  · exact h.2.2 e he
  · rw [List.mem_singleton.1 he]; exact hev

theorem BeforePortFetch.port_patch {lb0 : LoadBalancer} {w : World σ} (h : BeforePortFetch lb0 w)
    (s : σ) (patch : LoadBalancerStatus) (hp : patch.ExternalIP = none) :
    BeforePortFetch lb0
      ⟨s, w.lb.patched patch, w.trace ++ [Ev.PatchLBStatus patch none]⟩ := by
  refine ⟨h.1, ?_, fun e he => ?_⟩
  · simpa [LoadBalancer.patched, LoadBalancerStatus.merge, hp] using h.2.1
  · rcases List.mem_append.1 he with he | he
    · exact h.2.2 e he
    · rw [List.mem_singleton.1 he]; simp [Ev.beforePortFetch, hp]

theorem BeforePortFetch.port_done {lb0 : LoadBalancer} {w : World σ} (h : BeforePortFetch lb0 w)
    (o : Option Ret) (ho : ∀ q, o ≠ some (q, none)) : AfterPortFetch lb0 o w := by
  refine ⟨fun id p ip hm => ?_, fun patch r hm hne => ?_, fun q hq => absurd hq (ho q)⟩
  · simpa [Ev.beforePortFetch] using h.2.2 _ hm
  · have := h.2.2 _ hm
    simp [Ev.beforePortFetch] at this
    exact absurd this hne

theorem BeforePortFetch.step_done {lb0 : LoadBalancer} {w : World σ}
    (h : BeforePortFetch lb0 w) (s : σ) (ev : Ev) (hev : ev.beforePortFetch = true)
    (o : Option Ret) (ho : ∀ q, o ≠ some (q, none)) :
    AfterPortFetch lb0 o ⟨s, w.lb, w.trace ++ [ev]⟩ :=
  (h.port_step s ev hev).port_done o ho

theorem BeforePortFetch.after {lb0 : LoadBalancer} {w : World σ} (h : BeforePortFetch lb0 w)
    (hid : w.lb.Status.PortID ≠ none) {o : Option Ret} {w1 : World σ}
    (hf : ∃ t, w1.trace = w.trace ++ t ∧ PortFetched w.lb o w1.lb t) :
    AfterPortFetch lb0 o w1 := by
  obtain ⟨t, ht, h1, h2, h3⟩ := hf
  have hfetch : ∀ {id : String} {r : Reply (Option Port)},
      Ev.GetPortByID id r ∈ w.trace ++ t → Ev.GetPortByID id r ∈ t := by
    intro id r hm
    rcases List.mem_append.1 hm with hm | hm
    · simpa [Ev.beforePortFetch] using h.2.2 _ hm
    · exact hm
  have hpatch : ∀ {patch : LoadBalancerStatus} {r : Option Err},
      Ev.PatchLBStatus patch r ∈ w.trace ++ t → patch.ExternalIP ≠ none →
        Ev.PatchLBStatus patch r ∈ t := by
    intro patch r hm hne
    rcases List.mem_append.1 hm with hm | hm
    · have := h.2.2 _ hm
      simp [Ev.beforePortFetch] at this
      exact absurd this hne
    · exact hm
  rw [h.1, h.2.1] at h2
  rw [h.1] at h1
  refine ⟨fun id p ip hm hip hi q hq => ?_, fun patch r hm hne => ?_, fun q hq => ?_⟩
  · rw [ht] at hm
    exact h1 id p ip (hfetch hm) hip hi q hq
  · rw [ht] at hm ⊢
    obtain ⟨a, b, c, d⟩ := h2 patch r (hpatch hm hne) hne
    obtain ⟨id, p, hp1, hp2⟩ := d hid
    exact ⟨a, b, c, id, p, List.mem_append_right _ hp1, hp2⟩
  · obtain ⟨id, r, hm⟩ := h3 q hq hid
    exact ⟨id, r, ht ▸ List.mem_append_right _ hm⟩

/-- The second half of `reconcilePort`, entered before any fetch with the port id recorded,
leaves `AfterPortFetch`. -/
theorem reconcilePortSync_after {ω : Type} (env : Env σ) (created : Option Port × Bool)
    (lb0 : LoadBalancer) :
    Pass.Moves (fun w => BeforePortFetch lb0 w ∧ w.lb.Status.PortID ≠ none)
      (fun r w => AfterPortFetch lb0 (some r) w)
      (fun w => AfterPortFetch lb0 none w) (fun r w => AfterPortFetch lb0 (some r) w)
      (reconcilePortSync env created : Pass σ ω Ret Ret) :=
  fun G kr kp k w hr hp hk hw =>
    reconcilePortSync_moves env created w G kr kp k w
      (fun r w1 h => hr r w1 (hw.1.after hw.2 h)) (fun w1 h => hp w1 (hw.1.after hw.2 h))
      (fun r w1 h => hk r w1 (hw.1.after hw.2 h)) rfl

/-- A pass of `reconcilePort` leaves `AfterPortFetch`: the first half makes no fetch by id
and no patch of the external IP, and it enters the second half with the port id
recorded. -/
theorem reconcilePort_moves {ω : Type} (env : Env σ) (req : NamespacedName)
    (lb0 : LoadBalancer) :
    Pass.Moves (BeforePortFetch lb0) (fun r w => AfterPortFetch lb0 (some r) w)
      (fun w => AfterPortFetch lb0 none w) (fun r w => AfterPortFetch lb0 (some r) w)
      (reconcilePort env req : Pass σ ω Ret Ret) := by
  unfold reconcilePort
  iterate 6 (refine Pass.Moves.bind_same ?_ (fun _ => ?_); rotate_left)
  refine Pass.Moves.bind_moves Pass.Moves.getLB_link (fun lb3 => ?_)
  refine Pass.Moves.bind_moves
    (P := fun _ w => BeforePortFetch lb0 w ∧ w.lb.Status.PortID ≠ none)
    (Pass.Moves.ite_moves _ (fun _ => Pass.Moves.of_left ?_)
      (fun hc => Pass.Moves.pure_moves _ (fun w h => ⟨h.1, by rw [h.2]; exact hc⟩)))
    (fun created => reconcilePortSync_after env created lb0)
  iterate 4 (refine Pass.Moves.bind_same ?_ (fun _ => ?_); rotate_left)
  refine patchOrExit_moves
    (P := fun w => BeforePortFetch lb0 w ∧ w.lb.Status.PortID ≠ none) _ _ _ ?_ ?_
    (Pass.Moves.pure_moves _ (fun _ h => h))
  repeat' (first | with_reducible first
    | refine Pass.Moves.getLB_bind (fun _ _ => ?_)
    | refine Pass.Moves.bind_same ?_ (fun _ => ?_)
    | refine Pass.Moves.pure_moves _ ?_
    | refine Pass.Moves.exit_moves _ ?_
    | refine Pass.Moves.panic_moves ?_
    | refine Pass.Moves.getLB_moves ?_
    | refine Pass.Moves.read_moves _ ?_
    | refine Pass.Moves.orExit_moves _ _ ?_ ?_
    | refine Pass.Moves.deref_moves _ ?_ ?_
    | refine Pass.Moves.okOr_moves _ ?_ (fun _ _ => ?_)
    | refine Pass.Moves.ifNotNil_moves _ (fun _ _ => ?_) (fun _ => ?_)
    | refine Pass.Moves.ite_moves _ (fun _ => ?_) (fun _ => ?_)
    | refine Pass.Moves.sub_moves ?_
    | refine Pass.Moves.invoke_moves ?_
    | refine Pass.Moves.call_moves _ _ ?_
    | refine PatchLBStatus_moves _ _ ?_ ?_
    | refine RemoveFromLBStatus_moves _ _ ?_ ?_
    | refine exitSendErrorAsEvent_moves _ _ ?_
    | refine SendErrorAsEvent_moves _ ?_)
  all_goals first
    | exact fun _ h => h
    | exact fun _ _ h => h
    | exact fun _ _ _ h => h
    | exact fun _ _ s h => h.port_step s _ rfl
    | exact fun _ s _ h => h.port_step s _ rfl
    | exact fun w h => h.port_step w.ext _ rfl
    | exact fun _ s h => h.port_patch s _ rfl
    | exact fun _ _ h => h.port_done none (by simp)
    | exact fun _ _ _ h => h.port_done _ (by simp)
    | exact fun _ h => h.port_done _ (by simp)
    | exact fun _ s _ h => h.step_done s _ (by rfl) _ (by simp)
    | exact fun w h => h.step_done w.ext _ (by rfl) _ (by simp)
    | exact fun _ s h =>
        ⟨h.port_patch s _ rfl, by simp [LoadBalancer.patched, LoadBalancerStatus.merge]⟩

/-- A pass of `reconcilePort`, run as a whole. -/
theorem reconcilePort_fetched (env : Env σ) (req : NamespacedName) (ext : σ)
    (lb : LoadBalancer) :
    AfterPortFetch lb ((reconcilePort env req).run (World.start ext lb)).1
      ((reconcilePort env req).run (World.start ext lb)).2 := by
  have h := (reconcilePort_moves env req lb).run_moves (World.start ext lb)
    ⟨rfl, rfl, fun _ h => absurd h (List.not_mem_nil _)⟩
  generalize (reconcilePort env req).run (World.start ext lb) = out at h
  obtain ⟨o, w⟩ := out
  cases o with
  | none => exact h.2 rfl
  | some r => exact h.1 r rfl

/-- C22.  Take a pass of `reconcilePort` over a LoadBalancer `lb`.  If `lb` is internal
(`spec.options.internalLB` = true) and the port that the pass fetched by `status.portID` has
the first fixed address `ip`, then a return without error leaves `status.externalIP` equal
to `ip`.  A status patch that sets `externalIP` is issued only for an internal LoadBalancer
-- for one that is not internal no patch of the pass sets `externalIP` --, only with a value
that the stored `externalIP` of `lb` is not (absent or different), and that value is the
first fixed address of the fetched port; once the store accepts it the pass returns
requeue = true without error.  A return without error comes after a fetch by id that
answered, so that no other port than the fetched one is mirrored. -/
theorem reconcilePort_external_ip (env : Env σ) (req : NamespacedName) (ext : σ)
    (lb : LoadBalancer) (out : Option Ret × World σ)
    (hout : (reconcilePort env req).run (World.start ext lb) = out) :
    (∀ id p ip, Ev.GetPortByID id (.ok (some p)) ∈ out.2.trace →
      p.FixedIPs.head? = some ip → lb.Spec.Options.InternalLB = true →
      ∀ q, out.1 = some (q, none) → out.2.lb.Status.ExternalIP = some ip) ∧
    (∀ patch r, Ev.PatchLBStatus patch r ∈ out.2.trace → patch.ExternalIP ≠ none →
      lb.Spec.Options.InternalLB = true ∧ lb.Status.ExternalIP ≠ patch.ExternalIP ∧
      (r = none → out.1 = some (true, none)) ∧
      ∃ id p, Ev.GetPortByID id (.ok (some p)) ∈ out.2.trace ∧
        p.FixedIPs.head? = patch.ExternalIP) ∧
    (∀ q, out.1 = some (q, none) → ∃ id r, Ev.GetPortByID id (.ok r) ∈ out.2.trace) := by
  subst hout
  exact reconcilePort_fetched env req ext lb

/-- Witness for C22: the internal sample LoadBalancer with a recorded port; the calm
provider answers a port with the fixed address `192.168.0.1`, which the pass mirrors into
`status.externalIP`. -/
theorem reconcilePort_external_ip_witness :
    ((reconcilePort calmEnv sampleReq).run
      (World.start () (internalSampleLB { LoadBalancerStatus.empty with
        PortID := some "id-1", PortName := some "testns/lb" }))).2.lb.Status.ExternalIP =
      some "192.168.0.1" :=
  (reconcilePort_external_ip calmEnv sampleReq ()
    (internalSampleLB { LoadBalancerStatus.empty with
      PortID := some "id-1", PortName := some "testns/lb" }) _ rfl).1 "id-1"
    ⟨"id-1", "testns/lb", "net-1", [], ["192.168.0.1"]⟩ "192.168.0.1" (by decide) rfl rfl
    true rfl

/-! ## The pairing of ids and names in the status -/

/-- C26, at the failing input.  The teardown of the port of a LoadBalancer whose status
records the port `p-1` under the name `testns/lb`, the pairing holding.  The pass of
`deletePorts` fetches the port by id and deletes it, which sets the local `requeue` to true
(`requeue so next run will delete the status`); the listing by name that follows is empty,
and the pass returns from there with requeue = false after removing the name.  The status
it leaves has `portID` set and `portName` unset: the pairing is lost. -/
theorem deletePorts_leaves_id_without_name :
    portRecordedLB.Status.paired ∧
    ((deletePorts calmEnv).run (World.start () portRecordedLB)).1 = some (false, none) ∧
    ((deletePorts calmEnv).run (World.start () portRecordedLB)).2.trace =
      [Ev.PortClient none,
        Ev.GetPortByID "p-1" (.ok (some ⟨"p-1", "testns/lb", "net-1", [], ["192.168.0.1"]⟩)),
        Ev.DeletePort "p-1" none, Ev.PortList "testns/lb" (.ok []),
        Ev.RemoveFromLBStatus "portName" none] ∧
    ((deletePorts calmEnv).run (World.start () portRecordedLB)).2.lb.Status.PortID =
      some "p-1" ∧
    ((deletePorts calmEnv).run (World.start () portRecordedLB)).2.lb.Status.PortName = none ∧
    ¬ ((deletePorts calmEnv).run (World.start () portRecordedLB)).2.lb.Status.portPaired := by
  refine ⟨⟨?_, ?_, ?_⟩, by decide, by decide, by decide, by decide, ?_⟩
  · intro h; exact absurd rfl h
  · intro _ h; exact absurd h (by decide)
  · intro h; exact absurd rfl h
  · intro h
    exact h (by decide) (by decide)

/-! ## The names in the status are those of the request -/

section Naming

variable {ω : Type} (N : String) (lb0 : LoadBalancer) (k : Bool)

theorem NamedBy.lb {N : String} {lb0 : LoadBalancer} {k : Bool} {w : World σ}
    (h : NamedBy N lb0 k w) : NamedLB N lb0 k w.lb := h.1

theorem NamedBy.grow {N : String} {lb0 : LoadBalancer} {k : Bool} {w : World σ}
    (h : NamedBy N lb0 k w) (s : σ) (l : LoadBalancer) (ev : Ev) (hl : NamedLB N lb0 k l)
    (hev : (ev.usesName N && ev.keepsNames lb0) = true) :
    NamedBy N lb0 k ⟨s, l, w.trace ++ [ev]⟩ := by
  refine ⟨hl, fun e he => ?_⟩
  rcases List.mem_append.1 he with he | he
  · exact h.2 e he
  · rw [List.mem_singleton.1 he]; exact hev

theorem reconcileSecGroupSync_named (env : Env σ) (req : NamespacedName)
    (create : Option SecGroup × Bool) :
    Pass.Moves (NamedBy (req.asString) lb0 true) (fun _ => NamedBy (req.asString) lb0 true) (NamedBy (req.asString) lb0 true) (fun _ => NamedBy (req.asString) lb0 true)
      (reconcileSecGroupSync env req create : Pass σ ω Ret Ret) := by
  unfold reconcileSecGroupSync
  repeat' (first | with_reducible first
    | refine Pass.Moves.getLB_with (I := NamedLB (req.asString) lb0 true) (fun _ h => h.lb) (fun _ _ => ?_)
    | refine Pass.Moves.deref_bind _ ?_ (fun _ _ => ?_)
    | refine Pass.Moves.bind_same ?_ (fun _ => ?_)
    | refine Pass.Moves.pure_moves _ ?_
    | refine Pass.Moves.exit_moves _ ?_
    | refine Pass.Moves.panic_moves ?_
    | refine Pass.Moves.getLB_moves ?_
    | refine Pass.Moves.read_moves _ ?_
    | refine Pass.Moves.orExit_moves _ _ ?_ ?_
    | refine Pass.Moves.deref_moves _ ?_ ?_
    | refine Pass.Moves.okOr_moves _ ?_ (fun _ _ => ?_)
    | refine Pass.Moves.ifNotNil_moves _ (fun _ _ => ?_) (fun _ => ?_)
    | refine Pass.Moves.ite_moves _ (fun _ => ?_) (fun _ => ?_)
    | refine Pass.Moves.sub_moves ?_
    | refine Pass.Moves.invoke_moves ?_
    | refine Pass.Moves.call_moves _ _ ?_
    | refine PatchLBStatus_moves _ _ ?_ ?_
    | refine RemoveFromLBStatus_moves _ _ ?_ ?_
    | refine exitSendErrorAsEvent_moves _ _ ?_
    | refine SendErrorAsEvent_moves _ ?_)
  all_goals first
    | exact fun _ h => h
    | exact fun _ _ h => h
    | exact fun _ _ _ h => h
    | exact fun _ _ s h => h.grow s _ _ h.1 rfl
    | exact fun _ s _ h => h.grow s _ _ h.1 rfl
    | exact fun w h => h.grow w.ext _ _ h.1 rfl
    | (intros
       rename_i h
       refine NamedBy.grow h _ _ _ ?_ ?_
       · first
         | exact h.1
         | (have h0 := h.1
            simp only [NamedLB, Named, Ev.usesName, Ev.keepsNames, LoadBalancer.patched, LoadBalancerStatus.merge, LoadBalancerStatus.empty, LoadBalancerStatus.remove] at *
            simp_all <;> (intros; simp_all))
       · first
         | rfl
         | (have h0 := h.1
            simp only [NamedLB, Named, Ev.usesName, Ev.keepsNames, LoadBalancer.patched, LoadBalancerStatus.merge, LoadBalancerStatus.empty, LoadBalancerStatus.remove, Bool.and_eq_true, decide_eq_true_eq] at *
            simp_all <;> (intros; simp_all)))

theorem reconcileSecGroup_named (env : Env σ) (req : NamespacedName) :
    Pass.Moves (NamedBy (req.asString) lb0 true) (fun _ => NamedBy (req.asString) lb0 true) (NamedBy (req.asString) lb0 true) (fun _ => NamedBy (req.asString) lb0 true)
      (reconcileSecGroup env req : Pass σ ω Ret Ret) := by
  unfold reconcileSecGroup
  repeat' (first | with_reducible first
    | refine Pass.Moves.getLB_with (I := NamedLB (req.asString) lb0 true) (fun _ h => h.lb) (fun _ _ => ?_)
    | refine Pass.Moves.deref_bind _ ?_ (fun _ _ => ?_)
    | refine Pass.Moves.bind_same ?_ (fun _ => ?_)
    | refine Pass.Moves.pure_moves _ ?_
    | refine Pass.Moves.exit_moves _ ?_
    | refine Pass.Moves.panic_moves ?_
    | refine Pass.Moves.getLB_moves ?_
    | refine Pass.Moves.read_moves _ ?_
    | refine Pass.Moves.orExit_moves _ _ ?_ ?_
    | refine Pass.Moves.deref_moves _ ?_ ?_
    | refine Pass.Moves.okOr_moves _ ?_ (fun _ _ => ?_)
    | refine Pass.Moves.ifNotNil_moves _ (fun _ _ => ?_) (fun _ => ?_)
    | refine Pass.Moves.ite_moves _ (fun _ => ?_) (fun _ => ?_)
    | refine Pass.Moves.sub_moves ?_
    | refine Pass.Moves.invoke_moves ?_
    | refine Pass.Moves.call_moves _ _ ?_
    | refine PatchLBStatus_moves _ _ ?_ ?_
    | refine RemoveFromLBStatus_moves _ _ ?_ ?_
    | refine exitSendErrorAsEvent_moves _ _ ?_
    | refine SendErrorAsEvent_moves _ ?_
    | exact reconcileSecGroupSync_named lb0 env req _)
  all_goals first
    | exact fun _ h => h
    | exact fun _ _ h => h
    | exact fun _ _ _ h => h
    | exact fun _ _ s h => h.grow s _ _ h.1 rfl
    | exact fun _ s _ h => h.grow s _ _ h.1 rfl
    | exact fun w h => h.grow w.ext _ _ h.1 rfl
    | (intros
       rename_i h
       refine NamedBy.grow h _ _ _ ?_ ?_
       · first
         | exact h.1
         | (have h0 := h.1
            simp only [NamedLB, Named, Ev.usesName, Ev.keepsNames, LoadBalancer.patched, LoadBalancerStatus.merge, LoadBalancerStatus.empty, LoadBalancerStatus.remove] at *
            simp_all <;> (intros; simp_all))
       · first
         | rfl
         | (have h0 := h.1
            simp only [NamedLB, Named, Ev.usesName, Ev.keepsNames, LoadBalancer.patched, LoadBalancerStatus.merge, LoadBalancerStatus.empty, LoadBalancerStatus.remove, Bool.and_eq_true, decide_eq_true_eq] at *
            simp_all <;> (intros; simp_all)))

theorem assignOrCreateFIP_named (env : Env σ) :
    Pass.Moves (NamedBy N lb0 true) (fun _ => NamedBy N lb0 true) (NamedBy N lb0 true) (fun _ => NamedBy N lb0 true)
      (assignOrCreateFIP env : Pass σ ω (Option Err) (Option Err)) := by
  unfold assignOrCreateFIP
  repeat' (first | with_reducible first
    | refine Pass.Moves.getLB_with (I := NamedLB (N) lb0 true) (fun _ h => h.lb) (fun _ _ => ?_)
    | refine Pass.Moves.deref_bind _ ?_ (fun _ _ => ?_)
    | refine Pass.Moves.bind_same ?_ (fun _ => ?_)
    | refine Pass.Moves.pure_moves _ ?_
    | refine Pass.Moves.exit_moves _ ?_
    | refine Pass.Moves.panic_moves ?_
    | refine Pass.Moves.getLB_moves ?_
    | refine Pass.Moves.read_moves _ ?_
    | refine Pass.Moves.orExit_moves _ _ ?_ ?_
    | refine Pass.Moves.deref_moves _ ?_ ?_
    | refine Pass.Moves.okOr_moves _ ?_ (fun _ _ => ?_)
    | refine Pass.Moves.ifNotNil_moves _ (fun _ _ => ?_) (fun _ => ?_)
    | refine Pass.Moves.ite_moves _ (fun _ => ?_) (fun _ => ?_)
    | refine Pass.Moves.sub_moves ?_
    | refine Pass.Moves.invoke_moves ?_
    | refine Pass.Moves.call_moves _ _ ?_
    | refine PatchLBStatus_moves _ _ ?_ ?_
    | refine RemoveFromLBStatus_moves _ _ ?_ ?_
    | refine exitSendErrorAsEvent_moves _ _ ?_
    | refine SendErrorAsEvent_moves _ ?_)
  all_goals first
    | exact fun _ h => h
    | exact fun _ _ h => h
    | exact fun _ _ _ h => h
    | exact fun _ _ s h => h.grow s _ _ h.1 rfl
    | exact fun _ s _ h => h.grow s _ _ h.1 rfl
    | exact fun w h => h.grow w.ext _ _ h.1 rfl
    | (intros
       rename_i h
       refine NamedBy.grow h _ _ _ ?_ ?_
       · first
         | exact h.1
         | (have h0 := h.1
            simp only [NamedLB, Named, Ev.usesName, Ev.keepsNames, LoadBalancer.patched, LoadBalancerStatus.merge, LoadBalancerStatus.empty, LoadBalancerStatus.remove] at *
            simp_all <;> (intros; simp_all))
       · first
         | rfl
         | (have h0 := h.1
            simp only [NamedLB, Named, Ev.usesName, Ev.keepsNames, LoadBalancer.patched, LoadBalancerStatus.merge, LoadBalancerStatus.empty, LoadBalancerStatus.remove, Bool.and_eq_true, decide_eq_true_eq] at *
            simp_all <;> (intros; simp_all)))

theorem reconcileFIPSync_named (env : Env σ) (requeue : Bool) :
    Pass.Moves (NamedBy N lb0 true) (fun _ => NamedBy N lb0 true) (NamedBy N lb0 true) (fun _ => NamedBy N lb0 true)
      (reconcileFIPSync env requeue : Pass σ ω Ret Ret) := by
  unfold reconcileFIPSync
  repeat' (first | with_reducible first
    | refine Pass.Moves.getLB_with (I := NamedLB (N) lb0 true) (fun _ h => h.lb) (fun _ _ => ?_)
    | refine Pass.Moves.deref_bind _ ?_ (fun _ _ => ?_)
    | refine Pass.Moves.bind_same ?_ (fun _ => ?_)
    | refine Pass.Moves.pure_moves _ ?_
    | refine Pass.Moves.exit_moves _ ?_
    | refine Pass.Moves.panic_moves ?_
    | refine Pass.Moves.getLB_moves ?_
    | refine Pass.Moves.read_moves _ ?_
    | refine Pass.Moves.orExit_moves _ _ ?_ ?_
    | refine Pass.Moves.deref_moves _ ?_ ?_
    | refine Pass.Moves.okOr_moves _ ?_ (fun _ _ => ?_)
    | refine Pass.Moves.ifNotNil_moves _ (fun _ _ => ?_) (fun _ => ?_)
    | refine Pass.Moves.ite_moves _ (fun _ => ?_) (fun _ => ?_)
    | refine Pass.Moves.sub_moves ?_
    | refine Pass.Moves.invoke_moves ?_
    | refine Pass.Moves.call_moves _ _ ?_
    | refine PatchLBStatus_moves _ _ ?_ ?_
    | refine RemoveFromLBStatus_moves _ _ ?_ ?_
    | refine exitSendErrorAsEvent_moves _ _ ?_
    | refine SendErrorAsEvent_moves _ ?_)
  all_goals first
    | exact fun _ h => h
    | exact fun _ _ h => h
    | exact fun _ _ _ h => h
    | exact fun _ _ s h => h.grow s _ _ h.1 rfl
    | exact fun _ s _ h => h.grow s _ _ h.1 rfl
    | exact fun w h => h.grow w.ext _ _ h.1 rfl
    | (intros
       rename_i h
       refine NamedBy.grow h _ _ _ ?_ ?_
       · first
         | exact h.1
         | (have h0 := h.1
            simp only [NamedLB, Named, Ev.usesName, Ev.keepsNames, LoadBalancer.patched, LoadBalancerStatus.merge, LoadBalancerStatus.empty, LoadBalancerStatus.remove] at *
            simp_all <;> (intros; simp_all))
       · first
         | rfl
         | (have h0 := h.1
            simp only [NamedLB, Named, Ev.usesName, Ev.keepsNames, LoadBalancer.patched, LoadBalancerStatus.merge, LoadBalancerStatus.empty, LoadBalancerStatus.remove, Bool.and_eq_true, decide_eq_true_eq] at *
            simp_all <;> (intros; simp_all)))

theorem deleteFipsLoop_named (env : Env σ) (n : String) :
    ∀ l : List FloatingIP,
      Pass.Moves (NamedBy N lb0 k) (fun _ => NamedBy N lb0 k) (NamedBy N lb0 k) (fun _ => NamedBy N lb0 k)
        (deleteFipsLoop env n l : Pass σ ω Ret Unit)
  | [] => Pass.Moves.pure_moves _ (fun _ h => h)
  | _ :: rest => by
    have ih0 := fun (_ _ : Unit) => deleteFipsLoop_named env n rest
    unfold deleteFipsLoop
    repeat' (first | with_reducible first
      | refine Pass.Moves.getLB_with (I := NamedLB (N) lb0 k) (fun _ h => h.lb) (fun _ _ => ?_)
      | refine Pass.Moves.deref_bind _ ?_ (fun _ _ => ?_)
      | refine Pass.Moves.bind_same ?_ (fun _ => ?_)
      | refine Pass.Moves.pure_moves _ ?_
      | refine Pass.Moves.exit_moves _ ?_
      | refine Pass.Moves.panic_moves ?_
      | refine Pass.Moves.getLB_moves ?_
      | refine Pass.Moves.read_moves _ ?_
      | refine Pass.Moves.orExit_moves _ _ ?_ ?_
      | refine Pass.Moves.deref_moves _ ?_ ?_
      | refine Pass.Moves.okOr_moves _ ?_ (fun _ _ => ?_)
      | refine Pass.Moves.ifNotNil_moves _ (fun _ _ => ?_) (fun _ => ?_)
      | refine Pass.Moves.ite_moves _ (fun _ => ?_) (fun _ => ?_)
      | refine Pass.Moves.sub_moves ?_
      | refine Pass.Moves.invoke_moves ?_
      | refine Pass.Moves.call_moves _ _ ?_
      | refine PatchLBStatus_moves _ _ ?_ ?_
      | refine RemoveFromLBStatus_moves _ _ ?_ ?_
      | refine exitSendErrorAsEvent_moves _ _ ?_
      | refine SendErrorAsEvent_moves _ ?_
      | exact ih0 () ())
    all_goals first
      | exact fun _ h => h
      | exact fun _ _ h => h
      | exact fun _ _ _ h => h
      | exact fun _ _ s h => h.grow s _ _ h.1 rfl
      | exact fun _ s _ h => h.grow s _ _ h.1 rfl
      | exact fun w h => h.grow w.ext _ _ h.1 rfl
      | (intros
         rename_i h
         refine NamedBy.grow h _ _ _ ?_ ?_
         · first
           | exact h.1
           | (have h0 := h.1
              simp only [NamedLB, Named, Ev.usesName, Ev.keepsNames, LoadBalancer.patched, LoadBalancerStatus.merge, LoadBalancerStatus.empty, LoadBalancerStatus.remove] at *
              simp_all <;> (intros; simp_all))
         · first
           | rfl
           | (have h0 := h.1
              simp only [NamedLB, Named, Ev.usesName, Ev.keepsNames, LoadBalancer.patched, LoadBalancerStatus.merge, LoadBalancerStatus.empty, LoadBalancerStatus.remove, Bool.and_eq_true, decide_eq_true_eq] at *
              simp_all <;> (intros; simp_all)))

section Internal

variable (hk : k = false ∨ lb0.Spec.Options.InternalLB = true)
include hk

theorem deleteFips_named (env : Env σ) :
    Pass.Moves (NamedBy N lb0 k) (fun _ => NamedBy N lb0 k) (NamedBy N lb0 k) (fun _ => NamedBy N lb0 k)
      (deleteFips env : Pass σ ω Ret Ret) := by
  unfold deleteFips
  repeat' (first | with_reducible first
    | refine Pass.Moves.getLB_with (I := NamedLB (N) lb0 k) (fun _ h => h.lb) (fun _ _ => ?_)
    | refine Pass.Moves.deref_bind _ ?_ (fun _ _ => ?_)
    | refine Pass.Moves.bind_same ?_ (fun _ => ?_)
    | refine Pass.Moves.pure_moves _ ?_
    | refine Pass.Moves.exit_moves _ ?_
    | refine Pass.Moves.panic_moves ?_
    | refine Pass.Moves.getLB_moves ?_
    | refine Pass.Moves.read_moves _ ?_
    | refine Pass.Moves.orExit_moves _ _ ?_ ?_
    | refine Pass.Moves.deref_moves _ ?_ ?_
    | refine Pass.Moves.okOr_moves _ ?_ (fun _ _ => ?_)
    | refine Pass.Moves.ifNotNil_moves _ (fun _ _ => ?_) (fun _ => ?_)
    | refine Pass.Moves.ite_moves _ (fun _ => ?_) (fun _ => ?_)
    | refine Pass.Moves.sub_moves ?_
    | refine Pass.Moves.invoke_moves ?_
    | refine Pass.Moves.call_moves _ _ ?_
    | refine PatchLBStatus_moves _ _ ?_ ?_
    | refine RemoveFromLBStatus_moves _ _ ?_ ?_
    | refine exitSendErrorAsEvent_moves _ _ ?_
    | refine SendErrorAsEvent_moves _ ?_
    | exact deleteFipsLoop_named N lb0 k env _ _)
  all_goals first
    | exact fun _ h => h
    | exact fun _ _ h => h
    | exact fun _ _ _ h => h
    | exact fun _ _ s h => h.grow s _ _ h.1 rfl
    | exact fun _ s _ h => h.grow s _ _ h.1 rfl
    | exact fun w h => h.grow w.ext _ _ h.1 rfl
    | (intros
       rename_i h
       refine NamedBy.grow h _ _ _ ?_ ?_
       · first
         | exact h.1
         | (have h0 := h.1
            simp only [NamedLB, Named, Ev.usesName, Ev.keepsNames, LoadBalancer.patched, LoadBalancerStatus.merge, LoadBalancerStatus.empty, LoadBalancerStatus.remove] at *
            simp_all <;> (intros; simp_all))
       · first
         | rfl
         | (have h0 := h.1
            simp only [NamedLB, Named, Ev.usesName, Ev.keepsNames, LoadBalancer.patched, LoadBalancerStatus.merge, LoadBalancerStatus.empty, LoadBalancerStatus.remove, Bool.and_eq_true, decide_eq_true_eq] at *
            simp_all <;> (intros; simp_all)))

end Internal

theorem reconcileFIP_named (env : Env σ) (req : NamespacedName) :
    Pass.Moves (NamedBy (req.asString) lb0 true) (fun _ => NamedBy (req.asString) lb0 true) (NamedBy (req.asString) lb0 true) (fun _ => NamedBy (req.asString) lb0 true)
      (reconcileFIP env req : Pass σ ω Ret Ret) := by
  unfold reconcileFIP
  refine Pass.Moves.getLB_with (I := NamedLB req.asString lb0 true) (fun _ h => h.lb)
    (fun lb1 hlb1 => ?_)
  refine Pass.Moves.bind_moves
    (P := fun _ w => NamedBy req.asString lb0 true w ∧ lb0.Spec.Options.InternalLB = false)
    (Pass.Moves.ite_moves _ (fun hc => ?_)
      (fun hc => Pass.Moves.pure_moves _ (fun _ h =>
        ⟨h, by rw [← hlb1.1]; simpa using hc⟩)))
    (fun _ => Pass.Moves.of_pure fun hi => ?_)
  · have hi : lb0.Spec.Options.InternalLB = true := by rw [← hlb1.1]; exact hc
    have ih0 := fun (_ _ : Unit) =>
      @deleteFips_named σ ω req.asString lb0 true (Or.inr hi) env
    repeat' (first | with_reducible first
      | refine Pass.Moves.getLB_with (I := NamedLB (req.asString) lb0 true) (fun _ h => h.lb) (fun _ _ => ?_)
      | refine Pass.Moves.deref_bind _ ?_ (fun _ _ => ?_)
      | refine Pass.Moves.bind_same ?_ (fun _ => ?_)
      | refine Pass.Moves.pure_moves _ ?_
      | refine Pass.Moves.exit_moves _ ?_
      | refine Pass.Moves.panic_moves ?_
      | refine Pass.Moves.getLB_moves ?_
      | refine Pass.Moves.read_moves _ ?_
      | refine Pass.Moves.orExit_moves _ _ ?_ ?_
      | refine Pass.Moves.deref_moves _ ?_ ?_
      | refine Pass.Moves.okOr_moves _ ?_ (fun _ _ => ?_)
      | refine Pass.Moves.ifNotNil_moves _ (fun _ _ => ?_) (fun _ => ?_)
      | refine Pass.Moves.ite_moves _ (fun _ => ?_) (fun _ => ?_)
      | refine Pass.Moves.sub_moves ?_
      | refine Pass.Moves.invoke_moves ?_
      | refine Pass.Moves.call_moves _ _ ?_
      | refine PatchLBStatus_moves _ _ ?_ ?_
      | refine RemoveFromLBStatus_moves _ _ ?_ ?_
      | refine exitSendErrorAsEvent_moves _ _ ?_
      | refine SendErrorAsEvent_moves _ ?_
      | exact ih0 () ())
    all_goals first
      | exact fun _ h => h
      | exact fun _ _ h => h
      | exact fun _ _ _ h => h
      | exact fun _ _ s h => h.grow s _ _ h.1 rfl
      | exact fun _ s _ h => h.grow s _ _ h.1 rfl
      | exact fun w h => h.grow w.ext _ _ h.1 rfl
      | (intros
         rename_i h
         refine NamedBy.grow h _ _ _ ?_ ?_
         · first
           | exact h.1
           | (have h0 := h.1
              simp only [NamedLB, Named, Ev.usesName, Ev.keepsNames, LoadBalancer.patched, LoadBalancerStatus.merge, LoadBalancerStatus.empty, LoadBalancerStatus.remove] at *
              simp_all <;> (intros; simp_all))
         · first
           | rfl
           | (have h0 := h.1
              simp only [NamedLB, Named, Ev.usesName, Ev.keepsNames, LoadBalancer.patched, LoadBalancerStatus.merge, LoadBalancerStatus.empty, LoadBalancerStatus.remove, Bool.and_eq_true, decide_eq_true_eq] at *
              simp_all <;> (intros; simp_all)))
  · skip
    repeat' (first | with_reducible first
      | refine Pass.Moves.getLB_with (I := NamedLB (req.asString) lb0 true) (fun _ h => h.lb) (fun _ _ => ?_)
      | refine Pass.Moves.deref_bind _ ?_ (fun _ _ => ?_)
      | refine Pass.Moves.bind_same ?_ (fun _ => ?_)
      | refine Pass.Moves.pure_moves _ ?_
      | refine Pass.Moves.exit_moves _ ?_
      | refine Pass.Moves.panic_moves ?_
      | refine Pass.Moves.getLB_moves ?_
      | refine Pass.Moves.read_moves _ ?_
      | refine Pass.Moves.orExit_moves _ _ ?_ ?_
      | refine Pass.Moves.deref_moves _ ?_ ?_
      | refine Pass.Moves.okOr_moves _ ?_ (fun _ _ => ?_)
      | refine Pass.Moves.ifNotNil_moves _ (fun _ _ => ?_) (fun _ => ?_)
      | refine Pass.Moves.ite_moves _ (fun _ => ?_) (fun _ => ?_)
      | refine Pass.Moves.sub_moves ?_
      | refine Pass.Moves.invoke_moves ?_
      | refine Pass.Moves.call_moves _ _ ?_
      | refine PatchLBStatus_moves _ _ ?_ ?_
      | refine RemoveFromLBStatus_moves _ _ ?_ ?_
      | refine exitSendErrorAsEvent_moves _ _ ?_
      | refine SendErrorAsEvent_moves _ ?_
      | exact assignOrCreateFIP_named req.asString lb0 env
      | exact reconcileFIPSync_named req.asString lb0 env _)
    all_goals first
      | exact fun _ h => h
      | exact fun _ _ h => h
      | exact fun _ _ _ h => h
      | exact fun _ _ s h => h.grow s _ _ h.1 rfl
      | exact fun _ s _ h => h.grow s _ _ h.1 rfl
      | exact fun w h => h.grow w.ext _ _ h.1 rfl
      | (intros
         rename_i h
         refine NamedBy.grow h _ _ _ ?_ ?_
         · first
           | exact h.1
           | (have h0 := h.1
              simp only [NamedLB, Named, Ev.usesName, Ev.keepsNames, LoadBalancer.patched, LoadBalancerStatus.merge, LoadBalancerStatus.empty, LoadBalancerStatus.remove] at *
              simp_all <;> (intros; simp_all))
         · first
           | rfl
           | (have h0 := h.1
              simp only [NamedLB, Named, Ev.usesName, Ev.keepsNames, LoadBalancer.patched, LoadBalancerStatus.merge, LoadBalancerStatus.empty, LoadBalancerStatus.remove, Bool.and_eq_true, decide_eq_true_eq] at *
              simp_all <;> (intros; simp_all)))

theorem reconcilePortSync_named (env : Env σ) (created : Option Port × Bool) :
    Pass.Moves (NamedBy N lb0 true) (fun _ => NamedBy N lb0 true) (NamedBy N lb0 true) (fun _ => NamedBy N lb0 true)
      (reconcilePortSync env created : Pass σ ω Ret Ret) := by
  unfold reconcilePortSync
  repeat' (first | with_reducible first
    | refine Pass.Moves.getLB_with (I := NamedLB (N) lb0 true) (fun _ h => h.lb) (fun _ _ => ?_)
    | refine Pass.Moves.deref_bind _ ?_ (fun _ _ => ?_)
    | refine Pass.Moves.bind_same ?_ (fun _ => ?_)
    | refine Pass.Moves.pure_moves _ ?_
    | refine Pass.Moves.exit_moves _ ?_
    | refine Pass.Moves.panic_moves ?_
    | refine Pass.Moves.getLB_moves ?_
    | refine Pass.Moves.read_moves _ ?_
    | refine Pass.Moves.orExit_moves _ _ ?_ ?_
    | refine Pass.Moves.deref_moves _ ?_ ?_
    | refine Pass.Moves.okOr_moves _ ?_ (fun _ _ => ?_)
    | refine Pass.Moves.ifNotNil_moves _ (fun _ _ => ?_) (fun _ => ?_)
    | refine Pass.Moves.ite_moves _ (fun _ => ?_) (fun _ => ?_)
    | refine Pass.Moves.sub_moves ?_
    | refine Pass.Moves.invoke_moves ?_
    | refine Pass.Moves.call_moves _ _ ?_
    | refine PatchLBStatus_moves _ _ ?_ ?_
    | refine RemoveFromLBStatus_moves _ _ ?_ ?_
    | refine exitSendErrorAsEvent_moves _ _ ?_
    | refine SendErrorAsEvent_moves _ ?_)
  all_goals first
    | exact fun _ h => h
    | exact fun _ _ h => h
    | exact fun _ _ _ h => h
    | exact fun _ _ s h => h.grow s _ _ h.1 rfl
    | exact fun _ s _ h => h.grow s _ _ h.1 rfl
    | exact fun w h => h.grow w.ext _ _ h.1 rfl
    | (intros
       rename_i h
       refine NamedBy.grow h _ _ _ ?_ ?_
       · first
         | exact h.1
         | (have h0 := h.1
            simp only [NamedLB, Named, Ev.usesName, Ev.keepsNames, LoadBalancer.patched, LoadBalancerStatus.merge, LoadBalancerStatus.empty, LoadBalancerStatus.remove] at *
            simp_all <;> (intros; simp_all))
       · first
         | rfl
         | (have h0 := h.1
            simp only [NamedLB, Named, Ev.usesName, Ev.keepsNames, LoadBalancer.patched, LoadBalancerStatus.merge, LoadBalancerStatus.empty, LoadBalancerStatus.remove, Bool.and_eq_true, decide_eq_true_eq] at *
            simp_all <;> (intros; simp_all)))

theorem reconcilePort_named (env : Env σ) (req : NamespacedName) :
    Pass.Moves (NamedBy (req.asString) lb0 true) (fun _ => NamedBy (req.asString) lb0 true) (NamedBy (req.asString) lb0 true) (fun _ => NamedBy (req.asString) lb0 true)
      (reconcilePort env req : Pass σ ω Ret Ret) := by
  unfold reconcilePort
  repeat' (first | with_reducible first
    | refine Pass.Moves.getLB_with (I := NamedLB (req.asString) lb0 true) (fun _ h => h.lb) (fun _ _ => ?_)
    | refine Pass.Moves.deref_bind _ ?_ (fun _ _ => ?_)
    | refine Pass.Moves.bind_same ?_ (fun _ => ?_)
    | refine Pass.Moves.pure_moves _ ?_
    | refine Pass.Moves.exit_moves _ ?_
    | refine Pass.Moves.panic_moves ?_
    | refine Pass.Moves.getLB_moves ?_
    | refine Pass.Moves.read_moves _ ?_
    | refine Pass.Moves.orExit_moves _ _ ?_ ?_
    | refine Pass.Moves.deref_moves _ ?_ ?_
    | refine Pass.Moves.okOr_moves _ ?_ (fun _ _ => ?_)
    | refine Pass.Moves.ifNotNil_moves _ (fun _ _ => ?_) (fun _ => ?_)
    | refine Pass.Moves.ite_moves _ (fun _ => ?_) (fun _ => ?_)
    | refine Pass.Moves.sub_moves ?_
    | refine Pass.Moves.invoke_moves ?_
    | refine Pass.Moves.call_moves _ _ ?_
    | refine PatchLBStatus_moves _ _ ?_ ?_
    | refine RemoveFromLBStatus_moves _ _ ?_ ?_
    | refine exitSendErrorAsEvent_moves _ _ ?_
    | refine SendErrorAsEvent_moves _ ?_
    | exact reconcilePortSync_named req.asString lb0 env _)
  all_goals first
    | exact fun _ h => h
    | exact fun _ _ h => h
    | exact fun _ _ _ h => h
    | exact fun _ _ s h => h.grow s _ _ h.1 rfl
    | exact fun _ s _ h => h.grow s _ _ h.1 rfl
    | exact fun w h => h.grow w.ext _ _ h.1 rfl
    | (intros
       rename_i h
       refine NamedBy.grow h _ _ _ ?_ ?_
       · first
         | exact h.1
         | (have h0 := h.1
            simp only [NamedLB, Named, Ev.usesName, Ev.keepsNames, LoadBalancer.patched, LoadBalancerStatus.merge, LoadBalancerStatus.empty, LoadBalancerStatus.remove] at *
            simp_all <;> (intros; simp_all))
       · first
         | rfl
         | (have h0 := h.1
            simp only [NamedLB, Named, Ev.usesName, Ev.keepsNames, LoadBalancer.patched, LoadBalancerStatus.merge, LoadBalancerStatus.empty, LoadBalancerStatus.remove, Bool.and_eq_true, decide_eq_true_eq] at *
            simp_all <;> (intros; simp_all)))

theorem reconcileFIPAssociate_named (env : Env σ) (req : NamespacedName) :
    Pass.Moves (NamedBy N lb0 true) (fun _ => NamedBy N lb0 true) (NamedBy N lb0 true) (fun _ => NamedBy N lb0 true)
      (reconcileFIPAssociate env req : Pass σ ω Ret Ret) := by
  unfold reconcileFIPAssociate
  repeat' (first | with_reducible first
    | refine Pass.Moves.getLB_with (I := NamedLB (N) lb0 true) (fun _ h => h.lb) (fun _ _ => ?_)
    | refine Pass.Moves.deref_bind _ ?_ (fun _ _ => ?_)
    | refine Pass.Moves.bind_same ?_ (fun _ => ?_)
    | refine Pass.Moves.pure_moves _ ?_
    | refine Pass.Moves.exit_moves _ ?_
    | refine Pass.Moves.panic_moves ?_
    | refine Pass.Moves.getLB_moves ?_
    | refine Pass.Moves.read_moves _ ?_
    | refine Pass.Moves.orExit_moves _ _ ?_ ?_
    | refine Pass.Moves.deref_moves _ ?_ ?_
    | refine Pass.Moves.okOr_moves _ ?_ (fun _ _ => ?_)
    | refine Pass.Moves.ifNotNil_moves _ (fun _ _ => ?_) (fun _ => ?_)
    | refine Pass.Moves.ite_moves _ (fun _ => ?_) (fun _ => ?_)
    | refine Pass.Moves.sub_moves ?_
    | refine Pass.Moves.invoke_moves ?_
    | refine Pass.Moves.call_moves _ _ ?_
    | refine PatchLBStatus_moves _ _ ?_ ?_
    | refine RemoveFromLBStatus_moves _ _ ?_ ?_
    | refine exitSendErrorAsEvent_moves _ _ ?_
    | refine SendErrorAsEvent_moves _ ?_)
  all_goals first
    | exact fun _ h => h
    | exact fun _ _ h => h
    | exact fun _ _ _ h => h
    | exact fun _ _ s h => h.grow s _ _ h.1 rfl
    | exact fun _ s _ h => h.grow s _ _ h.1 rfl
    | exact fun w h => h.grow w.ext _ _ h.1 rfl
    | (intros
       rename_i h
       refine NamedBy.grow h _ _ _ ?_ ?_
       · first
         | exact h.1
         | (have h0 := h.1
            simp only [NamedLB, Named, Ev.usesName, Ev.keepsNames, LoadBalancer.patched, LoadBalancerStatus.merge, LoadBalancerStatus.empty, LoadBalancerStatus.remove] at *
            simp_all <;> (intros; simp_all))
       · first
         | rfl
         | (have h0 := h.1
            simp only [NamedLB, Named, Ev.usesName, Ev.keepsNames, LoadBalancer.patched, LoadBalancerStatus.merge, LoadBalancerStatus.empty, LoadBalancerStatus.remove, Bool.and_eq_true, decide_eq_true_eq] at *
            simp_all <;> (intros; simp_all)))

theorem updateOpenstackReconcileHash_named (env : Env σ) :
    Pass.Moves (NamedBy N lb0 true) (fun _ => NamedBy N lb0 true) (NamedBy N lb0 true) (fun _ => NamedBy N lb0 true)
      (updateOpenstackReconcileHash env : Pass σ ω (Option Err) (Option Err)) := by
  unfold updateOpenstackReconcileHash
  repeat' (first | with_reducible first
    | refine Pass.Moves.getLB_with (I := NamedLB (N) lb0 true) (fun _ h => h.lb) (fun _ _ => ?_)
    | refine Pass.Moves.deref_bind _ ?_ (fun _ _ => ?_)
    | refine Pass.Moves.bind_same ?_ (fun _ => ?_)
    | refine Pass.Moves.pure_moves _ ?_
    | refine Pass.Moves.exit_moves _ ?_
    | refine Pass.Moves.panic_moves ?_
    | refine Pass.Moves.getLB_moves ?_
    | refine Pass.Moves.read_moves _ ?_
    | refine Pass.Moves.orExit_moves _ _ ?_ ?_
    | refine Pass.Moves.deref_moves _ ?_ ?_
    | refine Pass.Moves.okOr_moves _ ?_ (fun _ _ => ?_)
    | refine Pass.Moves.ifNotNil_moves _ (fun _ _ => ?_) (fun _ => ?_)
    | refine Pass.Moves.ite_moves _ (fun _ => ?_) (fun _ => ?_)
    | refine Pass.Moves.sub_moves ?_
    | refine Pass.Moves.invoke_moves ?_
    | refine Pass.Moves.call_moves _ _ ?_
    | refine PatchLBStatus_moves _ _ ?_ ?_
    | refine RemoveFromLBStatus_moves _ _ ?_ ?_
    | refine exitSendErrorAsEvent_moves _ _ ?_
    | refine SendErrorAsEvent_moves _ ?_)
  all_goals first
    | exact fun _ h => h
    | exact fun _ _ h => h
    | exact fun _ _ _ h => h
    | exact fun _ _ s h => h.grow s _ _ h.1 rfl
    | exact fun _ s _ h => h.grow s _ _ h.1 rfl
    | exact fun w h => h.grow w.ext _ _ h.1 rfl
    | (intros
       rename_i h
       refine NamedBy.grow h _ _ _ ?_ ?_
       · first
         | exact h.1
         | (have h0 := h.1
            simp only [NamedLB, Named, Ev.usesName, Ev.keepsNames, LoadBalancer.patched, LoadBalancerStatus.merge, LoadBalancerStatus.empty, LoadBalancerStatus.remove] at *
            simp_all <;> (intros; simp_all))
       · first
         | rfl
         | (have h0 := h.1
            simp only [NamedLB, Named, Ev.usesName, Ev.keepsNames, LoadBalancer.patched, LoadBalancerStatus.merge, LoadBalancerStatus.empty, LoadBalancerStatus.remove, Bool.and_eq_true, decide_eq_true_eq] at *
            simp_all <;> (intros; simp_all)))

theorem reconcileOpenStackDone_named (env : Env σ) :
    Pass.Moves (NamedBy N lb0 true) (fun _ => NamedBy N lb0 true) (NamedBy N lb0 true) (fun _ => NamedBy N lb0 true)
      (reconcileOpenStackDone env : Pass σ ω CtrlRet CtrlRet) := by
  unfold reconcileOpenStackDone
  repeat' (first | with_reducible first
    | refine Pass.Moves.getLB_with (I := NamedLB (N) lb0 true) (fun _ h => h.lb) (fun _ _ => ?_)
    | refine Pass.Moves.deref_bind _ ?_ (fun _ _ => ?_)
    | refine Pass.Moves.bind_same ?_ (fun _ => ?_)
    | refine Pass.Moves.pure_moves _ ?_
    | refine Pass.Moves.exit_moves _ ?_
    | refine Pass.Moves.panic_moves ?_
    | refine Pass.Moves.getLB_moves ?_
    | refine Pass.Moves.read_moves _ ?_
    | refine Pass.Moves.orExit_moves _ _ ?_ ?_
    | refine Pass.Moves.deref_moves _ ?_ ?_
    | refine Pass.Moves.okOr_moves _ ?_ (fun _ _ => ?_)
    | refine Pass.Moves.ifNotNil_moves _ (fun _ _ => ?_) (fun _ => ?_)
    | refine Pass.Moves.ite_moves _ (fun _ => ?_) (fun _ => ?_)
    | refine Pass.Moves.sub_moves ?_
    | refine Pass.Moves.invoke_moves ?_
    | refine Pass.Moves.call_moves _ _ ?_
    | refine PatchLBStatus_moves _ _ ?_ ?_
    | refine RemoveFromLBStatus_moves _ _ ?_ ?_
    | refine exitSendErrorAsEvent_moves _ _ ?_
    | refine SendErrorAsEvent_moves _ ?_
    | exact updateOpenstackReconcileHash_named N lb0 env)
  all_goals first
    | exact fun _ h => h
    | exact fun _ _ h => h
    | exact fun _ _ _ h => h
    | exact fun _ _ s h => h.grow s _ _ h.1 rfl
    | exact fun _ s _ h => h.grow s _ _ h.1 rfl
    | exact fun w h => h.grow w.ext _ _ h.1 rfl
    | (intros
       rename_i h
       refine NamedBy.grow h _ _ _ ?_ ?_
       · first
         | exact h.1
         | (have h0 := h.1
            simp only [NamedLB, Named, Ev.usesName, Ev.keepsNames, LoadBalancer.patched, LoadBalancerStatus.merge, LoadBalancerStatus.empty, LoadBalancerStatus.remove] at *
            simp_all <;> (intros; simp_all))
       · first
         | rfl
         | (have h0 := h.1
            simp only [NamedLB, Named, Ev.usesName, Ev.keepsNames, LoadBalancer.patched, LoadBalancerStatus.merge, LoadBalancerStatus.empty, LoadBalancerStatus.remove, Bool.and_eq_true, decide_eq_true_eq] at *
            simp_all <;> (intros; simp_all)))

theorem reconcileOpenStackIfNeeded_named (env : Env σ) (req : NamespacedName) :
    Pass.Moves (NamedBy (req.asString) lb0 true) (fun _ => NamedBy (req.asString) lb0 true) (NamedBy (req.asString) lb0 true) (fun _ => NamedBy (req.asString) lb0 true)
      (reconcileOpenStackIfNeeded env req : Pass σ ω CtrlRet CtrlRet) := by
  unfold reconcileOpenStackIfNeeded
  repeat' (first | with_reducible first
    | refine Pass.Moves.getLB_with (I := NamedLB (req.asString) lb0 true) (fun _ h => h.lb) (fun _ _ => ?_)
    | refine Pass.Moves.deref_bind _ ?_ (fun _ _ => ?_)
    | refine Pass.Moves.bind_same ?_ (fun _ => ?_)
    | refine Pass.Moves.pure_moves _ ?_
    | refine Pass.Moves.exit_moves _ ?_
    | refine Pass.Moves.panic_moves ?_
    | refine Pass.Moves.getLB_moves ?_
    | refine Pass.Moves.read_moves _ ?_
    | refine Pass.Moves.orExit_moves _ _ ?_ ?_
    | refine Pass.Moves.deref_moves _ ?_ ?_
    | refine Pass.Moves.okOr_moves _ ?_ (fun _ _ => ?_)
    | refine Pass.Moves.ifNotNil_moves _ (fun _ _ => ?_) (fun _ => ?_)
    | refine Pass.Moves.ite_moves _ (fun _ => ?_) (fun _ => ?_)
    | refine Pass.Moves.sub_moves ?_
    | refine Pass.Moves.invoke_moves ?_
    | refine Pass.Moves.call_moves _ _ ?_
    | refine PatchLBStatus_moves _ _ ?_ ?_
    | refine RemoveFromLBStatus_moves _ _ ?_ ?_
    | refine exitSendErrorAsEvent_moves _ _ ?_
    | refine SendErrorAsEvent_moves _ ?_
    | exact reconcileSecGroup_named lb0 env req
    | exact reconcileFIP_named lb0 env req
    | exact reconcilePort_named lb0 env req
    | exact reconcileFIPAssociate_named req.asString lb0 env req
    | exact reconcileOpenStackDone_named req.asString lb0 env)
  all_goals first
    | exact fun _ h => h
    | exact fun _ _ h => h
    | exact fun _ _ _ h => h
    | exact fun _ _ s h => h.grow s _ _ h.1 rfl
    | exact fun _ s _ h => h.grow s _ _ h.1 rfl
    | exact fun w h => h.grow w.ext _ _ h.1 rfl
    | (intros
       rename_i h
       refine NamedBy.grow h _ _ _ ?_ ?_
       · first
         | exact h.1
         | (have h0 := h.1
            simp only [NamedLB, Named, Ev.usesName, Ev.keepsNames, LoadBalancer.patched, LoadBalancerStatus.merge, LoadBalancerStatus.empty, LoadBalancerStatus.remove] at *
            simp_all <;> (intros; simp_all))
       · first
         | rfl
         | (have h0 := h.1
            simp only [NamedLB, Named, Ev.usesName, Ev.keepsNames, LoadBalancer.patched, LoadBalancerStatus.merge, LoadBalancerStatus.empty, LoadBalancerStatus.remove, Bool.and_eq_true, decide_eq_true_eq] at *
            simp_all <;> (intros; simp_all)))

theorem findAndDeleteSecGroupUsagesLoop_named (env : Env σ) (n : String) :
    ∀ l : List Port,
      Pass.Moves (NamedBy N lb0 k) (fun _ => NamedBy N lb0 k) (NamedBy N lb0 k) (fun _ => NamedBy N lb0 k)
        (findAndDeleteSecGroupUsagesLoop env n l : Pass σ ω (Option Err) Unit)
  | [] => Pass.Moves.pure_moves _ (fun _ h => h)
  | _ :: rest => by
    have ih0 := fun (_ _ : Unit) => findAndDeleteSecGroupUsagesLoop_named env n rest
    unfold findAndDeleteSecGroupUsagesLoop
    repeat' (first | with_reducible first
      | refine Pass.Moves.getLB_with (I := NamedLB (N) lb0 k) (fun _ h => h.lb) (fun _ _ => ?_)
      | refine Pass.Moves.deref_bind _ ?_ (fun _ _ => ?_)
      | refine Pass.Moves.bind_same ?_ (fun _ => ?_)
      | refine Pass.Moves.pure_moves _ ?_
      | refine Pass.Moves.exit_moves _ ?_
      | refine Pass.Moves.panic_moves ?_
      | refine Pass.Moves.getLB_moves ?_
      | refine Pass.Moves.read_moves _ ?_
      | refine Pass.Moves.orExit_moves _ _ ?_ ?_
      | refine Pass.Moves.deref_moves _ ?_ ?_
      | refine Pass.Moves.okOr_moves _ ?_ (fun _ _ => ?_)
      | refine Pass.Moves.ifNotNil_moves _ (fun _ _ => ?_) (fun _ => ?_)
      | refine Pass.Moves.ite_moves _ (fun _ => ?_) (fun _ => ?_)
      | refine Pass.Moves.sub_moves ?_
      | refine Pass.Moves.invoke_moves ?_
      | refine Pass.Moves.call_moves _ _ ?_
      | refine PatchLBStatus_moves _ _ ?_ ?_
      | refine RemoveFromLBStatus_moves _ _ ?_ ?_
      | refine exitSendErrorAsEvent_moves _ _ ?_
      | refine SendErrorAsEvent_moves _ ?_
      | exact ih0 () ())
    all_goals first
      | exact fun _ h => h
      | exact fun _ _ h => h
      | exact fun _ _ _ h => h
      | exact fun _ _ s h => h.grow s _ _ h.1 rfl
      | exact fun _ s _ h => h.grow s _ _ h.1 rfl
      | exact fun w h => h.grow w.ext _ _ h.1 rfl
      | (intros
         rename_i h
         refine NamedBy.grow h _ _ _ ?_ ?_
         · first
           | exact h.1
           | (have h0 := h.1
              simp only [NamedLB, Named, Ev.usesName, Ev.keepsNames, LoadBalancer.patched, LoadBalancerStatus.merge, LoadBalancerStatus.empty, LoadBalancerStatus.remove] at *
              simp_all <;> (intros; simp_all))
         · first
           | rfl
           | (have h0 := h.1
              simp only [NamedLB, Named, Ev.usesName, Ev.keepsNames, LoadBalancer.patched, LoadBalancerStatus.merge, LoadBalancerStatus.empty, LoadBalancerStatus.remove, Bool.and_eq_true, decide_eq_true_eq] at *
              simp_all <;> (intros; simp_all)))

theorem findAndDeleteSecGroupUsages_named (env : Env σ) :
    Pass.Moves (NamedBy N lb0 k) (fun _ => NamedBy N lb0 k) (NamedBy N lb0 k) (fun _ => NamedBy N lb0 k)
      (findAndDeleteSecGroupUsages env : Pass σ ω (Option Err) (Option Err)) := by
  unfold findAndDeleteSecGroupUsages
  repeat' (first | with_reducible first
    | refine Pass.Moves.getLB_with (I := NamedLB (N) lb0 k) (fun _ h => h.lb) (fun _ _ => ?_)
    | refine Pass.Moves.deref_bind _ ?_ (fun _ _ => ?_)
    | refine Pass.Moves.bind_same ?_ (fun _ => ?_)
    | refine Pass.Moves.pure_moves _ ?_
    | refine Pass.Moves.exit_moves _ ?_
    | refine Pass.Moves.panic_moves ?_
    | refine Pass.Moves.getLB_moves ?_
    | refine Pass.Moves.read_moves _ ?_
    | refine Pass.Moves.orExit_moves _ _ ?_ ?_
    | refine Pass.Moves.deref_moves _ ?_ ?_
    | refine Pass.Moves.okOr_moves _ ?_ (fun _ _ => ?_)
    | refine Pass.Moves.ifNotNil_moves _ (fun _ _ => ?_) (fun _ => ?_)
    | refine Pass.Moves.ite_moves _ (fun _ => ?_) (fun _ => ?_)
    | refine Pass.Moves.sub_moves ?_
    | refine Pass.Moves.invoke_moves ?_
    | refine Pass.Moves.call_moves _ _ ?_
    | refine PatchLBStatus_moves _ _ ?_ ?_
    | refine RemoveFromLBStatus_moves _ _ ?_ ?_
    | refine exitSendErrorAsEvent_moves _ _ ?_
    | refine SendErrorAsEvent_moves _ ?_
    | exact findAndDeleteSecGroupUsagesLoop_named N lb0 k env _ _)
  all_goals first
    | exact fun _ h => h
    | exact fun _ _ h => h
    | exact fun _ _ _ h => h
    | exact fun _ _ s h => h.grow s _ _ h.1 rfl
    | exact fun _ s _ h => h.grow s _ _ h.1 rfl
    | exact fun w h => h.grow w.ext _ _ h.1 rfl
    | (intros
       rename_i h
       refine NamedBy.grow h _ _ _ ?_ ?_
       · first
         | exact h.1
         | (have h0 := h.1
            simp only [NamedLB, Named, Ev.usesName, Ev.keepsNames, LoadBalancer.patched, LoadBalancerStatus.merge, LoadBalancerStatus.empty, LoadBalancerStatus.remove] at *
            simp_all <;> (intros; simp_all))
       · first
         | rfl
         | (have h0 := h.1
            simp only [NamedLB, Named, Ev.usesName, Ev.keepsNames, LoadBalancer.patched, LoadBalancerStatus.merge, LoadBalancerStatus.empty, LoadBalancerStatus.remove, Bool.and_eq_true, decide_eq_true_eq] at *
            simp_all <;> (intros; simp_all)))

theorem deleteSecGroupsLoop_named (env : Env σ) (n : String) :
    ∀ l : List SecGroup,
      Pass.Moves (NamedBy N lb0 k) (fun _ => NamedBy N lb0 k) (NamedBy N lb0 k) (fun _ => NamedBy N lb0 k)
        (deleteSecGroupsLoop env n l : Pass σ ω Ret Unit)
  | [] => Pass.Moves.pure_moves _ (fun _ h => h)
  | _ :: rest => by
    have ih0 := fun (_ _ : Unit) => deleteSecGroupsLoop_named env n rest
    unfold deleteSecGroupsLoop
    repeat' (first | with_reducible first
      | refine Pass.Moves.getLB_with (I := NamedLB (N) lb0 k) (fun _ h => h.lb) (fun _ _ => ?_)
      | refine Pass.Moves.deref_bind _ ?_ (fun _ _ => ?_)
      | refine Pass.Moves.bind_same ?_ (fun _ => ?_)
      | refine Pass.Moves.pure_moves _ ?_
      | refine Pass.Moves.exit_moves _ ?_
      | refine Pass.Moves.panic_moves ?_
      | refine Pass.Moves.getLB_moves ?_
      | refine Pass.Moves.read_moves _ ?_
      | refine Pass.Moves.orExit_moves _ _ ?_ ?_
      | refine Pass.Moves.deref_moves _ ?_ ?_
      | refine Pass.Moves.okOr_moves _ ?_ (fun _ _ => ?_)
      | refine Pass.Moves.ifNotNil_moves _ (fun _ _ => ?_) (fun _ => ?_)
      | refine Pass.Moves.ite_moves _ (fun _ => ?_) (fun _ => ?_)
      | refine Pass.Moves.sub_moves ?_
      | refine Pass.Moves.invoke_moves ?_
      | refine Pass.Moves.call_moves _ _ ?_
      | refine PatchLBStatus_moves _ _ ?_ ?_
      | refine RemoveFromLBStatus_moves _ _ ?_ ?_
      | refine exitSendErrorAsEvent_moves _ _ ?_
      | refine SendErrorAsEvent_moves _ ?_
      | exact ih0 () ())
    all_goals first
      | exact fun _ h => h
      | exact fun _ _ h => h
      | exact fun _ _ _ h => h
      | exact fun _ _ s h => h.grow s _ _ h.1 rfl
      | exact fun _ s _ h => h.grow s _ _ h.1 rfl
      | exact fun w h => h.grow w.ext _ _ h.1 rfl
      | (intros
         rename_i h
         refine NamedBy.grow h _ _ _ ?_ ?_
         · first
           | exact h.1
           | (have h0 := h.1
              simp only [NamedLB, Named, Ev.usesName, Ev.keepsNames, LoadBalancer.patched, LoadBalancerStatus.merge, LoadBalancerStatus.empty, LoadBalancerStatus.remove] at *
              simp_all <;> (intros; simp_all))
         · first
           | rfl
           | (have h0 := h.1
              simp only [NamedLB, Named, Ev.usesName, Ev.keepsNames, LoadBalancer.patched, LoadBalancerStatus.merge, LoadBalancerStatus.empty, LoadBalancerStatus.remove, Bool.and_eq_true, decide_eq_true_eq] at *
              simp_all <;> (intros; simp_all)))

theorem deleteSecGroups_named (env : Env σ) :
    Pass.Moves (NamedBy N lb0 false) (fun _ => NamedBy N lb0 false) (NamedBy N lb0 false) (fun _ => NamedBy N lb0 false)
      (deleteSecGroups env : Pass σ ω Ret Ret) := by
  unfold deleteSecGroups
  repeat' (first | with_reducible first
    | refine Pass.Moves.getLB_with (I := NamedLB (N) lb0 false) (fun _ h => h.lb) (fun _ _ => ?_)
    | refine Pass.Moves.deref_bind _ ?_ (fun _ _ => ?_)
    | refine Pass.Moves.bind_same ?_ (fun _ => ?_)
    | refine Pass.Moves.pure_moves _ ?_
    | refine Pass.Moves.exit_moves _ ?_
    | refine Pass.Moves.panic_moves ?_
    | refine Pass.Moves.getLB_moves ?_
    | refine Pass.Moves.read_moves _ ?_
    | refine Pass.Moves.orExit_moves _ _ ?_ ?_
    | refine Pass.Moves.deref_moves _ ?_ ?_
    | refine Pass.Moves.okOr_moves _ ?_ (fun _ _ => ?_)
    | refine Pass.Moves.ifNotNil_moves _ (fun _ _ => ?_) (fun _ => ?_)
    | refine Pass.Moves.ite_moves _ (fun _ => ?_) (fun _ => ?_)
    | refine Pass.Moves.sub_moves ?_
    | refine Pass.Moves.invoke_moves ?_
    | refine Pass.Moves.call_moves _ _ ?_
    | refine PatchLBStatus_moves _ _ ?_ ?_
    | refine RemoveFromLBStatus_moves _ _ ?_ ?_
    | refine exitSendErrorAsEvent_moves _ _ ?_
    | refine SendErrorAsEvent_moves _ ?_
    | exact deleteSecGroupsLoop_named N lb0 false env _ _
    | exact findAndDeleteSecGroupUsages_named N lb0 false env)
  all_goals first
    | exact fun _ h => h
    | exact fun _ _ h => h
    | exact fun _ _ _ h => h
    | exact fun _ _ s h => h.grow s _ _ h.1 rfl
    | exact fun _ s _ h => h.grow s _ _ h.1 rfl
    | exact fun w h => h.grow w.ext _ _ h.1 rfl
    | (intros
       rename_i h
       refine NamedBy.grow h _ _ _ ?_ ?_
       · first
         | exact h.1
         | (have h0 := h.1
            simp only [NamedLB, Named, Ev.usesName, Ev.keepsNames, LoadBalancer.patched, LoadBalancerStatus.merge, LoadBalancerStatus.empty, LoadBalancerStatus.remove] at *
            simp_all <;> (intros; simp_all))
       · first
         | rfl
         | (have h0 := h.1
            simp only [NamedLB, Named, Ev.usesName, Ev.keepsNames, LoadBalancer.patched, LoadBalancerStatus.merge, LoadBalancerStatus.empty, LoadBalancerStatus.remove, Bool.and_eq_true, decide_eq_true_eq] at *
            simp_all <;> (intros; simp_all)))

end Naming

theorem NamedBy.start (N : String) (lb : LoadBalancer) (k : Bool) (ext : σ)
    (h : Named N lb.Status) : NamedBy N lb k (World.start ext lb) :=
  ⟨⟨rfl, h, fun _ x => x, fun _ x => x, fun _ _ x => x⟩,
    fun _ he => absurd he (List.not_mem_nil _)⟩

/-- A cloud reconciliation pass for the request `req` keeps the names of the status those of
`req`. -/
theorem statusAfter_named (env : Env σ) (req : NamespacedName) :
    ∀ (passes : List (σ × LoadBalancer)) (st : LoadBalancerStatus),
      Named req.asString st → Named req.asString (statusAfter env req passes st)
  | [], _, h => h
  | (ext, lb) :: rest, st, h =>
    statusAfter_named env req rest _
      ((reconcileOpenStackIfNeeded_named { lb with Status := st } env req).run_same _
        (NamedBy.start req.asString { lb with Status := st } true ext h)).1.2.1

/-- C30.  Take a status reached from the empty status by cloud reconciliation passes for the
request `req`, each pass started on the status left by the pass before it, and a
LoadBalancer `lb` with that status.  Each of `securityGroupName`, `floatingName` and
`portName` of the status is unset or equal to the string form of `req`.  In a further pass
over `lb`, a status patch that sets one of these names sets it to the string form of `req`
and is issued only if `lb` does not hold that name; the adoption lookup of the security
group by name and the create call of the security group carry the string form of `req`.
In a teardown of the security group over `lb`, the listing by name of `deleteSecGroups`
carries the same string. -/
theorem name_determinism (env : Env σ) (req : NamespacedName)
    (passes : List (σ × LoadBalancer)) (ext : σ) (lb : LoadBalancer)
    (hst : lb.Status = statusAfter env req passes LoadBalancerStatus.empty) :
    Named req.asString lb.Status ∧
    (∀ patch r, Ev.PatchLBStatus patch r ∈
        ((reconcileOpenStackIfNeeded env req).run (World.start ext lb)).2.trace →
      (patch.SecurityGroupName ≠ none →
        patch.SecurityGroupName = some req.asString ∧ lb.Status.SecurityGroupName = none) ∧
      (patch.FloatingName ≠ none →
        patch.FloatingName = some req.asString ∧ lb.Status.FloatingName = none) ∧
      (patch.PortName ≠ none →
        patch.PortName = some req.asString ∧ lb.Status.PortName = none)) ∧
    (∀ name r, Ev.GetSecGroupByName name r ∈
        ((reconcileOpenStackIfNeeded env req).run (World.start ext lb)).2.trace →
      name = req.asString) ∧
    (∀ name r, Ev.CreateSecGroup name r ∈
        ((reconcileOpenStackIfNeeded env req).run (World.start ext lb)).2.trace →
      name = req.asString) ∧
    (∀ name r, Ev.GroupList name r ∈
        ((deleteSecGroups env).run (World.start ext lb)).2.trace →
      name = req.asString) := by
  have hn : Named req.asString lb.Status := by
    rw [hst]
    exact statusAfter_named env req passes _ ⟨Or.inl rfl, Or.inl rfl, Or.inl rfl⟩
  have h1 := ((reconcileOpenStackIfNeeded_named lb env req).run_same _
    (NamedBy.start req.asString lb true ext hn)).2
  have h2 := ((deleteSecGroups_named req.asString lb env).run_same _
    (NamedBy.start req.asString lb false ext hn)).2
  refine ⟨hn, fun patch r hm => ?_, fun name r hm => ?_, fun name r hm => ?_,
    fun name r hm => ?_⟩
  · have h3 := h1 _ hm
    simp only [Ev.usesName, Ev.keepsNames, Bool.and_eq_true, decide_eq_true_eq] at h3
    obtain ⟨⟨a1, a2, a3⟩, b1, b2, b3⟩ := h3
    exact ⟨fun hne => ⟨a1.resolve_left hne, b1 hne⟩, fun hne => ⟨a2.resolve_left hne, b2 hne⟩,
      fun hne => ⟨a3.resolve_left hne, b3 hne⟩⟩
  · simpa [Ev.usesName, Ev.keepsNames] using h1 _ hm
  · simpa [Ev.usesName, Ev.keepsNames] using h1 _ hm
  · simpa [Ev.usesName, Ev.keepsNames] using h2 _ hm

/-- Witness for C30: one pass against the calm provider from the empty status; the status it
leaves holds the security group name `testns/lb`, the string form of the request. -/
theorem name_determinism_witness :
    Named sampleReq.asString
      (statusAfter calmEnv sampleReq [((), sampleLB LoadBalancerStatus.empty)]
        LoadBalancerStatus.empty) ∧
    (statusAfter calmEnv sampleReq [((), sampleLB LoadBalancerStatus.empty)]
      LoadBalancerStatus.empty).SecurityGroupName = some "testns/lb" :=
  ⟨(name_determinism calmEnv sampleReq [((), sampleLB LoadBalancerStatus.empty)] ()
      (sampleLB (statusAfter calmEnv sampleReq [((), sampleLB LoadBalancerStatus.empty)]
        LoadBalancerStatus.empty)) rfl).1, by decide⟩

end Theorems

end Yawol
